import Mathlib

/-!
# RBus dissector (packet-rbus.c): header framing and heuristic classification

A shallow embedding of `dissect_rbus` and `dissect_rbus_heur` from
`src/rbus/src/packet-rbus.c`.

* A capture buffer (`tvbuff_t`) is the list of its captured bytes.
* The host accessors (`tvb_get_ntohs`, `proto_tree_add_item`, ...) read big-endian
  values and raise a bounds exception when the requested range is not captured; they are
  modelled as `Option`-valued reads, and a dissection that hits such a read ends with
  `outcome.exception`, keeping what was emitted before.
* What the dissector hands to the host (tree items, expert infos, column text) is recorded,
  in program order, as a list of `Emit`.
* 32-bit unsigned arithmetic is written on `Nat` with an explicit `% 2 ^ 32` where it can wrap.
-/

namespace Rbus

/-! ## Constants of rbus-protocol.h -/

def RBUS_PROTOCOL_VERSION : Nat := 1
def RBUS_MAX_TOPIC_LENGTH : Nat := 1024
def RBUS_MAX_PAYLOAD_SIZE : Nat := 10 * 1024 * 1024

/-! ## Capture buffer -/

/-- The captured bytes of a `tvbuff_t`. -/
abbrev tvbuff_t := List UInt8

def tvb_captured_length (tvb : tvbuff_t) : Nat := tvb.length

/-- Bytes captured from `offset` on; 0 when `offset` is past the end. -/
def tvb_captured_length_remaining (tvb : tvbuff_t) (offset : Nat) : Nat :=
  tvb.length - offset

/-- The bytes `[offset, offset + length)`; fails when they are not all captured. -/
def tvb_get_ptr (tvb : tvbuff_t) (offset length : Nat) : Option (List UInt8) :=
  if offset + length ≤ tvb.length then some ((tvb.drop offset).take length) else none

/-- Big-endian value of a byte string. -/
def be_value (bs : List UInt8) : Nat :=
  bs.foldl (fun acc b => acc * 256 + b.toNat) 0

/-- Big-endian unsigned read of `length` bytes at `offset`. -/
def tvb_get_be (tvb : tvbuff_t) (offset length : Nat) : Option Nat :=
  (tvb_get_ptr tvb offset length).map be_value

def tvb_get_uint8 (tvb : tvbuff_t) (offset : Nat) : Option Nat := tvb_get_be tvb offset 1
def tvb_get_ntohs (tvb : tvbuff_t) (offset : Nat) : Option Nat := tvb_get_be tvb offset 2
def tvb_get_ntohl (tvb : tvbuff_t) (offset : Nat) : Option Nat := tvb_get_be tvb offset 4

/-! ## What the dissector emits -/

/-- Registered header fields (the `hf_rbus_*` handles, and the protocol handle). -/
inductive hf_id
  | proto_rbus
  | hf_rbus_header
  | hf_rbus_opening_marker
  | hf_rbus_version
  | hf_rbus_header_length
  | hf_rbus_sequence_number
  | hf_rbus_control_data
  | hf_rbus_payload_length
  | hf_rbus_topic_length
  | hf_rbus_topic
  | hf_rbus_reply_topic_length
  | hf_rbus_reply_topic
  | hf_rbus_roundtrip_t1
  | hf_rbus_roundtrip_t2
  | hf_rbus_roundtrip_t3
  | hf_rbus_roundtrip_t4
  | hf_rbus_roundtrip_t5
  | hf_rbus_closing_marker
  | hf_rbus_flags
  | hf_rbus_flags_request
  | hf_rbus_flags_response
  | hf_rbus_flags_undeliverable
  | hf_rbus_flags_tainted
  | hf_rbus_flags_raw_binary
  | hf_rbus_flags_encrypted
  | hf_rbus_payload
  | hf_rbus_payload_string
  | hf_rbus_payload_int
  | hf_rbus_payload_uint
  | hf_rbus_payload_int64
  | hf_rbus_payload_uint64
  | hf_rbus_payload_double
  | hf_rbus_payload_boolean
  | hf_rbus_session_id
  | hf_rbus_component_name
  | hf_rbus_param_count
  | hf_rbus_property_count
  | hf_rbus_error_code
  | hf_rbus_rollback
  | hf_rbus_commit
  | hf_rbus_parameter
  | hf_rbus_parameter_name
  | hf_rbus_parameter_type
  | hf_rbus_parameter_value_string
  | hf_rbus_parameter_value_int
  | hf_rbus_parameter_value_uint
  | hf_rbus_parameter_value_int64
  | hf_rbus_parameter_value_uint64
  | hf_rbus_parameter_value_double
  | hf_rbus_parameter_value_boolean
  | hf_rbus_parameter_namevalue
  | hf_rbus_property
  | hf_rbus_property_name
  | hf_rbus_property_type
  | hf_rbus_property_value_string
  | hf_rbus_property_value_int
  | hf_rbus_property_value_uint
  | hf_rbus_property_value_int64
  | hf_rbus_property_value_uint64
  | hf_rbus_property_value_double
  | hf_rbus_property_value_boolean
  | hf_rbus_property_namevalue
  | hf_rbus_failed_element
  | hf_rbus_metadata
  | hf_rbus_method_name
  | hf_rbus_ot_parent
  | hf_rbus_ot_state
  | hf_rbus_metadata_offset
  | hf_rbus_event_name
  | hf_rbus_reply_topic_payload
  | hf_rbus_invoke_method_name
  | hf_rbus_has_params
  | hf_rbus_event_type
  | hf_rbus_has_event_data
  | hf_rbus_event_data
  | hf_rbus_has_filter
  | hf_rbus_interval
  | hf_rbus_duration
  | hf_rbus_component_id
  | hf_rbus_object_property
  | hf_rbus_object_property_name
  | hf_rbus_object_property_namevalue
  deriving DecidableEq, Repr

/-- Expert-info annotations (the `ei_rbus_*` handles). -/
inductive ei_id
  | ei_rbus_invalid_length
  | ei_rbus_malformed_header
  | ei_rbus_truncated_packet
  | ei_rbus_msgpack_depth_exceeded
  deriving DecidableEq, Repr

/-- The tree an item is added to. -/
inductive tree_id
  | tree
  | rbus_tree
  | header_tree
  | flags_tree
  | payload_tree
  | sub (parent : tree_id) (index : Nat)
  deriving DecidableEq, Repr

/-- The value carried by an emitted item. -/
inductive field_value
  | none
  | uint (v : Nat)
  | int (v : Int)
  | boolean (b : Bool)
  | string (bytes : List UInt8)
  | bytes (bytes : List UInt8)
  | double (bits : Nat)
  | formatted (bytes : List UInt8) (text : List UInt8)
  | format (value : field_value) (text : List UInt8)
  | format_value (value : field_value) (text : List UInt8)
  deriving DecidableEq, Repr

/-- One thing handed to the host, in program order. -/
inductive Emit
  | col_set_protocol
  | col_clear_info
  | col_info (msg_type : String) (topic : Option (List UInt8))
  | proto_item (parent : tree_id) (hf : hf_id) (start length : Nat) (value : field_value)
  | subtree (parent : tree_id) (start length : Nat) (text : String)
  | expert (ei : ei_id)
  | expert_format (parent : tree_id) (ei : ei_id) (start length : Nat) (text : String)
  | set_len (length : Nat)
  | append_text (text : String)
  | append_string (format : String) (arg : List UInt8)
  | col_append (format : String) (arg : List UInt8)
  deriving DecidableEq, Repr

/-- The value of `pinfo->desegment_len` when more bytes are requested. -/
inductive desegment
  | DESEGMENT_ONE_MORE_SEGMENT
  | bytes (n : Nat)
  deriving DecidableEq, Repr

/-- How a call of `dissect_rbus` ends. -/
inductive outcome
  | need_more (available : Nat) (desegment_len : desegment)
  | consumed (n : Nat)
  | exception
  deriving DecidableEq, Repr

structure result where
  emitted : List Emit
  out : outcome
  deriving DecidableEq, Repr

/-- The same result with `es` emitted first. -/
def result.after (es : List Emit) (r : result) : result :=
  { emitted := es ++ r.emitted, out := r.out }

/-! ## Payload-level callees

`dissect_rbus` hands the payload to `parse_rbus_payload` and, when that declines, to
`dissect_msgpack_value`. Both read the buffer only through
`tvb_get_ptr (tvb, offset, length)`, so here they receive that byte slice together with its
offset. The framer is defined for arbitrary callees: what is proved about framing holds
whatever the payload decoders emit. -/

/-- Context for tracking RBus message meta information parsing. -/
structure rbus_parse_context_t where
  object_index : Nat
  seen_method : Bool
  meta_field_count : Nat
  method_name : Option (List UInt8)
  params_count : Nat
  params_seen : Nat
  deriving DecidableEq, Repr

structure payload_env where
  /-- The call `parse_rbus_payload (tvb, pinfo, tree, offset, payload_length)` on the slice
  `data`: what it emits and the byte count it returns. -/
  parse_rbus_payload : (data : List UInt8) → (offset : Nat) → List Emit × Nat
  /-- The call `dissect_msgpack_value (tvb, pinfo, tree, offset, max_len, depth, label, ctx)`
  on the slice `data` of `max_len` bytes: what it emits, the byte count it returns and the
  updated context. -/
  dissect_msgpack_value : (data : List UInt8) → (offset depth : Nat) → (label : Option String) →
    rbus_parse_context_t → List Emit × Nat × rbus_parse_context_t
  /-- The preference `pref_msgpack_object_limit` (default 20000). -/
  pref_msgpack_object_limit : Nat

/-! ## dissect_rbus -/

/-- Host call `proto_tree_add_item` / `proto_tree_add_item_ret_uint` on a big-endian unsigned
field: adds the item and continues with its value, or raises when the range is not captured. -/
def add_item_ret_uint (t : tree_id) (hf : hf_id) (tvb : tvbuff_t) (start length : Nat)
    (k : Nat → result) : result :=
  match tvb_get_be tvb start length with
  | none => ⟨[], .exception⟩
  | some v => (k v).after [.proto_item t hf start length (.uint v)]

/-- Host call `proto_tree_add_item_ret_string`: adds the string item over `[start, start + length)` and
continues with its bytes, or raises when the range is not captured. -/
def add_item_ret_string (t : tree_id) (hf : hf_id) (tvb : tvbuff_t) (start length : Nat)
    (k : List UInt8 → result) : result :=
  match tvb_get_ptr tvb start length with
  | none => ⟨[], .exception⟩
  | some s => (k s).after [.proto_item t hf start length (.string s)]

/-- Host call `proto_tree_add_bitmask_ret_uint64` with `flags_bits`: the 32-bit flags item and one
boolean item per registered bit mask. -/
def add_bitmask_ret_uint64 (tvb : tvbuff_t) (start : Nat) (k : Nat → result) : result :=
  match tvb_get_be tvb start 4 with
  | none => ⟨[], .exception⟩
  | some flags =>
    (k flags).after
      [ .proto_item .header_tree .hf_rbus_flags start 4 (.uint flags),
        .proto_item .flags_tree .hf_rbus_flags_request start 4 (.boolean (flags &&& 0x01 != 0)),
        .proto_item .flags_tree .hf_rbus_flags_response start 4 (.boolean (flags &&& 0x02 != 0)),
        .proto_item .flags_tree .hf_rbus_flags_undeliverable start 4
          (.boolean (flags &&& 0x04 != 0)),
        .proto_item .flags_tree .hf_rbus_flags_tainted start 4 (.boolean (flags &&& 0x08 != 0)),
        .proto_item .flags_tree .hf_rbus_flags_raw_binary start 4
          (.boolean (flags &&& 0x10 != 0)),
        .proto_item .flags_tree .hf_rbus_flags_encrypted start 4
          (.boolean (flags &&& 0x20 != 0)) ]

/-- The text a C `%s` conversion prints for a NUL-terminated copy of `bs`. -/
def c_string (bs : List UInt8) : List UInt8 := bs.takeWhile (fun b => b != 0)

/-- Message type shown in the info column (lines 1410-1426). -/
def msg_type (flags control_data : Nat) : String :=
  if flags &&& 0x01 != 0 then
    if control_data = 0 then "Request" else "Request (forwarded)"
  else if flags &&& 0x02 != 0 then
    if control_data = 0 then "Response" else "Response (forwarded)"
  else "Message"

/-- The generic MessagePack fallback loop (lines 1530-1567). `fuel` bounds the number of
iterations; returns what was emitted, `object_count` and `total_consumed`. Every iteration
that continues advances `payload_offset` by at least one byte, so `end_offset - payload_offset`
is enough fuel. The slices are taken inside the captured bytes (the caller passes
`end_offset` at most the captured length), so no read here can raise. -/
def fallback_loop (env : payload_env) (tvb : tvbuff_t) (end_offset : Nat) :
    (fuel : Nat) → (payload_offset object_count total_consumed : Nat) →
    rbus_parse_context_t → List Emit × Nat × Nat
  | 0, _, object_count, total_consumed, _ => ([], object_count, total_consumed)
  | fuel + 1, payload_offset, object_count, total_consumed, parse_ctx =>
    if payload_offset < end_offset then
      let available := tvb_captured_length_remaining tvb payload_offset
      if available = 0 then ([], object_count, total_consumed)
      else
        let max_len :=
          if end_offset - payload_offset < available then end_offset - payload_offset
          else available
        let r := env.dissect_msgpack_value ((tvb.drop payload_offset).take max_len)
          payload_offset 0 none { parse_ctx with object_index := object_count }
        let consumed_bytes := r.2.1
        if consumed_bytes = 0 then
          (r.1 ++ [.proto_item .payload_tree .hf_rbus_payload payload_offset
              (end_offset - payload_offset)
              (.bytes ((tvb.drop payload_offset).take (end_offset - payload_offset)))],
            object_count, total_consumed)
        else if object_count + 1 ≥ env.pref_msgpack_object_limit then
          (r.1 ++ [.expert_format .payload_tree .ei_rbus_msgpack_depth_exceeded
              (payload_offset + consumed_bytes) (end_offset - (payload_offset + consumed_bytes))
              ("MessagePack object limit (" ++ toString env.pref_msgpack_object_limit ++
                ") reached; remaining " ++
                toString (end_offset - (payload_offset + consumed_bytes)) ++
                " bytes not decoded")],
            object_count + 1, total_consumed + consumed_bytes)
        else
          let rest := fallback_loop env tvb end_offset fuel (payload_offset + consumed_bytes)
            (object_count + 1) (total_consumed + consumed_bytes) r.2.2
          (r.1 ++ rest.1, rest.2)
    else ([], object_count, total_consumed)

/-- Decoding of the `actual_payload_length > 0` captured payload bytes at `offset`
(lines 1495-1581): the payload item, then either the JSON text shortcut or the structured
parse with its generic fallback; `offset` advances by the declared `payload_length`. -/
def dissect_rbus_payload_bytes (env : payload_env) (tvb : tvbuff_t)
    (offset payload_length actual_payload_length : Nat) : result :=
  match tvb_get_ptr tvb offset actual_payload_length with
  | none => ⟨[], .exception⟩
  | some data =>
    let payload_item : Emit :=
      .proto_item .rbus_tree .hf_rbus_payload offset actual_payload_length (.bytes data)
    match tvb_get_uint8 tvb offset with
    | none => ⟨[payload_item], .exception⟩
    | some first_byte =>
      if (first_byte = 0x7B ∨ first_byte = 0x5B) ∧ actual_payload_length > 1 then
        ⟨[payload_item,
            .proto_item .payload_tree .hf_rbus_payload offset actual_payload_length
              (.formatted data (c_string data)),
            .append_text " [JSON]"],
          .consumed (offset + payload_length)⟩
      else
        let parsed := env.parse_rbus_payload data offset
        if parsed.2 = 0 then
          let loop := fallback_loop env tvb (offset + actual_payload_length)
            actual_payload_length offset 0 0 ⟨0, false, 0, none, 0, 0⟩
          let object_count := loop.2.1
          let total_consumed := loop.2.2
          ⟨[payload_item] ++ parsed.1 ++ loop.1 ++
              [if total_consumed > 0 then
                .append_text (" [" ++ toString object_count ++ " MessagePack object" ++
                  (if object_count = 1 then "" else "s") ++ "]")
               else .append_text " [Not valid MessagePack]"],
            .consumed (offset + payload_length)⟩
        else
          ⟨[payload_item] ++ parsed.1 ++ [.append_text " [Structured RBus Message]"],
            .consumed (offset + payload_length)⟩

/-- Payload stage of `dissect_rbus` (lines 1483-1584), entered with the offset that follows
the header. -/
def dissect_rbus_payload (env : payload_env) (tvb : tvbuff_t) (offset payload_length : Nat) :
    result :=
  if payload_length > 0 then
    let remaining := tvb_captured_length_remaining tvb offset
    let truncated : List Emit :=
      if remaining < payload_length then [.expert .ei_rbus_truncated_packet] else []
    let actual_payload_length := if remaining < payload_length then remaining else payload_length
    if actual_payload_length > 0 then
      (dissect_rbus_payload_bytes env tvb offset payload_length actual_payload_length).after
        truncated
    else ⟨truncated, .consumed offset⟩
  else ⟨[], .consumed offset⟩

/-- Closing marker stage (lines 1469-1481), then the payload stage. `remaining_header` is the
value computed before the round-trip lookahead. -/
def dissect_rbus_closing (env : payload_env) (tvb : tvbuff_t) (payload_length : Nat)
    (remaining_header offset : Nat) : result :=
  if remaining_header ≥ 2 then
    match tvb_get_ntohs tvb offset with
    | none => ⟨[], .exception⟩
    | some closing_marker =>
      ((dissect_rbus_payload env tvb (offset + 2) payload_length).after
          [.set_len (offset + 2)]).after
        ([.proto_item .header_tree .hf_rbus_closing_marker offset 2 (.uint closing_marker)] ++
          (if closing_marker ≠ 0xAAAA then [.expert .ei_rbus_malformed_header] else []))
  else
    (dissect_rbus_payload env tvb offset payload_length).after [.set_len offset]

/-- Optional round-trip timestamps (lines 1447-1467), then the closing marker stage. -/
def dissect_rbus_roundtrip (env : payload_env) (tvb : tvbuff_t) (payload_length : Nat)
    (offset : Nat) : result :=
  let remaining_header := tvb_captured_length_remaining tvb offset
  if remaining_header ≥ 22 then
    match tvb_get_ntohs tvb (offset + 20) with
    | none => ⟨[], .exception⟩
    | some potential_marker =>
      if potential_marker = 0xAAAA then
        add_item_ret_uint .header_tree .hf_rbus_roundtrip_t1 tvb offset 4 fun _ =>
        add_item_ret_uint .header_tree .hf_rbus_roundtrip_t2 tvb (offset + 4) 4 fun _ =>
        add_item_ret_uint .header_tree .hf_rbus_roundtrip_t3 tvb (offset + 8) 4 fun _ =>
        add_item_ret_uint .header_tree .hf_rbus_roundtrip_t4 tvb (offset + 12) 4 fun _ =>
        add_item_ret_uint .header_tree .hf_rbus_roundtrip_t5 tvb (offset + 16) 4 fun _ =>
        dissect_rbus_closing env tvb payload_length remaining_header (offset + 20)
      else dissect_rbus_closing env tvb payload_length remaining_header offset
  else dissect_rbus_closing env tvb payload_length remaining_header offset

/-- Reply topic length and string (lines 1435-1445), then the later stages. -/
def dissect_rbus_reply_topic (env : payload_env) (tvb : tvbuff_t) (payload_length : Nat)
    (offset : Nat) : result :=
  add_item_ret_uint .header_tree .hf_rbus_reply_topic_length tvb offset 4
    fun reply_topic_length =>
  if reply_topic_length > 0 ∧ reply_topic_length < RBUS_MAX_TOPIC_LENGTH then
    add_item_ret_string .header_tree .hf_rbus_reply_topic tvb (offset + 4) reply_topic_length
      fun _ =>
    dissect_rbus_roundtrip env tvb payload_length (offset + 4 + reply_topic_length)
  else dissect_rbus_roundtrip env tvb payload_length (offset + 4)

/-- Topic length and string (lines 1398-1433), then the later stages. -/
def dissect_rbus_topic (env : payload_env) (tvb : tvbuff_t) (flags control_data : Nat)
    (payload_length : Nat) (offset : Nat) : result :=
  add_item_ret_uint .header_tree .hf_rbus_topic_length tvb offset 4 fun topic_length =>
  if topic_length > 0 ∧ topic_length < RBUS_MAX_TOPIC_LENGTH then
    add_item_ret_string .header_tree .hf_rbus_topic tvb (offset + 4) topic_length
      fun topic_str =>
    (dissect_rbus_reply_topic env tvb payload_length (offset + 4 + topic_length)).after
      [.col_info (msg_type flags control_data) (some topic_str)]
  else dissect_rbus_reply_topic env tvb payload_length (offset + 4)

/-- Dissect the RBus protocol (`dissect_rbus`, lines 1295-1585). The protocol item is added
with length -1, that is, up to the end of the buffer; the result records how the call ends:
more bytes requested (the C function returns `-(available)`), bytes consumed, or a bounds
exception raised by a host read. -/
def dissect_rbus (env : payload_env) (tvb : tvbuff_t) : result :=
  let available := tvb_captured_length tvb
  if available < 6 then ⟨[], .need_more available .DESEGMENT_ONE_MORE_SEGMENT⟩
  else
    match tvb_get_ntohs tvb 4 with
    | none => ⟨[], .exception⟩
    | some header_len =>
      if available < 22 then ⟨[], .need_more available .DESEGMENT_ONE_MORE_SEGMENT⟩
      else
        match tvb_get_ntohl tvb 18 with
        | none => ⟨[], .exception⟩
        | some payload_len =>
          let total_len := (header_len + payload_len) % 2 ^ 32
          if available < total_len then
            ⟨[], .need_more available (.bytes (total_len - available))⟩
          else
            result.after
              [.col_set_protocol, .col_clear_info,
               .proto_item .tree .proto_rbus 0 available .none,
               .subtree .rbus_tree 0 0 "RBus Message Header"] <|
            add_item_ret_uint .header_tree .hf_rbus_opening_marker tvb 0 2 fun _ =>
            add_item_ret_uint .header_tree .hf_rbus_version tvb 2 2 fun _ =>
            add_item_ret_uint .header_tree .hf_rbus_header_length tvb 4 2 fun header_length =>
            add_item_ret_uint .header_tree .hf_rbus_sequence_number tvb 6 4 fun _ =>
            add_bitmask_ret_uint64 tvb 10 fun flags =>
            add_item_ret_uint .header_tree .hf_rbus_control_data tvb 14 4 fun control_data =>
            add_item_ret_uint .header_tree .hf_rbus_payload_length tvb 18 4
              fun payload_length =>
            if header_length > tvb_captured_length tvb ∨
                payload_length > RBUS_MAX_PAYLOAD_SIZE then
              ⟨[.expert .ei_rbus_invalid_length], .consumed (tvb_captured_length tvb)⟩
            else dissect_rbus_topic env tvb flags control_data payload_length 22

/-- Heuristic dissector to auto-detect RBus protocol (`dissect_rbus_heur`, lines 1590-1624).
Returns the verdict together with the nested dissection when it ran; `none` when the nested
`dissect_rbus` raised, in which case the function does not return. -/
def dissect_rbus_heur (env : payload_env) (tvb : tvbuff_t) : Option (Bool × Option result) :=
  if tvb_captured_length tvb < 22 then some (false, none)
  else
    match tvb_get_ntohs tvb 0 with
    | none => none
    | some marker =>
      if marker ≠ 0xAAAA then some (false, none)
      else
        match tvb_get_ntohs tvb 2 with
        | none => none
        | some version =>
          if version ≠ 2 then some (false, none)
          else
            match tvb_get_ntohs tvb 4 with
            | none => none
            | some header_length =>
              if header_length < 32 ∨ header_length > 4096 then some (false, none)
              else
                match tvb_get_ntohl tvb 18 with
                | none => none
                | some payload_length =>
                  if payload_length > RBUS_MAX_PAYLOAD_SIZE then some (false, none)
                  else
                    let r := dissect_rbus env tvb
                    if r.out = .exception then none else some (true, some r)

/-! ## Straight-line description of the header stages

The lists below spell out what each header stage of `dissect_rbus` emits; the lemma
`dissect_rbus_factor` proves that the dissector emits exactly these before the payload stage. -/

/-- The item `add_item_ret_uint` adds for the unsigned field at `[start, start + length)`. -/
def uint_item (t : tree_id) (hf : hf_id) (tvb : tvbuff_t) (start length : Nat) : Emit :=
  .proto_item t hf start length (.uint (be_value ((tvb.drop start).take length)))

/-- What `dissect_rbus` emits for the fixed 22-byte part of the header (lines 1344-1389). -/
def fixed_header_emits (tvb : tvbuff_t) : List Emit :=
  let flags := be_value ((tvb.drop 10).take 4)
  [ .col_set_protocol, .col_clear_info,
    .proto_item .tree .proto_rbus 0 tvb.length .none,
    .subtree .rbus_tree 0 0 "RBus Message Header",
    uint_item .header_tree .hf_rbus_opening_marker tvb 0 2,
    uint_item .header_tree .hf_rbus_version tvb 2 2,
    uint_item .header_tree .hf_rbus_header_length tvb 4 2,
    uint_item .header_tree .hf_rbus_sequence_number tvb 6 4,
    .proto_item .header_tree .hf_rbus_flags 10 4 (.uint flags),
    .proto_item .flags_tree .hf_rbus_flags_request 10 4 (.boolean (flags &&& 0x01 != 0)),
    .proto_item .flags_tree .hf_rbus_flags_response 10 4 (.boolean (flags &&& 0x02 != 0)),
    .proto_item .flags_tree .hf_rbus_flags_undeliverable 10 4 (.boolean (flags &&& 0x04 != 0)),
    .proto_item .flags_tree .hf_rbus_flags_tainted 10 4 (.boolean (flags &&& 0x08 != 0)),
    .proto_item .flags_tree .hf_rbus_flags_raw_binary 10 4 (.boolean (flags &&& 0x10 != 0)),
    .proto_item .flags_tree .hf_rbus_flags_encrypted 10 4 (.boolean (flags &&& 0x20 != 0)),
    uint_item .header_tree .hf_rbus_control_data tvb 14 4,
    uint_item .header_tree .hf_rbus_payload_length tvb 18 4 ]

/-- Bytes skipped for a topic string of declared length `n`: the string is read only when
`0 < n < RBUS_MAX_TOPIC_LENGTH` (lines 1403 and 1440). -/
def topic_skip (n : Nat) : Nat := if n > 0 ∧ n < RBUS_MAX_TOPIC_LENGTH then n else 0

/-- What the topic stage emits (lines 1398-1433). -/
def topic_emits (tvb : tvbuff_t) (tl : Nat) : List Emit :=
  [uint_item .header_tree .hf_rbus_topic_length tvb 22 4] ++
    (if tl > 0 ∧ tl < RBUS_MAX_TOPIC_LENGTH then
      [ .proto_item .header_tree .hf_rbus_topic 26 tl (.string ((tvb.drop 26).take tl)),
        .col_info (msg_type (be_value ((tvb.drop 10).take 4)) (be_value ((tvb.drop 14).take 4)))
          (some ((tvb.drop 26).take tl)) ]
     else [])

/-- What the reply-topic stage emits when it starts at `offset` (lines 1435-1445). -/
def reply_topic_emits (tvb : tvbuff_t) (offset rtl : Nat) : List Emit :=
  [uint_item .header_tree .hf_rbus_reply_topic_length tvb offset 4] ++
    (if rtl > 0 ∧ rtl < RBUS_MAX_TOPIC_LENGTH then
      [.proto_item .header_tree .hf_rbus_reply_topic (offset + 4) rtl
        (.string ((tvb.drop (offset + 4)).take rtl))]
     else [])

/-- The round-trip lookahead at header offset `o` (lines 1451-1454): at least 22 captured
bytes remain and the 16-bit value at `o + 20` is the sentinel. -/
def roundtrip_lookahead (tvb : tvbuff_t) (o : Nat) : Prop :=
  22 ≤ tvb_captured_length_remaining tvb o ∧ tvb_get_ntohs tvb (o + 20) = some 0xAAAA

instance (tvb : tvbuff_t) (o : Nat) : Decidable (roundtrip_lookahead tvb o) := by
  unfold roundtrip_lookahead; infer_instance

/-- The five round-trip timestamp items at header offset `o` (lines 1456-1465). -/
def roundtrip_emits (tvb : tvbuff_t) (o : Nat) : List Emit :=
  [ uint_item .header_tree .hf_rbus_roundtrip_t1 tvb o 4,
    uint_item .header_tree .hf_rbus_roundtrip_t2 tvb (o + 4) 4,
    uint_item .header_tree .hf_rbus_roundtrip_t3 tvb (o + 8) 4,
    uint_item .header_tree .hf_rbus_roundtrip_t4 tvb (o + 12) 4,
    uint_item .header_tree .hf_rbus_roundtrip_t5 tvb (o + 16) 4 ]

/-- Where the closing marker is read when the reply topic ends at `o`. -/
def closing_offset (tvb : tvbuff_t) (o : Nat) : Nat :=
  if roundtrip_lookahead tvb o then o + 20 else o

/-- What the closing-marker stage emits when the marker is read at `p` (lines 1470-1481). -/
def closing_emits (tvb : tvbuff_t) (p : Nat) : List Emit :=
  [uint_item .header_tree .hf_rbus_closing_marker tvb p 2] ++
    (if be_value ((tvb.drop p).take 2) ≠ 0xAAAA then [.expert .ei_rbus_malformed_header]
     else []) ++
    [.set_len (p + 2)]

/-- Offset at which the payload stage starts when the reply topic ends at `o`. -/
def payload_start (tvb : tvbuff_t) (o : Nat) : Nat :=
  if 2 ≤ tvb_captured_length_remaining tvb o then closing_offset tvb o + 2 else o

/-- What the stages between the reply topic and the payload emit (lines 1447-1481). -/
def trailer_emits (tvb : tvbuff_t) (o : Nat) : List Emit :=
  (if roundtrip_lookahead tvb o then roundtrip_emits tvb o else []) ++
    (if 2 ≤ tvb_captured_length_remaining tvb o then closing_emits tvb (closing_offset tvb o)
     else [.set_len o])

/-- The header of `tvb` is interpreted up to the end of the reply topic: the message is not
deferred for more bytes, the length validation passes, and the topic and reply-topic fields
lie inside the captured bytes. `hl`, `pl`, `tl`, `rtl` are the header_length,
payload_length, topic_length and reply_topic_length fields. -/
structure header_parsed (tvb : tvbuff_t) (hl pl tl rtl : Nat) : Prop where
  captured : 22 ≤ tvb.length
  header_length : tvb_get_ntohs tvb 4 = some hl
  payload_length : tvb_get_ntohl tvb 18 = some pl
  complete : (hl + pl) % 2 ^ 32 ≤ tvb.length
  valid_header_length : hl ≤ tvb.length
  valid_payload_length : pl ≤ RBUS_MAX_PAYLOAD_SIZE
  topic_length : tvb_get_ntohl tvb 22 = some tl
  topic : 26 + topic_skip tl ≤ tvb.length
  reply_topic_length : tvb_get_ntohl tvb (26 + topic_skip tl) = some rtl
  reply_topic : 30 + topic_skip tl + topic_skip rtl ≤ tvb.length

/-- The after-reply-topic header offset. -/
def reply_end (tl rtl : Nat) : Nat := 30 + topic_skip tl + topic_skip rtl

/-- Everything `dissect_rbus` emits before the payload stage. -/
def header_emits (tvb : tvbuff_t) (tl rtl : Nat) : List Emit :=
  fixed_header_emits tvb ++ topic_emits tvb tl ++
    reply_topic_emits tvb (26 + topic_skip tl) rtl ++ trailer_emits tvb (reply_end tl rtl)

/-! ## Observations on what was emitted -/

/-- The header fields of the items in `es`, in order. -/
def field_ids (es : List Emit) : List hf_id :=
  es.filterMap fun e =>
    match e with
    | .proto_item _ hf _ _ _ => some hf
    | _ => none

/-- The expert-info annotations in `es`, in order. -/
def expert_ids (es : List Emit) : List ei_id :=
  es.filterMap fun e =>
    match e with
    | .expert ei => some ei
    | .expert_format _ ei _ _ _ => some ei
    | _ => none

/-- The five checks of the Heuristic Classifier, as the specification lists them: at least
22 captured bytes, opening marker 0xAAAA, version 2, `32 ≤ header_length ≤ 4096`, and
`payload_length ≤ 10 MiB`. -/
def heur_checks (tvb : tvbuff_t) : Prop :=
  22 ≤ tvb.length ∧ tvb_get_ntohs tvb 0 = some 0xAAAA ∧ tvb_get_ntohs tvb 2 = some 2 ∧
    (∃ hl, tvb_get_ntohs tvb 4 = some hl ∧ 32 ≤ hl ∧ hl ≤ 4096) ∧
    (∃ pl, tvb_get_ntohl tvb 18 = some pl ∧ pl ≤ 10485760)

/-- The topic and reply-topic fields lie inside the captured bytes. -/
def topic_fields_captured (tvb : tvbuff_t) : Prop :=
  ∃ tl rtl, tvb_get_ntohl tvb 22 = some tl ∧ 26 + topic_skip tl ≤ tvb.length ∧
    tvb_get_ntohl tvb (26 + topic_skip tl) = some rtl ∧
    30 + topic_skip tl + topic_skip rtl ≤ tvb.length

/-! ## Sample buffers -/

/-- A 32-byte buffer that passes the five heuristic checks (marker 0xAAAA, version 2,
header_length 32, payload_length 0) and declares a topic of 1000 bytes, of which only 6 bytes
are captured. -/
def heur_overrun : tvbuff_t :=
  [0xAA, 0xAA, 0, 2, 0, 32, 0, 0, 0, 1, 0, 0, 0, 1, 0, 0, 0, 0, 0, 0, 0, 0,
   0, 0, 0x03, 0xE8, 0x74, 0x65, 0x73, 0x74, 0x74, 0x74]

/-- A 22-byte buffer with header_length 32 and payload_length 0xFFFFFFF0: the sum is
2^32 + 16, which is 16 in 32-bit arithmetic. -/
def wrap_lengths : tvbuff_t :=
  [0xAA, 0xAA, 0, 2, 0, 32, 0, 0, 0, 1, 0, 0, 0, 1, 0, 0, 0, 0, 0xFF, 0xFF, 0xFF, 0xF0]

/-- A 22-byte buffer with header_length 32 and payload_length 10485761 (10 MiB + 1). -/
def oversize_deferred : tvbuff_t :=
  [0xAA, 0xAA, 0, 2, 0, 32, 0, 0, 0, 1, 0, 0, 0, 1, 0, 0, 0, 0, 0x00, 0xA0, 0x00, 0x01]

/-- A 53-byte message without round-trip timestamps: header_length 32 (empty topic and reply
topic, closing marker 0xAAAA at offset 30), payload_length 21, and a payload whose bytes 18
and 19 are 0xAA 0xAA. -/
def lookahead_misfire : tvbuff_t :=
  [0xAA, 0xAA, 0, 2, 0, 32, 0, 0, 0, 1, 0, 0, 0, 1, 0, 0, 0, 0, 0, 0, 0, 21,
   0, 0, 0, 0, 0, 0, 0, 0, 0xAA, 0xAA,
   1, 1, 1, 1, 1, 1, 1, 1, 1, 1, 1, 1, 1, 1, 1, 1, 1, 1, 0xAA, 0xAA, 1]

/-- A 58-byte message with round-trip timestamps: header_length 56, topic "test", empty reply
topic, five timestamps 1..5, closing marker 0xAAAA at offset 54, payload_length 2. -/
def sample_roundtrip : tvbuff_t :=
  [0xAA, 0xAA, 0, 2, 0, 56, 0, 0, 0, 1, 0, 0, 0, 2, 0, 0, 0, 0, 0, 0, 0, 2,
   0, 0, 0, 4, 0x74, 0x65, 0x73, 0x74, 0, 0, 0, 0,
   0, 0, 0, 1, 0, 0, 0, 2, 0, 0, 0, 3, 0, 0, 0, 4, 0, 0, 0, 5, 0xAA, 0xAA,
   0xC0, 0xC0]

/-- The message of the specification's header example, with the version, flags and
control_data bytes left free: opening marker 0xAAAA, header_length 36, sequence_number 1,
payload_length 0, topic_length 4 with topic "test", reply_topic_length 0, closing marker
0xAAAA. -/
def example_message (v0 v1 f0 f1 f2 f3 c0 c1 c2 c3 : UInt8) : tvbuff_t :=
  [0xAA, 0xAA, v0, v1, 0, 36, 0, 0, 0, 1, f0, f1, f2, f3, c0, c1, c2, c3, 0, 0, 0, 0,
   0, 0, 0, 4, 0x74, 0x65, 0x73, 0x74, 0, 0, 0, 0, 0xAA, 0xAA]

/-- The 36-byte message `example_message 0 2 0 0 0 1 0 0 0 0` (version 2, request flag) with
its opening marker replaced by 0x1234. -/
def bad_opening_marker : tvbuff_t :=
  [0x12, 0x34, 0, 2, 0, 36, 0, 0, 0, 1, 0, 0, 0, 1, 0, 0, 0, 0, 0, 0, 0, 0,
   0, 0, 0, 4, 0x74, 0x65, 0x73, 0x74, 0, 0, 0, 0, 0xAA, 0xAA]

/-- The buffer `tvb` with the two bytes at `p` and `p + 1` replaced by 0xAA 0xAA. -/
def set_marker (tvb : tvbuff_t) (p : Nat) : tvbuff_t := (tvb.set p 0xAA).set (p + 1) 0xAA

/-- A 38-byte message (topic "test", empty reply topic, header_length 36, payload_length 2)
whose closing marker at offset 34 is 0x1234. -/
def bad_closing_marker : tvbuff_t :=
  [0xAA, 0xAA, 0, 2, 0, 36, 0, 0, 0, 1, 0, 0, 0, 1, 0, 0, 0, 0, 0, 0, 0, 2,
   0, 0, 0, 4, 0x74, 0x65, 0x73, 0x74, 0, 0, 0, 0, 0x12, 0x34, 0xC0, 0xC0]

/-- The 58-byte message `sample_roundtrip` (round-trip timestamps present, header_length 56,
payload_length 2) with its closing marker at offset 54 replaced by 0x1234. -/
def roundtrip_bad_closing : tvbuff_t :=
  [0xAA, 0xAA, 0, 2, 0, 56, 0, 0, 0, 1, 0, 0, 0, 2, 0, 0, 0, 0, 0, 0, 0, 2,
   0, 0, 0, 4, 0x74, 0x65, 0x73, 0x74, 0, 0, 0, 0,
   0, 0, 0, 1, 0, 0, 0, 2, 0, 0, 0, 3, 0, 0, 0, 4, 0, 0, 0, 5, 0x12, 0x34,
   0xC0, 0xC0]

/-- The 53-byte message `lookahead_misfire` (no timestamps, header_length 32, payload_length
21, payload bytes 18 and 19 equal to 0xAA 0xAA) with its closing marker at offset 30 replaced
by 0x1234. -/
def misfire_bad_closing : tvbuff_t :=
  [0xAA, 0xAA, 0, 2, 0, 32, 0, 0, 0, 1, 0, 0, 0, 1, 0, 0, 0, 0, 0, 0, 0, 21,
   0, 0, 0, 0, 0, 0, 0, 0, 0x12, 0x34,
   1, 1, 1, 1, 1, 1, 1, 1, 1, 1, 1, 1, 1, 1, 1, 1, 1, 1, 0xAA, 0xAA, 1]

/-- A complete 33-byte message (header_length 32, empty topic and reply topic) whose
1-byte payload is `{`. -/
def json_one_byte : tvbuff_t :=
  [0xAA, 0xAA, 0, 2, 0, 32, 0, 0, 0, 1, 0, 0, 0, 1, 0, 0, 0, 0, 0, 0, 0, 1,
   0, 0, 0, 0, 0, 0, 0, 0, 0xAA, 0xAA, 0x7B]

/-- A complete 35-byte message (header_length 32, empty topic and reply topic) whose
3-byte payload is `{`, a zero byte, `}`. -/
def json_with_nul : tvbuff_t :=
  [0xAA, 0xAA, 0, 2, 0, 32, 0, 0, 0, 1, 0, 0, 0, 1, 0, 0, 0, 0, 0, 0, 0, 3,
   0, 0, 0, 0, 0, 0, 0, 0, 0xAA, 0xAA, 0x7B, 0x00, 0x7D]

/-- A complete 41-byte message (header_length 32, empty topic and reply topic) whose
9-byte payload is the text `{"a":[1]}`. -/
def json_payload : tvbuff_t :=
  [0xAA, 0xAA, 0, 2, 0, 32, 0, 0, 0, 1, 0, 0, 0, 1, 0, 0, 0, 0, 0, 0, 0, 9,
   0, 0, 0, 0, 0, 0, 0, 0, 0xAA, 0xAA,
   0x7B, 0x22, 0x61, 0x22, 0x3A, 0x5B, 0x31, 0x5D, 0x7D]

/-- A 38-byte buffer whose header_length field (32) understates the header as parsed (36
bytes with the topic "test"): payload_length is 4 but only 2 bytes are captured after the
header. -/
def truncated_payload : tvbuff_t :=
  [0xAA, 0xAA, 0, 2, 0, 32, 0, 0, 0, 1, 0, 0, 0, 1, 0, 0, 0, 0, 0, 0, 0, 4,
   0, 0, 0, 4, 0x74, 0x65, 0x73, 0x74, 0, 0, 0, 0, 0xAA, 0xAA, 0xC0, 0xC0]

/-! ## MessagePack values and the structured payload parse (parse_rbus_payload)

The payload is decoded by the msgpack-c library into `msgpack_object` values; the library
call `msgpack_unpack_next` is a parameter (`unpack`). A string or blob value holds its raw
bytes; where the dissector copies it with `"%.*s"` or as a NUL-terminated buffer the text it
obtains is `c_string` of these bytes. Floating-point rendering (`"%f"`) is the parameter
`fmt_f`, applied to the IEEE-754 bits of the value.

Array accesses `array_ptr[i]` are modelled by `objs[i]?`: an access outside the collected
objects, or a loop that hits its iteration bound, makes the parse return `none`. -/

/-- A decoded MessagePack value (`msgpack_object`). -/
inductive msgpack_object
  | nil
  | boolean (b : Bool)
  | positive_integer (u64 : Nat)
  | negative_integer (i64 : Int)
  | float32 (f64 : Nat)
  | float64 (f64 : Nat)
  | str (bytes : List UInt8)
  | bin (bytes : List UInt8)
  | array (items : List msgpack_object)
  | map (pairs : List (msgpack_object × msgpack_object))
  | ext (type : Int) (bytes : List UInt8)

def MAX_OBJECTS : Nat := 20000
def G_MAXUINT32 : Nat := 4294967295
def G_MININT32 : Int := -2147483648
def G_MAXINT32 : Int := 2147483647

/-- The C cast `(guint32) x`. -/
def to_guint32 (x : Int) : Nat := (x % 4294967296).toNat

/-- The C cast `(gint32) x`. -/
def to_gint32 (x : Int) : Int := (x + 2147483648) % 4294967296 - 2147483648

/-- The bytes of an ASCII literal. -/
def ascii (s : String) : List UInt8 := s.toUTF8.data.toList

/-- The test `strncmp (str, "METHOD_", 7) == 0` on the text of a string value. -/
def is_method_marker (bytes : List UInt8) : Bool :=
  (c_string bytes).take 7 == ascii "METHOD_"

/-- Tree of the metadata item (`meta_tree`). -/
def meta_tree : tree_id := .sub .payload_tree 0

/-- Tree of the parameter or property group added in iteration `p` of a triplet loop
(`param_tree`, `prop_tree`), under `parent`. -/
def group_tree (parent : tree_id) (p : Nat) : tree_id := .sub parent (p + 1)

/-- Tree of the event data item (`data_tree`). -/
def data_tree : tree_id := .sub .payload_tree 0

/-- Helper to add a property/parameter value with the appropriate type (`add_typed_value`,
lines 211-287): the items added to tree `t` and the string representation returned.
`first` is the buffer byte at `offset`, which the unsupported-type item covers. -/
def add_typed_value (fmt_f : Nat → List UInt8) (first : List UInt8) (t : tree_id)
    (offset : Nat) (value_obj : msgpack_object) (is_property : Bool) :
    List Emit × List UInt8 :=
  let hf_string : hf_id :=
    if is_property then .hf_rbus_property_value_string else .hf_rbus_parameter_value_string
  let hf_int : hf_id :=
    if is_property then .hf_rbus_property_value_int else .hf_rbus_parameter_value_int
  let hf_uint : hf_id :=
    if is_property then .hf_rbus_property_value_uint else .hf_rbus_parameter_value_uint
  let hf_int64 : hf_id :=
    if is_property then .hf_rbus_property_value_int64 else .hf_rbus_parameter_value_int64
  let hf_uint64 : hf_id :=
    if is_property then .hf_rbus_property_value_uint64 else .hf_rbus_parameter_value_uint64
  let hf_double : hf_id :=
    if is_property then .hf_rbus_property_value_double else .hf_rbus_parameter_value_double
  let hf_boolean : hf_id :=
    if is_property then .hf_rbus_property_value_boolean else .hf_rbus_parameter_value_boolean
  match value_obj with
  | .str s => ([.proto_item t hf_string offset 1 (.string (c_string s))], c_string s)
  | .bin b =>
    if b = [0x00] ∨ b = [0x01] then
      ([.proto_item t hf_boolean offset 1 (.boolean (b = [0x01]))],
        if b = [0x01] then ascii "true" else ascii "false")
    else ([.proto_item t hf_string offset 1 (.string (c_string b))], c_string b)
  | .positive_integer u64 =>
    if u64 ≤ G_MAXUINT32 then
      ([.proto_item t hf_uint offset 1 (.uint (to_guint32 u64))],
        ascii (toString (to_guint32 u64)))
    else ([.proto_item t hf_uint64 offset 1 (.uint u64)], ascii (toString u64))
  | .negative_integer i64 =>
    if i64 ≥ G_MININT32 ∧ i64 ≤ G_MAXINT32 then
      ([.proto_item t hf_int offset 1 (.int (to_gint32 i64))], ascii (toString (to_gint32 i64)))
    else ([.proto_item t hf_int64 offset 1 (.int i64)], ascii (toString i64))
  | .float32 f64 => ([.proto_item t hf_double offset 1 (.double f64)], fmt_f f64)
  | .float64 f64 => ([.proto_item t hf_double offset 1 (.double f64)], fmt_f f64)
  | .boolean b =>
    ([.proto_item t hf_boolean offset 1 (.boolean b)],
      if b then ascii "true" else ascii "false")
  | _ =>
    ([.proto_item t .hf_rbus_payload offset 1
        (.formatted first (ascii "Value: [Unsupported type]"))],
      ascii "[unsupported]")

/-- The object collection loop of `parse_rbus_payload` (lines 662-676): `unpack data off` is
`msgpack_unpack_next` on the payload bytes, giving the object and the new offset on success.
`fuel` is the number of objects that may still be stored (`MAX_OBJECTS` at the start). -/
def collect_objects (unpack : List UInt8 → Nat → Option (msgpack_object × Nat))
    (data : List UInt8) : (fuel : Nat) → (parse_offset : Nat) → List msgpack_object
  | 0, _ => []
  | fuel + 1, parse_offset =>
    if parse_offset < data.length then
      match unpack data parse_offset with
      | none => []
      | some (obj, next) => obj :: collect_objects unpack data fuel next
    else []

/-- The method scan (lines 686-700) from index `i` on: the index and text of the first
string value whose text begins with `METHOD_`. -/
def find_method : List msgpack_object → (i : Nat) → Option (Nat × List UInt8)
  | [], _ => none
  | .str s :: rest, i =>
    if is_method_marker s then some (i, c_string s) else find_method rest (i + 1)
  | _ :: rest, i => find_method rest (i + 1)

/-- The recurring step `if (idx < limit && array_ptr[idx].type == STR) { add string; idx++ }`:
the items added and the new `idx`. -/
def field_str (objs : List msgpack_object) (limit : Nat) (t : tree_id) (hf : hf_id)
    (offset idx : Nat) : Option (List Emit × Nat) :=
  if idx < limit then
    match objs[idx]? with
    | none => none
    | some (.str s) => some ([.proto_item t hf offset 1 (.string (c_string s))], idx + 1)
    | some _ => some ([], idx)
  else some ([], idx)

/-- The recurring step
`if (idx < limit && array_ptr[idx].type == POSITIVE_INTEGER) { add uint; idx++ }`. -/
def field_uint (objs : List msgpack_object) (limit : Nat) (t : tree_id) (hf : hf_id)
    (offset idx : Nat) : Option (List Emit × Nat) :=
  if idx < limit then
    match objs[idx]? with
    | none => none
    | some (.positive_integer u64) =>
      some ([.proto_item t hf offset 1 (.uint (to_guint32 u64))], idx + 1)
    | some _ => some ([], idx)
  else some ([], idx)

/-- The recurring step
`if (idx < limit && array_ptr[idx].type == POSITIVE_INTEGER) { add int; idx++ }` with the
value cast to `gint32`. -/
def field_int (objs : List msgpack_object) (limit : Nat) (t : tree_id) (hf : hf_id)
    (offset idx : Nat) : Option (List Emit × Nat) :=
  if idx < limit then
    match objs[idx]? with
    | none => none
    | some (.positive_integer u64) =>
      some ([.proto_item t hf offset 1 (.int (to_gint32 u64))], idx + 1)
    | some _ => some ([], idx)
  else some ([], idx)

def is_str : msgpack_object → Bool
  | .str _ => true
  | _ => false

def is_integer : msgpack_object → Bool
  | .positive_integer _ => true
  | .negative_integer _ => true
  | _ => false

/-- The test `cond && test (array_ptr[i])`, with the array access made only when `cond`
holds. -/
def guarded_test (cond : Bool) (objs : List msgpack_object) (i : Nat)
    (test : msgpack_object → Bool) : Option Bool :=
  if cond then (objs[i]?).map test else some false

/-- The loop `while (idx < limit) { if STR: add string; idx++ }` (GET parameter names, lines
878-885; direct-connection methods, lines 1088-1096). -/
def str_fields (objs : List msgpack_object) (limit : Nat) (t : tree_id) (hf : hf_id)
    (offset : Nat) : (fuel idx : Nat) → Option (List Emit)
  | 0, idx => if idx < limit then none else some []
  | fuel + 1, idx =>
    if idx < limit then
      match objs[idx]? with
      | none => none
      | some obj =>
        (str_fields objs limit t hf offset fuel (idx + 1)).map fun rest =>
          (match obj with
            | .str s => [Emit.proto_item t hf offset 1 (.string (c_string s))]
            | _ => []) ++ rest
    else some []

/-- The loop showing the remaining fields of the attributes requests (lines 1029-1040):
strings as parameter names, positive integers as parameter counts. -/
def attribute_fields (objs : List msgpack_object) (limit : Nat) (offset : Nat) :
    (fuel idx : Nat) → Option (List Emit)
  | 0, idx => if idx < limit then none else some []
  | fuel + 1, idx =>
    if idx < limit then
      match objs[idx]? with
      | none => none
      | some obj =>
        (attribute_fields objs limit offset fuel (idx + 1)).map fun rest =>
          (match obj with
            | .str s =>
              [Emit.proto_item .payload_tree .hf_rbus_parameter_name offset 1
                (.string (c_string s))]
            | .positive_integer u64 =>
              [Emit.proto_item .payload_tree .hf_rbus_param_count offset 1
                (.uint (to_guint32 u64))]
            | _ => []) ++ rest
    else some []

/-- The parameter / property triplet loop of the SET and RESPONSE branches (lines 1124-1160
and 1247-1283): `for (p = 0; p < count && idx + 2 <= method_idx; p++)`. Returns the items
added and the final `idx`; `none` when an array access is outside the objects or `fuel`
iterations did not finish the loop. -/
def triplet_loop (fmt_f : Nat → List UInt8) (first : List UInt8) (objs : List msgpack_object)
    (method_idx offset count : Nat) (hf_group hf_name hf_type hf_namevalue : hf_id)
    (is_property : Bool) : (fuel p idx : Nat) → Option (List Emit × Nat)
  | 0, p, idx => if p < count ∧ idx + 2 ≤ method_idx then none else some ([], idx)
  | fuel + 1, p, idx =>
    if p < count ∧ idx + 2 ≤ method_idx then
      match objs[idx]?, objs[idx + 1]? with
      | some name_obj, some type_obj =>
        let group_item : List Emit := [.proto_item .payload_tree hf_group offset 1 .none]
        let name : Option (List UInt8) :=
          match name_obj with
          | .str s => some (c_string s)
          | _ => none
        let name_items : List Emit :=
          match name with
          | some n =>
            [.proto_item (group_tree .payload_tree p) hf_name offset 1 (.string n),
             .append_string ": %s" n]
          | none => []
        let type_items : List Emit :=
          match type_obj with
          | .positive_integer u64 =>
            [.proto_item (group_tree .payload_tree p) hf_type offset 1 (.uint (to_guint32 u64))]
          | _ => []
        let value_items : Option (List Emit) :=
          if idx + 2 < method_idx then
            (objs[idx + 2]?).map fun value_obj =>
              let v := add_typed_value fmt_f first (group_tree .payload_tree p) offset value_obj
                is_property
              v.1 ++
                (match name with
                  | some n =>
                    [.proto_item (group_tree .payload_tree p) hf_namevalue offset 1
                      (.string (n ++ ascii "=" ++ v.2))]
                  | none => [])
          else some []
        match value_items with
        | none => none
        | some vs =>
          (triplet_loop fmt_f first objs method_idx offset count hf_group hf_name hf_type
            hf_namevalue is_property fuel (p + 1) (idx + 3)).map fun rest =>
            (group_item ++ name_items ++ type_items ++ vs ++ rest.1, rest.2)
      | _, _ => none
    else some ([], idx)

/-- The property-count search of the RESPONSE branch (lines 1215-1245). Returns the items
added, `prop_count` and the final `idx`. -/
def response_scan (objs : List msgpack_object) (method_idx offset : Nat) :
    (fuel idx : Nat) → Option (List Emit × Nat × Nat)
  | 0, idx => if idx < method_idx then none else some ([], 0, idx)
  | fuel + 1, idx =>
    if idx < method_idx then
      match objs[idx]? with
      | none => none
      | some obj =>
        let potential : Option Nat :=
          match obj with
          | .positive_integer u64 => some (to_guint32 u64)
          | .negative_integer i64 => some (to_guint32 i64)
          | _ => none
        match potential with
        | none => response_scan objs method_idx offset fuel (idx + 1)
        | some potential_count =>
          match guarded_test (potential_count > 0 ∧ idx + 1 < method_idx) objs (idx + 1)
            is_str with
          | none => none
          | some true =>
            some ([.proto_item .payload_tree .hf_rbus_property_count offset 1
              (.uint potential_count)], potential_count, idx + 1)
          | some false =>
            match guarded_test (potential_count = 0 ∧ idx + 1 < method_idx) objs (idx + 1)
              (fun o => !is_integer o) with
            | none => none
            | some true =>
              some ([.proto_item .payload_tree .hf_rbus_property_count offset 1 (.uint 0)],
                0, idx + 1)
            | some false => response_scan objs method_idx offset fuel (idx + 1)
    else some ([], 0, idx)

/-- The RESPONSE branch (lines 1169-1285). -/
def parse_response (fmt_f : Nat → List UInt8) (first : List UInt8)
    (objs : List msgpack_object) (method_idx offset : Nat) : Option (List Emit) :=
  if 0 < method_idx then
    match objs[0]? with
    | none => none
    | some obj0 =>
      let error_code : Int :=
        match obj0 with
        | .positive_integer u64 => to_gint32 u64
        | .negative_integer i64 => to_gint32 i64
        | _ => 0
      let error_item : List Emit :=
        [.proto_item .payload_tree .hf_rbus_error_code offset 1 (.int error_code)]
      if 1 < method_idx then
        match objs[1]? with
        | none => none
        | some obj1 =>
          match guarded_test (error_code ≠ 0 ∧ is_str obj1 ∧ 1 + 1 < method_idx) objs (1 + 1)
            (fun o =>
              match o with
              | .str next => is_method_marker next
              | _ => false) with
          | none => none
          | some true =>
            some (error_item ++
              (match obj1 with
                | .str s =>
                  [Emit.proto_item .payload_tree .hf_rbus_failed_element offset 1
                    (.string (c_string s))]
                | _ => []))
          | some false =>
            match response_scan objs method_idx offset method_idx 1 with
            | none => none
            | some (count_items, prop_count, idx) =>
              (triplet_loop fmt_f first objs method_idx offset prop_count .hf_rbus_property
                .hf_rbus_property_name .hf_rbus_property_type .hf_rbus_property_namevalue true
                method_idx 0 idx).map fun props => error_item ++ count_items ++ props.1
      else some error_item
  else some []

/-- The SET branch (lines 1097-1168). -/
def parse_set (fmt_f : Nat → List UInt8) (first : List UInt8) (objs : List msgpack_object)
    (method_idx offset : Nat) : Option (List Emit) := do
  let session ← field_uint objs method_idx .payload_tree .hf_rbus_session_id offset 0
  let comp ← field_str objs method_idx .payload_tree .hf_rbus_component_name offset session.2
  let rollback ← field_uint objs method_idx .payload_tree .hf_rbus_rollback offset comp.2
  let count ← field_uint objs method_idx .payload_tree .hf_rbus_param_count offset rollback.2
  let param_count : Nat :=
    if rollback.2 < method_idx then
      match objs[rollback.2]? with
      | some (.positive_integer u64) => to_guint32 u64
      | _ => 0
    else 0
  let params ← triplet_loop fmt_f first objs method_idx offset param_count .hf_rbus_parameter
    .hf_rbus_parameter_name .hf_rbus_parameter_type .hf_rbus_parameter_namevalue false
    method_idx 0 count.2
  let commit ← field_str objs method_idx .payload_tree .hf_rbus_commit offset params.2
  pure (session.1 ++ comp.1 ++ rollback.1 ++ count.1 ++ params.1 ++ commit.1)

/-- The GET branch (lines 864-886). -/
def parse_get (objs : List msgpack_object) (method_idx offset : Nat) : Option (List Emit) :=
  if objs.length ≥ 3 then
    match objs[0]?, objs[1]? with
    | some obj0, some obj1 =>
      (str_fields objs method_idx .payload_tree .hf_rbus_parameter_name offset method_idx
        2).map fun names =>
        (match obj0 with
          | .str s =>
            [Emit.proto_item .payload_tree .hf_rbus_component_name offset 1
              (.string (c_string s))]
          | _ => []) ++
        (match obj1 with
          | .positive_integer u64 =>
            [Emit.proto_item .payload_tree .hf_rbus_param_count offset 1
              (.uint (to_guint32 u64))]
          | _ => []) ++ names
    | _, _ => none
  else some []

/-- The SUBSCRIBE and UNSUBSCRIBE branches (lines 887-931). -/
def parse_subscribe (objs : List msgpack_object) (method_idx offset : Nat) :
    Option (List Emit) := do
  let event ← field_str objs method_idx .payload_tree .hf_rbus_event_name offset 0
  let reply ← field_str objs method_idx .payload_tree .hf_rbus_reply_topic_payload offset
    event.2
  pure (event.1 ++ reply.1)

/-- The RPC branch (lines 932-959). -/
def parse_rpc (objs : List msgpack_object) (method_idx offset : Nat) : Option (List Emit) := do
  let session ← field_uint objs method_idx .payload_tree .hf_rbus_session_id offset 0
  let name ← field_str objs method_idx .payload_tree .hf_rbus_invoke_method_name offset
    session.2
  let has_params ← field_int objs method_idx .payload_tree .hf_rbus_has_params offset name.2
  pure (session.1 ++ name.1 ++ has_params.1)

/-- The COMMIT branch (lines 960-985). -/
def parse_commit (objs : List msgpack_object) (method_idx offset : Nat) :
    Option (List Emit) := do
  let session ← field_uint objs method_idx .payload_tree .hf_rbus_session_id offset 0
  let comp ← field_str objs method_idx .payload_tree .hf_rbus_component_name offset session.2
  let count ← field_uint objs method_idx .payload_tree .hf_rbus_param_count offset comp.2
  pure (session.1 ++ comp.1 ++ count.1)

/-- The GETPARAMETERNAMES branch (lines 986-1013). -/
def parse_getparameternames (objs : List msgpack_object) (method_idx offset : Nat) :
    Option (List Emit) := do
  let comp ← field_str objs method_idx .payload_tree .hf_rbus_component_name offset 0
  let param ← field_str objs method_idx .payload_tree .hf_rbus_parameter_name offset comp.2
  let next_level ← field_uint objs method_idx .payload_tree .hf_rbus_param_count offset param.2
  pure (comp.1 ++ param.1 ++ next_level.1)

/-- The SETPARAMETERATTRIBUTES / GETPARAMETERATTRIBUTES branch (lines 1014-1040). -/
def parse_attributes (objs : List msgpack_object) (method_idx offset : Nat) :
    Option (List Emit) := do
  let comp ← field_str objs method_idx .payload_tree .hf_rbus_component_name offset 0
  let rest ← attribute_fields objs method_idx offset method_idx comp.2
  pure (comp.1 ++ rest)

/-- The ADDTBLROW / DELETETBLROW branch (lines 1041-1082). -/
def parse_tblrow (objs : List msgpack_object) (method_idx offset : Nat) :
    Option (List Emit) := do
  let session ← field_uint objs method_idx .payload_tree .hf_rbus_session_id offset 0
  let comp ← field_str objs method_idx .payload_tree .hf_rbus_component_name offset session.2
  let table ← field_str objs method_idx .payload_tree .hf_rbus_parameter_name offset comp.2
  let row ←
    if table.2 < method_idx then
      (objs[table.2]?).map fun obj =>
        match obj with
        | .str s =>
          [Emit.proto_item .payload_tree .hf_rbus_parameter_name offset 1
            (.string (c_string s))]
        | .positive_integer u64 =>
          [Emit.proto_item .payload_tree .hf_rbus_param_count offset 1
            (.uint (to_guint32 u64))]
        | _ => []
    else some []
  pure (session.1 ++ comp.1 ++ table.1 ++ row)

/-- The OPENDIRECT_CONN / CLOSEDIRECT_CONN branch (lines 1083-1096). -/
def parse_direct_conn (objs : List msgpack_object) (method_idx offset : Nat) :
    Option (List Emit) :=
  str_fields objs method_idx .payload_tree .hf_rbus_component_name offset method_idx 0

/-- The verb dispatch (lines 863-1286): the fields of the branch selected by `strcmp` on the
method text; a method without branch adds nothing. -/
def parse_verb (fmt_f : Nat → List UInt8) (first : List UInt8) (objs : List msgpack_object)
    (method : List UInt8) (method_idx offset : Nat) : Option (List Emit) :=
  if method = ascii "METHOD_GETPARAMETERVALUES" then parse_get objs method_idx offset
  else if method = ascii "METHOD_SUBSCRIBE" then parse_subscribe objs method_idx offset
  else if method = ascii "METHOD_UNSUBSCRIBE" then parse_subscribe objs method_idx offset
  else if method = ascii "METHOD_RPC" then parse_rpc objs method_idx offset
  else if method = ascii "METHOD_COMMIT" then parse_commit objs method_idx offset
  else if method = ascii "METHOD_GETPARAMETERNAMES" then
    parse_getparameternames objs method_idx offset
  else if method = ascii "METHOD_SETPARAMETERATTRIBUTES" ∨
      method = ascii "METHOD_GETPARAMETERATTRIBUTES" then
    parse_attributes objs method_idx offset
  else if method = ascii "METHOD_ADDTBLROW" ∨ method = ascii "METHOD_DELETETBLROW" then
    parse_tblrow objs method_idx offset
  else if method = ascii "METHOD_OPENDIRECT_CONN" ∨ method = ascii "METHOD_CLOSEDIRECT_CONN" then
    parse_direct_conn objs method_idx offset
  else if method = ascii "METHOD_SETPARAMETERVALUES" then
    parse_set fmt_f first objs method_idx offset
  else if method = ascii "METHOD_RESPONSE" then
    parse_response fmt_f first objs method_idx offset
  else some []

/-- The metadata block (lines 832-861): the metadata item, the method name, the tracing parent
and state when the values at `method_idx + 1`, `method_idx + 2` are strings, and the metadata
offset when a value exists at `method_idx + 3`. -/
def add_metadata (objs : List msgpack_object) (method : List UInt8) (method_idx offset : Nat) :
    Option (List Emit) := do
  let ot_parent ← field_str objs objs.length meta_tree .hf_rbus_ot_parent offset
    (method_idx + 1)
  let ot_state ← field_str objs objs.length meta_tree .hf_rbus_ot_state offset (method_idx + 2)
  let offset_item ←
    if method_idx + 3 < objs.length then
      (objs[method_idx + 3]?).map fun obj =>
        let offset_val : Int :=
          match obj with
          | .positive_integer u64 => to_gint32 u64
          | .negative_integer i64 => to_gint32 i64
          | _ => 0
        [Emit.proto_item meta_tree .hf_rbus_metadata_offset offset 1 (.int offset_val)]
    else some []
  pure ([.proto_item .payload_tree .hf_rbus_metadata offset 1 .none,
      .proto_item meta_tree .hf_rbus_method_name offset 1 (.string method)] ++
    ot_parent.1 ++ ot_state.1 ++ offset_item)

/-- The property loop of the event publication branch (lines 767-803):
`for (p = 0; p < prop_count && idx + 2 < object_count; p++)`. -/
def event_property_loop (fmt_f : Nat → List UInt8) (first : List UInt8)
    (objs : List msgpack_object) (offset prop_count : Nat) :
    (fuel p idx : Nat) → Option (List Emit × Nat)
  | 0, p, idx => if p < prop_count ∧ idx + 2 < objs.length then none else some ([], idx)
  | fuel + 1, p, idx =>
    if p < prop_count ∧ idx + 2 < objs.length then
      match objs[idx]?, objs[idx + 1]?, objs[idx + 2]? with
      | some name_obj, some type_obj, some value_obj =>
        let type_id : Nat :=
          match type_obj with
          | .positive_integer u64 => to_guint32 u64
          | _ => 0
        let items : List Emit :=
          match name_obj with
          | .str s =>
            let v := add_typed_value fmt_f first (group_tree data_tree p) offset value_obj true
            [.proto_item data_tree .hf_rbus_object_property offset 1 .none,
             .append_string ": %s" (c_string s),
             .proto_item (group_tree data_tree p) .hf_rbus_object_property_name offset 1
               (.string (c_string s)),
             .proto_item (group_tree data_tree p) .hf_rbus_property_type offset 1
               (.uint type_id)] ++ v.1 ++
            [.proto_item (group_tree data_tree p) .hf_rbus_object_property_namevalue offset 1
               (.string (c_string s ++ ascii "=" ++ v.2))]
          | _ => []
        (event_property_loop fmt_f first objs offset prop_count fuel (p + 1) (idx + 3)).map
          fun rest => (items ++ rest.1, rest.2)
      | _, _, _ => none
    else some ([], idx)

/-- The step `if (idx < object_count && array_ptr[idx].type == POSITIVE_INTEGER)
{ flag = (u64 != 0); add boolean; idx++ }` of the event publication layout (lines 728-734,
744-747): the items added, the new `idx` and the flag (`FALSE` when the step is skipped). -/
def field_flag (objs : List msgpack_object) (hf : hf_id) (offset idx : Nat) :
    Option (List Emit × Nat × Bool) :=
  if idx < objs.length then
    match objs[idx]? with
    | none => none
    | some (.positive_integer u64) =>
      some ([.proto_item .payload_tree hf offset 1 (.boolean (u64 != 0))], idx + 1, u64 != 0)
    | some _ => some ([], idx, false)
  else some ([], idx, false)

/-- The step `if (flag && idx < object_count) idx++` that skips the placeholder object or the
filter object (lines 738-741, 750-752). -/
def skip_object (objs : List msgpack_object) (flag : Bool) (idx : Nat) : Nat :=
  if flag ∧ idx < objs.length then idx + 1 else idx

/-- The property data of an event publication (lines 755-804): the property count, the event
data item and the property loop. Returns the items added and the new `idx`. -/
def parse_event_data (fmt_f : Nat → List UInt8) (first : List UInt8)
    (objs : List msgpack_object) (offset : Nat) (has_event_data : Bool) (idx : Nat) :
    Option (List Emit × Nat) :=
  if has_event_data ∧ idx < objs.length then
    match objs[idx]? with
    | none => none
    | some obj =>
      let prop_count : Nat :=
        match obj with
        | .positive_integer u64 => to_guint32 u64
        | _ => 0
      let next : Nat :=
        match obj with
        | .positive_integer _ => idx + 1
        | _ => idx
      (event_property_loop fmt_f first objs offset prop_count objs.length 0 next).map
        fun r =>
          ([Emit.proto_item .payload_tree .hf_rbus_event_data offset 1 .none,
            .append_text (" (" ++ toString prop_count ++ " properties)")] ++ r.1, r.2)
  else some ([], idx)

/-- The event publication layout after the event name (lines 721-825), entered with
`idx = 1`. The filter object is skipped inside the `if` that reads the filter flag, where the
flag is defined; outside of it the flag is `FALSE` here. -/
def parse_event_body (fmt_f : Nat → List UInt8) (first : List UInt8)
    (objs : List msgpack_object) (offset : Nat) : Option (List Emit) := do
  let event_type ← field_uint objs objs.length .payload_tree .hf_rbus_event_type offset 1
  let event_data ← field_flag objs .hf_rbus_has_event_data offset event_type.2
  let filter ← field_flag objs .hf_rbus_has_filter offset
    (skip_object objs event_data.2.2 event_data.2.1)
  let props ← parse_event_data fmt_f first objs offset event_data.2.2
    (skip_object objs filter.2.2 filter.2.1)
  let interval ← field_uint objs objs.length .payload_tree .hf_rbus_interval offset props.2
  let duration ← field_uint objs objs.length .payload_tree .hf_rbus_duration offset interval.2
  let component ← field_int objs objs.length .payload_tree .hf_rbus_component_id offset
    duration.2
  pure (event_type.1 ++ event_data.1 ++ filter.1 ++ props.1 ++ interval.1 ++ duration.1 ++
    component.1)

/-- The body of `parse_rbus_payload` after the collection loop (lines 678-1290), on the
collected objects `objs`; `data` is the payload slice (`payload_length = data.length`).
Returns the items added and the byte count returned: `0` when the parse declines. -/
def parse_rbus_objects (fmt_f : Nat → List UInt8) (data : List UInt8) (offset : Nat)
    (objs : List msgpack_object) : Option (List Emit × Nat) :=
  if objs.length < 4 then some ([], 0)
  else
    match find_method objs 0 with
    | none =>
      -- event publication
      if objs.length ≥ 6 then
        match objs[0]? with
        | none => none
        | some (msgpack_object.str s) =>
          (parse_event_body fmt_f (data.take 1) objs offset).map fun body =>
            ([.proto_item .payload_tree .hf_rbus_event_name offset 1 (.string (c_string s)),
              .col_append " Event: %s" (c_string s)] ++ body, data.length)
        | some _ => some ([], 0)
      else some ([], 0)
    | some (method_idx, method) =>
      match add_metadata objs method method_idx offset,
        parse_verb fmt_f (data.take 1) objs method method_idx offset with
      | some metadata, some fields => some (metadata ++ fields, data.length)
      | _, _ => none

/-- Parse structured RBus message payload with dedicated fields (`parse_rbus_payload`, lines
655-1290) on the payload slice `data` found at `offset`. -/
def parse_rbus_payload (unpack : List UInt8 → Nat → Option (msgpack_object × Nat))
    (fmt_f : Nat → List UInt8) (data : List UInt8) (offset : Nat) : Option (List Emit × Nat) :=
  parse_rbus_objects fmt_f data offset (collect_objects unpack data MAX_OBJECTS 0)

/-! ## Observations on the structured parse, and sample value sequences -/

/-- The values of the items of field `hf` in `es`, in order. -/
def field_values (hf : hf_id) (es : List Emit) : List field_value :=
  es.filterMap fun e =>
    match e with
    | .proto_item _ h _ _ v => if h = hf then some v else none
    | _ => none

/-- A value that is a string beginning with the 7-character text `METHOD_`. -/
def begins_with_method : msgpack_object → Bool
  | .str s => s.take 7 == ascii "METHOD_"
  | _ => false

/-- A string value holding the text `s`. -/
def text (s : String) : msgpack_object := .str (ascii s)

/-- The SET example of the specification. -/
def set_example : List msgpack_object :=
  [.positive_integer 1, text "Comp1", .positive_integer 0, .positive_integer 1,
   text "Device.X.Enable", .positive_integer 0x500, .bin [0x01], text "TRUE",
   text "METHOD_SETPARAMETERVALUES", text "", text "", .positive_integer 0]

/-- The RESPONSE example of the specification. -/
def response_example : List msgpack_object :=
  [.positive_integer 0, .positive_integer 0, text "METHOD_RESPONSE", text "", text "",
   .positive_integer 0]

/-- A simple error response: error code, failed element, method marker. -/
def simple_error_example : List msgpack_object :=
  [.positive_integer 5, text "Device.X", text "METHOD_RESPONSE", text "", text "",
   .positive_integer 0]

/-- A response whose zero property count is preceded by another integer and followed by the
method marker. -/
def count_before_marker : List msgpack_object :=
  [.positive_integer 0, .positive_integer 1, .positive_integer 0, text "METHOD_RESPONSE",
   text "", text "", .positive_integer 0]

/-- A GET request whose method marker is the first value. -/
def get_marker_first : List msgpack_object :=
  [text "METHOD_GETPARAMETERVALUES", .positive_integer 7, text "", text ""]

/-- Every item of `es` belongs to one of the fields `S`. -/
def ids_within (S : List hf_id) (es : List Emit) : Prop := ∀ h ∈ field_ids es, h ∈ S

/-- The fields of the metadata block. -/
def metadata_ids : List hf_id :=
  [.hf_rbus_metadata, .hf_rbus_method_name, .hf_rbus_ot_parent, .hf_rbus_ot_state,
   .hf_rbus_metadata_offset]

/-- The fields `add_typed_value` can add. -/
def typed_value_ids (is_property : Bool) : List hf_id :=
  if is_property then
    [.hf_rbus_property_value_string, .hf_rbus_property_value_int, .hf_rbus_property_value_uint,
     .hf_rbus_property_value_int64, .hf_rbus_property_value_uint64,
     .hf_rbus_property_value_double, .hf_rbus_property_value_boolean, .hf_rbus_payload]
  else
    [.hf_rbus_parameter_value_string, .hf_rbus_parameter_value_int,
     .hf_rbus_parameter_value_uint, .hf_rbus_parameter_value_int64,
     .hf_rbus_parameter_value_uint64, .hf_rbus_parameter_value_double,
     .hf_rbus_parameter_value_boolean, .hf_rbus_payload]

/-- The fields of the RESPONSE layout apart from the failed element. -/
def response_ids : List hf_id :=
  [.hf_rbus_error_code, .hf_rbus_property_count, .hf_rbus_property, .hf_rbus_property_name,
   .hf_rbus_property_type, .hf_rbus_property_namevalue] ++ typed_value_ids true

/-- The fields the verb branches can add. -/
def layout_ids : List hf_id :=
  [.hf_rbus_component_name, .hf_rbus_param_count, .hf_rbus_parameter_name, .hf_rbus_event_name,
   .hf_rbus_reply_topic_payload, .hf_rbus_session_id, .hf_rbus_invoke_method_name,
   .hf_rbus_has_params, .hf_rbus_rollback, .hf_rbus_commit, .hf_rbus_parameter,
   .hf_rbus_parameter_type, .hf_rbus_parameter_namevalue, .hf_rbus_failed_element] ++
  typed_value_ids false ++ response_ids

/-- The fields the event publication branch can add. -/
def event_ids : List hf_id :=
  [.hf_rbus_event_name, .hf_rbus_event_type, .hf_rbus_has_event_data, .hf_rbus_has_filter,
   .hf_rbus_event_data, .hf_rbus_object_property, .hf_rbus_object_property_name,
   .hf_rbus_property_type, .hf_rbus_object_property_namevalue, .hf_rbus_interval,
   .hf_rbus_duration, .hf_rbus_component_id] ++ typed_value_ids true

/-- The method names that select a verb branch. -/
def known_verbs : List (List UInt8) :=
  [ascii "METHOD_GETPARAMETERVALUES", ascii "METHOD_SUBSCRIBE", ascii "METHOD_UNSUBSCRIBE",
   ascii "METHOD_RPC", ascii "METHOD_COMMIT", ascii "METHOD_GETPARAMETERNAMES",
   ascii "METHOD_SETPARAMETERATTRIBUTES", ascii "METHOD_GETPARAMETERATTRIBUTES",
   ascii "METHOD_ADDTBLROW", ascii "METHOD_DELETETBLROW", ascii "METHOD_OPENDIRECT_CONN",
   ascii "METHOD_CLOSEDIRECT_CONN", ascii "METHOD_SETPARAMETERVALUES", ascii "METHOD_RESPONSE"]

/-- The environment of `dissect_rbus` whose structured parse is `parse_rbus_payload` with the
library decoder `unpack`; the generic decoder is that of `env`. -/
def structured_env (unpack : List UInt8 → Nat → Option (msgpack_object × Nat))
    (fmt_f : Nat → List UInt8) (env : payload_env) : payload_env :=
  ⟨fun data offset => (parse_rbus_payload unpack fmt_f data offset).getD ([], 0),
    env.dissect_msgpack_value, env.pref_msgpack_object_limit⟩

/-- A method marker whose string holds a zero byte: `METHOD_X`, 0x00, `Y`. -/
def nul_marker : List msgpack_object :=
  [.str (ascii "METHOD_X" ++ [0] ++ ascii "Y"), text "", text "", .positive_integer 0]

/-- A sequence whose value at `M + 3` is a string. -/
def offset_not_numeric : List msgpack_object :=
  [text "METHOD_COMMIT", text "", text "", text "x"]

/-- A sequence whose value at `M + 3` is the integer 2^31. -/
def offset_large : List msgpack_object :=
  [text "METHOD_COMMIT", text "", text "", .positive_integer 2147483648]

/-- A GET sequence whose component name begins with `METHOD_`. -/
def get_component_marker : List msgpack_object :=
  [text "METHOD_Comp", .positive_integer 0, text "METHOD_GETPARAMETERVALUES", text "", text "",
   .positive_integer 0]

/-- A GET sequence with one parameter name, which begins with `METHOD_`. -/
def get_name_marker : List msgpack_object :=
  [text "Comp", .positive_integer 1, text "METHOD_a", text "METHOD_GETPARAMETERVALUES",
   text "", text "", .positive_integer 0]

/-- A GET sequence without parameter names and without values after the marker. -/
def get_short : List msgpack_object :=
  [text "Comp", .positive_integer 0, text "METHOD_GETPARAMETERVALUES"]

/-- A GET sequence whose parameter name holds a zero byte: `a`, 0x00, `b`. -/
def get_nul_name : List msgpack_object :=
  [text "Comp", .positive_integer 1, .str (ascii "a" ++ [0] ++ ascii "b"),
   text "METHOD_GETPARAMETERVALUES", text "", text "", .positive_integer 0]

/-- A sequence with a method that has no verb branch, preceded by two values. -/
def unknown_verb : List msgpack_object :=
  [.positive_integer 777, .nil, text "METHOD_FOO", text "", text "", .positive_integer 0]

/-- The MessagePack encoding of `unknown_verb`: uint16 777, nil, fixstr `METHOD_FOO`, two
empty fixstr, fixint 0. -/
def unknown_verb_bytes : List UInt8 :=
  [0xCD, 0x03, 0x09, 0xC0, 0xAA, 0x4D, 0x45, 0x54, 0x48, 0x4F, 0x44, 0x5F, 0x46, 0x4F, 0x4F,
   0xA0, 0xA0, 0x00]

/-- The text of a tracing field for the value `obj` found (or not) after the method marker:
present when the value is a string. -/
def tracing_value (obj : Option msgpack_object) : List field_value :=
  match obj with
  | some (.str s) => [.string (c_string s)]
  | _ => []

/-- The metadata offset shown for the value `obj` found (or not) at `method_idx + 3`: present
whenever a value is there, the integer cast to `gint32`, and 0 for any other value. -/
def offset_value (obj : Option msgpack_object) : List field_value :=
  match obj with
  | none => []
  | some (.positive_integer u64) => [.int (to_gint32 u64)]
  | some (.negative_integer i64) => [.int (to_gint32 i64)]
  | some _ => [.int 0]

/-- The metadata block written out: metadata item, method name, tracing parent, tracing state
and metadata offset. -/
def metadata_block (objs : List msgpack_object) (method : List UInt8)
    (method_idx offset : Nat) : List Emit :=
  [.proto_item .payload_tree .hf_rbus_metadata offset 1 .none,
   .proto_item meta_tree .hf_rbus_method_name offset 1 (.string method)] ++
  (tracing_value objs[method_idx + 1]?).map (.proto_item meta_tree .hf_rbus_ot_parent offset 1) ++
  (tracing_value objs[method_idx + 2]?).map (.proto_item meta_tree .hf_rbus_ot_state offset 1) ++
  (offset_value objs[method_idx + 3]?).map
    (.proto_item meta_tree .hf_rbus_metadata_offset offset 1)

/-! ## The generic MessagePack display (display_msgpack_object, dissect_msgpack_value)

An item added with a `proto_tree_add_*_format` call carries `.format value text`: `text` is
the whole line. An item added with a `proto_tree_add_*_format_value` call carries
`.format_value value text`: `text` stands for the value only, after the name of the field.
For the byte fields (`hf_rbus_payload`, start pointer `NULL`) the value is the bytes of
the buffer that the item covers.

The recursion of `display_msgpack_object` is bounded by the depth limit; here it runs on
`fuel`, and ending without fuel while the depth is within the limit gives `none`. The context
pointer `ctx` is never `NULL`: the only caller passes `&parse_ctx`. -/

/-- RBus Value Type IDs (`rbus_type_vals`). -/
def rbus_type_vals : List (Nat × String) :=
  [(0x00, "String"), (0x01, "Int"), (0x02, "UnsignedInt"), (0x03, "Boolean"),
   (0x04, "DateTime"), (0x05, "Base64"),
   (0x500, "Boolean"), (0x501, "Char"), (0x503, "Int8"), (0x504, "UInt8"), (0x505, "Int16"),
   (0x506, "UInt16"), (0x507, "Int32"), (0x508, "UInt32"), (0x509, "Int64"),
   (0x50A, "UInt64"), (0x50B, "Single"), (0x50C, "Double"), (0x50E, "String"),
   (0x50F, "Bytes"), (0x512, "None")]

/-- The host function `try_val_to_str`: the string of the first entry with value `val`. -/
def try_val_to_str (val : Nat) (vs : List (Nat × String)) : Option String :=
  (vs.find? fun e => e.1 == val).map fun e => e.2

/-- The rendering `"%x"` of an unsigned value. -/
def hex (n : Nat) : List UInt8 := ascii (String.mk (Nat.toDigits 16 n))

/-- The rendering `"%u"` / `"%" PRIu64` of an unsigned value. -/
def dec (n : Nat) : List UInt8 := ascii (toString n)

/-- The pattern `if (label) add_format (..., "%s: <text>", label, ...) else
add_format_value (..., "<text>", ...)`. -/
def with_label (label : Option (List UInt8)) (value : field_value) (text : List UInt8) :
    field_value :=
  match label with
  | some l => .format value (l ++ ascii ": " ++ text)
  | none => .format_value value text

/-- The annotation added when the depth limit is exceeded (lines 296-300, 621-625). -/
def depth_exceeded (limit : Nat) (t : tree_id) (offset length : Nat) : Emit :=
  .expert_format t .ei_rbus_msgpack_depth_exceeded offset length
    ("MessagePack depth limit (" ++ toString limit ++
      ") exceeded; further nesting not displayed")

/-- The `guint` product `ctx->params_count * 3`. -/
def params_fields (ctx : rbus_parse_context_t) : Nat := (ctx.params_count * 3) % 4294967296

/-- The label of a positive integer and the updated context (lines 326-371). -/
def uint_label (label : Option (List UInt8)) (u64 : Nat) (ctx : rbus_parse_context_t) :
    Option (List UInt8) × rbus_parse_context_t :=
  match ctx.method_name with
  | some method_name =>
    if method_name = ascii "METHOD_SETPARAMETERVALUES" then
      if ctx.object_index = 0 then (some (ascii "Session ID"), ctx)
      else if ctx.object_index = 2 then (some (ascii "Rollback"), ctx)
      else if ctx.object_index = 3 then
        (some (ascii "Parameter Count"), { ctx with params_count := to_guint32 u64 })
      else if ctx.params_count > 0 ∧ ctx.params_seen < params_fields ctx then
        (label, { ctx with params_seen := ctx.params_seen + 1 })
      else if ctx.meta_field_count ≥ 2 then (some (ascii "Metadata Offset"), ctx)
      else (label, ctx)
    else if method_name = ascii "METHOD_GETPARAMETERVALUES" then
      if ctx.object_index = 1 then (some (ascii "Parameter Count"), ctx)
      else if ctx.meta_field_count ≥ 2 then (some (ascii "Metadata Offset"), ctx)
      else (label, ctx)
    else if method_name = ascii "METHOD_RESPONSE" then
      if ctx.object_index = 0 then (some (ascii "Error Code"), ctx)
      else if ctx.object_index = 1 then
        (some (ascii "Property Count"), { ctx with params_count := to_guint32 u64 })
      else if ctx.params_count > 0 ∧ ctx.params_seen < params_fields ctx then
        (label, { ctx with params_seen := ctx.params_seen + 1 })
      else if ctx.meta_field_count ≥ 2 then (some (ascii "Metadata Offset"), ctx)
      else (label, ctx)
    else if ctx.meta_field_count ≥ 2 then (some (ascii "Metadata Offset"), ctx)
    else (label, ctx)
  | none =>
    if ¬ ctx.seen_method ∧ ctx.object_index = 0 then
      (some (ascii "Session ID / Error Code"), ctx)
    else (label, ctx)

/-- The label of a string with text `str` and the updated context (lines 423-462). -/
def str_label (label : Option (List UInt8)) (str : List UInt8) (ctx : rbus_parse_context_t) :
    Option (List UInt8) × rbus_parse_context_t :=
  if ¬ ctx.seen_method ∧ str.take 7 = ascii "METHOD_" then
    (some (ascii "Method"),
      { ctx with seen_method := true, meta_field_count := 0, method_name := some str })
  else if ctx.seen_method ∧ ctx.meta_field_count < 2 then
    ((if ctx.meta_field_count = 0 then some (ascii "OpenTelemetry Parent")
      else if ctx.meta_field_count = 1 then some (ascii "OpenTelemetry State")
      else label),
      { ctx with meta_field_count := ctx.meta_field_count + 1 })
  else if ¬ ctx.seen_method ∧ ctx.params_count > 0 ∧ ctx.params_seen ≥ params_fields ctx then
    ((if str = ascii "TRUE" ∨ str = ascii "FALSE" then some (ascii "Commit") else label), ctx)
  else
    match ctx.method_name with
    | some method_name =>
      if method_name = ascii "METHOD_SETPARAMETERVALUES" then
        if ctx.object_index = 1 then (some (ascii "Component Name"), ctx)
        else if ctx.params_count > 0 ∧ ctx.params_seen < params_fields ctx then
          (label, { ctx with params_seen := ctx.params_seen + 1 })
        else (label, ctx)
      else if method_name = ascii "METHOD_GETPARAMETERVALUES" then
        if ctx.object_index = 0 then (some (ascii "Component Name"), ctx) else (label, ctx)
      else (label, ctx)
    | none =>
      if ¬ ctx.seen_method ∧ ctx.params_count > 0 ∧ ctx.params_seen < params_fields ctx then
        (label, { ctx with params_seen := ctx.params_seen + 1 })
      else (label, ctx)

/-- The test of one byte in the text check of a blob (lines 507-517). -/
def text_byte (byte : UInt8) : Bool :=
  !(byte < 0x20 && byte != 9 && byte != 10 && byte != 13) &&
  !(byte > 0x7E && byte < 0xC0 && (byte < 0x80 || byte > 0xBF))

/-- The text check of a blob (`is_utf8`, lines 497-519): a zero byte passes in the last
position only. -/
def is_utf8 : List UInt8 → Bool
  | [] => true
  | [byte] => byte == 0 || text_byte byte
  | byte :: rest => text_byte byte && is_utf8 rest

/-- The display of a blob (lines 480-547), after the context update. -/
def display_bin (label : Option (List UInt8)) (data : List UInt8) (length : Nat)
    (b : List UInt8) : hf_id × field_value :=
  if b = [0x00] ∨ b = [0x01] then
    (.hf_rbus_payload_boolean,
      with_label label (.boolean (b = [0x01]))
        (if b = [0x01] then ascii "true" else ascii "false"))
  else if is_utf8 b ∧ b.length > 0 then
    (.hf_rbus_payload_string, with_label label (.string (c_string b)) (c_string b))
  else
    (.hf_rbus_payload,
      with_label label (.bytes (data.take length))
        (ascii "[Binary, " ++ dec b.length ++ ascii " bytes]"))

/-- The display of a positive integer under its label (lines 373-393). -/
def display_uint (field_label : Option (List UInt8)) (data : List UInt8) (length : Nat)
    (u64 : Nat) : hf_id × field_value :=
  match try_val_to_str (to_guint32 u64) rbus_type_vals with
  | some type_name =>
    (.hf_rbus_payload,
      with_label field_label (.bytes (data.take length))
        (ascii type_name ++ ascii " (0x" ++ hex (to_guint32 u64) ++ ascii ")"))
  | none => (.hf_rbus_payload_uint64, with_label field_label (.uint u64) (dec u64))

/-- The display of a string with text `str` under its label (lines 464-470). -/
def display_str (field_label : Option (List UInt8)) (str : List UInt8) : field_value :=
  match field_label with
  | some l =>
    .format (.string str) (l ++ ascii ": " ++ (if str = [] then ascii "(empty)" else str))
  | none => .format_value (.string str) str

/-- The subtree of the item just added to `t` (`array_tree`, `map_tree`). -/
def child_tree (t : tree_id) : tree_id := .sub t 0

/-- The element loop of an array (lines 563-568); `disp` displays one element. -/
def display_array
    (disp : msgpack_object → Option (List UInt8) → rbus_parse_context_t →
      Option (List Emit × rbus_parse_context_t)) :
    List msgpack_object → (i : Nat) → rbus_parse_context_t →
      Option (List Emit × rbus_parse_context_t)
  | [], _, ctx => some ([], ctx)
  | elem :: rest, i, ctx =>
    match disp elem (some (ascii ("[" ++ toString i ++ "]"))) ctx with
    | none => none
    | some (es, ctx1) =>
      (display_array disp rest (i + 1) ctx1).map fun r => (es ++ r.1, r.2)

/-- Generate label from key (lines 589-599). -/
def key_label (key : msgpack_object) (i : Nat) : List UInt8 :=
  match key with
  | .str s => c_string s
  | .positive_integer u64 => dec u64
  | _ => ascii ("Key " ++ toString i)

/-- The pair loop of a map (lines 586-606); `disp` displays one key or value. -/
def display_map
    (disp : msgpack_object → Option (List UInt8) → rbus_parse_context_t →
      Option (List Emit × rbus_parse_context_t)) :
    List (msgpack_object × msgpack_object) → (i : Nat) → rbus_parse_context_t →
      Option (List Emit × rbus_parse_context_t)
  | [], _, ctx => some ([], ctx)
  | kv :: rest, i, ctx =>
    match disp kv.1 (some (ascii "Key")) ctx with
    | none => none
    | some (es1, ctx1) =>
      match disp kv.2 (some (key_label kv.1 i)) ctx1 with
      | none => none
      | some (es2, ctx2) =>
        (display_map disp rest (i + 1) ctx2).map fun r => (es1 ++ es2 ++ r.1, r.2)

/-- Helper to display a parsed msgpack_object recursively (`display_msgpack_object`, lines
292-615), in tree `t`; `data` is the buffer from `offset` on. Returns the items added and the
updated context. -/
def display_msgpack_object (fmt_f : Nat → List UInt8) (limit : Nat) :
    (fuel : Nat) → (t : tree_id) → (data : List UInt8) → (offset length : Nat) →
    (obj : msgpack_object) → (depth : Nat) → (label : Option (List UInt8)) →
    rbus_parse_context_t → Option (List Emit × rbus_parse_context_t)
  | 0, t, _, offset, length, _, depth, _, ctx =>
    if depth > limit then some ([depth_exceeded limit t offset length], ctx) else none
  | fuel + 1, t, data, offset, length, obj, depth, label, ctx =>
    if depth > limit then some ([depth_exceeded limit t offset length], ctx)
    else
      match obj with
      | .nil =>
        some ([.proto_item t .hf_rbus_payload offset length
          (with_label label (.bytes (data.take length)) (ascii "null"))], ctx)
      | .boolean b =>
        some ([.proto_item t .hf_rbus_payload_boolean offset length
          (with_label label (.boolean b) (if b then ascii "true" else ascii "false"))], ctx)
      | .positive_integer u64 =>
        let l := uint_label label u64 ctx
        let shown := display_uint l.1 data length u64
        some ([.proto_item t shown.1 offset length shown.2], l.2)
      | .negative_integer i64 =>
        some ([.proto_item t .hf_rbus_payload_int64 offset length
          (with_label label (.int i64) (ascii (toString i64)))], ctx)
      | .float32 f64 =>
        some ([.proto_item t .hf_rbus_payload_double offset length
          (with_label label (.double f64) (fmt_f f64))], ctx)
      | .float64 f64 =>
        some ([.proto_item t .hf_rbus_payload_double offset length
          (with_label label (.double f64) (fmt_f f64))], ctx)
      | .str s =>
        let l := str_label label (c_string s) ctx
        some ([.proto_item t .hf_rbus_payload_string offset length
          (display_str l.1 (c_string s))], l.2)
      | .bin b =>
        let ctx1 : rbus_parse_context_t :=
          if ¬ ctx.seen_method ∧ ctx.params_count > 0 ∧ ctx.params_seen < params_fields ctx then
            { ctx with params_seen := ctx.params_seen + 1 }
          else ctx
        let shown := display_bin label data length b
        some ([.proto_item t shown.1 offset length shown.2], ctx1)
      | .array items =>
        (display_array
          (fun elem elem_label c =>
            display_msgpack_object fmt_f limit fuel (child_tree t) data offset 1 elem
              (depth + 1) elem_label c)
          items 0 ctx).map fun r =>
          (.proto_item t .hf_rbus_payload offset length
              (with_label label (.bytes (data.take length))
                (ascii "Array [" ++ dec items.length ++ ascii " items]")) :: r.1, r.2)
      | .map pairs =>
        (display_map
          (fun elem elem_label c =>
            display_msgpack_object fmt_f limit fuel (child_tree t) data offset 1 elem
              (depth + 1) elem_label c)
          pairs 0 ctx).map fun r =>
          (.proto_item t .hf_rbus_payload offset length
              (with_label label (.bytes (data.take length))
                (ascii "Map [" ++ dec pairs.length ++ ascii " pairs]")) :: r.1, r.2)
      | .ext _ _ =>
        some ([.proto_item t .hf_rbus_payload offset length (.bytes (data.take length))], ctx)

/-- Decode one MessagePack value from the `max_len = data.length` bytes at `offset` and
display it (`dissect_msgpack_value`, lines 617-649). Returns the items added, the number of
bytes consumed (0 on failure) and the updated context. -/
def dissect_msgpack_value (unpack : List UInt8 → Nat → Option (msgpack_object × Nat))
    (fmt_f : Nat → List UInt8) (limit : Nat) (t : tree_id) (data : List UInt8)
    (offset depth : Nat) (label : Option (List UInt8)) (ctx : rbus_parse_context_t) :
    Option (List Emit × Nat × rbus_parse_context_t) :=
  if depth > limit then some ([depth_exceeded limit t offset data.length], 0, ctx)
  else if data.length < 1 then some ([], 0, ctx)
  else
    match unpack data 0 with
    | none => some ([], 0, ctx)
    | some (obj, off) =>
      (display_msgpack_object fmt_f limit (limit + 1) t data offset off obj depth label
        ctx).map fun r => (r.1, off, r.2)

/-- The environment of `dissect_rbus` made of the two payload decoders of this file, with
the library decoder `unpack` and the preferences `pref_msgpack_depth_limit` and
`pref_msgpack_object_limit`. -/
def rbus_env (unpack : List UInt8 → Nat → Option (msgpack_object × Nat))
    (fmt_f : Nat → List UInt8) (depth_limit object_limit : Nat) : payload_env :=
  ⟨fun data offset => (parse_rbus_payload unpack fmt_f data offset).getD ([], 0),
    fun data offset depth label ctx =>
      (dissect_msgpack_value unpack fmt_f depth_limit .payload_tree data offset depth
        (label.map ascii) ctx).getD ([], 0, ctx),
    object_limit⟩

/-! ## Observations on typed values, triplets and the generic decode -/

/-- A decoded value of a shape the Typed-Value Renderer does not recognise: neither a
string, a blob, an integer, a float nor a boolean. -/
def unrecognised : msgpack_object → Bool
  | .nil => true
  | .array _ => true
  | .map _ => true
  | .ext _ _ => true
  | _ => false

/-- The items of one parameter or property triplet of the SET and RESPONSE layouts whose name
is the string `s`, whose type is `type_obj` and whose value is `value_obj`: the group, the
name, the type when it is a positive integer, the typed value and the combined field. -/
def triplet_items (fmt_f : Nat → List UInt8) (first : List UInt8) (offset : Nat)
    (hf_group hf_name hf_type hf_namevalue : hf_id) (is_property : Bool) (p : Nat)
    (s : List UInt8) (type_obj value_obj : msgpack_object) : List Emit :=
  [.proto_item .payload_tree hf_group offset 1 .none,
   .proto_item (group_tree .payload_tree p) hf_name offset 1 (.string (c_string s)),
   .append_string ": %s" (c_string s)] ++
  (match type_obj with
    | .positive_integer u64 =>
      [Emit.proto_item (group_tree .payload_tree p) hf_type offset 1 (.uint (to_guint32 u64))]
    | _ => []) ++
  (add_typed_value fmt_f first (group_tree .payload_tree p) offset value_obj is_property).1 ++
  [.proto_item (group_tree .payload_tree p) hf_namevalue offset 1
    (.string (c_string s ++ ascii "=" ++
      (add_typed_value fmt_f first (group_tree .payload_tree p) offset value_obj
        is_property).2))]

/-- The items of one property triplet of an event publication whose name is the string `s`. -/
def event_property_items (fmt_f : Nat → List UInt8) (first : List UInt8) (offset p : Nat)
    (s : List UInt8) (type_obj value_obj : msgpack_object) : List Emit :=
  [.proto_item data_tree .hf_rbus_object_property offset 1 .none,
   .append_string ": %s" (c_string s),
   .proto_item (group_tree data_tree p) .hf_rbus_object_property_name offset 1
     (.string (c_string s)),
   .proto_item (group_tree data_tree p) .hf_rbus_property_type offset 1
     (.uint (match type_obj with
       | .positive_integer u64 => to_guint32 u64
       | _ => 0))] ++
  (add_typed_value fmt_f first (group_tree data_tree p) offset value_obj true).1 ++
  [.proto_item (group_tree data_tree p) .hf_rbus_object_property_namevalue offset 1
    (.string (c_string s ++ ascii "=" ++
      (add_typed_value fmt_f first (group_tree data_tree p) offset value_obj true).2))]

/-- The layout of an event publication from index `idx` on, after the flags: the property
data (when `has_event_data`), interval, duration and component id. -/
def event_tail (fmt_f : Nat → List UInt8) (first : List UInt8) (objs : List msgpack_object)
    (offset : Nat) (has_event_data : Bool) (idx : Nat) : Option (List Emit) := do
  let props ← parse_event_data fmt_f first objs offset has_event_data idx
  let interval ← field_uint objs objs.length .payload_tree .hf_rbus_interval offset props.2
  let duration ← field_uint objs objs.length .payload_tree .hf_rbus_duration offset interval.2
  let component ← field_int objs objs.length .payload_tree .hf_rbus_component_id offset
    duration.2
  pure (props.1 ++ interval.1 ++ duration.1 ++ component.1)

/-- The parsing context at the start of the generic fallback (line 1528). -/
def initial_ctx : rbus_parse_context_t := ⟨0, false, 0, none, 0, 0⟩

/-- A blob of two control bytes, which is no text. -/
def control_blob : List UInt8 := [0x01, 0x02]

/-- A SET sequence whose parameter name is the integer 42. -/
def set_integer_name : List msgpack_object :=
  [.positive_integer 1, text "Comp1", .positive_integer 0, .positive_integer 1,
   .positive_integer 42, .positive_integer 0x500, .bin [0x01], text "TRUE",
   text "METHOD_SETPARAMETERVALUES", text "", text "", .positive_integer 0]

/-- A SET sequence with parameter count 1 whose name and type are directly followed by the
method marker: the triplet has no value. -/
def set_without_value : List msgpack_object :=
  [.positive_integer 1, text "Comp1", .positive_integer 0, .positive_integer 1,
   text "Device.X.Enable", .positive_integer 0x500,
   text "METHOD_SETPARAMETERVALUES", text "", text "", .positive_integer 0]

/-- The text appended to the payload item after the generic fallback (lines 1569-1574). -/
def fallback_text (object_count total_consumed : Nat) : String :=
  if total_consumed > 0 then
    " [" ++ toString object_count ++ " MessagePack object" ++
      (if object_count = 1 then "" else "s") ++ "]"
  else " [Not valid MessagePack]"

/-- An event publication with event data (one property) and without filter. -/
def event_example : List msgpack_object :=
  [text "Device.Event!", .positive_integer 5, .positive_integer 1, text "x",
   .positive_integer 0, .positive_integer 1, text "name", .positive_integer 0x50E, text "val",
   .positive_integer 10, .positive_integer 20, .positive_integer 3]

/-- The values directly nested in a value: the elements of an array, the keys and values of
a map. -/
def children : msgpack_object → List msgpack_object
  | .array items => items
  | .map pairs => (pairs.map fun kv => [kv.1, kv.2]).flatten
  | _ => []

/-- The number of nodes of the value tree of `obj` at nesting depth exactly `k` below it
(`obj` itself is at depth 0). -/
def nodes_at : Nat → msgpack_object → Nat
  | 0, _ => 1
  | k + 1, obj => ((children obj).map (nodes_at k)).sum

/-- The number of nodes of the value tree of `obj` at nesting depth at most `k` below it. -/
def nodes_upto : Nat → msgpack_object → Nat
  | 0, _ => 1
  | k + 1, obj => 1 + ((children obj).map (nodes_upto k)).sum

/-- The number of items in `es`: the values shown. -/
def value_items (es : List Emit) : Nat :=
  es.countP fun e =>
    match e with
    | .proto_item _ _ _ _ _ => true
    | _ => false

/-- The number of annotations of the MessagePack limits in `es`. -/
def limit_notes (es : List Emit) : Nat :=
  es.countP fun e =>
    match e with
    | .expert_format _ .ei_rbus_msgpack_depth_exceeded _ _ _ => true
    | _ => false

/-- The annotation added when the object limit is reached (lines 1560-1565). -/
def object_limit_reached (limit payload_offset end_offset : Nat) : Emit :=
  .expert_format .payload_tree .ei_rbus_msgpack_depth_exceeded payload_offset
    (end_offset - payload_offset)
    ("MessagePack object limit (" ++ toString limit ++ ") reached; remaining " ++
      toString (end_offset - payload_offset) ++ " bytes not decoded")

/-- The generic fallback loop without the object limit: decoding goes on until the payload is
exhausted or a value fails to decode. What `fallback_loop` is compared with. -/
def fallback_decode (env : payload_env) (tvb : tvbuff_t) (end_offset : Nat) :
    (fuel : Nat) → (payload_offset object_count total_consumed : Nat) →
    rbus_parse_context_t → List Emit × Nat × Nat
  | 0, _, object_count, total_consumed, _ => ([], object_count, total_consumed)
  | fuel + 1, payload_offset, object_count, total_consumed, parse_ctx =>
    if payload_offset < end_offset then
      let available := tvb_captured_length_remaining tvb payload_offset
      if available = 0 then ([], object_count, total_consumed)
      else
        let max_len :=
          if end_offset - payload_offset < available then end_offset - payload_offset
          else available
        let r := env.dissect_msgpack_value ((tvb.drop payload_offset).take max_len)
          payload_offset 0 none { parse_ctx with object_index := object_count }
        let consumed_bytes := r.2.1
        if consumed_bytes = 0 then
          (r.1 ++ [.proto_item .payload_tree .hf_rbus_payload payload_offset
              (end_offset - payload_offset)
              (.bytes ((tvb.drop payload_offset).take (end_offset - payload_offset)))],
            object_count, total_consumed)
        else
          let rest := fallback_decode env tvb end_offset fuel (payload_offset + consumed_bytes)
            (object_count + 1) (total_consumed + consumed_bytes) r.2.2
          (r.1 ++ rest.1, rest.2)
    else ([], object_count, total_consumed)

/-- A payload of two bytes: the MessagePack encoding of the integers 7 and 8. -/
def two_integers : List UInt8 := [0x07, 0x08]

/-! ## Observations on the limits, the iteration of the fallback loop and the text test -/

/-- The 36-byte header example carrying the version `RBUS_PROTOCOL_VERSION` of
rbus-protocol.h (1): opening marker 0xAAAA, header_length 36, payload_length 0, topic "test",
closing marker 0xAAAA. -/
def version_one : tvbuff_t :=
  [0xAA, 0xAA, 0, 1, 0, 36, 0, 0, 0, 1, 0, 0, 0, 1, 0, 0, 0, 0, 0, 0, 0, 0,
   0, 0, 0, 4, 0x74, 0x65, 0x73, 0x74, 0, 0, 0, 0, 0xAA, 0xAA]

/-- A complete 32-byte message whose topic_length field is 1024 (`RBUS_MAX_TOPIC_LENGTH`) and
whose reply_topic_length field is 0: header_length 32, payload_length 0, closing marker
0xAAAA right after the two length fields. -/
def topic_at_bound : tvbuff_t :=
  [0xAA, 0xAA, 0, 2, 0, 32, 0, 0, 0, 1, 0, 0, 0, 1, 0, 0, 0, 0, 0, 0, 0, 0,
   0, 0, 4, 0, 0, 0, 0, 0, 0xAA, 0xAA]

/-- The item of a topic string of `n` bytes at `start` under field `hf`. -/
def topic_item (hf : hf_id) (tvb : tvbuff_t) (start n : Nat) : Emit :=
  .proto_item .header_tree hf start n (.string ((tvb.drop start).take n))

/-- The byte counts by which the iterations of the generic fallback loop advance
`payload_offset`, in order, following the control flow of `fallback_loop`: one entry for each
time the loop body is entered, 0 for an iteration that stops the loop without advancing. -/
def fallback_steps (env : payload_env) (tvb : tvbuff_t) (end_offset : Nat) :
    (fuel : Nat) → (payload_offset object_count : Nat) → rbus_parse_context_t → List Nat
  | 0, _, _, _ => []
  | fuel + 1, payload_offset, object_count, parse_ctx =>
    if payload_offset < end_offset then
      let available := tvb_captured_length_remaining tvb payload_offset
      if available = 0 then [0]
      else
        let max_len :=
          if end_offset - payload_offset < available then end_offset - payload_offset
          else available
        let r := env.dissect_msgpack_value ((tvb.drop payload_offset).take max_len)
          payload_offset 0 none { parse_ctx with object_index := object_count }
        let consumed_bytes := r.2.1
        if consumed_bytes = 0 then [0]
        else if object_count + 1 ≥ env.pref_msgpack_object_limit then [consumed_bytes]
        else
          consumed_bytes :: fallback_steps env tvb end_offset fuel
            (payload_offset + consumed_bytes) (object_count + 1) r.2.2
    else []

/-- A decoder of single bytes, used as a sample of the library decoder: a non-empty slice
decodes to the integer held by its first byte, with one byte consumed. -/
def byte_unpack (data : List UInt8) (off : Nat) : Option (msgpack_object × Nat) :=
  (data.drop off).head?.map fun b => (.positive_integer b.toNat, off + 1)

/-- A byte that the text test accepts at any position, as the specification lists them:
printable ASCII (0x20 to 0x7E), tab, newline, carriage return, or a byte from 0x80 on. -/
def text_char (b : UInt8) : Bool :=
  (0x20 ≤ b && b ≤ 0x7E) || b == 0x09 || b == 0x0A || b == 0x0D || 0x80 ≤ b

/-- The text test of the specification on a blob: it is non-empty and every byte is a
`text_char`, or is a zero byte at the last position. -/
def text_blob (b : List UInt8) : Prop :=
  b ≠ [] ∧ ∀ i : Fin b.length, text_char (b.get i) = true ∨ (b.get i = 0 ∧ i.val + 1 = b.length)

instance (b : List UInt8) : Decidable (text_blob b) := by
  unfold text_blob; infer_instance

/-- The text of a blob with a zero byte at the last position dropped. -/
def rendered_text (b : List UInt8) : List UInt8 :=
  if b.getLast? = some 0 then b.dropLast else b

/-- The number of group items of field `hf` in `es`. -/
def group_count (hf : hf_id) (es : List Emit) : Nat := (field_values hf es).length

/-! ## Lemmas on the buffer reads and the header stages -/

theorem tvb_get_ptr_eq_some {tvb : tvbuff_t} {off n : Nat} {bs : List UInt8} :
    tvb_get_ptr tvb off n = some bs ↔ off + n ≤ tvb.length ∧ bs = (tvb.drop off).take n := by
  unfold tvb_get_ptr
  split <;> simp_all [eq_comm]

theorem tvb_get_be_eq_some {tvb : tvbuff_t} {off n v : Nat} :
    tvb_get_be tvb off n = some v ↔
      off + n ≤ tvb.length ∧ v = be_value ((tvb.drop off).take n) := by
  unfold tvb_get_be tvb_get_ptr
  split <;> simp_all [eq_comm]

theorem tvb_get_be_of_le {tvb : tvbuff_t} {off n : Nat} (h : off + n ≤ tvb.length) :
    tvb_get_be tvb off n = some (be_value ((tvb.drop off).take n)) :=
  tvb_get_be_eq_some.mpr ⟨h, rfl⟩

theorem tvb_get_be_eq_none {tvb : tvbuff_t} {off n : Nat} :
    tvb_get_be tvb off n = none ↔ tvb.length < off + n := by
  unfold tvb_get_be tvb_get_ptr
  split <;> simp_all

theorem add_item_ret_uint_of_le {t : tree_id} {hf : hf_id} {tvb : tvbuff_t} {off n : Nat}
    (k : Nat → result) (h : off + n ≤ tvb.length) :
    add_item_ret_uint t hf tvb off n k =
      (k (be_value ((tvb.drop off).take n))).after [uint_item t hf tvb off n] := by
  simp [add_item_ret_uint, tvb_get_be_of_le h, uint_item]

theorem after_after (a b : List Emit) (r : result) :
    (r.after b).after a = r.after (a ++ b) := by
  simp [result.after]

theorem dissect_rbus_fixed (env : payload_env) (tvb : tvbuff_t) (hlen : 22 ≤ tvb.length)
    (hcomplete : (be_value ((tvb.drop 4).take 2) + be_value ((tvb.drop 18).take 4)) % 2 ^ 32
      ≤ tvb.length) :
    dissect_rbus env tvb =
      (if be_value ((tvb.drop 4).take 2) > tvb.length ∨
          be_value ((tvb.drop 18).take 4) > RBUS_MAX_PAYLOAD_SIZE then
        ⟨[.expert .ei_rbus_invalid_length], .consumed tvb.length⟩
       else dissect_rbus_topic env tvb (be_value ((tvb.drop 10).take 4))
         (be_value ((tvb.drop 14).take 4)) (be_value ((tvb.drop 18).take 4)) 22).after
        (fixed_header_emits tvb) := by
  have h4 : tvb_get_ntohs tvb 4 = some (be_value ((tvb.drop 4).take 2)) :=
    tvb_get_be_of_le (by omega)
  have h18 : tvb_get_ntohl tvb 18 = some (be_value ((tvb.drop 18).take 4)) :=
    tvb_get_be_of_le (by omega)
  have h10 : tvb_get_be tvb 10 4 = some (be_value ((tvb.drop 10).take 4)) :=
    tvb_get_be_of_le (by omega)
  unfold dissect_rbus
  simp only [tvb_captured_length, h4, h18]
  rw [if_neg (by omega), if_neg (by omega), if_neg (by omega)]
  rw [add_item_ret_uint_of_le _ (by omega), add_item_ret_uint_of_le _ (by omega),
    add_item_ret_uint_of_le _ (by omega), add_item_ret_uint_of_le _ (by omega)]
  simp only [add_bitmask_ret_uint64, h10]
  rw [add_item_ret_uint_of_le _ (by omega), add_item_ret_uint_of_le _ (by omega)]
  simp [result.after, fixed_header_emits, uint_item]

theorem add_item_ret_string_of_le {t : tree_id} {hf : hf_id} {tvb : tvbuff_t} {off n : Nat}
    (k : List UInt8 → result) (h : off + n ≤ tvb.length) :
    add_item_ret_string t hf tvb off n k =
      (k ((tvb.drop off).take n)).after
        [.proto_item t hf off n (.string ((tvb.drop off).take n))] := by
  simp [add_item_ret_string, tvb_get_ptr, h]

theorem dissect_rbus_topic_eq (env : payload_env) (tvb : tvbuff_t) (pl tl : Nat)
    (htl : tvb_get_ntohl tvb 22 = some tl) (hin : 26 + topic_skip tl ≤ tvb.length) :
    dissect_rbus_topic env tvb (be_value ((tvb.drop 10).take 4))
        (be_value ((tvb.drop 14).take 4)) pl 22 =
      (dissect_rbus_reply_topic env tvb pl (26 + topic_skip tl)).after (topic_emits tvb tl) := by
  obtain ⟨h26, rfl⟩ := tvb_get_be_eq_some.mp htl
  unfold dissect_rbus_topic
  rw [add_item_ret_uint_of_le _ h26]
  by_cases hc : be_value ((tvb.drop 22).take 4) > 0 ∧
      be_value ((tvb.drop 22).take 4) < RBUS_MAX_TOPIC_LENGTH
  · have hs : topic_skip (be_value ((tvb.drop 22).take 4)) = be_value ((tvb.drop 22).take 4) := by
      simp [topic_skip, hc]
    rw [hs] at hin
    rw [if_pos hc, add_item_ret_string_of_le _ (by omega)]
    simp [result.after, topic_emits, hc, hs]
  · have hs : topic_skip (be_value ((tvb.drop 22).take 4)) = 0 := by
      simp only [topic_skip, if_neg hc]
    rw [if_neg hc]
    simp [result.after, topic_emits, hc, hs]

theorem dissect_rbus_reply_topic_eq (env : payload_env) (tvb : tvbuff_t) (pl off rtl : Nat)
    (hrtl : tvb_get_ntohl tvb off = some rtl) (hin : off + 4 + topic_skip rtl ≤ tvb.length) :
    dissect_rbus_reply_topic env tvb pl off =
      (dissect_rbus_roundtrip env tvb pl (off + 4 + topic_skip rtl)).after
        (reply_topic_emits tvb off rtl) := by
  obtain ⟨h4, rfl⟩ := tvb_get_be_eq_some.mp hrtl
  unfold dissect_rbus_reply_topic
  rw [add_item_ret_uint_of_le _ h4]
  by_cases hc : be_value ((tvb.drop off).take 4) > 0 ∧
      be_value ((tvb.drop off).take 4) < RBUS_MAX_TOPIC_LENGTH
  · have hs : topic_skip (be_value ((tvb.drop off).take 4)) = be_value ((tvb.drop off).take 4) := by
      simp [topic_skip, hc]
    rw [hs] at hin
    rw [if_pos hc, add_item_ret_string_of_le _ (by omega)]
    simp [result.after, reply_topic_emits, hc, hs]
  · have hs : topic_skip (be_value ((tvb.drop off).take 4)) = 0 := by
      simp only [topic_skip, if_neg hc]
    rw [if_neg hc]
    simp [result.after, reply_topic_emits, hc, hs]

theorem dissect_rbus_closing_eq (env : payload_env) (tvb : tvbuff_t) (pl rem p : Nat)
    (hp : p + 2 ≤ tvb.length) (hrem : 2 ≤ rem) :
    dissect_rbus_closing env tvb pl rem p =
      (dissect_rbus_payload env tvb (p + 2) pl).after (closing_emits tvb p) := by
  unfold dissect_rbus_closing
  rw [if_pos hrem]
  have : tvb_get_ntohs tvb p = some (be_value ((tvb.drop p).take 2)) := tvb_get_be_of_le hp
  simp only [this]
  simp [result.after, closing_emits, uint_item]

theorem dissect_rbus_roundtrip_eq (env : payload_env) (tvb : tvbuff_t) (pl o : Nat) :
    dissect_rbus_roundtrip env tvb pl o =
      (dissect_rbus_payload env tvb (payload_start tvb o) pl).after (trailer_emits tvb o) := by
  unfold dissect_rbus_roundtrip
  by_cases h22 : 22 ≤ tvb_captured_length_remaining tvb o
  · have hlen : o + 22 ≤ tvb.length := by
      unfold tvb_captured_length_remaining at h22; omega
    have h2 : 2 ≤ tvb_captured_length_remaining tvb o := by omega
    have hread : tvb_get_ntohs tvb (o + 20) = some (be_value ((tvb.drop (o + 20)).take 2)) :=
      tvb_get_be_of_le (by omega)
    simp only [ge_iff_le, h22, if_true, hread]
    by_cases hm : be_value ((tvb.drop (o + 20)).take 2) = 0xAAAA
    · have hl : roundtrip_lookahead tvb o := ⟨h22, by rw [hread, hm]⟩
      rw [if_pos hm]
      rw [add_item_ret_uint_of_le _ (by omega), add_item_ret_uint_of_le _ (by omega),
        add_item_ret_uint_of_le _ (by omega), add_item_ret_uint_of_le _ (by omega),
        add_item_ret_uint_of_le _ (by omega),
        dissect_rbus_closing_eq env tvb pl _ (o + 20) (by omega) h2]
      simp [result.after, trailer_emits, payload_start, closing_offset, hl, h2, roundtrip_emits]
    · have hl : ¬ roundtrip_lookahead tvb o := by
        rintro ⟨-, h⟩
        rw [hread] at h
        exact hm (Option.some.inj h)
      rw [if_neg hm, dissect_rbus_closing_eq env tvb pl _ o (by omega) h2]
      simp [result.after, trailer_emits, payload_start, closing_offset, hl, h2]
  · have hl : ¬ roundtrip_lookahead tvb o := fun h => h22 h.1
    simp only [ge_iff_le, h22, if_false]
    by_cases h2 : 2 ≤ tvb_captured_length_remaining tvb o
    · have hlen : o + 2 ≤ tvb.length := by
        unfold tvb_captured_length_remaining at h2; omega
      rw [dissect_rbus_closing_eq env tvb pl _ o hlen h2]
      simp [result.after, trailer_emits, payload_start, closing_offset, hl, h2]
    · unfold dissect_rbus_closing
      simp [result.after, trailer_emits, payload_start, h2, hl]

theorem dissect_rbus_factor (env : payload_env) (tvb : tvbuff_t) {hl pl tl rtl : Nat}
    (h : header_parsed tvb hl pl tl rtl) :
    dissect_rbus env tvb =
      (dissect_rbus_payload env tvb (payload_start tvb (reply_end tl rtl)) pl).after
        (header_emits tvb tl rtl) := by
  obtain ⟨_, rfl⟩ := tvb_get_be_eq_some.mp h.header_length
  obtain ⟨_, rfl⟩ := tvb_get_be_eq_some.mp h.payload_length
  rw [dissect_rbus_fixed env tvb h.captured h.complete]
  rw [if_neg (by have := h.valid_header_length; have := h.valid_payload_length; omega)]
  rw [dissect_rbus_topic_eq env tvb _ tl h.topic_length h.topic]
  rw [dissect_rbus_reply_topic_eq env tvb _ _ rtl h.reply_topic_length
    (by have := h.reply_topic; omega)]
  rw [dissect_rbus_roundtrip_eq]
  have : 26 + topic_skip tl + 4 + topic_skip rtl = reply_end tl rtl := by
    unfold reply_end; omega
  rw [this]
  simp [result.after, header_emits]

@[simp] theorem after_out (es : List Emit) (r : result) : (r.after es).out = r.out := rfl

@[simp] theorem after_emitted (es : List Emit) (r : result) :
    (r.after es).emitted = es ++ r.emitted := rfl

theorem tvb_get_ptr_of_le {tvb : tvbuff_t} {off n : Nat} (h : off + n ≤ tvb.length) :
    tvb_get_ptr tvb off n = some ((tvb.drop off).take n) := by
  simp [tvb_get_ptr, h]

theorem dissect_rbus_payload_bytes_out (env : payload_env) (tvb : tvbuff_t) (q pl n : Nat)
    (hn : 0 < n) (hle : q + n ≤ tvb.length) :
    (dissect_rbus_payload_bytes env tvb q pl n).out = .consumed (q + pl) := by
  have h1 : tvb_get_uint8 tvb q = some (be_value ((tvb.drop q).take 1)) :=
    tvb_get_be_of_le (by omega)
  unfold dissect_rbus_payload_bytes
  simp only [tvb_get_ptr_of_le hle, h1]
  split
  · rfl
  · split <;> rfl

theorem dissect_rbus_payload_out (env : payload_env) (tvb : tvbuff_t) (q pl : Nat) :
    (dissect_rbus_payload env tvb q pl).out =
      .consumed (if 0 < pl ∧ q < tvb.length then q + pl else q) := by
  unfold dissect_rbus_payload tvb_captured_length_remaining
  by_cases hpl : pl > 0
  · by_cases hq : q < tvb.length
    · simp only [hpl, if_true]
      rw [if_pos (by split <;> omega), after_out,
        dissect_rbus_payload_bytes_out env tvb q pl _ (by split <;> omega) (by split <;> omega)]
      simp [hpl, hq]
    · simp only [hpl, if_true]
      rw [if_neg (by split <;> omega)]
      simp [hq]
  · simp [hpl]

theorem dissect_rbus_out_of_parsed (env : payload_env) (tvb : tvbuff_t) {hl pl tl rtl : Nat}
    (h : header_parsed tvb hl pl tl rtl) :
    (dissect_rbus env tvb).out =
      .consumed (if 0 < pl ∧ payload_start tvb (reply_end tl rtl) < tvb.length then
        payload_start tvb (reply_end tl rtl) + pl else payload_start tvb (reply_end tl rtl)) := by
  rw [dissect_rbus_factor env tvb h, after_out, dissect_rbus_payload_out]

theorem add_item_ret_uint_out_of_lt {t : tree_id} {hf : hf_id} {tvb : tvbuff_t} {off n : Nat}
    (k : Nat → result) (h : tvb.length < off + n) :
    (add_item_ret_uint t hf tvb off n k).out = .exception := by
  simp [add_item_ret_uint, tvb_get_be_eq_none.mpr h]

theorem add_item_ret_string_out_of_lt {t : tree_id} {hf : hf_id} {tvb : tvbuff_t}
    {off n : Nat} (k : List UInt8 → result) (h : tvb.length < off + n) :
    (add_item_ret_string t hf tvb off n k).out = .exception := by
  have : ¬ off + n ≤ tvb.length := by omega
  simp [add_item_ret_string, tvb_get_ptr, this]

theorem topic_skip_pos {n : Nat} (h : topic_skip n ≠ 0) :
    (n > 0 ∧ n < RBUS_MAX_TOPIC_LENGTH) ∧ topic_skip n = n := by
  unfold topic_skip at *
  split at h
  · rename_i hc
    exact ⟨hc, by simp [hc]⟩
  · exact absurd rfl h

theorem topic_skip_of_not {n : Nat} (h : ¬ (n > 0 ∧ n < RBUS_MAX_TOPIC_LENGTH)) :
    topic_skip n = 0 := by
  simp only [topic_skip, if_neg h]

theorem topic_skip_of {n : Nat} (h : n > 0 ∧ n < RBUS_MAX_TOPIC_LENGTH) :
    topic_skip n = n := by
  simp only [topic_skip, if_pos h]

theorem dissect_rbus_reply_topic_out_of_not (env : payload_env) (tvb : tvbuff_t) (pl off : Nat)
    (h : ¬ ∃ rtl, tvb_get_ntohl tvb off = some rtl ∧ off + 4 + topic_skip rtl ≤ tvb.length) :
    (dissect_rbus_reply_topic env tvb pl off).out = .exception := by
  unfold dissect_rbus_reply_topic
  by_cases h4 : off + 4 ≤ tvb.length
  · rw [add_item_ret_uint_of_le _ h4, after_out]
    have hr : tvb_get_ntohl tvb off = some (be_value ((tvb.drop off).take 4)) :=
      tvb_get_be_of_le h4
    have hlt : ¬ off + 4 + topic_skip (be_value ((tvb.drop off).take 4)) ≤ tvb.length :=
      fun hle => h ⟨_, hr, hle⟩
    have hne : topic_skip (be_value ((tvb.drop off).take 4)) ≠ 0 := by
      intro h0; rw [h0] at hlt; omega
    obtain ⟨hc, hs⟩ := topic_skip_pos hne
    rw [if_pos hc]
    exact add_item_ret_string_out_of_lt _ (by omega)
  · exact add_item_ret_uint_out_of_lt _ (by omega)

theorem dissect_rbus_topic_out_of_not (env : payload_env) (tvb : tvbuff_t)
    (flags cd pl : Nat) (h : ¬ topic_fields_captured tvb) :
    (dissect_rbus_topic env tvb flags cd pl 22).out = .exception := by
  unfold dissect_rbus_topic
  by_cases h4 : 22 + 4 ≤ tvb.length
  · rw [add_item_ret_uint_of_le _ h4, after_out]
    have hr : tvb_get_ntohl tvb 22 = some (be_value ((tvb.drop 22).take 4)) :=
      tvb_get_be_of_le h4
    by_cases hc : be_value ((tvb.drop 22).take 4) > 0 ∧
        be_value ((tvb.drop 22).take 4) < RBUS_MAX_TOPIC_LENGTH
    · rw [if_pos hc]
      by_cases hin : 22 + 4 + be_value ((tvb.drop 22).take 4) ≤ tvb.length
      · rw [add_item_ret_string_of_le _ hin, after_out, after_out]
        apply dissect_rbus_reply_topic_out_of_not
        rintro ⟨rtl, hrtl, hle⟩
        apply h
        refine ⟨_, rtl, hr, ?_, ?_, ?_⟩
        · rw [topic_skip_of hc]; omega
        · rw [topic_skip_of hc]
          have : 26 + be_value ((tvb.drop 22).take 4) =
            22 + 4 + be_value ((tvb.drop 22).take 4) := by omega
          rw [this]; exact hrtl
        · rw [topic_skip_of hc]; omega
      · exact add_item_ret_string_out_of_lt _ (by omega)
    · rw [if_neg hc]
      apply dissect_rbus_reply_topic_out_of_not
      rintro ⟨rtl, hrtl, hle⟩
      apply h
      refine ⟨_, rtl, hr, ?_, ?_, ?_⟩
      · rw [topic_skip_of_not hc]; omega
      · rw [topic_skip_of_not hc]; exact hrtl
      · rw [topic_skip_of_not hc]; omega
  · exact add_item_ret_uint_out_of_lt _ (by omega)

theorem dissect_rbus_out_of_not_captured (env : payload_env) (tvb : tvbuff_t) {hl pl : Nat}
    (hlen : 22 ≤ tvb.length) (hhl : tvb_get_ntohs tvb 4 = some hl)
    (hpl : tvb_get_ntohl tvb 18 = some pl) (hcomplete : (hl + pl) % 2 ^ 32 ≤ tvb.length)
    (hvalid : hl ≤ tvb.length ∧ pl ≤ RBUS_MAX_PAYLOAD_SIZE)
    (h : ¬ topic_fields_captured tvb) :
    (dissect_rbus env tvb).out = .exception := by
  obtain ⟨_, rfl⟩ := tvb_get_be_eq_some.mp hhl
  obtain ⟨_, rfl⟩ := tvb_get_be_eq_some.mp hpl
  rw [dissect_rbus_fixed env tvb hlen hcomplete, after_out, if_neg (by omega)]
  exact dissect_rbus_topic_out_of_not env tvb _ _ _ h

theorem header_parsed_of_captured {tvb : tvbuff_t} {hl pl : Nat}
    (hlen : 22 ≤ tvb.length) (hhl : tvb_get_ntohs tvb 4 = some hl)
    (hpl : tvb_get_ntohl tvb 18 = some pl) (hcomplete : (hl + pl) % 2 ^ 32 ≤ tvb.length)
    (hvalid : hl ≤ tvb.length ∧ pl ≤ RBUS_MAX_PAYLOAD_SIZE)
    (h : topic_fields_captured tvb) :
    ∃ tl rtl, header_parsed tvb hl pl tl rtl := by
  obtain ⟨tl, rtl, h1, h2, h3, h4⟩ := h
  exact ⟨tl, rtl, hlen, hhl, hpl, hcomplete, hvalid.1, hvalid.2, h1, h2, h3, h4⟩

theorem dissect_rbus_invalid (env : payload_env) (tvb : tvbuff_t) {hl pl : Nat}
    (hlen : 22 ≤ tvb.length) (hhl : tvb_get_ntohs tvb 4 = some hl)
    (hpl : tvb_get_ntohl tvb 18 = some pl) (hcomplete : (hl + pl) % 2 ^ 32 ≤ tvb.length)
    (hinvalid : hl > tvb.length ∨ pl > RBUS_MAX_PAYLOAD_SIZE) :
    dissect_rbus env tvb =
      ⟨fixed_header_emits tvb ++ [.expert .ei_rbus_invalid_length], .consumed tvb.length⟩ := by
  obtain ⟨_, rfl⟩ := tvb_get_be_eq_some.mp hhl
  obtain ⟨_, rfl⟩ := tvb_get_be_eq_some.mp hpl
  rw [dissect_rbus_fixed env tvb hlen hcomplete, if_pos hinvalid]
  rfl

theorem dissect_rbus_deferred (env : payload_env) (tvb : tvbuff_t) {hl pl : Nat}
    (hlen : 22 ≤ tvb.length) (hhl : tvb_get_ntohs tvb 4 = some hl)
    (hpl : tvb_get_ntohl tvb 18 = some pl) (hlt : tvb.length < (hl + pl) % 2 ^ 32) :
    dissect_rbus env tvb =
      ⟨[], .need_more tvb.length (.bytes ((hl + pl) % 2 ^ 32 - tvb.length))⟩ := by
  unfold dissect_rbus
  simp only [tvb_captured_length, hhl, hpl]
  rw [if_neg (by omega), if_neg (by omega), if_pos hlt]

theorem dissect_rbus_short (env : payload_env) (tvb : tvbuff_t) (hlen : tvb.length < 22) :
    dissect_rbus env tvb = ⟨[], .need_more tvb.length .DESEGMENT_ONE_MORE_SEGMENT⟩ := by
  unfold dissect_rbus
  simp only [tvb_captured_length]
  by_cases h6 : tvb.length < 6
  · rw [if_pos h6]
  · have h4 : tvb_get_ntohs tvb 4 = some (be_value ((tvb.drop 4).take 2)) :=
      tvb_get_be_of_le (by omega)
    rw [if_neg h6]
    simp only [h4]
    rw [if_pos hlen]

theorem dissect_rbus_payload_untruncated (env : payload_env) (tvb : tvbuff_t) (q pl : Nat)
    (hpl : 0 < pl) (hcap : q + pl ≤ tvb.length) :
    dissect_rbus_payload env tvb q pl = dissect_rbus_payload_bytes env tvb q pl pl := by
  have hrem : ¬ tvb_captured_length_remaining tvb q < pl := by
    unfold tvb_captured_length_remaining; omega
  simp only [dissect_rbus_payload, hrem, if_false, gt_iff_lt, hpl, if_true]
  simp [result.after]

theorem dissect_rbus_payload_bytes_head (env : payload_env) (tvb : tvbuff_t) (q pl n : Nat)
    (hn : 0 < n) (hle : q + n ≤ tvb.length) :
    (dissect_rbus_payload_bytes env tvb q pl n).emitted.head? =
      some (.proto_item .rbus_tree .hf_rbus_payload q n (.bytes ((tvb.drop q).take n))) := by
  have h1 : tvb_get_uint8 tvb q = some (be_value ((tvb.drop q).take 1)) :=
    tvb_get_be_of_le (by omega)
  unfold dissect_rbus_payload_bytes
  simp only [tvb_get_ptr_of_le hle, h1]
  split
  · rfl
  · split <;> simp

/-! ## Heuristic Classifier -/

theorem dissect_rbus_heur_eq (env : payload_env) (tvb : tvbuff_t) (hlen : 22 ≤ tvb.length) :
    dissect_rbus_heur env tvb =
      if be_value ((tvb.drop 0).take 2) ≠ 0xAAAA then some (false, none)
      else if be_value ((tvb.drop 2).take 2) ≠ 2 then some (false, none)
      else if be_value ((tvb.drop 4).take 2) < 32 ∨ be_value ((tvb.drop 4).take 2) > 4096 then
        some (false, none)
      else if be_value ((tvb.drop 18).take 4) > RBUS_MAX_PAYLOAD_SIZE then some (false, none)
      else if (dissect_rbus env tvb).out = .exception then none
      else some (true, some (dissect_rbus env tvb)) := by
  have h0 : tvb_get_ntohs tvb 0 = some (be_value ((tvb.drop 0).take 2)) :=
    tvb_get_be_of_le (by omega)
  have h2 : tvb_get_ntohs tvb 2 = some (be_value ((tvb.drop 2).take 2)) :=
    tvb_get_be_of_le (by omega)
  have h4 : tvb_get_ntohs tvb 4 = some (be_value ((tvb.drop 4).take 2)) :=
    tvb_get_be_of_le (by omega)
  have h18 : tvb_get_ntohl tvb 18 = some (be_value ((tvb.drop 18).take 4)) :=
    tvb_get_be_of_le (by omega)
  unfold dissect_rbus_heur
  simp only [tvb_captured_length, h0, h2, h4, h18]
  rw [if_neg (by omega)]

theorem heur_checks_iff (tvb : tvbuff_t) (hlen : 22 ≤ tvb.length) :
    heur_checks tvb ↔
      be_value ((tvb.drop 0).take 2) = 0xAAAA ∧ be_value ((tvb.drop 2).take 2) = 2 ∧
      (32 ≤ be_value ((tvb.drop 4).take 2) ∧ be_value ((tvb.drop 4).take 2) ≤ 4096) ∧
      be_value ((tvb.drop 18).take 4) ≤ 10485760 := by
  have h0 : tvb_get_ntohs tvb 0 = some (be_value ((tvb.drop 0).take 2)) :=
    tvb_get_be_of_le (by omega)
  have h2 : tvb_get_ntohs tvb 2 = some (be_value ((tvb.drop 2).take 2)) :=
    tvb_get_be_of_le (by omega)
  have h4 : tvb_get_ntohs tvb 4 = some (be_value ((tvb.drop 4).take 2)) :=
    tvb_get_be_of_le (by omega)
  have h18 : tvb_get_ntohl tvb 18 = some (be_value ((tvb.drop 18).take 4)) :=
    tvb_get_be_of_le (by omega)
  unfold heur_checks
  simp only [h0, h2, h4, h18, Option.some.injEq]
  constructor
  · rintro ⟨-, a, b, ⟨hl, rfl, c⟩, ⟨pl, rfl, d⟩⟩
    exact ⟨a, b, c, d⟩
  · rintro ⟨a, b, c, d⟩
    exact ⟨hlen, a, b, ⟨_, rfl, c⟩, ⟨_, rfl, d⟩⟩

theorem dissect_rbus_exception_iff (env : payload_env) (tvb : tvbuff_t) {hl pl : Nat}
    (hlen : 22 ≤ tvb.length) (hhl : tvb_get_ntohs tvb 4 = some hl)
    (hpl : tvb_get_ntohl tvb 18 = some pl) (hsum : hl + pl < 2 ^ 32)
    (hmax : pl ≤ RBUS_MAX_PAYLOAD_SIZE) :
    (dissect_rbus env tvb).out = .exception ↔
      hl + pl ≤ tvb.length ∧ ¬ topic_fields_captured tvb := by
  have hmod : (hl + pl) % 2 ^ 32 = hl + pl := Nat.mod_eq_of_lt hsum
  by_cases hc : hl + pl ≤ tvb.length
  · have hcomplete : (hl + pl) % 2 ^ 32 ≤ tvb.length := by rw [hmod]; exact hc
    by_cases hcap : topic_fields_captured tvb
    · obtain ⟨tl, rtl, hp⟩ :=
        header_parsed_of_captured hlen hhl hpl hcomplete ⟨by omega, hmax⟩ hcap
      rw [dissect_rbus_out_of_parsed env tvb hp]
      simp [hcap]
    · rw [dissect_rbus_out_of_not_captured env tvb hlen hhl hpl hcomplete ⟨by omega, hmax⟩ hcap]
      simp [hc, hcap]
  · rw [dissect_rbus_deferred env tvb hlen hhl hpl (by rw [hmod]; omega)]
    simp [hc]

/-- C1 (amended). The Heuristic Classifier returns false exactly when one of the five checks
fails (fewer than 22 captured bytes, opening marker not 0xAAAA, version not 2, header_length
outside 32..4096, payload_length above 10 MiB); in particular a mismatching marker or version
gives false whatever the other bytes are. When all five checks hold it runs `dissect_rbus`
and returns true, unless that nested dissection raises a bounds exception, which happens
exactly when the message is complete (header_length + payload_length bytes are captured) and
the topic or reply-topic field runs past the captured bytes; the exception then propagates
and no verdict is returned. -/
theorem dissect_rbus_heur_verdict (env : payload_env) (tvb : tvbuff_t) :
    (dissect_rbus_heur env tvb = some (false, none) ↔ ¬ heur_checks tvb) ∧
    ((∃ r, dissect_rbus_heur env tvb = some (true, r)) ↔
      heur_checks tvb ∧ (dissect_rbus env tvb).out ≠ .exception) ∧
    (dissect_rbus_heur env tvb = none ↔
      heur_checks tvb ∧ (dissect_rbus env tvb).out = .exception) ∧
    (heur_checks tvb → (dissect_rbus env tvb).out ≠ .exception →
      dissect_rbus_heur env tvb = some (true, some (dissect_rbus env tvb))) ∧
    (heur_checks tvb → ∀ hl pl, tvb_get_ntohs tvb 4 = some hl → tvb_get_ntohl tvb 18 = some pl →
      ((dissect_rbus env tvb).out = .exception ↔
        hl + pl ≤ tvb.length ∧ ¬ topic_fields_captured tvb)) ∧
    (tvb_get_ntohs tvb 0 ≠ some 0xAAAA ∨ tvb_get_ntohs tvb 2 ≠ some 2 →
      dissect_rbus_heur env tvb = some (false, none)) := by
  by_cases hlen : 22 ≤ tvb.length
  · have h0 : tvb_get_ntohs tvb 0 = some (be_value ((tvb.drop 0).take 2)) :=
      tvb_get_be_of_le (by omega)
    have h2 : tvb_get_ntohs tvb 2 = some (be_value ((tvb.drop 2).take 2)) :=
      tvb_get_be_of_le (by omega)
    have key := dissect_rbus_heur_eq env tvb hlen
    have hck := heur_checks_iff tvb hlen
    refine ⟨?_, ?_, ?_, ?_, ?_, ?_⟩
    · rw [key, hck]
      unfold RBUS_MAX_PAYLOAD_SIZE
      generalize be_value ((tvb.drop 0).take 2) = m
      generalize be_value ((tvb.drop 2).take 2) = v
      generalize be_value ((tvb.drop 4).take 2) = hl
      generalize be_value ((tvb.drop 18).take 4) = pl
      split_ifs <;> simp <;> omega
    · rw [key, hck]
      unfold RBUS_MAX_PAYLOAD_SIZE
      generalize be_value ((tvb.drop 0).take 2) = m
      generalize be_value ((tvb.drop 2).take 2) = v
      generalize be_value ((tvb.drop 4).take 2) = hl
      generalize be_value ((tvb.drop 18).take 4) = pl
      split_ifs <;> simp_all
      omega
    · rw [key, hck]
      unfold RBUS_MAX_PAYLOAD_SIZE
      generalize be_value ((tvb.drop 0).take 2) = m
      generalize be_value ((tvb.drop 2).take 2) = v
      generalize be_value ((tvb.drop 4).take 2) = hl
      generalize be_value ((tvb.drop 18).take 4) = pl
      split_ifs <;> simp_all
      omega
    · intro hc hne
      rw [key]
      obtain ⟨a, b, c, d⟩ := hck.mp hc
      unfold RBUS_MAX_PAYLOAD_SIZE
      rw [if_neg (by omega), if_neg (by omega), if_neg (by omega), if_neg (by omega),
        if_neg hne]
    · intro hc hl pl hhl hpl
      obtain ⟨a, b, c, d⟩ := hck.mp hc
      obtain ⟨_, rfl⟩ := tvb_get_be_eq_some.mp hhl
      obtain ⟨_, rfl⟩ := tvb_get_be_eq_some.mp hpl
      exact dissect_rbus_exception_iff env tvb hlen hhl hpl (by omega)
        (by unfold RBUS_MAX_PAYLOAD_SIZE; omega)
    · rw [key, h0, h2]
      rintro (h | h)
      · rw [if_pos (fun e => h (by rw [e]))]
      · by_cases hm : be_value ((tvb.drop 0).take 2) ≠ 0xAAAA
        · rw [if_pos hm]
        · rw [if_neg hm, if_pos (fun e => h (by rw [e]))]
  · have hno : ¬ heur_checks tvb := fun h => hlen h.1
    have hf : dissect_rbus_heur env tvb = some (false, none) := by
      unfold dissect_rbus_heur
      rw [if_pos (by unfold tvb_captured_length; omega)]
    refine ⟨?_, ?_, ?_, ?_, ?_, ?_⟩
    · simp [hf, hno]
    · simp [hf, hno]
    · simp [hf, hno]
    · exact fun h => absurd h hno
    · exact fun h => absurd h hno
    · exact fun _ => hf

/-- C1 (counterexample). The 32-byte buffer `heur_overrun` satisfies all five checks, yet the
classifier does not return true on it: the nested `dissect_rbus` raises while reading the
1000-byte topic. -/
theorem dissect_rbus_heur_overrun :
    heur_checks heur_overrun ∧
      (∀ env, (dissect_rbus env heur_overrun).out = .exception) ∧
      (∀ env, dissect_rbus_heur env heur_overrun = none) ∧
      ¬ ∃ env r, dissect_rbus_heur env heur_overrun = some (true, r) := by
  have hc : heur_checks heur_overrun :=
    ⟨by decide, by decide, by decide, ⟨32, by decide, by decide, by decide⟩,
      ⟨0, by decide, by decide⟩⟩
  have hex : ∀ env, (dissect_rbus env heur_overrun).out = .exception := fun env => by rfl
  have hnone : ∀ env, dissect_rbus_heur env heur_overrun = none := fun env => by rfl
  refine ⟨hc, hex, hnone, ?_⟩
  rintro ⟨env, r, h⟩
  rw [hnone env] at h
  exact Option.noConfusion h

/-! ## Message Framer: deferral and length validation -/

/-- C2 (amended). `dissect_rbus` signals need-more-bytes exactly when fewer than 22 bytes are
captured or the captured length is less than `total_len`, where `total_len` is the sum of
the header_length and payload_length fields computed in 32-bit arithmetic
(`(header_length + payload_length) mod 2^32`); whenever it signals need-more-bytes it emits
nothing; and with at least 22 captured bytes and an incomplete message, the number of bytes
requested is exactly `total_len - captured length`. -/
theorem dissect_rbus_need_more (env : payload_env) (tvb : tvbuff_t) :
    ((∃ a d, (dissect_rbus env tvb).out = .need_more a d) ↔
      (tvb.length < 22 ∨ ∃ hl pl, tvb_get_ntohs tvb 4 = some hl ∧
        tvb_get_ntohl tvb 18 = some pl ∧ tvb.length < (hl + pl) % 2 ^ 32)) ∧
    ((∃ a d, (dissect_rbus env tvb).out = .need_more a d) →
      (dissect_rbus env tvb).emitted = []) ∧
    (∀ hl pl, 22 ≤ tvb.length → tvb_get_ntohs tvb 4 = some hl →
      tvb_get_ntohl tvb 18 = some pl → tvb.length < (hl + pl) % 2 ^ 32 →
      dissect_rbus env tvb =
        ⟨[], .need_more tvb.length (.bytes ((hl + pl) % 2 ^ 32 - tvb.length))⟩) := by
  have third : ∀ hl pl, 22 ≤ tvb.length → tvb_get_ntohs tvb 4 = some hl →
      tvb_get_ntohl tvb 18 = some pl → tvb.length < (hl + pl) % 2 ^ 32 →
      dissect_rbus env tvb =
        ⟨[], .need_more tvb.length (.bytes ((hl + pl) % 2 ^ 32 - tvb.length))⟩ :=
    fun hl pl h22 hhl hpl hlt => dissect_rbus_deferred env tvb h22 hhl hpl hlt
  by_cases hlen : tvb.length < 22
  · have hs := dissect_rbus_short env tvb hlen
    refine ⟨?_, ?_, third⟩
    · rw [hs]
      exact ⟨fun _ => Or.inl hlen, fun _ => ⟨_, _, rfl⟩⟩
    · intro _
      rw [hs]
  · have h22 : 22 ≤ tvb.length := by omega
    have hhl : tvb_get_ntohs tvb 4 = some (be_value ((tvb.drop 4).take 2)) :=
      tvb_get_be_of_le (by omega)
    have hpl : tvb_get_ntohl tvb 18 = some (be_value ((tvb.drop 18).take 4)) :=
      tvb_get_be_of_le (by omega)
    by_cases hlt : tvb.length <
        (be_value ((tvb.drop 4).take 2) + be_value ((tvb.drop 18).take 4)) % 2 ^ 32
    · have hd := dissect_rbus_deferred env tvb h22 hhl hpl hlt
      refine ⟨?_, ?_, third⟩
      · rw [hd]
        exact ⟨fun _ => Or.inr ⟨_, _, hhl, hpl, hlt⟩, fun _ => ⟨_, _, rfl⟩⟩
      · intro _
        rw [hd]
    · have hcomplete : (be_value ((tvb.drop 4).take 2) +
          be_value ((tvb.drop 18).take 4)) % 2 ^ 32 ≤ tvb.length := by omega
      have hout : ∀ a d, (dissect_rbus env tvb).out ≠ .need_more a d := by
        intro a d
        by_cases hinv : be_value ((tvb.drop 4).take 2) > tvb.length ∨
            be_value ((tvb.drop 18).take 4) > RBUS_MAX_PAYLOAD_SIZE
        · rw [dissect_rbus_invalid env tvb h22 hhl hpl hcomplete hinv]
          exact fun h => outcome.noConfusion h
        · have hvalid : be_value ((tvb.drop 4).take 2) ≤ tvb.length ∧
              be_value ((tvb.drop 18).take 4) ≤ RBUS_MAX_PAYLOAD_SIZE := by omega
          by_cases hcap : topic_fields_captured tvb
          · obtain ⟨tl, rtl, hp⟩ :=
              header_parsed_of_captured h22 hhl hpl hcomplete hvalid hcap
            rw [dissect_rbus_out_of_parsed env tvb hp]
            exact fun h => outcome.noConfusion h
          · rw [dissect_rbus_out_of_not_captured env tvb h22 hhl hpl hcomplete hvalid hcap]
            exact fun h => outcome.noConfusion h
      refine ⟨?_, ?_, third⟩
      · constructor
        · rintro ⟨a, d, h⟩
          exact absurd h (hout a d)
        · rintro (h | ⟨hl, pl, h1, h2, h3⟩)
          · exact absurd h hlen
          · rw [hhl] at h1
            rw [hpl] at h2
            cases h1
            cases h2
            exact absurd h3 hlt
      · rintro ⟨a, d, h⟩
        exact absurd h (hout a d)

/-- C2 (counterexample). On the 22-byte buffer `wrap_lengths` the header_length (32) and
payload_length (4294967280) fields sum to more than the 22 captured bytes, yet `dissect_rbus`
does not signal need-more-bytes: it emits the fixed header fields, reports InvalidLength and
returns the captured length. -/
theorem dissect_rbus_wrap_not_deferred :
    tvb_get_ntohs wrap_lengths 4 = some 32 ∧
      tvb_get_ntohl wrap_lengths 18 = some 4294967280 ∧
      wrap_lengths.length = 22 ∧ 22 < 32 + 4294967280 ∧
      (∀ env, dissect_rbus env wrap_lengths =
        ⟨fixed_header_emits wrap_lengths ++ [.expert .ei_rbus_invalid_length], .consumed 22⟩) ∧
      ¬ ∃ env a d, (dissect_rbus env wrap_lengths).out = .need_more a d := by
  have h : ∀ env, dissect_rbus env wrap_lengths =
      ⟨fixed_header_emits wrap_lengths ++ [.expert .ei_rbus_invalid_length], .consumed 22⟩ :=
    fun env => by rfl
  refine ⟨by decide, by decide, by decide, by decide, h, ?_⟩
  rintro ⟨env, a, d, hout⟩
  rw [h env] at hout
  exact outcome.noConfusion hout

/-- C3 (amended). For every buffer on which `dissect_rbus` does not request more bytes (at
least 22 bytes captured and the captured length at least `(header_length + payload_length)
mod 2^32`), if the payload_length field exceeds 10 MiB or the header_length field exceeds the
captured length, the Framer emits the fixed header fields, reports InvalidLength and stops:
it returns the captured length and emits no topic, reply-topic, timestamp, closing-marker or
payload field, and no other annotation. -/
theorem dissect_rbus_invalid_length (env : payload_env) (tvb : tvbuff_t) (hl pl : Nat)
    (hlen : 22 ≤ tvb.length) (hhl : tvb_get_ntohs tvb 4 = some hl)
    (hpl : tvb_get_ntohl tvb 18 = some pl) (hcomplete : (hl + pl) % 2 ^ 32 ≤ tvb.length)
    (hinvalid : pl > 10485760 ∨ hl > tvb.length) :
    dissect_rbus env tvb =
        ⟨fixed_header_emits tvb ++ [.expert .ei_rbus_invalid_length], .consumed tvb.length⟩ ∧
      expert_ids (dissect_rbus env tvb).emitted = [.ei_rbus_invalid_length] ∧
      field_ids (dissect_rbus env tvb).emitted =
        [.proto_rbus, .hf_rbus_opening_marker, .hf_rbus_version, .hf_rbus_header_length,
         .hf_rbus_sequence_number, .hf_rbus_flags, .hf_rbus_flags_request,
         .hf_rbus_flags_response, .hf_rbus_flags_undeliverable, .hf_rbus_flags_tainted,
         .hf_rbus_flags_raw_binary, .hf_rbus_flags_encrypted, .hf_rbus_control_data,
         .hf_rbus_payload_length] := by
  have h := dissect_rbus_invalid env tvb hlen hhl hpl hcomplete
    (by unfold RBUS_MAX_PAYLOAD_SIZE; omega)
  rw [h]
  exact ⟨rfl, rfl, rfl⟩

/-- C3 (witness): the hypotheses hold on `wrap_lengths`. -/
theorem dissect_rbus_invalid_length_witness :
    (22 ≤ wrap_lengths.length ∧ tvb_get_ntohs wrap_lengths 4 = some 32 ∧
      tvb_get_ntohl wrap_lengths 18 = some 4294967280 ∧
      (32 + 4294967280) % 2 ^ 32 ≤ wrap_lengths.length) ∧
    ∀ env, expert_ids (dissect_rbus env wrap_lengths).emitted = [.ei_rbus_invalid_length] :=
  ⟨⟨by decide, by decide, by decide, by decide⟩, fun env =>
    (dissect_rbus_invalid_length env wrap_lengths 32 4294967280 (by decide) (by decide)
      (by decide) (by decide) (Or.inl (by decide))).2.1⟩

/-- C3 (counterexample). The 22-byte buffer `oversize_deferred` has a payload_length field of
10485761, above 10 MiB, yet `dissect_rbus` reports no InvalidLength on it: it requests
10485771 more bytes and emits nothing. -/
theorem dissect_rbus_oversize_deferred :
    22 ≤ oversize_deferred.length ∧
      tvb_get_ntohl oversize_deferred 18 = some 10485761 ∧ 10485761 > 10 * 1024 * 1024 ∧
      (∀ env, dissect_rbus env oversize_deferred =
        ⟨[], .need_more 22 (.bytes 10485771)⟩) ∧
      ∀ env, expert_ids (dissect_rbus env oversize_deferred).emitted = [] :=
  ⟨by decide, by decide, by decide, fun _ => by rfl, fun _ => by rfl⟩

/-! ## Message Framer: framing of complete messages -/

theorem topic_skip_of_lt {n : Nat} (h : n < 1024) : topic_skip n = n := by
  unfold topic_skip RBUS_MAX_TOPIC_LENGTH
  split <;> omega

/-- C4 (amended). For every buffer holding a complete well-formed message (closing marker
0xAAAA, topic_length and reply_topic_length below 1024, header_length field equal to
32 + topic_length + reply_topic_length, plus 20 when the round-trip timestamp block is
present, payload_length at most 10 MiB, at least header_length + payload_length bytes
captured) and on which, when the timestamp block is absent, the round-trip lookahead does not
fire (fewer than 22 bytes are captured from the end of the reply topic, or the 16-bit value 20
bytes after it is not 0xAAAA), `dissect_rbus` reports header_length + payload_length bytes
consumed, whatever the payload decoders do. -/
theorem dissect_rbus_consumed (env : payload_env) (tvb : tvbuff_t) (hl pl tl rtl : Nat)
    (ts : Bool)
    (hhl : tvb_get_ntohs tvb 4 = some hl) (hpl : tvb_get_ntohl tvb 18 = some pl)
    (htl : tvb_get_ntohl tvb 22 = some tl) (htl_lt : tl < 1024)
    (hrtl : tvb_get_ntohl tvb (26 + tl) = some rtl) (hrtl_lt : rtl < 1024)
    (hlayout : hl = 32 + tl + rtl + (if ts then 20 else 0))
    (hclose : tvb_get_ntohs tvb (hl - 2) = some 0xAAAA)
    (hmax : pl ≤ 10485760) (hcap : hl + pl ≤ tvb.length)
    (hno : ts = false →
      ¬ (22 ≤ tvb.length - (30 + tl + rtl) ∧
        tvb_get_ntohs tvb (30 + tl + rtl + 20) = some 0xAAAA)) :
    (dissect_rbus env tvb).out = .consumed (hl + pl) := by
  have hst := topic_skip_of_lt htl_lt
  have hsr := topic_skip_of_lt hrtl_lt
  have hp : header_parsed tvb hl pl tl rtl :=
    { captured := by cases ts <;> simp at hlayout <;> omega
      header_length := hhl
      payload_length := hpl
      complete := by
        rw [Nat.mod_eq_of_lt (by cases ts <;> simp at hlayout <;> omega)]; exact hcap
      valid_header_length := by omega
      valid_payload_length := by unfold RBUS_MAX_PAYLOAD_SIZE; omega
      topic_length := htl
      topic := by rw [hst]; cases ts <;> simp at hlayout <;> omega
      reply_topic_length := by rw [hst]; exact hrtl
      reply_topic := by rw [hst, hsr]; cases ts <;> simp at hlayout <;> omega }
  rw [dissect_rbus_out_of_parsed env tvb hp]
  have ho : reply_end tl rtl = 30 + tl + rtl := by
    unfold reply_end; rw [hst, hsr]
  have hq : payload_start tvb (reply_end tl rtl) = hl := by
    rw [ho]
    unfold payload_start closing_offset
    cases ts
    · simp only [Bool.false_eq_true, if_false, Nat.add_zero] at hlayout
      have hl' : ¬ roundtrip_lookahead tvb (30 + tl + rtl) := by
        unfold roundtrip_lookahead tvb_captured_length_remaining
        exact hno rfl
      rw [if_pos (by unfold tvb_captured_length_remaining; omega), if_neg hl']
      omega
    · simp only [if_true] at hlayout
      have hl' : roundtrip_lookahead tvb (30 + tl + rtl) := by
        refine ⟨by unfold tvb_captured_length_remaining; omega, ?_⟩
        have : 30 + tl + rtl + 20 = hl - 2 := by omega
        rw [this]; exact hclose
      rw [if_pos (by unfold tvb_captured_length_remaining; omega), if_pos hl']
      omega
  rw [hq]
  by_cases h0 : 0 < pl
  · rw [if_pos ⟨h0, by omega⟩]
  · have : pl = 0 := by omega
    subst this
    simp

/-- C4 (witness): the hypotheses hold on `sample_roundtrip`, whose timestamp block is
present. -/
theorem dissect_rbus_consumed_witness :
    (tvb_get_ntohs sample_roundtrip 4 = some 56 ∧ tvb_get_ntohl sample_roundtrip 18 = some 2 ∧
      tvb_get_ntohl sample_roundtrip 22 = some 4 ∧
      tvb_get_ntohl sample_roundtrip (26 + 4) = some 0 ∧
      tvb_get_ntohs sample_roundtrip (56 - 2) = some 0xAAAA ∧
      56 + 2 ≤ sample_roundtrip.length) ∧
    ∀ env, (dissect_rbus env sample_roundtrip).out = .consumed (56 + 2) :=
  ⟨⟨by decide, by decide, by decide, by decide, by decide, by decide⟩, fun env =>
    dissect_rbus_consumed env sample_roundtrip 56 2 4 0 true (by decide) (by decide)
      (by decide) (by decide) (by decide) (by decide) (by decide) (by decide) (by decide)
      (by decide) (fun h => Bool.noConfusion h)⟩

theorem header_parsed_lookahead_misfire : header_parsed lookahead_misfire 32 21 0 0 :=
  ⟨by decide, by decide, by decide, by decide, by decide, by decide, by decide, by decide,
    by decide, by decide⟩

/-- C4 (counterexample). `lookahead_misfire` is a complete well-formed message without
timestamps: markers 0xAAAA, empty topic and reply topic, header_length 32 = 32 + 0 + 0,
payload_length 21, all 53 bytes captured. Its payload carries 0xAAAA at payload offset 18, so
the lookahead takes 20 bytes of closing marker and payload for timestamps, and `dissect_rbus`
reports 73 bytes consumed instead of 53. -/
theorem dissect_rbus_lookahead_misfire :
    tvb_get_ntohs lookahead_misfire 0 = some 0xAAAA ∧
      tvb_get_ntohs lookahead_misfire 4 = some 32 ∧
      tvb_get_ntohl lookahead_misfire 18 = some 21 ∧
      tvb_get_ntohl lookahead_misfire 22 = some 0 ∧
      tvb_get_ntohl lookahead_misfire 26 = some 0 ∧
      tvb_get_ntohs lookahead_misfire 30 = some 0xAAAA ∧
      lookahead_misfire.length = 32 + 21 ∧
      (∀ env, (dissect_rbus env lookahead_misfire).out = .consumed 73) ∧
      ¬ ∃ env, (dissect_rbus env lookahead_misfire).out = .consumed (32 + 21) := by
  have h : ∀ env, (dissect_rbus env lookahead_misfire).out = .consumed 73 := fun env => by
    rw [dissect_rbus_out_of_parsed env _ header_parsed_lookahead_misfire]
    decide
  refine ⟨by decide, by decide, by decide, by decide, by decide, by decide, by decide, h, ?_⟩
  rintro ⟨env, he⟩
  rw [h env] at he
  exact absurd he (by decide)

/-- C5. On the 36-byte message with opening marker 0xAAAA, header_length 36, sequence number
1, payload_length 0, topic "test", reply_topic_length 0 and closing marker 0xAAAA (any
version, flags and control_data bytes), `dissect_rbus` does not ask for more bytes and reports
36 bytes consumed; it emits sequence number 1 and the topic bytes "test", no reply-topic
string, no payload field and no annotation (neither InvalidLength nor MalformedHeader). -/
theorem dissect_rbus_example_message (env : payload_env)
    (v0 v1 f0 f1 f2 f3 c0 c1 c2 c3 : UInt8) :
    (dissect_rbus env (example_message v0 v1 f0 f1 f2 f3 c0 c1 c2 c3)).out = .consumed 36 ∧
    Emit.proto_item .header_tree .hf_rbus_sequence_number 6 4 (.uint 1) ∈
      (dissect_rbus env (example_message v0 v1 f0 f1 f2 f3 c0 c1 c2 c3)).emitted ∧
    Emit.proto_item .header_tree .hf_rbus_topic 26 4 (.string "test".toUTF8.data.toList) ∈
      (dissect_rbus env (example_message v0 v1 f0 f1 f2 f3 c0 c1 c2 c3)).emitted ∧
    field_ids (dissect_rbus env (example_message v0 v1 f0 f1 f2 f3 c0 c1 c2 c3)).emitted =
      [.proto_rbus, .hf_rbus_opening_marker, .hf_rbus_version, .hf_rbus_header_length,
       .hf_rbus_sequence_number, .hf_rbus_flags, .hf_rbus_flags_request,
       .hf_rbus_flags_response, .hf_rbus_flags_undeliverable, .hf_rbus_flags_tainted,
       .hf_rbus_flags_raw_binary, .hf_rbus_flags_encrypted, .hf_rbus_control_data,
       .hf_rbus_payload_length, .hf_rbus_topic_length, .hf_rbus_topic,
       .hf_rbus_reply_topic_length, .hf_rbus_closing_marker] ∧
    expert_ids (dissect_rbus env (example_message v0 v1 f0 f1 f2 f3 c0 c1 c2 c3)).emitted =
      [] := by
  have h : dissect_rbus env (example_message v0 v1 f0 f1 f2 f3 c0 c1 c2 c3) =
      ⟨header_emits (example_message v0 v1 f0 f1 f2 f3 c0 c1 c2 c3) 4 0, .consumed 36⟩ := rfl
  have ht : "test".toUTF8.data.toList = [0x74, 0x65, 0x73, 0x74] := by decide
  rw [h, ht]
  refine ⟨rfl, ?_, ?_, rfl, rfl⟩
  · simp [header_emits, fixed_header_emits, uint_item, example_message, be_value]
  · simp [header_emits, topic_emits, RBUS_MAX_TOPIC_LENGTH, example_message]

/-- C8 (evaluation at the failing input). `bad_opening_marker` is a complete message whose
opening marker is 0x1234; `dissect_rbus` emits that value as the opening-marker field and
reports no annotation at all, so no MalformedHeader. -/
theorem dissect_rbus_bad_opening_marker :
    tvb_get_ntohs bad_opening_marker 0 = some 0x1234 ∧
      (∀ env, (dissect_rbus env bad_opening_marker).out = .consumed 36) ∧
      (∀ env, Emit.proto_item .header_tree .hf_rbus_opening_marker 0 2 (.uint 0x1234) ∈
        (dissect_rbus env bad_opening_marker).emitted) ∧
      (∀ env, expert_ids (dissect_rbus env bad_opening_marker).emitted = []) ∧
      ∀ env, Emit.expert .ei_rbus_malformed_header ∉
        (dissect_rbus env bad_opening_marker).emitted := by
  have h : ∀ env, dissect_rbus env bad_opening_marker =
      ⟨header_emits bad_opening_marker 4 0, .consumed 36⟩ := fun env => rfl
  refine ⟨by decide, fun env => ?_, fun env => ?_, fun env => ?_, fun env => ?_⟩ <;> rw [h env]
  · decide
  · rfl
  · decide

/-! ## Message Framer: round-trip lookahead and closing marker -/

theorem header_parsed_sample_roundtrip : header_parsed sample_roundtrip 56 2 4 0 :=
  ⟨by decide, by decide, by decide, by decide, by decide, by decide, by decide, by decide,
    by decide, by decide⟩

theorem field_ids_append (a b : List Emit) : field_ids (a ++ b) = field_ids a ++ field_ids b := by
  simp [field_ids, List.filterMap_append]

theorem field_ids_fixed (tvb : tvbuff_t) :
    field_ids (fixed_header_emits tvb) =
      [.proto_rbus, .hf_rbus_opening_marker, .hf_rbus_version, .hf_rbus_header_length,
       .hf_rbus_sequence_number, .hf_rbus_flags, .hf_rbus_flags_request,
       .hf_rbus_flags_response, .hf_rbus_flags_undeliverable, .hf_rbus_flags_tainted,
       .hf_rbus_flags_raw_binary, .hf_rbus_flags_encrypted, .hf_rbus_control_data,
       .hf_rbus_payload_length] := rfl

theorem field_ids_topic (tvb : tvbuff_t) (tl : Nat) :
    field_ids (topic_emits tvb tl) =
      .hf_rbus_topic_length ::
        (if tl > 0 ∧ tl < RBUS_MAX_TOPIC_LENGTH then [.hf_rbus_topic] else []) := by
  unfold topic_emits
  split <;> rfl

theorem field_ids_reply_topic (tvb : tvbuff_t) (off rtl : Nat) :
    field_ids (reply_topic_emits tvb off rtl) =
      .hf_rbus_reply_topic_length ::
        (if rtl > 0 ∧ rtl < RBUS_MAX_TOPIC_LENGTH then [.hf_rbus_reply_topic] else []) := by
  unfold reply_topic_emits
  split <;> rfl

theorem field_ids_closing (tvb : tvbuff_t) (p : Nat) :
    field_ids (closing_emits tvb p) = [.hf_rbus_closing_marker] := by
  unfold closing_emits
  split <;> rfl

theorem field_ids_trailer (tvb : tvbuff_t) (o : Nat) :
    field_ids (trailer_emits tvb o) =
      (if roundtrip_lookahead tvb o then
        [.hf_rbus_roundtrip_t1, .hf_rbus_roundtrip_t2, .hf_rbus_roundtrip_t3,
         .hf_rbus_roundtrip_t4, .hf_rbus_roundtrip_t5] else []) ++
      (if 2 ≤ tvb_captured_length_remaining tvb o then [.hf_rbus_closing_marker] else []) := by
  unfold trailer_emits
  rw [field_ids_append]
  congr 1
  · split <;> rfl
  · split
    · exact field_ids_closing _ _
    · rfl

/-- C6. When the header is interpreted up to the end of the reply topic at offset `o`,
`dissect_rbus` emits the five 32-bit round-trip timestamp items (at `o`, `o+4`, ..., `o+16`)
if and only if at least 22 captured bytes remain from `o` and the 16-bit value at `o + 20`
is 0xAAAA. In that case the closing marker is read at `o + 20` and the payload stage starts
at `o + 22`; otherwise, when at least 2 bytes remain, the closing marker is read at `o` and
the payload stage starts at `o + 2`; with fewer than 2 bytes left no closing marker is read. -/
theorem dissect_rbus_roundtrip_lookahead (env : payload_env) (tvb : tvbuff_t)
    (hl pl tl rtl : Nat) (h : header_parsed tvb hl pl tl rtl) :
    dissect_rbus env tvb =
      (dissect_rbus_payload env tvb (payload_start tvb (reply_end tl rtl)) pl).after
        (fixed_header_emits tvb ++ topic_emits tvb tl ++
          reply_topic_emits tvb (26 + topic_skip tl) rtl ++
          trailer_emits tvb (reply_end tl rtl)) ∧
    ((22 ≤ tvb.length - reply_end tl rtl ∧
        tvb_get_ntohs tvb (reply_end tl rtl + 20) = some 0xAAAA) →
      trailer_emits tvb (reply_end tl rtl) =
          roundtrip_emits tvb (reply_end tl rtl) ++
            [.proto_item .header_tree .hf_rbus_closing_marker (reply_end tl rtl + 20) 2
              (.uint 0xAAAA), .set_len (reply_end tl rtl + 22)] ∧
        payload_start tvb (reply_end tl rtl) = reply_end tl rtl + 22) ∧
    (¬ (22 ≤ tvb.length - reply_end tl rtl ∧
        tvb_get_ntohs tvb (reply_end tl rtl + 20) = some 0xAAAA) →
      2 ≤ tvb.length - reply_end tl rtl →
      trailer_emits tvb (reply_end tl rtl) = closing_emits tvb (reply_end tl rtl) ∧
        payload_start tvb (reply_end tl rtl) = reply_end tl rtl + 2) ∧
    (tvb.length - reply_end tl rtl < 2 →
      trailer_emits tvb (reply_end tl rtl) = [.set_len (reply_end tl rtl)] ∧
        payload_start tvb (reply_end tl rtl) = reply_end tl rtl) ∧
    (∀ hf ∈ [hf_id.hf_rbus_roundtrip_t1, .hf_rbus_roundtrip_t2, .hf_rbus_roundtrip_t3,
        .hf_rbus_roundtrip_t4, .hf_rbus_roundtrip_t5],
      (hf ∈ field_ids (fixed_header_emits tvb ++ topic_emits tvb tl ++
          reply_topic_emits tvb (26 + topic_skip tl) rtl ++
          trailer_emits tvb (reply_end tl rtl)) ↔
        (22 ≤ tvb.length - reply_end tl rtl ∧
          tvb_get_ntohs tvb (reply_end tl rtl + 20) = some 0xAAAA))) := by
  have hfac := dissect_rbus_factor env tvb h
  unfold header_emits at hfac
  generalize reply_end tl rtl = o at hfac ⊢
  refine ⟨hfac, ?_, ?_, ?_, ?_⟩
  · intro hc
    have hla : roundtrip_lookahead tvb o := hc
    have h2 : 2 ≤ tvb_captured_length_remaining tvb o := by
      unfold tvb_captured_length_remaining; omega
    have hv := (tvb_get_be_eq_some.mp hc.2).2
    constructor
    · simp only [trailer_emits, closing_emits, closing_offset, if_pos hla, if_pos h2, uint_item,
        ← hv]
      simp
    · simp only [payload_start, closing_offset, if_pos hla, if_pos h2]
  · intro hc h2
    have hla : ¬ roundtrip_lookahead tvb o := hc
    have h2' : 2 ≤ tvb_captured_length_remaining tvb o := h2
    constructor
    · simp only [trailer_emits, closing_offset, if_neg hla, if_pos h2']
      simp
    · simp only [payload_start, closing_offset, if_neg hla, if_pos h2']
  · intro h2
    have hla : ¬ roundtrip_lookahead tvb o := by
      rintro ⟨h22, -⟩
      unfold tvb_captured_length_remaining at h22
      omega
    have h2' : ¬ 2 ≤ tvb_captured_length_remaining tvb o := by
      unfold tvb_captured_length_remaining; omega
    constructor
    · simp only [trailer_emits, if_neg hla, if_neg h2']
      simp
    · simp only [payload_start, if_neg h2']
  · intro hf hmem
    rw [field_ids_append, field_ids_append, field_ids_append, field_ids_fixed, field_ids_topic,
      field_ids_reply_topic, field_ids_trailer]
    simp only [List.mem_cons, List.mem_singleton, List.not_mem_nil, or_false] at hmem
    by_cases hla : roundtrip_lookahead tvb o
    · have hc : 22 ≤ tvb.length - o ∧ tvb_get_ntohs tvb (o + 20) = some 0xAAAA := hla
      simp only [hc, and_self, iff_true, if_pos hla]
      rcases hmem with rfl | rfl | rfl | rfl | rfl <;> simp
    · have hc : ¬ (22 ≤ tvb.length - o ∧ tvb_get_ntohs tvb (o + 20) = some 0xAAAA) := hla
      simp only [hc, iff_false, if_neg hla]
      rcases hmem with rfl | rfl | rfl | rfl | rfl <;>
        (split_ifs <;> simp)

/-- C6 (witness): `sample_roundtrip` is interpreted up to the end of its reply topic. -/
theorem dissect_rbus_roundtrip_lookahead_witness :
    header_parsed sample_roundtrip 56 2 4 0 ∧
      payload_start sample_roundtrip (reply_end 4 0) = reply_end 4 0 + 22 :=
  ⟨header_parsed_sample_roundtrip,
    ((dissect_rbus_roundtrip_lookahead ⟨fun _ _ => ([], 0), fun _ _ _ _ c => ([], 0, c), 0⟩
      sample_roundtrip 56 2 4 0 header_parsed_sample_roundtrip).2.1
        ⟨by decide, by decide⟩).2⟩

theorem slice_set_of_disjoint (l : List UInt8) (i off n : Nat) (x : UInt8)
    (h : off + n ≤ i ∨ i < off) : ((l.set i x).drop off).take n = (l.drop off).take n := by
  apply List.ext_getElem?
  intro k
  simp only [List.getElem?_take, List.getElem?_drop]
  split
  · rw [List.getElem?_set_ne (by omega)]
  · rfl

theorem slice_set_marker_before (tvb : tvbuff_t) (p off n : Nat) (h : off + n ≤ p) :
    ((set_marker tvb p).drop off).take n = (tvb.drop off).take n := by
  unfold set_marker
  rw [slice_set_of_disjoint _ _ _ _ _ (Or.inl (by omega)),
    slice_set_of_disjoint _ _ _ _ _ (Or.inl h)]

theorem drop_set_marker (tvb : tvbuff_t) (p off : Nat) (h : p + 2 ≤ off) :
    (set_marker tvb p).drop off = tvb.drop off := by
  unfold set_marker
  rw [List.drop_set_of_lt _ _ (by omega), List.drop_set_of_lt _ _ (by omega)]

theorem length_set_marker (tvb : tvbuff_t) (p : Nat) :
    (set_marker tvb p).length = tvb.length := by
  simp [set_marker]

theorem slice_set_marker (tvb : tvbuff_t) (p : Nat) (h : p + 2 ≤ tvb.length) :
    ((set_marker tvb p).drop p).take 2 = [0xAA, 0xAA] := by
  unfold set_marker
  apply List.ext_getElem?
  intro k
  simp only [List.getElem?_take, List.getElem?_drop, List.getElem?_set, List.length_set]
  rcases k with _ | _ | k
  · rw [if_pos (by omega), if_neg (by omega), if_pos (by omega), if_pos (by omega)]
    rfl
  · rw [if_pos (by omega), if_pos (by omega), if_pos (by omega)]
    rfl
  · rw [if_neg (by omega)]
    rfl

theorem tvb_get_be_set_marker_before (tvb : tvbuff_t) (p off n : Nat) (h : off + n ≤ p) :
    tvb_get_be (set_marker tvb p) off n = tvb_get_be tvb off n := by
  unfold tvb_get_be tvb_get_ptr
  rw [length_set_marker, slice_set_marker_before _ _ _ _ h]

theorem tvb_get_be_set_marker_after (tvb : tvbuff_t) (p off n : Nat) (h : p + 2 ≤ off) :
    tvb_get_be (set_marker tvb p) off n = tvb_get_be tvb off n := by
  unfold tvb_get_be tvb_get_ptr
  rw [length_set_marker, drop_set_marker _ _ _ h]

theorem fallback_loop_congr (env : payload_env) (tvb tvb' : tvbuff_t) (q end_offset : Nat)
    (hlen : tvb'.length = tvb.length) (hdrop : ∀ po, q ≤ po → tvb'.drop po = tvb.drop po) :
    ∀ (fuel po oc tc : Nat) (ctx : rbus_parse_context_t), q ≤ po →
      fallback_loop env tvb' end_offset fuel po oc tc ctx =
        fallback_loop env tvb end_offset fuel po oc tc ctx := by
  intro fuel
  induction fuel with
  | zero => intro po oc tc ctx _; rfl
  | succ fuel ih =>
    intro po oc tc ctx hpo
    simp only [fallback_loop, tvb_captured_length_remaining, hlen, hdrop po hpo]
    split_ifs <;> first | rfl | rw [ih _ _ _ _ (by omega)]

theorem dissect_rbus_payload_congr (env : payload_env) (tvb tvb' : tvbuff_t) (q pl : Nat)
    (hlen : tvb'.length = tvb.length) (hdrop : ∀ po, q ≤ po → tvb'.drop po = tvb.drop po) :
    dissect_rbus_payload env tvb' q pl = dissect_rbus_payload env tvb q pl := by
  have hptr : ∀ n, tvb_get_ptr tvb' q n = tvb_get_ptr tvb q n := fun n => by
    unfold tvb_get_ptr
    rw [hlen, hdrop q (Nat.le_refl q)]
  have hloop : ∀ e fuel ctx, fallback_loop env tvb' e fuel q 0 0 ctx =
      fallback_loop env tvb e fuel q 0 0 ctx := fun e fuel ctx =>
    fallback_loop_congr env tvb tvb' q e hlen hdrop fuel q 0 0 ctx (Nat.le_refl q)
  simp only [dissect_rbus_payload, dissect_rbus_payload_bytes, tvb_captured_length_remaining,
    tvb_get_uint8, tvb_get_be, hlen, hptr, hloop]

theorem reply_end_ge (tl rtl : Nat) : 26 + topic_skip tl + 4 ≤ reply_end tl rtl := by
  unfold reply_end; omega

theorem topic_skip_le (tl rtl : Nat) :
    (tl > 0 ∧ tl < RBUS_MAX_TOPIC_LENGTH → 26 + tl ≤ reply_end tl rtl) ∧
    (rtl > 0 ∧ rtl < RBUS_MAX_TOPIC_LENGTH →
      26 + topic_skip tl + 4 + rtl ≤ reply_end tl rtl) := by
  constructor
  · intro hc
    unfold reply_end
    rw [topic_skip_of hc]; omega
  · intro hc
    unfold reply_end
    rw [topic_skip_of hc]; omega

theorem header_parsed_set_marker {tvb : tvbuff_t} {hl pl tl rtl : Nat}
    (h : header_parsed tvb hl pl tl rtl) :
    header_parsed (set_marker tvb (reply_end tl rtl)) hl pl tl rtl := by
  have hge := reply_end_ge tl rtl
  exact
    { captured := by rw [length_set_marker]; exact h.captured
      header_length := by
        unfold tvb_get_ntohs
        rw [tvb_get_be_set_marker_before _ _ _ _ (by omega)]; exact h.header_length
      payload_length := by
        unfold tvb_get_ntohl
        rw [tvb_get_be_set_marker_before _ _ _ _ (by omega)]; exact h.payload_length
      complete := by rw [length_set_marker]; exact h.complete
      valid_header_length := by rw [length_set_marker]; exact h.valid_header_length
      valid_payload_length := h.valid_payload_length
      topic_length := by
        unfold tvb_get_ntohl
        rw [tvb_get_be_set_marker_before _ _ _ _ (by omega)]; exact h.topic_length
      topic := by rw [length_set_marker]; exact h.topic
      reply_topic_length := by
        unfold tvb_get_ntohl
        rw [tvb_get_be_set_marker_before _ _ _ _ (by omega)]; exact h.reply_topic_length
      reply_topic := by rw [length_set_marker]; exact h.reply_topic }

theorem header_front_set_marker (tvb : tvbuff_t) (tl rtl : Nat) :
    fixed_header_emits (set_marker tvb (reply_end tl rtl)) ++
        topic_emits (set_marker tvb (reply_end tl rtl)) tl ++
        reply_topic_emits (set_marker tvb (reply_end tl rtl)) (26 + topic_skip tl) rtl =
      fixed_header_emits tvb ++ topic_emits tvb tl ++
        reply_topic_emits tvb (26 + topic_skip tl) rtl := by
  have hge := reply_end_ge tl rtl
  have hle := topic_skip_le tl rtl
  have e1 : fixed_header_emits (set_marker tvb (reply_end tl rtl)) = fixed_header_emits tvb := by
    simp only [fixed_header_emits, uint_item, length_set_marker]
    rw [slice_set_marker_before _ _ 0 2 (by omega), slice_set_marker_before _ _ 2 2 (by omega),
      slice_set_marker_before _ _ 4 2 (by omega), slice_set_marker_before _ _ 6 4 (by omega),
      slice_set_marker_before _ _ 10 4 (by omega), slice_set_marker_before _ _ 14 4 (by omega),
      slice_set_marker_before _ _ 18 4 (by omega)]
  have e2 : topic_emits (set_marker tvb (reply_end tl rtl)) tl = topic_emits tvb tl := by
    simp only [topic_emits, uint_item]
    rw [slice_set_marker_before _ _ 22 4 (by omega), slice_set_marker_before _ _ 10 4 (by omega),
      slice_set_marker_before _ _ 14 4 (by omega)]
    by_cases hc : tl > 0 ∧ tl < RBUS_MAX_TOPIC_LENGTH
    · rw [if_pos hc, if_pos hc, slice_set_marker_before _ _ 26 tl (hle.1 hc)]
    · rw [if_neg hc, if_neg hc]
  have e3 : reply_topic_emits (set_marker tvb (reply_end tl rtl)) (26 + topic_skip tl) rtl =
      reply_topic_emits tvb (26 + topic_skip tl) rtl := by
    simp only [reply_topic_emits, uint_item]
    rw [slice_set_marker_before _ _ _ 4 hge]
    by_cases hc : rtl > 0 ∧ rtl < RBUS_MAX_TOPIC_LENGTH
    · rw [if_pos hc, if_pos hc, slice_set_marker_before _ _ _ rtl (hle.2 hc)]
    · rw [if_neg hc, if_neg hc]
  rw [e1, e2, e3]

theorem roundtrip_lookahead_set_marker (tvb : tvbuff_t) (o : Nat) :
    roundtrip_lookahead (set_marker tvb o) o ↔ roundtrip_lookahead tvb o := by
  unfold roundtrip_lookahead tvb_captured_length_remaining tvb_get_ntohs
  rw [length_set_marker, tvb_get_be_set_marker_after _ _ _ _ (by omega)]

/-- Closing marker read at the end of the reply topic. Take a buffer whose header is
interpreted up to the end of the reply topic at offset `o`, with at least 2 captured bytes
left, and on which the 16-bit value `v` at the offset where the Framer reads the closing
marker differs from 0xAAAA. Then that offset is `o`: `dissect_rbus` emits the marker, reports
MalformedHeader and goes on to the payload stage at `o + 2`; and on the same buffer with the
two bytes at `o` replaced by 0xAAAA it emits the same header fields, no MalformedHeader, and
exactly the same payload stage result. -/
theorem closing_mismatch_at_reply_end (env : payload_env) (tvb : tvbuff_t)
    (hl pl tl rtl v : Nat) (h : header_parsed tvb hl pl tl rtl)
    (h2 : 2 ≤ tvb.length - reply_end tl rtl)
    (hv : tvb_get_ntohs tvb (closing_offset tvb (reply_end tl rtl)) = some v)
    (hne : v ≠ 0xAAAA) :
    closing_offset tvb (reply_end tl rtl) = reply_end tl rtl ∧
    dissect_rbus env tvb =
      (dissect_rbus_payload env tvb (reply_end tl rtl + 2) pl).after
        (fixed_header_emits tvb ++ topic_emits tvb tl ++
          reply_topic_emits tvb (26 + topic_skip tl) rtl ++
          [.proto_item .header_tree .hf_rbus_closing_marker (reply_end tl rtl) 2 (.uint v),
           .expert .ei_rbus_malformed_header, .set_len (reply_end tl rtl + 2)]) ∧
    dissect_rbus env (set_marker tvb (reply_end tl rtl)) =
      (dissect_rbus_payload env tvb (reply_end tl rtl + 2) pl).after
        (fixed_header_emits tvb ++ topic_emits tvb tl ++
          reply_topic_emits tvb (26 + topic_skip tl) rtl ++
          [.proto_item .header_tree .hf_rbus_closing_marker (reply_end tl rtl) 2
            (.uint 0xAAAA), .set_len (reply_end tl rtl + 2)]) := by
  have hpre := header_front_set_marker tvb tl rtl
  have hfac := dissect_rbus_factor env tvb h
  have hfac' := dissect_rbus_factor env _ (header_parsed_set_marker h)
  unfold header_emits at hfac hfac'
  rw [hpre] at hfac'
  generalize reply_end tl rtl = o at *
  have hla : ¬ roundtrip_lookahead tvb o := by
    intro hla
    have hco : closing_offset tvb o = o + 20 := by simp only [closing_offset, if_pos hla]
    rw [hco, hla.2] at hv
    exact hne (Option.some.inj hv).symm
  have hla' : ¬ roundtrip_lookahead (set_marker tvb o) o :=
    fun hh => hla ((roundtrip_lookahead_set_marker tvb o).mp hh)
  have hco : closing_offset tvb o = o := by simp only [closing_offset, if_neg hla]
  have hrem : 2 ≤ tvb_captured_length_remaining tvb o := h2
  have hrem' : 2 ≤ tvb_captured_length_remaining (set_marker tvb o) o := by
    unfold tvb_captured_length_remaining; rw [length_set_marker]; exact h2
  rw [hco] at hv
  have hval := (tvb_get_be_eq_some.mp hv).2
  refine ⟨hco, ?_, ?_⟩
  · rw [hfac]
    simp only [trailer_emits, payload_start, closing_emits, closing_offset, if_neg hla,
      if_pos hrem, uint_item, ← hval, if_pos hne]
    simp
  · rw [hfac']
    have hslice := slice_set_marker tvb o (by omega)
    have hbe : be_value [(0xAA : UInt8), 0xAA] = 0xAAAA := by decide
    simp only [trailer_emits, payload_start, closing_emits, closing_offset, if_neg hla',
      if_pos hrem', uint_item, hslice, hbe]
    rw [dissect_rbus_payload_congr env tvb (set_marker tvb o) (o + 2) pl (length_set_marker _ _)
      (fun po hpo => drop_set_marker tvb o po hpo)]
    simp

theorem header_parsed_bad_closing_marker : header_parsed bad_closing_marker 36 2 4 0 :=
  ⟨by decide, by decide, by decide, by decide, by decide, by decide, by decide, by decide,
    by decide, by decide⟩

/-- C7 (amended). For every complete message without a round-trip timestamp block
(topic_length `tl` and reply_topic_length `rtl` below 1024, header_length field
`hl = 32 + tl + rtl`, payload_length at most 10 MiB, at least header_length + payload_length
bytes captured) whose closing marker, the 16-bit value `v` at offset `hl - 2`, differs from
0xAAAA, and on which the round-trip lookahead does not fire (fewer than 22 bytes are captured
from the end of the reply topic, or the 16-bit value 20 bytes after it is not 0xAAAA):
`dissect_rbus` emits the closing marker, reports MalformedHeader and still runs the payload
stage at offset `hl`; and on the same buffer with the two closing-marker bytes replaced by
0xAAAA it emits the same header fields, no MalformedHeader, and exactly the same payload stage
result (same payload fields, same bytes consumed), whatever the payload decoders are. -/
theorem dissect_rbus_closing_mismatch (env : payload_env) (tvb : tvbuff_t)
    (hl pl tl rtl v : Nat)
    (hhl : tvb_get_ntohs tvb 4 = some hl) (hpl : tvb_get_ntohl tvb 18 = some pl)
    (htl : tvb_get_ntohl tvb 22 = some tl) (htl_lt : tl < 1024)
    (hrtl : tvb_get_ntohl tvb (26 + tl) = some rtl) (hrtl_lt : rtl < 1024)
    (hlayout : hl = 32 + tl + rtl)
    (hmax : pl ≤ 10485760) (hcap : hl + pl ≤ tvb.length)
    (hv : tvb_get_ntohs tvb (hl - 2) = some v) (hne : v ≠ 0xAAAA)
    (hno : ¬ (22 ≤ tvb.length - (30 + tl + rtl) ∧
      tvb_get_ntohs tvb (30 + tl + rtl + 20) = some 0xAAAA)) :
    dissect_rbus env tvb =
      (dissect_rbus_payload env tvb hl pl).after
        (fixed_header_emits tvb ++ topic_emits tvb tl ++ reply_topic_emits tvb (26 + tl) rtl ++
          [.proto_item .header_tree .hf_rbus_closing_marker (hl - 2) 2 (.uint v),
           .expert .ei_rbus_malformed_header, .set_len hl]) ∧
    dissect_rbus env (set_marker tvb (hl - 2)) =
      (dissect_rbus_payload env tvb hl pl).after
        (fixed_header_emits tvb ++ topic_emits tvb tl ++ reply_topic_emits tvb (26 + tl) rtl ++
          [.proto_item .header_tree .hf_rbus_closing_marker (hl - 2) 2 (.uint 0xAAAA),
           .set_len hl]) := by
  have hst := topic_skip_of_lt htl_lt
  have hsr := topic_skip_of_lt hrtl_lt
  have hp : header_parsed tvb hl pl tl rtl :=
    { captured := by omega
      header_length := hhl
      payload_length := hpl
      complete := by rw [Nat.mod_eq_of_lt (by omega)]; exact hcap
      valid_header_length := by omega
      valid_payload_length := by unfold RBUS_MAX_PAYLOAD_SIZE; omega
      topic_length := htl
      topic := by rw [hst]; omega
      reply_topic_length := by rw [hst]; exact hrtl
      reply_topic := by rw [hst, hsr]; omega }
  have ho : reply_end tl rtl = hl - 2 := by
    unfold reply_end; rw [hst, hsr]; omega
  have ho2 : hl - 2 + 2 = hl := by omega
  have hla : ¬ roundtrip_lookahead tvb (reply_end tl rtl) := by
    rw [ho]
    unfold roundtrip_lookahead tvb_captured_length_remaining
    rw [show hl - 2 = 30 + tl + rtl by omega]
    exact hno
  have hco : closing_offset tvb (reply_end tl rtl) = reply_end tl rtl := by
    simp only [closing_offset, if_neg hla]
  have key := closing_mismatch_at_reply_end env tvb hl pl tl rtl v hp
    (by rw [ho]; omega) (by rw [hco, ho]; exact hv) hne
  rw [ho, ho2, hst] at key
  exact ⟨key.2.1, key.2.2⟩

/-- C7 (witness): the hypotheses hold on `bad_closing_marker`, a 38-byte message without
timestamps (header_length 36 = 32 + 4 + 0, payload_length 2) whose closing marker at offset
34 is 0x1234. -/
theorem dissect_rbus_closing_mismatch_witness :
    (tvb_get_ntohs bad_closing_marker 4 = some 36 ∧
      tvb_get_ntohl bad_closing_marker 18 = some 2 ∧
      tvb_get_ntohl bad_closing_marker 22 = some 4 ∧
      tvb_get_ntohl bad_closing_marker (26 + 4) = some 0 ∧
      36 + 2 ≤ bad_closing_marker.length ∧
      tvb_get_ntohs bad_closing_marker (36 - 2) = some 0x1234 ∧
      ¬ (22 ≤ bad_closing_marker.length - (30 + 4 + 0) ∧
        tvb_get_ntohs bad_closing_marker (30 + 4 + 0 + 20) = some 0xAAAA)) ∧
    ∀ env,
      dissect_rbus env bad_closing_marker =
        (dissect_rbus_payload env bad_closing_marker 36 2).after
          (fixed_header_emits bad_closing_marker ++ topic_emits bad_closing_marker 4 ++
            reply_topic_emits bad_closing_marker (26 + 4) 0 ++
            [.proto_item .header_tree .hf_rbus_closing_marker (36 - 2) 2 (.uint 0x1234),
             .expert .ei_rbus_malformed_header, .set_len 36]) ∧
      dissect_rbus env (set_marker bad_closing_marker (36 - 2)) =
        (dissect_rbus_payload env bad_closing_marker 36 2).after
          (fixed_header_emits bad_closing_marker ++ topic_emits bad_closing_marker 4 ++
            reply_topic_emits bad_closing_marker (26 + 4) 0 ++
            [.proto_item .header_tree .hf_rbus_closing_marker (36 - 2) 2 (.uint 0xAAAA),
             .set_len 36]) :=
  ⟨⟨by decide, by decide, by decide, by decide, by decide, by decide, by decide⟩, fun env =>
    dissect_rbus_closing_mismatch env bad_closing_marker 36 2 4 0 0x1234
      (by decide) (by decide) (by decide) (by decide) (by decide) (by decide) (by decide)
      (by decide) (by decide) (by decide) (by decide) (by decide)⟩

theorem header_parsed_roundtrip_bad_closing :
    header_parsed roundtrip_bad_closing 56 2 4 0 :=
  ⟨by decide, by decide, by decide, by decide, by decide, by decide, by decide, by decide,
    by decide, by decide⟩

theorem header_parsed_misfire_bad_closing : header_parsed misfire_bad_closing 32 21 0 0 :=
  ⟨by decide, by decide, by decide, by decide, by decide, by decide, by decide, by decide,
    by decide, by decide⟩

/-- C7 (counterexample). Two complete messages whose closing marker is 0x1234.

`roundtrip_bad_closing` carries the round-trip timestamp block (header_length
56 = 32 + 4 + 0 + 20, payload_length 2, all 58 bytes captured, closing marker at offset 54).
The lookahead finds no 0xAAAA at offset 54, so the Framer reads the first two timestamp bytes
at offset 34 as the closing marker, reports MalformedHeader and runs the payload stage at
offset 36 on the bytes 00 01, reporting 38 bytes consumed. With the two closing-marker bytes
replaced by 0xAAAA (the buffer `sample_roundtrip`) the payload stage runs at offset 56 on the
bytes C0 C0 and 58 bytes are consumed: the payload fields emitted are not the same.

`misfire_bad_closing` has no timestamp block (header_length 32 = 32 + 0 + 0, payload_length
21, all 53 bytes captured, closing marker at offset 30) and a payload with 0xAAAA at payload
offset 18, that is, at offset 50. The lookahead fires, the closing marker is read at offset 50
as 0xAAAA, and no MalformedHeader is reported: none before the payload stage whatever the
payload decoders are, and none at all with the decoders of this dissector run over the sample
value decoder `byte_unpack`. -/
theorem dissect_rbus_bad_closing_roundtrip :
    (tvb_get_ntohs roundtrip_bad_closing 4 = some (32 + 4 + 0 + 20) ∧
      tvb_get_ntohl roundtrip_bad_closing 18 = some 2 ∧
      tvb_get_ntohl roundtrip_bad_closing 22 = some 4 ∧
      tvb_get_ntohl roundtrip_bad_closing 30 = some 0 ∧
      roundtrip_bad_closing.length = 56 + 2 ∧
      tvb_get_ntohs roundtrip_bad_closing 54 = some 0x1234 ∧
      set_marker roundtrip_bad_closing 54 = sample_roundtrip ∧
      ∀ env,
        dissect_rbus env roundtrip_bad_closing =
          (dissect_rbus_payload env roundtrip_bad_closing 36 2).after
            (fixed_header_emits roundtrip_bad_closing ++ topic_emits roundtrip_bad_closing 4 ++
              reply_topic_emits roundtrip_bad_closing 30 0 ++
              [.proto_item .header_tree .hf_rbus_closing_marker 34 2 (.uint 0),
               .expert .ei_rbus_malformed_header, .set_len 36]) ∧
        (dissect_rbus env roundtrip_bad_closing).out = .consumed 38 ∧
        (dissect_rbus_payload env roundtrip_bad_closing 36 2).emitted.head? =
          some (.proto_item .rbus_tree .hf_rbus_payload 36 2 (.bytes [0, 1])) ∧
        dissect_rbus env sample_roundtrip =
          (dissect_rbus_payload env sample_roundtrip 56 2).after
            (fixed_header_emits sample_roundtrip ++ topic_emits sample_roundtrip 4 ++
              reply_topic_emits sample_roundtrip 30 0 ++ roundtrip_emits sample_roundtrip 34 ++
              [.proto_item .header_tree .hf_rbus_closing_marker 54 2 (.uint 0xAAAA),
               .set_len 56]) ∧
        (dissect_rbus env sample_roundtrip).out = .consumed 58 ∧
        (dissect_rbus_payload env sample_roundtrip 56 2).emitted.head? =
          some (.proto_item .rbus_tree .hf_rbus_payload 56 2 (.bytes [0xC0, 0xC0])) ∧
        (dissect_rbus_payload env roundtrip_bad_closing 36 2).emitted ≠
          (dissect_rbus_payload env sample_roundtrip 56 2).emitted) ∧
    (tvb_get_ntohs misfire_bad_closing 4 = some (32 + 0 + 0) ∧
      tvb_get_ntohl misfire_bad_closing 18 = some 21 ∧
      tvb_get_ntohl misfire_bad_closing 22 = some 0 ∧
      tvb_get_ntohl misfire_bad_closing 26 = some 0 ∧
      misfire_bad_closing.length = 32 + 21 ∧
      tvb_get_ntohs misfire_bad_closing 30 = some 0x1234 ∧
      tvb_get_ntohs misfire_bad_closing (30 + 20) = some 0xAAAA ∧
      (∀ env,
        dissect_rbus env misfire_bad_closing =
          (dissect_rbus_payload env misfire_bad_closing 52 21).after
            (fixed_header_emits misfire_bad_closing ++ topic_emits misfire_bad_closing 0 ++
              reply_topic_emits misfire_bad_closing 26 0 ++
              roundtrip_emits misfire_bad_closing 30 ++
              [.proto_item .header_tree .hf_rbus_closing_marker 50 2 (.uint 0xAAAA),
               .set_len 52])) ∧
      ei_id.ei_rbus_malformed_header ∉
        expert_ids (dissect_rbus (rbus_env byte_unpack (fun _ => []) 16 20000)
          misfire_bad_closing).emitted) := by
  have hd1 : ∀ env, (dissect_rbus_payload env roundtrip_bad_closing 36 2).emitted.head? =
      some (.proto_item .rbus_tree .hf_rbus_payload 36 2 (.bytes [0, 1])) := fun env => by
    rw [dissect_rbus_payload_untruncated env _ 36 2 (by decide) (by decide),
      dissect_rbus_payload_bytes_head env _ 36 2 2 (by decide) (by decide)]
    rfl
  have hd2 : ∀ env, (dissect_rbus_payload env sample_roundtrip 56 2).emitted.head? =
      some (.proto_item .rbus_tree .hf_rbus_payload 56 2 (.bytes [0xC0, 0xC0])) := fun env => by
    rw [dissect_rbus_payload_untruncated env _ 56 2 (by decide) (by decide),
      dissect_rbus_payload_bytes_head env _ 56 2 2 (by decide) (by decide)]
    rfl
  refine ⟨⟨by decide, by decide, by decide, by decide, by decide, by decide, by decide,
    fun env => ⟨?_, ?_, hd1 env, ?_, ?_, hd2 env, ?_⟩⟩,
    ⟨by decide, by decide, by decide, by decide, by decide, by decide, by decide,
      fun env => ?_, by decide⟩⟩
  · rw [dissect_rbus_factor env _ header_parsed_roundtrip_bad_closing]
    rfl
  · rw [dissect_rbus_out_of_parsed env _ header_parsed_roundtrip_bad_closing]
    decide
  · rw [dissect_rbus_factor env _ header_parsed_sample_roundtrip]
    rfl
  · rw [dissect_rbus_out_of_parsed env _ header_parsed_sample_roundtrip]
    decide
  · intro h
    have := hd1 env
    rw [h, hd2 env] at this
    exact absurd this (by decide)
  · rw [dissect_rbus_factor env _ header_parsed_misfire_bad_closing]
    rfl

/-! ## Message Framer: payload stage -/

theorem dissect_rbus_payload_bytes_json (env : payload_env) (tvb : tvbuff_t) (q pl n b : Nat)
    (hn : 2 ≤ n) (hcap : q + n ≤ tvb.length) (hb : tvb_get_uint8 tvb q = some b)
    (hj : b = 0x7B ∨ b = 0x5B) :
    dissect_rbus_payload_bytes env tvb q pl n =
      ⟨[.proto_item .rbus_tree .hf_rbus_payload q n (.bytes ((tvb.drop q).take n)),
        .proto_item .payload_tree .hf_rbus_payload q n
          (.formatted ((tvb.drop q).take n) (c_string ((tvb.drop q).take n))),
        .append_text " [JSON]"], .consumed (q + pl)⟩ := by
  unfold dissect_rbus_payload_bytes
  simp only [tvb_get_ptr_of_le hcap, hb]
  rw [if_pos ⟨hj, by omega⟩]

theorem c_string_eq_self (data : List UInt8) (h : ∀ x ∈ data, x ≠ 0) : c_string data = data := by
  unfold c_string
  rw [List.takeWhile_eq_self_iff]
  intro x hx
  simpa using h x hx

/-- C9 (amended). For every complete message (header interpreted, payload fully captured)
whose payload has length at least 2 and first byte `{` (0x7B) or `[` (0x5B), `dissect_rbus`
emits, after the header fields, the payload item, one text-formatted payload field covering
all payload bytes, and the ` [JSON]` mark, and nothing else: the result does not involve the
payload decoders (neither `parse_rbus_payload` nor the generic fallback runs). The text of the
field is the payload up to its first zero byte, hence the whole payload verbatim when the
payload contains no zero byte. -/
theorem dissect_rbus_json_shortcut (env : payload_env) (tvb : tvbuff_t)
    (hl pl tl rtl b : Nat) (h : header_parsed tvb hl pl tl rtl) (hpl : 2 ≤ pl)
    (hcap : payload_start tvb (reply_end tl rtl) + pl ≤ tvb.length)
    (hb : tvb_get_uint8 tvb (payload_start tvb (reply_end tl rtl)) = some b)
    (hj : b = 0x7B ∨ b = 0x5B) :
    dissect_rbus env tvb =
      ⟨header_emits tvb tl rtl ++
        [.proto_item .rbus_tree .hf_rbus_payload (payload_start tvb (reply_end tl rtl)) pl
          (.bytes ((tvb.drop (payload_start tvb (reply_end tl rtl))).take pl)),
         .proto_item .payload_tree .hf_rbus_payload (payload_start tvb (reply_end tl rtl)) pl
          (.formatted ((tvb.drop (payload_start tvb (reply_end tl rtl))).take pl)
            (c_string ((tvb.drop (payload_start tvb (reply_end tl rtl))).take pl))),
         .append_text " [JSON]"],
       .consumed (payload_start tvb (reply_end tl rtl) + pl)⟩ ∧
    ((∀ x ∈ (tvb.drop (payload_start tvb (reply_end tl rtl))).take pl, x ≠ 0) →
      c_string ((tvb.drop (payload_start tvb (reply_end tl rtl))).take pl) =
        (tvb.drop (payload_start tvb (reply_end tl rtl))).take pl) := by
  refine ⟨?_, c_string_eq_self _⟩
  rw [dissect_rbus_factor env tvb h,
    dissect_rbus_payload_untruncated env tvb _ pl (by omega) hcap,
    dissect_rbus_payload_bytes_json env tvb _ pl pl b hpl hcap hb hj]
  rfl

theorem header_parsed_json_payload : header_parsed json_payload 32 9 0 0 :=
  ⟨by decide, by decide, by decide, by decide, by decide, by decide, by decide, by decide,
    by decide, by decide⟩

/-- C9 (witness): the hypotheses hold on `json_payload`, whose payload is `{"a":[1]}`; the
text emitted is that payload. -/
theorem dissect_rbus_json_shortcut_witness :
    (header_parsed json_payload 32 9 0 0 ∧
      payload_start json_payload (reply_end 0 0) + 9 ≤ json_payload.length ∧
      tvb_get_uint8 json_payload (payload_start json_payload (reply_end 0 0)) = some 0x7B) ∧
    c_string ((json_payload.drop (payload_start json_payload (reply_end 0 0))).take 9) =
      "\x7b\"a\":[1]\x7d".toUTF8.data.toList :=
  ⟨⟨header_parsed_json_payload, by decide, by decide⟩,
    ((dissect_rbus_json_shortcut ⟨fun _ _ => ([], 0), fun _ _ _ _ c => ([], 0, c), 0⟩
      json_payload 32 9 0 0 0x7B header_parsed_json_payload (by decide) (by decide)
      (by decide) (Or.inl rfl)).2 (by decide)).trans (by decide)⟩

theorem header_parsed_json_one_byte : header_parsed json_one_byte 32 1 0 0 :=
  ⟨by decide, by decide, by decide, by decide, by decide, by decide, by decide, by decide,
    by decide, by decide⟩

theorem getLast?_append_singleton (l : List Emit) (a : Emit) :
    (l ++ [a]).getLast? = some a := by
  simp

theorem append_text_ne_json (n : Nat) (s : String) :
    Emit.append_text (" [" ++ toString n ++ " MessagePack object" ++ s ++ "]") ≠
      Emit.append_text " [JSON]" := by
  intro h
  have h1 := congrArg String.length (Emit.append_text.inj h)
  simp only [String.length_append] at h1
  have h2 : " [".length = 2 := by decide
  have h3 : " MessagePack object".length = 19 := by decide
  have h4 : "]".length = 1 := by decide
  have h5 : " [JSON]".length = 7 := by decide
  omega

/-- C9 (counterexample). `json_one_byte` is a complete message whose non-empty payload is the
single byte `{`: `dissect_rbus` does not emit it as text but hands it to
`parse_rbus_payload`, whose output follows the payload item, and the result is never the JSON
pass-through. `json_with_nul` is a complete message whose payload `{`, 0x00, `}` starts with
`{`: the text emitted is only `{`, not the whole payload. -/
theorem dissect_rbus_json_exceptions :
    (tvb_get_ntohl json_one_byte 18 = some 1 ∧ tvb_get_uint8 json_one_byte 32 = some 0x7B ∧
      json_one_byte.length = 32 + 1 ∧
      (∀ env, ∃ rest, (dissect_rbus env json_one_byte).emitted =
        header_emits json_one_byte 0 0 ++
          [.proto_item .rbus_tree .hf_rbus_payload 32 1 (.bytes [0x7B])] ++
          (env.parse_rbus_payload [0x7B] 32).1 ++ rest) ∧
      ¬ ∃ env, (dissect_rbus env json_one_byte).emitted =
        header_emits json_one_byte 0 0 ++
          [.proto_item .rbus_tree .hf_rbus_payload 32 1 (.bytes [0x7B]),
           .proto_item .payload_tree .hf_rbus_payload 32 1 (.formatted [0x7B] [0x7B]),
           .append_text " [JSON]"]) ∧
    (tvb_get_ntohl json_with_nul 18 = some 3 ∧ tvb_get_uint8 json_with_nul 32 = some 0x7B ∧
      json_with_nul.length = 32 + 3 ∧
      ∀ env, dissect_rbus env json_with_nul =
        ⟨header_emits json_with_nul 0 0 ++
          [.proto_item .rbus_tree .hf_rbus_payload 32 3 (.bytes [0x7B, 0x00, 0x7D]),
           .proto_item .payload_tree .hf_rbus_payload 32 3
            (.formatted [0x7B, 0x00, 0x7D] [0x7B]),
           .append_text " [JSON]"], .consumed 35⟩) := by
  have hfac : ∀ env, dissect_rbus env json_one_byte =
      (dissect_rbus_payload_bytes env json_one_byte 32 1 1).after
        (header_emits json_one_byte 0 0) := fun env => by
    rw [dissect_rbus_factor env _ header_parsed_json_one_byte,
      dissect_rbus_payload_untruncated env _ _ 1 (by decide) (by decide)]
    rfl
  have hblock : ∀ env, (dissect_rbus_payload_bytes env json_one_byte 32 1 1).emitted =
      if (env.parse_rbus_payload [0x7B] 32).2 = 0 then
        [.proto_item .rbus_tree .hf_rbus_payload 32 1 (.bytes [0x7B])] ++
          (env.parse_rbus_payload [0x7B] 32).1 ++
          (fallback_loop env json_one_byte 33 1 32 0 0 ⟨0, false, 0, none, 0, 0⟩).1 ++
          [if (fallback_loop env json_one_byte 33 1 32 0 0 ⟨0, false, 0, none, 0, 0⟩).2.2 > 0
            then .append_text (" [" ++
              toString (fallback_loop env json_one_byte 33 1 32 0 0
                ⟨0, false, 0, none, 0, 0⟩).2.1 ++ " MessagePack object" ++
              (if (fallback_loop env json_one_byte 33 1 32 0 0
                ⟨0, false, 0, none, 0, 0⟩).2.1 = 1 then "" else "s") ++ "]")
            else .append_text " [Not valid MessagePack]"]
      else
        [.proto_item .rbus_tree .hf_rbus_payload 32 1 (.bytes [0x7B])] ++
          (env.parse_rbus_payload [0x7B] 32).1 ++
          [.append_text " [Structured RBus Message]"] := fun env => by
    unfold dissect_rbus_payload_bytes
    have hp : tvb_get_ptr json_one_byte 32 1 = some [0x7B] := by decide
    have hb : tvb_get_uint8 json_one_byte 32 = some 0x7B := by decide
    simp only [hp, hb]
    rw [if_neg (by omega)]
    split <;> rfl
  refine ⟨⟨by decide, by decide, by decide, fun env => ?_, ?_⟩,
    ⟨by decide, by decide, by decide, fun env => by rfl⟩⟩
  · rw [hfac env, after_emitted, hblock env]
    split
    · simp only [List.append_assoc]
      exact ⟨_, rfl⟩
    · simp only [List.append_assoc]
      exact ⟨_, rfl⟩
  · rintro ⟨env, he⟩
    rw [hfac env, after_emitted, hblock env] at he
    have hlast := congrArg List.getLast? (List.append_cancel_left he)
    have hjson : ([.proto_item .rbus_tree .hf_rbus_payload 32 1 (.bytes [0x7B]),
        .proto_item .payload_tree .hf_rbus_payload 32 1 (.formatted [0x7B] [0x7B]),
        .append_text " [JSON]"] : List Emit).getLast? = some (.append_text " [JSON]") := rfl
    rw [hjson] at hlast
    split at hlast
    · rw [getLast?_append_singleton] at hlast
      split at hlast
      · exact append_text_ne_json _ _ (Option.some.inj hlast)
      · exact absurd (Option.some.inj hlast) (by decide)
    · rw [getLast?_append_singleton] at hlast
      exact absurd (Option.some.inj hlast) (by decide)

theorem dissect_rbus_payload_truncated (env : payload_env) (tvb : tvbuff_t) (q pl : Nat)
    (htr : tvb.length - q < pl) :
    dissect_rbus_payload env tvb q pl =
      (if q < tvb.length then dissect_rbus_payload_bytes env tvb q pl (tvb.length - q)
        else ⟨[], .consumed q⟩).after [.expert .ei_rbus_truncated_packet] := by
  have hpl : pl > 0 := by omega
  have hrem : tvb_captured_length_remaining tvb q < pl := htr
  simp only [dissect_rbus_payload, hpl, hrem, if_true]
  unfold tvb_captured_length_remaining
  by_cases hq : q < tvb.length
  · rw [if_pos (by omega), if_pos hq]
  · rw [if_neg (by omega), if_neg hq]
    rfl

/-- C10. For every message whose header is interpreted and in which the bytes captured
after the parsed header (from offset `q`) are fewer than the declared payload_length,
`dissect_rbus` reports TruncatedPayload right after the header fields and decodes exactly
the available slice: when some byte is captured after the header, the payload item and the
payload decoding (JSON text shortcut, or `parse_rbus_payload` with the generic fallback
loop ending at the captured length) receive `tvb.drop q`, all captured bytes after the
header and nothing else, no read leaves the captured bytes (the dissection does not raise),
and `q + payload_length` is returned; when no byte is captured after the header nothing is
decoded and `q` is returned. -/
theorem dissect_rbus_truncated (env : payload_env) (tvb : tvbuff_t) (hl pl tl rtl : Nat)
    (h : header_parsed tvb hl pl tl rtl)
    (htr : tvb.length - payload_start tvb (reply_end tl rtl) < pl) :
    (payload_start tvb (reply_end tl rtl) < tvb.length →
      dissect_rbus env tvb =
          (dissect_rbus_payload_bytes env tvb (payload_start tvb (reply_end tl rtl)) pl
            (tvb.length - payload_start tvb (reply_end tl rtl))).after
            (header_emits tvb tl rtl ++ [.expert .ei_rbus_truncated_packet]) ∧
        tvb_get_ptr tvb (payload_start tvb (reply_end tl rtl))
            (tvb.length - payload_start tvb (reply_end tl rtl)) =
          some (tvb.drop (payload_start tvb (reply_end tl rtl))) ∧
        (dissect_rbus env tvb).out =
          .consumed (payload_start tvb (reply_end tl rtl) + pl)) ∧
    (tvb.length ≤ payload_start tvb (reply_end tl rtl) →
      dissect_rbus env tvb =
        ⟨header_emits tvb tl rtl ++ [.expert .ei_rbus_truncated_packet],
          .consumed (payload_start tvb (reply_end tl rtl))⟩) ∧
    (∀ first, tvb_get_uint8 tvb (payload_start tvb (reply_end tl rtl)) = some first →
      dissect_rbus_payload_bytes env tvb (payload_start tvb (reply_end tl rtl)) pl
          (tvb.length - payload_start tvb (reply_end tl rtl)) =
        if (first = 0x7B ∨ first = 0x5B) ∧
            tvb.length - payload_start tvb (reply_end tl rtl) > 1 then
          ⟨[.proto_item .rbus_tree .hf_rbus_payload (payload_start tvb (reply_end tl rtl))
              (tvb.length - payload_start tvb (reply_end tl rtl))
              (.bytes (tvb.drop (payload_start tvb (reply_end tl rtl)))),
            .proto_item .payload_tree .hf_rbus_payload (payload_start tvb (reply_end tl rtl))
              (tvb.length - payload_start tvb (reply_end tl rtl))
              (.formatted (tvb.drop (payload_start tvb (reply_end tl rtl)))
                (c_string (tvb.drop (payload_start tvb (reply_end tl rtl))))),
            .append_text " [JSON]"],
            .consumed (payload_start tvb (reply_end tl rtl) + pl)⟩
        else if (env.parse_rbus_payload (tvb.drop (payload_start tvb (reply_end tl rtl)))
            (payload_start tvb (reply_end tl rtl))).2 = 0 then
          ⟨[.proto_item .rbus_tree .hf_rbus_payload (payload_start tvb (reply_end tl rtl))
              (tvb.length - payload_start tvb (reply_end tl rtl))
              (.bytes (tvb.drop (payload_start tvb (reply_end tl rtl))))] ++
            (env.parse_rbus_payload (tvb.drop (payload_start tvb (reply_end tl rtl)))
              (payload_start tvb (reply_end tl rtl))).1 ++
            (fallback_loop env tvb tvb.length
              (tvb.length - payload_start tvb (reply_end tl rtl))
              (payload_start tvb (reply_end tl rtl)) 0 0 ⟨0, false, 0, none, 0, 0⟩).1 ++
            [if (fallback_loop env tvb tvb.length
                (tvb.length - payload_start tvb (reply_end tl rtl))
                (payload_start tvb (reply_end tl rtl)) 0 0 ⟨0, false, 0, none, 0, 0⟩).2.2 > 0
              then .append_text (" [" ++ toString (fallback_loop env tvb tvb.length
                  (tvb.length - payload_start tvb (reply_end tl rtl))
                  (payload_start tvb (reply_end tl rtl)) 0 0 ⟨0, false, 0, none, 0, 0⟩).2.1 ++
                " MessagePack object" ++
                (if (fallback_loop env tvb tvb.length
                  (tvb.length - payload_start tvb (reply_end tl rtl))
                  (payload_start tvb (reply_end tl rtl)) 0 0 ⟨0, false, 0, none, 0, 0⟩).2.1 = 1
                  then "" else "s") ++ "]")
              else .append_text " [Not valid MessagePack]"],
            .consumed (payload_start tvb (reply_end tl rtl) + pl)⟩
        else
          ⟨[.proto_item .rbus_tree .hf_rbus_payload (payload_start tvb (reply_end tl rtl))
              (tvb.length - payload_start tvb (reply_end tl rtl))
              (.bytes (tvb.drop (payload_start tvb (reply_end tl rtl))))] ++
            (env.parse_rbus_payload (tvb.drop (payload_start tvb (reply_end tl rtl)))
              (payload_start tvb (reply_end tl rtl))).1 ++
            [.append_text " [Structured RBus Message]"],
            .consumed (payload_start tvb (reply_end tl rtl) + pl)⟩) := by
  have hfac := dissect_rbus_factor env tvb h
  generalize payload_start tvb (reply_end tl rtl) = q at *
  rw [dissect_rbus_payload_truncated env tvb q pl htr] at hfac
  refine ⟨fun hq => ?_, fun hq => ?_, fun first hfirst => ?_⟩
  · rw [if_pos hq] at hfac
    refine ⟨?_, ?_, ?_⟩
    · rw [hfac, after_after]
    · rw [tvb_get_ptr_of_le (by omega), List.take_of_length_le (by simp)]
    · rw [hfac, after_out, after_out,
        dissect_rbus_payload_bytes_out env tvb q pl _ (by omega) (by omega)]
  · rw [if_neg (by omega)] at hfac
    rw [hfac]
    rfl
  · have hq : q + 1 ≤ tvb.length := (tvb_get_be_eq_some.mp hfirst).1
    have hptr : tvb_get_ptr tvb q (tvb.length - q) = some (tvb.drop q) := by
      rw [tvb_get_ptr_of_le (by omega), List.take_of_length_le (by simp)]
    have hend : q + (tvb.length - q) = tvb.length := by omega
    unfold dissect_rbus_payload_bytes
    simp only [hptr, hfirst, hend]

theorem header_parsed_truncated_payload : header_parsed truncated_payload 32 4 4 0 :=
  ⟨by decide, by decide, by decide, by decide, by decide, by decide, by decide, by decide,
    by decide, by decide⟩

/-- C10 (witness): the hypotheses hold on `truncated_payload`, where 2 of the 4 declared
payload bytes are captured after the 36-byte header. -/
theorem dissect_rbus_truncated_witness :
    (header_parsed truncated_payload 32 4 4 0 ∧
      payload_start truncated_payload (reply_end 4 0) = 36 ∧
      truncated_payload.length - payload_start truncated_payload (reply_end 4 0) < 4) ∧
    ∀ env, (dissect_rbus env truncated_payload).out =
      .consumed (payload_start truncated_payload (reply_end 4 0) + 4) :=
  ⟨⟨header_parsed_truncated_payload, by decide, by decide⟩, fun env =>
    ((dissect_rbus_truncated env truncated_payload 32 4 4 0 header_parsed_truncated_payload
      (by decide)).1 (by decide)).2.2⟩

/-! ## The Method Dispatcher on the examples of the specification -/

theorem ascii_method : ascii "METHOD_" = [77, 69, 84, 72, 79, 68, 95] := by decide

/-- C13: on the SET example the dispatcher adds, after the metadata block, session_id 1,
component_name "Comp1", rollback 0, param_count 1, exactly one parameter group holding the
name "Device.X.Enable", the type 0x500, the boolean value true and the combined rendering
"Device.X.Enable=true", and then commit "TRUE"; it returns the payload length. -/
theorem parse_rbus_objects_set_example (fmt_f : Nat → List UInt8) (data : List UInt8)
    (offset : Nat) :
    parse_rbus_objects fmt_f data offset set_example =
      some ([.proto_item .payload_tree .hf_rbus_metadata offset 1 .none,
        .proto_item meta_tree .hf_rbus_method_name offset 1
          (.string (ascii "METHOD_SETPARAMETERVALUES")),
        .proto_item meta_tree .hf_rbus_ot_parent offset 1 (.string []),
        .proto_item meta_tree .hf_rbus_ot_state offset 1 (.string []),
        .proto_item meta_tree .hf_rbus_metadata_offset offset 1 (.int 0),
        .proto_item .payload_tree .hf_rbus_session_id offset 1 (.uint 1),
        .proto_item .payload_tree .hf_rbus_component_name offset 1 (.string (ascii "Comp1")),
        .proto_item .payload_tree .hf_rbus_rollback offset 1 (.uint 0),
        .proto_item .payload_tree .hf_rbus_param_count offset 1 (.uint 1),
        .proto_item .payload_tree .hf_rbus_parameter offset 1 .none,
        .proto_item (group_tree .payload_tree 0) .hf_rbus_parameter_name offset 1
          (.string (ascii "Device.X.Enable")),
        .append_string ": %s" (ascii "Device.X.Enable"),
        .proto_item (group_tree .payload_tree 0) .hf_rbus_parameter_type offset 1 (.uint 0x500),
        .proto_item (group_tree .payload_tree 0) .hf_rbus_parameter_value_boolean offset 1
          (.boolean true),
        .proto_item (group_tree .payload_tree 0) .hf_rbus_parameter_namevalue offset 1
          (.string (ascii "Device.X.Enable=true")),
        .proto_item .payload_tree .hf_rbus_commit offset 1 (.string (ascii "TRUE"))],
        data.length) := by
  rfl

/-- C14: on the RESPONSE example `[0, 0, "METHOD_RESPONSE", "", "", 0]` the dispatcher adds,
after the metadata block, the error_code field with value 0 and nothing else: the second `0`
sits right before the method marker, where the property-count search demands a successor
before the marker (`idx + 1 < method_idx`), so no property_count field is emitted. -/
theorem parse_rbus_objects_response_example (fmt_f : Nat → List UInt8) (data : List UInt8)
    (offset : Nat) :
    parse_rbus_objects fmt_f data offset response_example =
      some ([.proto_item .payload_tree .hf_rbus_metadata offset 1 .none,
        .proto_item meta_tree .hf_rbus_method_name offset 1 (.string (ascii "METHOD_RESPONSE")),
        .proto_item meta_tree .hf_rbus_ot_parent offset 1 (.string []),
        .proto_item meta_tree .hf_rbus_ot_state offset 1 (.string []),
        .proto_item meta_tree .hf_rbus_metadata_offset offset 1 (.int 0),
        .proto_item .payload_tree .hf_rbus_error_code offset 1 (.int 0)],
        data.length) ∧
    ∀ es n, parse_rbus_objects fmt_f data offset response_example = some (es, n) →
      field_values .hf_rbus_property_count es = [] := by
  refine ⟨rfl, ?_⟩
  intro es n h
  have h0 : parse_rbus_objects fmt_f data offset response_example = some (_, data.length) := rfl
  rw [h0] at h
  cases h
  rfl

/-- C16: on `[0, 1, 0, "METHOD_RESPONSE", "", "", 0]` the first integer after error_code that
is non-zero and followed by a string, or zero and followed by a non-integer, is the `0` at
index 2 (followed by the method marker); the dispatcher emits no property_count field for it,
because the search only accepts a successor that lies before the marker. -/
theorem parse_rbus_objects_count_before_marker (fmt_f : Nat → List UInt8) (data : List UInt8)
    (offset : Nat) :
    parse_rbus_objects fmt_f data offset count_before_marker =
      some ([.proto_item .payload_tree .hf_rbus_metadata offset 1 .none,
        .proto_item meta_tree .hf_rbus_method_name offset 1 (.string (ascii "METHOD_RESPONSE")),
        .proto_item meta_tree .hf_rbus_ot_parent offset 1 (.string []),
        .proto_item meta_tree .hf_rbus_ot_state offset 1 (.string []),
        .proto_item meta_tree .hf_rbus_metadata_offset offset 1 (.int 0),
        .proto_item .payload_tree .hf_rbus_error_code offset 1 (.int 0)],
        data.length) := by
  rfl

/-- C18: on `["METHOD_GETPARAMETERVALUES", 7, "", ""]` the method index is 0, yet the GET
branch reads the values at indices 0 and 1 (guarded only by `array_size >= 3`): it emits the
method marker itself as component_name and the value after it as param_count 7. -/
theorem parse_rbus_objects_get_marker_first (fmt_f : Nat → List UInt8) (data : List UInt8)
    (offset : Nat) :
    find_method get_marker_first 0 = some (0, ascii "METHOD_GETPARAMETERVALUES") ∧
    parse_rbus_objects fmt_f data offset get_marker_first =
      some ([.proto_item .payload_tree .hf_rbus_metadata offset 1 .none,
        .proto_item meta_tree .hf_rbus_method_name offset 1
          (.string (ascii "METHOD_GETPARAMETERVALUES")),
        .proto_item meta_tree .hf_rbus_ot_state offset 1 (.string []),
        .proto_item meta_tree .hf_rbus_metadata_offset offset 1 (.int 0),
        .proto_item .payload_tree .hf_rbus_component_name offset 1
          (.string (ascii "METHOD_GETPARAMETERVALUES")),
        .proto_item .payload_tree .hf_rbus_param_count offset 1 (.uint 7)],
        data.length) := by
  exact ⟨rfl, rfl⟩

/-! ## The structured parse never reads outside the collected objects -/

theorem find_method_spec {objs : List msgpack_object} {i M : Nat} {method : List UInt8}
    (h : find_method objs i = some (M, method)) :
    i ≤ M ∧ M - i < objs.length ∧
      (∃ s, objs[M - i]? = some (.str s) ∧ is_method_marker s = true ∧ method = c_string s) ∧
      ∀ j t, j < M - i → objs[j]? = some (.str t) → is_method_marker t = false := by
  induction objs generalizing i with
  | nil => simp [find_method] at h
  | cons obj rest ih =>
    have step : find_method rest (i + 1) = some (M, method) →
        (∀ t, obj = .str t → is_method_marker t = false) →
        i ≤ M ∧ M - i < (obj :: rest).length ∧
          (∃ s, (obj :: rest)[M - i]? = some (.str s) ∧ is_method_marker s = true ∧
            method = c_string s) ∧
          ∀ j t, j < M - i → (obj :: rest)[j]? = some (.str t) →
            is_method_marker t = false := by
      intro h' hobj
      obtain ⟨h1, h2, ⟨s', hs1, hs2, hs3⟩, h4⟩ := ih h'
      have e : M - i = (M - (i + 1)) + 1 := by omega
      refine ⟨by omega, by simp only [List.length_cons]; omega, ⟨s', ?_, hs2, hs3⟩, ?_⟩
      · rw [e, List.getElem?_cons_succ]; exact hs1
      · intro j t hj hjt
        cases j with
        | zero =>
          simp only [List.getElem?_cons_zero, Option.some.injEq] at hjt
          exact hobj t hjt
        | succ j =>
          rw [List.getElem?_cons_succ] at hjt
          exact h4 j t (by omega) hjt
    cases obj with
    | str s =>
      by_cases hs : is_method_marker s = true
      · simp only [find_method, hs, if_true, Option.some.injEq, Prod.mk.injEq] at h
        obtain ⟨rfl, rfl⟩ := h
        simp [hs]
      · simp only [find_method, hs, Bool.false_eq_true, if_false] at h
        exact step h (fun t ht => by cases ht; simpa using hs)
    | _ =>
      simp only [find_method] at h
      exact step h (fun t ht => by cases ht)

theorem find_method_lt {objs : List msgpack_object} {M : Nat} {method : List UInt8}
    (h : find_method objs 0 = some (M, method)) : M < objs.length := by
  have := (find_method_spec h).2.1
  simpa using this

theorem find_method_eq_none {objs : List msgpack_object} {i : Nat} :
    find_method objs i = none ↔
      ∀ (j : Nat) (t : List UInt8), objs[j]? = some (msgpack_object.str t) →
        is_method_marker t = false := by
  induction objs generalizing i with
  | nil => simp [find_method]
  | cons obj rest ih =>
    have step : (find_method rest (i + 1) = none ∧
          ∀ t, obj = .str t → is_method_marker t = false) ↔
        ∀ (j : Nat) (t : List UInt8), (obj :: rest)[j]? = some (msgpack_object.str t) →
          is_method_marker t = false := by
      rw [ih]
      constructor
      · rintro ⟨h1, h2⟩ j t hjt
        cases j with
        | zero =>
          simp only [List.getElem?_cons_zero, Option.some.injEq] at hjt
          exact h2 t hjt
        | succ j =>
          rw [List.getElem?_cons_succ] at hjt
          exact h1 j t hjt
      · intro h
        exact ⟨fun j t hjt => h (j + 1) t (by rw [List.getElem?_cons_succ]; exact hjt),
          fun t ht => h 0 t (by simp [ht])⟩
    rw [← step]
    cases obj with
    | str s =>
      by_cases hs : is_method_marker s = true
      · simp [find_method, hs]
      · simp [find_method, hs]
    | _ => simp [find_method]

theorem field_str_some (objs : List msgpack_object) (limit : Nat) (t : tree_id) (hf : hf_id)
    (offset idx : Nat) (hl : limit ≤ objs.length) :
    ∃ r, field_str objs limit t hf offset idx = some r := by
  unfold field_str
  split
  · have hi : idx < objs.length := by omega
    rw [List.getElem?_eq_getElem hi]
    split <;> simp_all
  · exact ⟨_, rfl⟩

theorem field_uint_some (objs : List msgpack_object) (limit : Nat) (t : tree_id) (hf : hf_id)
    (offset idx : Nat) (hl : limit ≤ objs.length) :
    ∃ r, field_uint objs limit t hf offset idx = some r := by
  unfold field_uint
  split
  · have hi : idx < objs.length := by omega
    rw [List.getElem?_eq_getElem hi]
    split <;> simp_all
  · exact ⟨_, rfl⟩

theorem field_int_some (objs : List msgpack_object) (limit : Nat) (t : tree_id) (hf : hf_id)
    (offset idx : Nat) (hl : limit ≤ objs.length) :
    ∃ r, field_int objs limit t hf offset idx = some r := by
  unfold field_int
  split
  · have hi : idx < objs.length := by omega
    rw [List.getElem?_eq_getElem hi]
    split <;> simp_all
  · exact ⟨_, rfl⟩

theorem str_fields_some (objs : List msgpack_object) (limit : Nat) (t : tree_id) (hf : hf_id)
    (offset : Nat) (hl : limit ≤ objs.length) (fuel idx : Nat) (hfuel : limit ≤ idx + fuel) :
    ∃ es, str_fields objs limit t hf offset fuel idx = some es := by
  induction fuel generalizing idx with
  | zero => exact ⟨[], by simp [str_fields]; omega⟩
  | succ fuel ih =>
    unfold str_fields
    split
    · have hi : idx < objs.length := by omega
      obtain ⟨es, hes⟩ := ih (idx + 1) (by omega)
      rw [List.getElem?_eq_getElem hi]
      simp [hes]
    · exact ⟨_, rfl⟩

theorem attribute_fields_some (objs : List msgpack_object) (limit offset : Nat)
    (hl : limit ≤ objs.length) (fuel idx : Nat) (hfuel : limit ≤ idx + fuel) :
    ∃ es, attribute_fields objs limit offset fuel idx = some es := by
  induction fuel generalizing idx with
  | zero => exact ⟨[], by simp [attribute_fields]; omega⟩
  | succ fuel ih =>
    unfold attribute_fields
    split
    · have hi : idx < objs.length := by omega
      obtain ⟨es, hes⟩ := ih (idx + 1) (by omega)
      rw [List.getElem?_eq_getElem hi]
      simp [hes]
    · exact ⟨_, rfl⟩

theorem triplet_loop_some (fmt_f : Nat → List UInt8) (first : List UInt8)
    (objs : List msgpack_object) (method_idx offset count : Nat)
    (hf_group hf_name hf_type hf_namevalue : hf_id) (is_property : Bool)
    (hl : method_idx ≤ objs.length) (fuel p idx : Nat) (hfuel : method_idx ≤ idx + fuel) :
    ∃ r, triplet_loop fmt_f first objs method_idx offset count hf_group hf_name hf_type
      hf_namevalue is_property fuel p idx = some r := by
  induction fuel generalizing p idx with
  | zero =>
    refine ⟨([], idx), ?_⟩
    simp only [triplet_loop]
    rw [if_neg]
    omega
  | succ fuel ih =>
    unfold triplet_loop
    split
    · next hc =>
      have h0 : idx < objs.length := by omega
      have h1 : idx + 1 < objs.length := by omega
      obtain ⟨r, hr⟩ := ih (p + 1) (idx + 3) (by omega)
      rw [List.getElem?_eq_getElem h0, List.getElem?_eq_getElem h1]
      by_cases h2 : idx + 2 < method_idx
      · have h2' : idx + 2 < objs.length := by omega
        simp [h2, List.getElem?_eq_getElem h2', hr]
      · simp [h2, hr]
    · exact ⟨_, rfl⟩

theorem guarded_test_some (cond : Bool) (objs : List msgpack_object) (i : Nat)
    (test : msgpack_object → Bool) (h : cond = true → i < objs.length) :
    ∃ b, guarded_test cond objs i test = some b := by
  unfold guarded_test
  split
  · next hc => rw [List.getElem?_eq_getElem (h hc)]; exact ⟨_, rfl⟩
  · exact ⟨_, rfl⟩

theorem response_scan_some (objs : List msgpack_object) (method_idx offset : Nat)
    (hl : method_idx ≤ objs.length) (fuel idx : Nat) (hfuel : method_idx ≤ idx + fuel) :
    ∃ r, response_scan objs method_idx offset fuel idx = some r := by
  induction fuel generalizing idx with
  | zero =>
    refine ⟨([], 0, idx), ?_⟩
    simp only [response_scan]
    rw [if_neg]
    omega
  | succ fuel ih =>
    unfold response_scan
    split
    · have h0 : idx < objs.length := by omega
      obtain ⟨r, hr⟩ := ih (idx + 1) (by omega)
      rw [List.getElem?_eq_getElem h0]
      simp only []
      split
      · exact ⟨r, hr⟩
      · next potential_count _ =>
        obtain ⟨b1, hb1⟩ := guarded_test_some
          (decide (potential_count > 0 ∧ idx + 1 < method_idx)) objs (idx + 1) is_str
          (by intro h; simp at h; omega)
        obtain ⟨b2, hb2⟩ := guarded_test_some
          (decide (potential_count = 0 ∧ idx + 1 < method_idx)) objs (idx + 1)
          (fun o => !is_integer o) (by intro h; simp at h; omega)
        rw [hb1]
        cases b1
        · rw [hb2]
          cases b2
          · exact ⟨r, hr⟩
          · exact ⟨_, rfl⟩
        · exact ⟨_, rfl⟩
    · exact ⟨_, rfl⟩

theorem parse_response_some (fmt_f : Nat → List UInt8) (first : List UInt8)
    (objs : List msgpack_object) (method_idx offset : Nat) (hl : method_idx ≤ objs.length) :
    ∃ es, parse_response fmt_f first objs method_idx offset = some es := by
  unfold parse_response
  split
  · have h0 : 0 < objs.length := by omega
    rw [List.getElem?_eq_getElem h0]
    simp only []
    split
    · have h1 : 1 < objs.length := by omega
      rw [List.getElem?_eq_getElem h1]
      simp only []
      generalize hg : guarded_test _ objs (1 + 1) _ = g
      have hsome : ∃ b, g = some b := by
        rw [← hg]
        apply guarded_test_some
        intro h
        simp only [decide_eq_true_eq] at h
        omega
      obtain ⟨b, hb⟩ := hsome
      rw [hb]
      cases b
      · obtain ⟨r, hr⟩ := response_scan_some objs method_idx offset hl method_idx 1 (by omega)
        obtain ⟨count_items, prop_count, idx⟩ := r
        obtain ⟨q, hq⟩ := triplet_loop_some fmt_f first objs method_idx offset prop_count
          .hf_rbus_property .hf_rbus_property_name .hf_rbus_property_type
          .hf_rbus_property_namevalue true hl method_idx 0 idx (by omega)
        simp [hr, hq]
      · exact ⟨_, rfl⟩
    · exact ⟨_, rfl⟩
  · exact ⟨_, rfl⟩

theorem parse_set_some (fmt_f : Nat → List UInt8) (first : List UInt8)
    (objs : List msgpack_object) (method_idx offset : Nat) (hl : method_idx ≤ objs.length) :
    ∃ es, parse_set fmt_f first objs method_idx offset = some es := by
  obtain ⟨r1, h1⟩ := field_uint_some objs method_idx .payload_tree .hf_rbus_session_id offset 0 hl
  obtain ⟨r2, h2⟩ := field_str_some objs method_idx .payload_tree .hf_rbus_component_name offset
    r1.2 hl
  obtain ⟨r3, h3⟩ := field_uint_some objs method_idx .payload_tree .hf_rbus_rollback offset
    r2.2 hl
  obtain ⟨r4, h4⟩ := field_uint_some objs method_idx .payload_tree .hf_rbus_param_count offset
    r3.2 hl
  simp only [parse_set, bind, Option.bind, h1, h2, h3, h4]
  generalize hq : triplet_loop fmt_f first objs method_idx offset _ _ _ _ _ _ _ _ _ = q
  have hsome : ∃ r5, q = some r5 := by
    rw [← hq]
    exact triplet_loop_some fmt_f first objs method_idx offset _ _ _ _ _ _ hl method_idx 0 r4.2
      (by omega)
  obtain ⟨r5, rfl⟩ := hsome
  obtain ⟨r6, h6⟩ := field_str_some objs method_idx .payload_tree .hf_rbus_commit offset
    r5.2 hl
  simp only [h6]
  exact ⟨_, rfl⟩

theorem parse_get_some (objs : List msgpack_object) (method_idx offset : Nat)
    (hl : method_idx ≤ objs.length) :
    ∃ es, parse_get objs method_idx offset = some es := by
  unfold parse_get
  split
  · have h0 : 0 < objs.length := by omega
    have h1 : 1 < objs.length := by omega
    obtain ⟨es, hes⟩ := str_fields_some objs method_idx .payload_tree .hf_rbus_parameter_name
      offset hl method_idx 2 (by omega)
    rw [List.getElem?_eq_getElem h0, List.getElem?_eq_getElem h1]
    simp [hes]
  · exact ⟨_, rfl⟩

theorem parse_subscribe_some (objs : List msgpack_object) (method_idx offset : Nat)
    (hl : method_idx ≤ objs.length) :
    ∃ es, parse_subscribe objs method_idx offset = some es := by
  obtain ⟨r1, h1⟩ := field_str_some objs method_idx .payload_tree .hf_rbus_event_name offset 0 hl
  obtain ⟨r2, h2⟩ := field_str_some objs method_idx .payload_tree .hf_rbus_reply_topic_payload
    offset r1.2 hl
  simp only [parse_subscribe, h1, h2, bind, Option.bind]
  exact ⟨_, rfl⟩

theorem parse_rpc_some (objs : List msgpack_object) (method_idx offset : Nat)
    (hl : method_idx ≤ objs.length) :
    ∃ es, parse_rpc objs method_idx offset = some es := by
  obtain ⟨r1, h1⟩ := field_uint_some objs method_idx .payload_tree .hf_rbus_session_id offset 0 hl
  obtain ⟨r2, h2⟩ := field_str_some objs method_idx .payload_tree .hf_rbus_invoke_method_name
    offset r1.2 hl
  obtain ⟨r3, h3⟩ := field_int_some objs method_idx .payload_tree .hf_rbus_has_params offset
    r2.2 hl
  simp only [parse_rpc, h1, h2, h3, bind, Option.bind]
  exact ⟨_, rfl⟩

theorem parse_commit_some (objs : List msgpack_object) (method_idx offset : Nat)
    (hl : method_idx ≤ objs.length) :
    ∃ es, parse_commit objs method_idx offset = some es := by
  obtain ⟨r1, h1⟩ := field_uint_some objs method_idx .payload_tree .hf_rbus_session_id offset 0 hl
  obtain ⟨r2, h2⟩ := field_str_some objs method_idx .payload_tree .hf_rbus_component_name offset
    r1.2 hl
  obtain ⟨r3, h3⟩ := field_uint_some objs method_idx .payload_tree .hf_rbus_param_count offset
    r2.2 hl
  simp only [parse_commit, h1, h2, h3, bind, Option.bind]
  exact ⟨_, rfl⟩

theorem parse_getparameternames_some (objs : List msgpack_object) (method_idx offset : Nat)
    (hl : method_idx ≤ objs.length) :
    ∃ es, parse_getparameternames objs method_idx offset = some es := by
  obtain ⟨r1, h1⟩ := field_str_some objs method_idx .payload_tree .hf_rbus_component_name offset
    0 hl
  obtain ⟨r2, h2⟩ := field_str_some objs method_idx .payload_tree .hf_rbus_parameter_name offset
    r1.2 hl
  obtain ⟨r3, h3⟩ := field_uint_some objs method_idx .payload_tree .hf_rbus_param_count offset
    r2.2 hl
  simp only [parse_getparameternames, h1, h2, h3, bind, Option.bind]
  exact ⟨_, rfl⟩

theorem parse_attributes_some (objs : List msgpack_object) (method_idx offset : Nat)
    (hl : method_idx ≤ objs.length) :
    ∃ es, parse_attributes objs method_idx offset = some es := by
  obtain ⟨r1, h1⟩ := field_str_some objs method_idx .payload_tree .hf_rbus_component_name offset
    0 hl
  obtain ⟨r2, h2⟩ := attribute_fields_some objs method_idx offset hl method_idx r1.2 (by omega)
  simp only [parse_attributes, h1, h2, bind, Option.bind]
  exact ⟨_, rfl⟩

theorem parse_tblrow_some (objs : List msgpack_object) (method_idx offset : Nat)
    (hl : method_idx ≤ objs.length) :
    ∃ es, parse_tblrow objs method_idx offset = some es := by
  obtain ⟨r1, h1⟩ := field_uint_some objs method_idx .payload_tree .hf_rbus_session_id offset 0 hl
  obtain ⟨r2, h2⟩ := field_str_some objs method_idx .payload_tree .hf_rbus_component_name offset
    r1.2 hl
  obtain ⟨r3, h3⟩ := field_str_some objs method_idx .payload_tree .hf_rbus_parameter_name offset
    r2.2 hl
  by_cases h4 : r3.2 < method_idx
  · have hi : r3.2 < objs.length := by omega
    simp only [parse_tblrow, h1, h2, h3, h4, List.getElem?_eq_getElem hi, bind, Option.bind,
      if_true, Option.map_some']
    exact ⟨_, rfl⟩
  · simp only [parse_tblrow, h1, h2, h3, h4, bind, Option.bind, if_false]
    exact ⟨_, rfl⟩

/-- Case analysis on the verb dispatch: a property of every branch holds of `parse_verb`. -/
theorem parse_verb_cases (P : Option (List Emit) → Prop) (fmt_f : Nat → List UInt8)
    (first : List UInt8) (objs : List msgpack_object) (method : List UInt8)
    (method_idx offset : Nat)
    (h_get : P (parse_get objs method_idx offset))
    (h_subscribe : P (parse_subscribe objs method_idx offset))
    (h_rpc : P (parse_rpc objs method_idx offset))
    (h_commit : P (parse_commit objs method_idx offset))
    (h_names : P (parse_getparameternames objs method_idx offset))
    (h_attributes : P (parse_attributes objs method_idx offset))
    (h_tblrow : P (parse_tblrow objs method_idx offset))
    (h_direct : P (parse_direct_conn objs method_idx offset))
    (h_set : P (parse_set fmt_f first objs method_idx offset))
    (h_response : P (parse_response fmt_f first objs method_idx offset))
    (h_other : P (some [])) :
    P (parse_verb fmt_f first objs method method_idx offset) := by
  rw [parse_verb]
  by_cases c1 : method = ascii "METHOD_GETPARAMETERVALUES"
  · rw [if_pos c1]; exact h_get
  rw [if_neg c1]
  by_cases c2 : method = ascii "METHOD_SUBSCRIBE"
  · rw [if_pos c2]; exact h_subscribe
  rw [if_neg c2]
  by_cases c3 : method = ascii "METHOD_UNSUBSCRIBE"
  · rw [if_pos c3]; exact h_subscribe
  rw [if_neg c3]
  by_cases c4 : method = ascii "METHOD_RPC"
  · rw [if_pos c4]; exact h_rpc
  rw [if_neg c4]
  by_cases c5 : method = ascii "METHOD_COMMIT"
  · rw [if_pos c5]; exact h_commit
  rw [if_neg c5]
  by_cases c6 : method = ascii "METHOD_GETPARAMETERNAMES"
  · rw [if_pos c6]; exact h_names
  rw [if_neg c6]
  by_cases c7 : method = ascii "METHOD_SETPARAMETERATTRIBUTES" ∨
      method = ascii "METHOD_GETPARAMETERATTRIBUTES"
  · rw [if_pos c7]; exact h_attributes
  rw [if_neg c7]
  by_cases c8 : method = ascii "METHOD_ADDTBLROW" ∨ method = ascii "METHOD_DELETETBLROW"
  · rw [if_pos c8]; exact h_tblrow
  rw [if_neg c8]
  by_cases c9 : method = ascii "METHOD_OPENDIRECT_CONN" ∨
      method = ascii "METHOD_CLOSEDIRECT_CONN"
  · rw [if_pos c9]; exact h_direct
  rw [if_neg c9]
  by_cases c10 : method = ascii "METHOD_SETPARAMETERVALUES"
  · rw [if_pos c10]; exact h_set
  rw [if_neg c10]
  by_cases c11 : method = ascii "METHOD_RESPONSE"
  · rw [if_pos c11]; exact h_response
  rw [if_neg c11]
  exact h_other

theorem parse_verb_some (fmt_f : Nat → List UInt8) (first : List UInt8)
    (objs : List msgpack_object) (method : List UInt8) (method_idx offset : Nat)
    (hl : method_idx ≤ objs.length) :
    ∃ es, parse_verb fmt_f first objs method method_idx offset = some es :=
  parse_verb_cases (fun r => ∃ es, r = some es) fmt_f first objs method method_idx offset
    (parse_get_some objs method_idx offset hl)
    (parse_subscribe_some objs method_idx offset hl)
    (parse_rpc_some objs method_idx offset hl)
    (parse_commit_some objs method_idx offset hl)
    (parse_getparameternames_some objs method_idx offset hl)
    (parse_attributes_some objs method_idx offset hl)
    (parse_tblrow_some objs method_idx offset hl)
    (str_fields_some objs method_idx .payload_tree .hf_rbus_component_name offset hl
      method_idx 0 (by omega))
    (parse_set_some fmt_f first objs method_idx offset hl)
    (parse_response_some fmt_f first objs method_idx offset hl)
    ⟨_, rfl⟩

theorem add_metadata_some (objs : List msgpack_object) (method : List UInt8)
    (method_idx offset : Nat) :
    ∃ es, add_metadata objs method method_idx offset = some es := by
  obtain ⟨r1, h1⟩ := field_str_some objs objs.length meta_tree .hf_rbus_ot_parent offset
    (method_idx + 1) (Nat.le_refl _)
  obtain ⟨r2, h2⟩ := field_str_some objs objs.length meta_tree .hf_rbus_ot_state offset
    (method_idx + 2) (Nat.le_refl _)
  by_cases h3 : method_idx + 3 < objs.length
  · simp only [add_metadata, h1, h2, h3, List.getElem?_eq_getElem h3, bind, Option.bind,
      if_true, Option.map_some']
    exact ⟨_, rfl⟩
  · simp only [add_metadata, h1, h2, h3, bind, Option.bind, if_false]
    exact ⟨_, rfl⟩
theorem event_property_loop_some (fmt_f : Nat → List UInt8) (first : List UInt8)
    (objs : List msgpack_object) (offset prop_count : Nat) (fuel p idx : Nat)
    (hfuel : objs.length ≤ idx + fuel) :
    ∃ r, event_property_loop fmt_f first objs offset prop_count fuel p idx = some r := by
  induction fuel generalizing p idx with
  | zero =>
    refine ⟨([], idx), ?_⟩
    simp only [event_property_loop]
    rw [if_neg]
    omega
  | succ fuel ih =>
    unfold event_property_loop
    split
    · next hc =>
      have h0 : idx < objs.length := by omega
      have h1 : idx + 1 < objs.length := by omega
      have h2 : idx + 2 < objs.length := by omega
      obtain ⟨r, hr⟩ := ih (p + 1) (idx + 3) (by omega)
      rw [List.getElem?_eq_getElem h0, List.getElem?_eq_getElem h1,
        List.getElem?_eq_getElem h2]
      simp [hr]
    · exact ⟨_, rfl⟩

theorem field_flag_some (objs : List msgpack_object) (hf : hf_id) (offset idx : Nat) :
    ∃ r, field_flag objs hf offset idx = some r := by
  unfold field_flag
  split
  · next hi =>
    rw [List.getElem?_eq_getElem hi]
    split <;> simp_all
  · exact ⟨_, rfl⟩

theorem parse_event_data_some (fmt_f : Nat → List UInt8) (first : List UInt8)
    (objs : List msgpack_object) (offset : Nat) (has_event_data : Bool) (idx : Nat) :
    ∃ r, parse_event_data fmt_f first objs offset has_event_data idx = some r := by
  unfold parse_event_data
  split
  · next hc =>
    rw [List.getElem?_eq_getElem hc.2]
    simp only []
    generalize hq : event_property_loop fmt_f first objs offset _ _ _ _ = q
    have hsome : ∃ r, q = some r := by
      rw [← hq]
      refine event_property_loop_some fmt_f first objs offset _ _ _ _ ?_
      split <;> omega
    obtain ⟨r, rfl⟩ := hsome
    exact ⟨_, rfl⟩
  · exact ⟨_, rfl⟩

theorem parse_event_body_some (fmt_f : Nat → List UInt8) (first : List UInt8)
    (objs : List msgpack_object) (offset : Nat) :
    ∃ es, parse_event_body fmt_f first objs offset = some es := by
  obtain ⟨r1, h1⟩ := field_uint_some objs objs.length .payload_tree .hf_rbus_event_type offset 1
    (Nat.le_refl _)
  obtain ⟨r2, h2⟩ := field_flag_some objs .hf_rbus_has_event_data offset r1.2
  obtain ⟨r3, h3⟩ := field_flag_some objs .hf_rbus_has_filter offset
    (skip_object objs r2.2.2 r2.2.1)
  obtain ⟨r4, h4⟩ := parse_event_data_some fmt_f first objs offset r2.2.2
    (skip_object objs r3.2.2 r3.2.1)
  obtain ⟨r5, h5⟩ := field_uint_some objs objs.length .payload_tree .hf_rbus_interval offset
    r4.2 (Nat.le_refl _)
  obtain ⟨r6, h6⟩ := field_uint_some objs objs.length .payload_tree .hf_rbus_duration offset
    r5.2 (Nat.le_refl _)
  obtain ⟨r7, h7⟩ := field_int_some objs objs.length .payload_tree .hf_rbus_component_id offset
    r6.2 (Nat.le_refl _)
  simp only [parse_event_body, bind, Option.bind, h1, h2, h3, h4, h5, h6, h7]
  exact ⟨_, rfl⟩

/-- The dispatcher always produces a result: no access outside the collected objects, no
loop left unfinished. -/
theorem parse_rbus_objects_some (fmt_f : Nat → List UInt8) (data : List UInt8) (offset : Nat)
    (objs : List msgpack_object) :
    ∃ r, parse_rbus_objects fmt_f data offset objs = some r := by
  unfold parse_rbus_objects
  split
  · exact ⟨_, rfl⟩
  · split
    · split
      · next h6 =>
        have h0 : 0 < objs.length := by omega
        rw [List.getElem?_eq_getElem h0]
        split
        · next h => simp at h
        · obtain ⟨es, hes⟩ := parse_event_body_some fmt_f (data.take 1) objs offset
          rw [hes]
          exact ⟨_, rfl⟩
        · exact ⟨_, rfl⟩
      · exact ⟨_, rfl⟩
    · next method_idx method hm =>
      obtain ⟨m, hmeta⟩ := add_metadata_some objs method method_idx offset
      obtain ⟨v, hverb⟩ := parse_verb_some fmt_f (data.take 1) objs method method_idx offset
        (Nat.le_of_lt (find_method_lt hm))
      rw [hmeta, hverb]
      exact ⟨_, rfl⟩

/-- With a method marker found, the dispatcher returns the metadata block followed by the
fields of the verb branch, and the payload length. -/
theorem parse_rbus_objects_of_method (fmt_f : Nat → List UInt8) (data : List UInt8)
    (offset : Nat) {objs : List msgpack_object} {method_idx : Nat} {method : List UInt8}
    (h4 : 4 ≤ objs.length) (hm : find_method objs 0 = some (method_idx, method)) :
    ∃ metadata fields, add_metadata objs method method_idx offset = some metadata ∧
      parse_verb fmt_f (data.take 1) objs method method_idx offset = some fields ∧
      parse_rbus_objects fmt_f data offset objs = some (metadata ++ fields, data.length) := by
  obtain ⟨m, hmeta⟩ := add_metadata_some objs method method_idx offset
  obtain ⟨v, hverb⟩ := parse_verb_some fmt_f (data.take 1) objs method method_idx offset
    (Nat.le_of_lt (find_method_lt hm))
  refine ⟨m, v, hmeta, hverb, ?_⟩
  unfold parse_rbus_objects
  rw [if_neg (by omega), hm]
  simp only [hmeta, hverb]

/-! ## Which fields each part of the structured parse can add -/

theorem ids_within_nil (S : List hf_id) : ids_within S [] := by
  intro h hh
  simp [field_ids] at hh

theorem ids_within_append {S : List hf_id} {a b : List Emit} :
    ids_within S (a ++ b) ↔ ids_within S a ∧ ids_within S b := by
  simp only [ids_within, field_ids_append, List.mem_append]
  constructor
  · intro h
    exact ⟨fun x hx => h x (Or.inl hx), fun x hx => h x (Or.inr hx)⟩
  · rintro ⟨ha, hb⟩ x (hx | hx)
    · exact ha x hx
    · exact hb x hx

theorem ids_within_item {S : List hf_id} {t : tree_id} {hf : hf_id} {start length : Nat}
    {v : field_value} (h : hf ∈ S) : ids_within S [.proto_item t hf start length v] := by
  intro x hx
  simp only [field_ids, List.filterMap_cons, List.filterMap_nil, List.mem_singleton] at hx
  rw [hx]; exact h

theorem ids_within_cons_item {S : List hf_id} {t : tree_id} {hf : hf_id} {start length : Nat}
    {v : field_value} {es : List Emit} (h : hf ∈ S) (hes : ids_within S es) :
    ids_within S (.proto_item t hf start length v :: es) := by
  intro x hx
  simp only [field_ids, List.filterMap_cons, List.mem_cons] at hx
  rcases hx with rfl | hx
  · exact h
  · exact hes x hx

theorem ids_within_mono {S T : List hf_id} {es : List Emit} (hST : ∀ h ∈ S, h ∈ T)
    (h : ids_within S es) : ids_within T es :=
  fun x hx => hST x (h x hx)

theorem field_values_eq_nil {S : List hf_id} {es : List Emit} {hf : hf_id}
    (h : ids_within S es) (hhf : hf ∉ S) : field_values hf es = [] := by
  induction es with
  | nil => rfl
  | cons e es ih =>
    have hes : ids_within S es := (ids_within_append (a := [e])).1 h |>.2
    have he : ids_within S [e] := (ids_within_append (a := [e]) (b := es)).1 h |>.1
    unfold field_values
    rw [List.filterMap_cons]
    cases e with
    | proto_item t h' s l v =>
      have hmem : h' ∈ S := he h' (by simp [field_ids])
      have hne : ¬ h' = hf := fun e => hhf (e ▸ hmem)
      simp only [hne, if_false]
      exact ih hes
    | _ => exact ih hes

theorem field_values_append (hf : hf_id) (a b : List Emit) :
    field_values hf (a ++ b) = field_values hf a ++ field_values hf b := by
  simp [field_values, List.filterMap_append]

theorem add_typed_value_ids {S : List hf_id} (fmt_f : Nat → List UInt8) (first : List UInt8)
    (t : tree_id) (offset : Nat) (value_obj : msgpack_object) (is_property : Bool)
    (hS : ∀ h ∈ typed_value_ids is_property, h ∈ S) :
    ids_within S (add_typed_value fmt_f first t offset value_obj is_property).1 := by
  cases is_property <;> cases value_obj <;>
    simp only [add_typed_value, if_true, if_false, Bool.false_eq_true] <;> (try split) <;>
    apply ids_within_item <;> apply hS <;> simp [typed_value_ids]

theorem field_str_ids {S : List hf_id} {objs : List msgpack_object} {limit : Nat} {t : tree_id}
    {hf : hf_id} {offset idx : Nat} {r : List Emit × Nat} (hS : hf ∈ S)
    (h : field_str objs limit t hf offset idx = some r) : ids_within S r.1 := by
  unfold field_str at h
  split at h
  · split at h
    · cases h
    · cases h; exact ids_within_item hS
    · cases h; exact ids_within_nil S
  · cases h; exact ids_within_nil S

theorem field_uint_ids {S : List hf_id} {objs : List msgpack_object} {limit : Nat} {t : tree_id}
    {hf : hf_id} {offset idx : Nat} {r : List Emit × Nat} (hS : hf ∈ S)
    (h : field_uint objs limit t hf offset idx = some r) : ids_within S r.1 := by
  unfold field_uint at h
  split at h
  · split at h
    · cases h
    · cases h; exact ids_within_item hS
    · cases h; exact ids_within_nil S
  · cases h; exact ids_within_nil S

theorem field_int_ids {S : List hf_id} {objs : List msgpack_object} {limit : Nat} {t : tree_id}
    {hf : hf_id} {offset idx : Nat} {r : List Emit × Nat} (hS : hf ∈ S)
    (h : field_int objs limit t hf offset idx = some r) : ids_within S r.1 := by
  unfold field_int at h
  split at h
  · split at h
    · cases h
    · cases h; exact ids_within_item hS
    · cases h; exact ids_within_nil S
  · cases h; exact ids_within_nil S

theorem str_fields_ids {S : List hf_id} {objs : List msgpack_object} {limit : Nat} {t : tree_id}
    {hf : hf_id} {offset : Nat} (hS : hf ∈ S) (fuel idx : Nat) {es : List Emit}
    (h : str_fields objs limit t hf offset fuel idx = some es) : ids_within S es := by
  induction fuel generalizing idx es with
  | zero =>
    unfold str_fields at h
    split at h
    · cases h
    · cases h; exact ids_within_nil S
  | succ fuel ih =>
    unfold str_fields at h
    split at h
    · split at h
      · cases h
      · next obj _ =>
        rw [Option.map_eq_some'] at h
        obtain ⟨rest, hrest, rfl⟩ := h
        refine ids_within_append.2 ⟨?_, ih _ hrest⟩
        cases obj <;> first | exact ids_within_nil S | exact ids_within_item hS
    · cases h; exact ids_within_nil S

theorem attribute_fields_ids {S : List hf_id} {objs : List msgpack_object} {limit offset : Nat}
    (h1 : hf_id.hf_rbus_parameter_name ∈ S) (h2 : hf_id.hf_rbus_param_count ∈ S)
    (fuel idx : Nat) {es : List Emit}
    (h : attribute_fields objs limit offset fuel idx = some es) : ids_within S es := by
  induction fuel generalizing idx es with
  | zero =>
    unfold attribute_fields at h
    split at h
    · cases h
    · cases h; exact ids_within_nil S
  | succ fuel ih =>
    unfold attribute_fields at h
    split at h
    · split at h
      · cases h
      · next obj _ =>
        rw [Option.map_eq_some'] at h
        obtain ⟨rest, hrest, rfl⟩ := h
        refine ids_within_append.2 ⟨?_, ih _ hrest⟩
        cases obj <;>
          first | exact ids_within_nil S | exact ids_within_item h1 | exact ids_within_item h2
    · cases h; exact ids_within_nil S

theorem triplet_loop_ids {S : List hf_id} {fmt_f : Nat → List UInt8} {first : List UInt8}
    {objs : List msgpack_object} {method_idx offset count : Nat}
    {hf_group hf_name hf_type hf_namevalue : hf_id} {is_property : Bool}
    (hg : hf_group ∈ S) (hn : hf_name ∈ S) (ht : hf_type ∈ S) (hv : hf_namevalue ∈ S)
    (hS : ∀ h ∈ typed_value_ids is_property, h ∈ S) (fuel p idx : Nat) {r : List Emit × Nat}
    (h : triplet_loop fmt_f first objs method_idx offset count hf_group hf_name hf_type
      hf_namevalue is_property fuel p idx = some r) : ids_within S r.1 := by
  induction fuel generalizing p idx r with
  | zero =>
    unfold triplet_loop at h
    split at h
    · cases h
    · cases h; exact ids_within_nil S
  | succ fuel ih =>
    unfold triplet_loop at h
    split at h
    · split at h
      · next name_obj type_obj _ _ =>
        simp only [] at h
        split at h
        · cases h
        · next vs hvs =>
          rw [Option.map_eq_some'] at h
          obtain ⟨rest, hrest, rfl⟩ := h
          simp only [ids_within_append]
          refine ⟨⟨⟨⟨ids_within_item hg, ?_⟩, ?_⟩, ?_⟩, ih _ _ hrest⟩
          · cases name_obj <;>
              first
              | exact ids_within_nil S
              | exact ids_within_cons_item hn (ids_within_nil S)
          · cases type_obj <;> first | exact ids_within_nil S | exact ids_within_item ht
          · split at hvs
            · rw [Option.map_eq_some'] at hvs
              obtain ⟨value_obj, _, rfl⟩ := hvs
              refine ids_within_append.2 ⟨add_typed_value_ids _ _ _ _ _ _ hS, ?_⟩
              cases name_obj <;> first | exact ids_within_nil S | exact ids_within_item hv
            · cases hvs; exact ids_within_nil S
      · cases h
    · cases h; exact ids_within_nil S

theorem response_scan_ids {S : List hf_id} {objs : List msgpack_object}
    {method_idx offset : Nat} (hS : hf_id.hf_rbus_property_count ∈ S) (fuel idx : Nat)
    {r : List Emit × Nat × Nat} (h : response_scan objs method_idx offset fuel idx = some r) :
    ids_within S r.1 := by
  induction fuel generalizing idx r with
  | zero =>
    unfold response_scan at h
    split at h
    · cases h
    · cases h; exact ids_within_nil S
  | succ fuel ih =>
    unfold response_scan at h
    split at h
    · split at h
      · cases h
      · simp only [] at h
        split at h
        · exact ih _ h
        · split at h
          · cases h
          · cases h; exact ids_within_item hS
          · split at h
            · cases h
            · cases h; exact ids_within_item hS
            · exact ih _ h
    · cases h; exact ids_within_nil S

theorem mem_layout_of_response {h : hf_id} (hh : h ∈ response_ids) : h ∈ layout_ids := by
  unfold layout_ids
  exact List.mem_append_right _ hh

theorem mem_response_of_typed {h : hf_id} (hh : h ∈ typed_value_ids true) :
    h ∈ response_ids := by
  unfold response_ids
  exact List.mem_append_right _ hh

theorem mem_layout_of_typed {h : hf_id} (b : Bool) (hh : h ∈ typed_value_ids b) :
    h ∈ layout_ids := by
  cases b
  · unfold layout_ids
    exact List.mem_append_left _ (List.mem_append_right _ hh)
  · exact mem_layout_of_response (mem_response_of_typed hh)

theorem guarded_test_eq_true {cond : Bool} {objs : List msgpack_object} {i : Nat}
    {test : msgpack_object → Bool} (h : guarded_test cond objs i test = some true) :
    cond = true ∧ ∃ obj, objs[i]? = some obj ∧ test obj = true := by
  unfold guarded_test at h
  split at h
  · next hc =>
    rw [Option.map_eq_some'] at h
    exact ⟨hc, h⟩
  · cases h

/-- The RESPONSE branch adds only fields of `response_ids`, unless it takes the simple-error
path, which needs a string beginning with `METHOD_` at index 2 before the method index. -/
theorem parse_response_ids {fmt_f : Nat → List UInt8} {first : List UInt8}
    {objs : List msgpack_object} {method_idx offset : Nat} {es : List Emit}
    (h : parse_response fmt_f first objs method_idx offset = some es) :
    ids_within response_ids es ∨
      (2 < method_idx ∧ ∃ s, objs[2]? = some (.str s) ∧ is_method_marker s = true ∧
        ids_within (.hf_rbus_failed_element :: response_ids) es) := by
  unfold parse_response at h
  split at h
  · split at h
    · cases h
    · next obj0 _ =>
      simp only [] at h
      split at h
      · split at h
        · cases h
        · next obj1 _ =>
          split at h
          · cases h
          · next htest =>
            right
            obtain ⟨hc, obj, hobj, ht⟩ := guarded_test_eq_true htest
            simp only [decide_eq_true_eq] at hc
            cases h
            refine ⟨by omega, ?_⟩
            cases obj with
            | str s =>
              refine ⟨s, hobj, ht, ?_⟩
              refine ids_within_append.2 ⟨ids_within_item (by simp [response_ids]), ?_⟩
              cases obj1 <;>
                first | exact ids_within_nil _ | exact ids_within_item (by simp)
            | _ => simp at ht
          · left
            split at h
            · cases h
            · next count_items prop_count idx hscan =>
              rw [Option.map_eq_some'] at h
              obtain ⟨props, hprops, rfl⟩ := h
              simp only [ids_within_append]
              refine ⟨⟨ids_within_item (by simp [response_ids]), ?_⟩, ?_⟩
              · exact response_scan_ids (by simp [response_ids]) _ _ hscan
              · exact triplet_loop_ids (by simp [response_ids]) (by simp [response_ids])
                  (by simp [response_ids]) (by simp [response_ids])
                  (fun h hh => mem_response_of_typed hh) _ _ _ hprops
      · left; cases h; exact ids_within_item (by simp [response_ids])
  · left; cases h; exact ids_within_nil _

theorem parse_get_ids {objs : List msgpack_object} {method_idx offset : Nat} {es : List Emit}
    (h : parse_get objs method_idx offset = some es) : ids_within layout_ids es := by
  unfold parse_get at h
  split at h
  · split at h
    · next obj0 obj1 _ _ =>
      rw [Option.map_eq_some'] at h
      obtain ⟨names, hnames, rfl⟩ := h
      simp only [ids_within_append]
      refine ⟨⟨?_, ?_⟩, str_fields_ids (by simp [layout_ids]) _ _ hnames⟩
      · cases obj0 <;>
          first | exact ids_within_nil _ | exact ids_within_item (by simp [layout_ids])
      · cases obj1 <;>
          first | exact ids_within_nil _ | exact ids_within_item (by simp [layout_ids])
    · cases h
  · cases h; exact ids_within_nil _

theorem parse_subscribe_ids {objs : List msgpack_object} {method_idx offset : Nat}
    {es : List Emit} (hl : method_idx ≤ objs.length)
    (h : parse_subscribe objs method_idx offset = some es) : ids_within layout_ids es := by
  obtain ⟨r1, h1⟩ := field_str_some objs method_idx .payload_tree .hf_rbus_event_name offset 0 hl
  obtain ⟨r2, h2⟩ := field_str_some objs method_idx .payload_tree .hf_rbus_reply_topic_payload
    offset r1.2 hl
  simp only [parse_subscribe, bind, Option.bind, h1, h2] at h
  cases h
  exact ids_within_append.2 ⟨field_str_ids (by simp [layout_ids]) h1,
    field_str_ids (by simp [layout_ids]) h2⟩

theorem parse_rpc_ids {objs : List msgpack_object} {method_idx offset : Nat}
    {es : List Emit} (hl : method_idx ≤ objs.length)
    (h : parse_rpc objs method_idx offset = some es) : ids_within layout_ids es := by
  obtain ⟨r1, h1⟩ := field_uint_some objs method_idx .payload_tree .hf_rbus_session_id offset 0 hl
  obtain ⟨r2, h2⟩ := field_str_some objs method_idx .payload_tree .hf_rbus_invoke_method_name
    offset r1.2 hl
  obtain ⟨r3, h3⟩ := field_int_some objs method_idx .payload_tree .hf_rbus_has_params offset
    r2.2 hl
  simp only [parse_rpc, bind, Option.bind, h1, h2, h3] at h
  cases h
  simp only [ids_within_append]
  exact ⟨⟨field_uint_ids (by simp [layout_ids]) h1, field_str_ids (by simp [layout_ids]) h2⟩,
    field_int_ids (by simp [layout_ids]) h3⟩

theorem parse_commit_ids {objs : List msgpack_object} {method_idx offset : Nat}
    {es : List Emit} (hl : method_idx ≤ objs.length)
    (h : parse_commit objs method_idx offset = some es) : ids_within layout_ids es := by
  obtain ⟨r1, h1⟩ := field_uint_some objs method_idx .payload_tree .hf_rbus_session_id offset 0 hl
  obtain ⟨r2, h2⟩ := field_str_some objs method_idx .payload_tree .hf_rbus_component_name offset
    r1.2 hl
  obtain ⟨r3, h3⟩ := field_uint_some objs method_idx .payload_tree .hf_rbus_param_count offset
    r2.2 hl
  simp only [parse_commit, bind, Option.bind, h1, h2, h3] at h
  cases h
  simp only [ids_within_append]
  exact ⟨⟨field_uint_ids (by simp [layout_ids]) h1, field_str_ids (by simp [layout_ids]) h2⟩,
    field_uint_ids (by simp [layout_ids]) h3⟩

theorem parse_getparameternames_ids {objs : List msgpack_object} {method_idx offset : Nat}
    {es : List Emit} (hl : method_idx ≤ objs.length)
    (h : parse_getparameternames objs method_idx offset = some es) :
    ids_within layout_ids es := by
  obtain ⟨r1, h1⟩ := field_str_some objs method_idx .payload_tree .hf_rbus_component_name offset
    0 hl
  obtain ⟨r2, h2⟩ := field_str_some objs method_idx .payload_tree .hf_rbus_parameter_name offset
    r1.2 hl
  obtain ⟨r3, h3⟩ := field_uint_some objs method_idx .payload_tree .hf_rbus_param_count offset
    r2.2 hl
  simp only [parse_getparameternames, bind, Option.bind, h1, h2, h3] at h
  cases h
  simp only [ids_within_append]
  exact ⟨⟨field_str_ids (by simp [layout_ids]) h1, field_str_ids (by simp [layout_ids]) h2⟩,
    field_uint_ids (by simp [layout_ids]) h3⟩

theorem parse_attributes_ids {objs : List msgpack_object} {method_idx offset : Nat}
    {es : List Emit} (hl : method_idx ≤ objs.length)
    (h : parse_attributes objs method_idx offset = some es) : ids_within layout_ids es := by
  obtain ⟨r1, h1⟩ := field_str_some objs method_idx .payload_tree .hf_rbus_component_name offset
    0 hl
  obtain ⟨r2, h2⟩ := attribute_fields_some objs method_idx offset hl method_idx r1.2 (by omega)
  simp only [parse_attributes, bind, Option.bind, h1, h2] at h
  cases h
  exact ids_within_append.2 ⟨field_str_ids (by simp [layout_ids]) h1,
    attribute_fields_ids (by simp [layout_ids]) (by simp [layout_ids]) _ _ h2⟩

theorem parse_tblrow_ids {objs : List msgpack_object} {method_idx offset : Nat}
    {es : List Emit} (hl : method_idx ≤ objs.length)
    (h : parse_tblrow objs method_idx offset = some es) : ids_within layout_ids es := by
  obtain ⟨r1, h1⟩ := field_uint_some objs method_idx .payload_tree .hf_rbus_session_id offset 0 hl
  obtain ⟨r2, h2⟩ := field_str_some objs method_idx .payload_tree .hf_rbus_component_name offset
    r1.2 hl
  obtain ⟨r3, h3⟩ := field_str_some objs method_idx .payload_tree .hf_rbus_parameter_name offset
    r2.2 hl
  have h123 : ids_within layout_ids (r1.1 ++ r2.1 ++ r3.1) := by
    simp only [ids_within_append]
    exact ⟨⟨field_uint_ids (by simp [layout_ids]) h1, field_str_ids (by simp [layout_ids]) h2⟩,
      field_str_ids (by simp [layout_ids]) h3⟩
  by_cases h4 : r3.2 < method_idx
  · have hi : r3.2 < objs.length := by omega
    simp only [parse_tblrow, h1, h2, h3, h4, List.getElem?_eq_getElem hi, bind, Option.bind,
      if_true, Option.map_some'] at h
    cases h
    refine ids_within_append.2 ⟨h123, ?_⟩
    cases objs[r3.2] <;>
      first | exact ids_within_nil _ | exact ids_within_item (by simp [layout_ids])
  · simp only [parse_tblrow, h1, h2, h3, h4, bind, Option.bind, if_false] at h
    cases h
    exact ids_within_append.2 ⟨h123, ids_within_nil _⟩

theorem parse_set_ids {fmt_f : Nat → List UInt8} {first : List UInt8}
    {objs : List msgpack_object} {method_idx offset : Nat} {es : List Emit}
    (hl : method_idx ≤ objs.length)
    (h : parse_set fmt_f first objs method_idx offset = some es) : ids_within layout_ids es := by
  obtain ⟨r1, h1⟩ := field_uint_some objs method_idx .payload_tree .hf_rbus_session_id offset 0 hl
  obtain ⟨r2, h2⟩ := field_str_some objs method_idx .payload_tree .hf_rbus_component_name offset
    r1.2 hl
  obtain ⟨r3, h3⟩ := field_uint_some objs method_idx .payload_tree .hf_rbus_rollback offset
    r2.2 hl
  obtain ⟨r4, h4⟩ := field_uint_some objs method_idx .payload_tree .hf_rbus_param_count offset
    r3.2 hl
  simp only [parse_set, bind, Option.bind, h1, h2, h3, h4] at h
  generalize hq : triplet_loop fmt_f first objs method_idx offset _ _ _ _ _ _ _ _ _ = q at h
  cases q with
  | none => cases h
  | some r5 =>
    obtain ⟨r6, h6⟩ := field_str_some objs method_idx .payload_tree .hf_rbus_commit offset
      r5.2 hl
    simp only [h6] at h
    cases h
    simp only [ids_within_append]
    exact ⟨⟨⟨⟨⟨field_uint_ids (by simp [layout_ids]) h1,
      field_str_ids (by simp [layout_ids]) h2⟩, field_uint_ids (by simp [layout_ids]) h3⟩,
      field_uint_ids (by simp [layout_ids]) h4⟩,
      triplet_loop_ids (by simp [layout_ids]) (by simp [layout_ids]) (by simp [layout_ids])
        (by simp [layout_ids]) (fun h hh => mem_layout_of_typed false hh) _ _ _ hq⟩,
      field_str_ids (by simp [layout_ids]) h6⟩

/-- Every item of a verb branch is a field of the layout table, never one of the metadata
block. -/
theorem parse_verb_ids {fmt_f : Nat → List UInt8} {first : List UInt8}
    {objs : List msgpack_object} {method : List UInt8} {method_idx offset : Nat}
    (hl : method_idx ≤ objs.length) {es : List Emit}
    (h : parse_verb fmt_f first objs method method_idx offset = some es) :
    ids_within layout_ids es := by
  revert h
  refine parse_verb_cases (fun r => r = some es → ids_within layout_ids es) fmt_f first objs
    method method_idx offset parse_get_ids (parse_subscribe_ids hl) (parse_rpc_ids hl)
    (parse_commit_ids hl) (parse_getparameternames_ids hl) (parse_attributes_ids hl)
    (parse_tblrow_ids hl) (str_fields_ids (by simp [layout_ids]) _ _) (parse_set_ids hl) ?_ ?_
  · intro h
    rcases parse_response_ids h with h1 | ⟨_, _, _, _, h1⟩
    · exact ids_within_mono (fun x hx => mem_layout_of_response hx) h1
    · refine ids_within_mono (fun x hx => ?_) h1
      rcases List.mem_cons.1 hx with rfl | hx
      · simp [layout_ids]
      · exact mem_layout_of_response hx
  · intro h
    cases h
    exact ids_within_nil _

theorem field_flag_ids {S : List hf_id} {objs : List msgpack_object} {hf : hf_id}
    {offset idx : Nat} {r : List Emit × Nat × Bool} (hS : hf ∈ S)
    (h : field_flag objs hf offset idx = some r) : ids_within S r.1 := by
  unfold field_flag at h
  split at h
  · split at h
    · cases h
    · cases h; exact ids_within_item hS
    · cases h; exact ids_within_nil S
  · cases h; exact ids_within_nil S

theorem mem_event_of_typed {h : hf_id} (hh : h ∈ typed_value_ids true) : h ∈ event_ids := by
  unfold event_ids
  exact List.mem_append_right _ hh

theorem event_property_loop_ids {fmt_f : Nat → List UInt8} {first : List UInt8}
    {objs : List msgpack_object} {offset prop_count : Nat} (fuel p idx : Nat)
    {r : List Emit × Nat}
    (h : event_property_loop fmt_f first objs offset prop_count fuel p idx = some r) :
    ids_within event_ids r.1 := by
  induction fuel generalizing p idx r with
  | zero =>
    unfold event_property_loop at h
    split at h
    · cases h
    · cases h; exact ids_within_nil _
  | succ fuel ih =>
    unfold event_property_loop at h
    split at h
    · split at h
      · next name_obj type_obj value_obj _ _ _ =>
        rw [Option.map_eq_some'] at h
        obtain ⟨rest, hrest, rfl⟩ := h
        refine ids_within_append.2 ⟨?_, ih _ _ hrest⟩
        cases name_obj with
        | str s =>
          simp only []
          refine ids_within_append.2 ⟨ids_within_append.2 ⟨?_, ?_⟩, ?_⟩
          · refine ids_within_cons_item (by simp [event_ids]) ?_
            intro x hx
            simp only [field_ids, List.filterMap_cons, List.filterMap_nil, List.mem_cons,
              List.mem_nil_iff, or_false] at hx
            rcases hx with rfl | rfl <;> simp [event_ids]
          · exact add_typed_value_ids _ _ _ _ _ _ (fun h hh => mem_event_of_typed hh)
          · exact ids_within_item (by simp [event_ids])
        | _ => exact ids_within_nil _
      · cases h
    · cases h; exact ids_within_nil _

theorem parse_event_data_ids {fmt_f : Nat → List UInt8} {first : List UInt8}
    {objs : List msgpack_object} {offset : Nat} {has_event_data : Bool} {idx : Nat}
    {r : List Emit × Nat}
    (h : parse_event_data fmt_f first objs offset has_event_data idx = some r) :
    ids_within event_ids r.1 := by
  unfold parse_event_data at h
  split at h
  · split at h
    · cases h
    · simp only [] at h
      rw [Option.map_eq_some'] at h
      obtain ⟨q, hq, rfl⟩ := h
      exact ids_within_cons_item (by simp [event_ids]) (event_property_loop_ids _ _ _ hq)
  · cases h; exact ids_within_nil _

theorem parse_event_body_ids {fmt_f : Nat → List UInt8} {first : List UInt8}
    {objs : List msgpack_object} {offset : Nat} {es : List Emit}
    (h : parse_event_body fmt_f first objs offset = some es) : ids_within event_ids es := by
  obtain ⟨r1, h1⟩ := field_uint_some objs objs.length .payload_tree .hf_rbus_event_type offset 1
    (Nat.le_refl _)
  obtain ⟨r2, h2⟩ := field_flag_some objs .hf_rbus_has_event_data offset r1.2
  obtain ⟨r3, h3⟩ := field_flag_some objs .hf_rbus_has_filter offset
    (skip_object objs r2.2.2 r2.2.1)
  obtain ⟨r4, h4⟩ := parse_event_data_some fmt_f first objs offset r2.2.2
    (skip_object objs r3.2.2 r3.2.1)
  obtain ⟨r5, h5⟩ := field_uint_some objs objs.length .payload_tree .hf_rbus_interval offset
    r4.2 (Nat.le_refl _)
  obtain ⟨r6, h6⟩ := field_uint_some objs objs.length .payload_tree .hf_rbus_duration offset
    r5.2 (Nat.le_refl _)
  obtain ⟨r7, h7⟩ := field_int_some objs objs.length .payload_tree .hf_rbus_component_id offset
    r6.2 (Nat.le_refl _)
  simp only [parse_event_body, bind, Option.bind, h1, h2, h3, h4, h5, h6, h7] at h
  cases h
  simp only [ids_within_append]
  exact ⟨⟨⟨⟨⟨⟨field_uint_ids (by simp [event_ids]) h1, field_flag_ids (by simp [event_ids]) h2⟩,
    field_flag_ids (by simp [event_ids]) h3⟩, parse_event_data_ids h4⟩,
    field_uint_ids (by simp [event_ids]) h5⟩, field_uint_ids (by simp [event_ids]) h6⟩,
    field_int_ids (by simp [event_ids]) h7⟩

theorem field_str_full (objs : List msgpack_object) (t : tree_id) (hf : hf_id)
    (offset idx : Nat) :
    field_str objs objs.length t hf offset idx =
      some (match objs[idx]? with
        | some (.str s) => ([.proto_item t hf offset 1 (.string (c_string s))], idx + 1)
        | _ => ([], idx)) := by
  unfold field_str
  by_cases hi : idx < objs.length
  · rw [if_pos hi, List.getElem?_eq_getElem hi]
    cases objs[idx] <;> rfl
  · have hnone : objs[idx]? = none := List.getElem?_eq_none (by omega)
    rw [if_neg hi, hnone]

/-- The metadata block added by `add_metadata` is `metadata_block`: the tracing fields depend
on the values at `method_idx + 1` and `method_idx + 2` being strings, the metadata offset on a
value being present at `method_idx + 3`. -/
theorem add_metadata_eq (objs : List msgpack_object) (method : List UInt8)
    (method_idx offset : Nat) :
    add_metadata objs method method_idx offset =
      some (metadata_block objs method method_idx offset) := by
  simp only [add_metadata, field_str_full, bind, Option.bind, metadata_block]
  by_cases h3 : method_idx + 3 < objs.length
  · rw [if_pos h3, List.getElem?_eq_getElem h3]
    simp only [Option.map_some']
    cases objs[method_idx + 1]? with
    | none => cases objs[method_idx + 2]? with
      | none => cases objs[method_idx + 3] <;> rfl
      | some o2 => cases o2 <;> cases objs[method_idx + 3] <;> rfl
    | some o1 => cases objs[method_idx + 2]? with
      | none => cases o1 <;> cases objs[method_idx + 3] <;> rfl
      | some o2 => cases o1 <;> cases o2 <;> cases objs[method_idx + 3] <;> rfl
  · have h3none : objs[method_idx + 3]? = none := List.getElem?_eq_none (by omega)
    rw [if_neg h3, h3none]
    cases objs[method_idx + 1]? with
    | none => cases objs[method_idx + 2]? with
      | none => rfl
      | some o2 => cases o2 <;> rfl
    | some o1 => cases objs[method_idx + 2]? with
      | none => cases o1 <;> rfl
      | some o2 => cases o1 <;> cases o2 <;> rfl

theorem field_values_map_item (hf h : hf_id) (t : tree_id) (start length : Nat)
    (vs : List field_value) :
    field_values hf (vs.map (.proto_item t h start length)) = if h = hf then vs else [] := by
  induction vs with
  | nil => simp [field_values]
  | cons v vs ih =>
    unfold field_values at ih ⊢
    rw [List.map_cons, List.filterMap_cons]
    by_cases e : h = hf
    · simp only [e, if_true] at ih ⊢
      rw [ih]
    · simp only [e, if_false] at ih ⊢
      exact ih

theorem ids_within_map_item {S : List hf_id} {h : hf_id} (hS : h ∈ S) (t : tree_id)
    (start length : Nat) (vs : List field_value) :
    ids_within S (vs.map (.proto_item t h start length)) := by
  induction vs with
  | nil => exact ids_within_nil S
  | cons v vs ih => exact ids_within_cons_item hS ih

theorem metadata_block_ids (objs : List msgpack_object) (method : List UInt8)
    (method_idx offset : Nat) :
    ids_within metadata_ids (metadata_block objs method method_idx offset) := by
  unfold metadata_block
  simp only [ids_within_append]
  exact ⟨⟨⟨ids_within_cons_item (by simp [metadata_ids])
    (ids_within_item (by simp [metadata_ids])),
    ids_within_map_item (by simp [metadata_ids]) _ _ _ _⟩,
    ids_within_map_item (by simp [metadata_ids]) _ _ _ _⟩,
    ids_within_map_item (by simp [metadata_ids]) _ _ _ _⟩

/-- The values of a metadata field in the metadata block. -/
theorem field_values_metadata_block (objs : List msgpack_object) (method : List UInt8)
    (method_idx offset : Nat) :
    field_values .hf_rbus_method_name (metadata_block objs method method_idx offset) =
        [.string method] ∧
      field_values .hf_rbus_ot_parent (metadata_block objs method method_idx offset) =
        tracing_value objs[method_idx + 1]? ∧
      field_values .hf_rbus_ot_state (metadata_block objs method method_idx offset) =
        tracing_value objs[method_idx + 2]? ∧
      field_values .hf_rbus_metadata_offset (metadata_block objs method method_idx offset) =
        offset_value objs[method_idx + 3]? := by
  unfold metadata_block
  simp only [field_values_append, field_values_map_item]
  refine ⟨?_, ?_, ?_, ?_⟩ <;> simp [field_values]

/-! ## Method identification -/

theorem c_string_take_of_length (s : List UInt8) (n : Nat)
    (h : ((c_string s).take n).length = n) : (c_string s).take n = s.take n := by
  induction s generalizing n with
  | nil => rfl
  | cons a t ih =>
    cases n with
    | zero => rfl
    | succ k =>
      by_cases ha : a = 0
      · subst ha
        simp [c_string] at h
      · have hc : c_string (a :: t) = a :: c_string t := by
          simp [c_string, List.takeWhile_cons, ha]
        rw [hc] at h ⊢
        simp only [List.take_succ_cons, List.length_cons, Nat.add_right_cancel_iff] at h
        simp only [List.take_succ_cons]
        rw [ih k h]

theorem c_string_take_of_nonzero (s : List UInt8) (n : Nat) (h : ∀ x ∈ s.take n, x ≠ 0) :
    (c_string s).take n = s.take n := by
  induction s generalizing n with
  | nil => rfl
  | cons a t ih =>
    cases n with
    | zero => rfl
    | succ k =>
      have ha : a ≠ 0 := h a (by simp)
      have hc : c_string (a :: t) = a :: c_string t := by
        simp [c_string, List.takeWhile_cons, ha]
      rw [hc]
      simp only [List.take_succ_cons]
      rw [ih k (fun x hx => h x (by simp [hx]))]

/-- The test of the method scan, made on the text of the copy, holds exactly of the strings
that begin with the 7 characters `METHOD_`. -/
theorem is_method_marker_iff (s : List UInt8) :
    is_method_marker s = true ↔ s.take 7 = ascii "METHOD_" := by
  unfold is_method_marker
  rw [beq_iff_eq]
  constructor
  · intro h
    rw [← c_string_take_of_length s 7 (by rw [h]; decide)]
    exact h
  · intro h
    rw [c_string_take_of_nonzero s 7 (by rw [h]; decide)]
    exact h

theorem is_method_marker_eq (s : List UInt8) :
    is_method_marker s = begins_with_method (.str s) := by
  rw [Bool.eq_iff_iff, is_method_marker_iff]
  simp [begins_with_method]

/-- The method scan finds the least index holding a string that begins with `METHOD_`. -/
theorem find_method_of_first {objs : List msgpack_object} {M : Nat} {s : List UInt8}
    (hM : objs[M]? = some (.str s)) (hs : s.take 7 = ascii "METHOD_")
    (hmin : ∀ (i : Nat) (o : msgpack_object), i < M → objs[i]? = some o →
      begins_with_method o = false) :
    find_method objs 0 = some (M, c_string s) := by
  cases hf : find_method objs 0 with
  | none =>
    have := (find_method_eq_none.1 hf) M s hM
    rw [(is_method_marker_iff s).2 hs] at this
    cases this
  | some r =>
    obtain ⟨M', m'⟩ := r
    obtain ⟨_, _, ⟨s', hs1, hs2, hs3⟩, hmin'⟩ := find_method_spec hf
    simp only [Nat.sub_zero] at hs1 hmin'
    have h1 : ¬ M' < M := by
      intro hlt
      have := hmin M' _ hlt hs1
      rw [← is_method_marker_eq, hs2] at this
      cases this
    have h2 : ¬ M < M' := by
      intro hlt
      have := hmin' M s hlt hM
      rw [(is_method_marker_iff s).2 hs] at this
      cases this
    have hMM : M' = M := by omega
    subst hMM
    rw [hM] at hs1
    cases hs1
    rw [hs3]

theorem find_method_none_of_no_marker {objs : List msgpack_object}
    (h : ∀ (i : Nat) (o : msgpack_object), objs[i]? = some o → begins_with_method o = false) :
    find_method objs 0 = none :=
  find_method_eq_none.2 fun j t hjt => by rw [is_method_marker_eq]; exact h j _ hjt

/-- Without a method marker the dispatcher adds event publication fields only, if any. -/
theorem parse_rbus_objects_no_method {fmt_f : Nat → List UInt8} {data : List UInt8}
    {offset : Nat} {objs : List msgpack_object} (hm : find_method objs 0 = none)
    {r : List Emit × Nat} (h : parse_rbus_objects fmt_f data offset objs = some r) :
    ids_within event_ids r.1 := by
  unfold parse_rbus_objects at h
  rw [hm] at h
  split at h
  · cases h; exact ids_within_nil _
  · simp only [] at h
    split at h
    · split at h
      · cases h
      · rw [Option.map_eq_some'] at h
        obtain ⟨body, hbody, rfl⟩ := h
        refine ids_within_cons_item (by simp [event_ids]) ?_
        intro x hx
        exact parse_event_body_ids hbody x hx
      · cases h; exact ids_within_nil _
    · cases h; exact ids_within_nil _

/-- C11 (amended). For every sequence of at least 4 decoded values: if `M` is the least index
whose value is a string beginning with `METHOD_`, the dispatcher chooses `M` as method index
and emits exactly one method-name field, whose text is that string up to its first zero byte
(the text of the copy made with `"%.*s"`); if no value is such a string, no method is
identified and no method-name field is emitted. In both cases the dispatcher returns. -/
theorem parse_rbus_objects_method_index (fmt_f : Nat → List UInt8) (data : List UInt8)
    (offset : Nat) (objs : List msgpack_object) (h4 : 4 ≤ objs.length) :
    (∀ (M : Nat) (s : List UInt8), objs[M]? = some (.str s) → s.take 7 = ascii "METHOD_" →
      (∀ (i : Nat) (o : msgpack_object), i < M → objs[i]? = some o →
        begins_with_method o = false) →
      find_method objs 0 = some (M, c_string s) ∧
      ∃ es, parse_rbus_objects fmt_f data offset objs = some (es, data.length) ∧
        field_values .hf_rbus_method_name es = [.string (c_string s)]) ∧
    ((∀ (i : Nat) (o : msgpack_object), objs[i]? = some o → begins_with_method o = false) →
      find_method objs 0 = none ∧
      ∃ r, parse_rbus_objects fmt_f data offset objs = some r ∧
        field_values .hf_rbus_method_name r.1 = []) := by
  constructor
  · intro M s hM hs hmin
    have hm := find_method_of_first hM hs hmin
    obtain ⟨metadata, fields, hmeta, hverb, hparse⟩ :=
      parse_rbus_objects_of_method fmt_f data offset h4 hm
    refine ⟨hm, _, hparse, ?_⟩
    have hfields : field_values .hf_rbus_method_name fields = [] :=
      field_values_eq_nil (parse_verb_ids (Nat.le_of_lt (find_method_lt hm)) hverb)
        (by decide)
    rw [add_metadata_eq] at hmeta
    cases hmeta
    rw [field_values_append, hfields, List.append_nil]
    exact (field_values_metadata_block objs (c_string s) M offset).1
  · intro hnone
    have hm := find_method_none_of_no_marker hnone
    obtain ⟨r, hr⟩ := parse_rbus_objects_some fmt_f data offset objs
    exact ⟨hm, r, hr, field_values_eq_nil (parse_rbus_objects_no_method hm hr) (by decide)⟩

/-- C11 (witness): on the SET example the least index of a `METHOD_` string is 8, and the
dispatcher chooses it. -/
theorem parse_rbus_objects_method_index_witness :
    4 ≤ set_example.length ∧
    find_method set_example 0 = some (8, c_string (ascii "METHOD_SETPARAMETERVALUES")) :=
  ⟨by decide,
    ((parse_rbus_objects_method_index (fun _ => []) [] 0 set_example (by decide)).1 8
      (ascii "METHOD_SETPARAMETERVALUES") rfl (by decide)
      (fun i o hi h => by
        have hcases : ∀ j, j < 8 → ∀ p, set_example[j]? = some p →
            begins_with_method p = false := by decide
        exact hcases i hi o h)).1⟩

/-- C11 (counterexample). In `nul_marker` the value at index 0 is the 10-byte string
`METHOD_X`, 0x00, `Y`, which begins with `METHOD_`; the dispatcher chooses index 0, but the
method-name field it emits is the 8-byte text `METHOD_X`, not that string. -/
theorem parse_rbus_objects_nul_marker :
    4 ≤ nul_marker.length ∧
    nul_marker[0]? = some (.str (ascii "METHOD_X" ++ [0] ++ ascii "Y")) ∧
    (ascii "METHOD_X" ++ [0] ++ ascii "Y").take 7 = ascii "METHOD_" ∧
    find_method nul_marker 0 = some (0, ascii "METHOD_X") ∧
    (∀ (fmt_f : Nat → List UInt8) (data : List UInt8) (offset : Nat),
      (parse_rbus_objects fmt_f data offset nul_marker).map
          (fun r => field_values .hf_rbus_method_name r.1) =
        some [.string (ascii "METHOD_X")]) ∧
    ascii "METHOD_X" ≠ ascii "METHOD_X" ++ [0] ++ ascii "Y" :=
  ⟨by decide, rfl, by decide, by decide, fun _ _ _ => rfl, by decide⟩

/-! ## The metadata block -/

/-- C12 (amended). For every sequence of at least 4 values with method index `M`, the
dispatcher returns and: a tracing-parent field is emitted iff a value exists at `M + 1` and
is a string (its text up to the first zero byte); a tracing-state field is emitted iff a
value exists at `M + 2` and is a string; a metadata-offset field is emitted iff a value exists
at `M + 3`, whatever its type: its value is that value cast to a signed 32-bit integer when
it is an integer, and 0 otherwise. -/
theorem parse_rbus_objects_metadata (fmt_f : Nat → List UInt8) (data : List UInt8)
    (offset : Nat) (objs : List msgpack_object) (M : Nat) (method : List UInt8)
    (h4 : 4 ≤ objs.length) (hm : find_method objs 0 = some (M, method)) :
    ∃ es, parse_rbus_objects fmt_f data offset objs = some (es, data.length) ∧
      field_values .hf_rbus_ot_parent es = tracing_value objs[M + 1]? ∧
      field_values .hf_rbus_ot_state es = tracing_value objs[M + 2]? ∧
      field_values .hf_rbus_metadata_offset es = offset_value objs[M + 3]? := by
  obtain ⟨metadata, fields, hmeta, hverb, hparse⟩ :=
    parse_rbus_objects_of_method fmt_f data offset h4 hm
  have hids := parse_verb_ids (Nat.le_of_lt (find_method_lt hm)) hverb
  rw [add_metadata_eq] at hmeta
  cases hmeta
  obtain ⟨_, h1, h2, h3⟩ := field_values_metadata_block objs method M offset
  refine ⟨_, hparse, ?_, ?_, ?_⟩
  · rw [field_values_append, field_values_eq_nil hids (by decide), List.append_nil, h1]
  · rw [field_values_append, field_values_eq_nil hids (by decide), List.append_nil, h2]
  · rw [field_values_append, field_values_eq_nil hids (by decide), List.append_nil, h3]

/-- C12 (witness): on the SET example the method index is 8; the values at 9 and 10 are empty
strings and the value at 11 is the integer 0. -/
theorem parse_rbus_objects_metadata_witness :
    (4 ≤ set_example.length ∧
      find_method set_example 0 = some (8, ascii "METHOD_SETPARAMETERVALUES")) ∧
    ∃ es, parse_rbus_objects (fun _ => []) [] 0 set_example = some (es, 0) ∧
      field_values .hf_rbus_ot_parent es = [.string []] ∧
      field_values .hf_rbus_ot_state es = [.string []] ∧
      field_values .hf_rbus_metadata_offset es = [.int 0] :=
  ⟨⟨by decide, by decide⟩,
    parse_rbus_objects_metadata (fun _ => []) [] 0 set_example 8
      (ascii "METHOD_SETPARAMETERVALUES") (by decide) (by decide)⟩

/-- C12 (counterexample). In `offset_not_numeric` the method index is 0 and the value at
index 3 is the string `x`, not an integer, yet a metadata-offset field is emitted, with value
0; in `offset_large` the value at index 3 is the integer 2147483648 and the metadata-offset
field emitted has the value -2147483648. -/
theorem parse_rbus_objects_offset_not_numeric :
    (find_method offset_not_numeric 0 = some (0, ascii "METHOD_COMMIT") ∧
      offset_not_numeric[0 + 3]? = some (.str (ascii "x")) ∧
      ∀ (fmt_f : Nat → List UInt8) (data : List UInt8) (offset : Nat),
        (parse_rbus_objects fmt_f data offset offset_not_numeric).map
            (fun r => field_values .hf_rbus_metadata_offset r.1) =
          some [.int 0]) ∧
    (find_method offset_large 0 = some (0, ascii "METHOD_COMMIT") ∧
      offset_large[0 + 3]? = some (.positive_integer 2147483648) ∧
      ∀ (fmt_f : Nat → List UInt8) (data : List UInt8) (offset : Nat),
        (parse_rbus_objects fmt_f data offset offset_large).map
            (fun r => field_values .hf_rbus_metadata_offset r.1) =
          some [.int (-2147483648)]) :=
  ⟨⟨by decide, rfl, fun _ _ _ => rfl⟩, ⟨by decide, rfl, fun _ _ _ => rfl⟩⟩

/-! ## The RESPONSE layout -/

theorem parse_verb_response (fmt_f : Nat → List UInt8) (first : List UInt8)
    (objs : List msgpack_object) (method_idx offset : Nat) :
    parse_verb fmt_f first objs (ascii "METHOD_RESPONSE") method_idx offset =
      parse_response fmt_f first objs method_idx offset := rfl

/-- C15: on `[5, "Device.X", "METHOD_RESPONSE", "", "", 0]` the dispatcher adds, after the
metadata block, the error_code field with value 5 and nothing else: no failed-element field.
Nor does any other RESPONSE sequence get one: the simple-error test looks for a string
beginning with `METHOD_` at index 2 before the method index (`idx + 1 < method_idx`), and the
method index is the first index holding such a string. -/
theorem parse_rbus_objects_simple_error_example :
    (∀ (fmt_f : Nat → List UInt8) (data : List UInt8) (offset : Nat),
      parse_rbus_objects fmt_f data offset simple_error_example =
        some ([.proto_item .payload_tree .hf_rbus_metadata offset 1 .none,
          .proto_item meta_tree .hf_rbus_method_name offset 1
            (.string (ascii "METHOD_RESPONSE")),
          .proto_item meta_tree .hf_rbus_ot_parent offset 1 (.string []),
          .proto_item meta_tree .hf_rbus_ot_state offset 1 (.string []),
          .proto_item meta_tree .hf_rbus_metadata_offset offset 1 (.int 0),
          .proto_item .payload_tree .hf_rbus_error_code offset 1 (.int 5)],
          data.length)) ∧
    ∀ (fmt_f : Nat → List UInt8) (data : List UInt8) (offset : Nat)
      (objs : List msgpack_object) (M : Nat), 4 ≤ objs.length →
      find_method objs 0 = some (M, ascii "METHOD_RESPONSE") →
      ∃ es, parse_rbus_objects fmt_f data offset objs = some (es, data.length) ∧
        field_values .hf_rbus_failed_element es = [] := by
  refine ⟨fun _ _ _ => rfl, ?_⟩
  intro fmt_f data offset objs M h4 hm
  obtain ⟨metadata, fields, hmeta, hverb, hparse⟩ :=
    parse_rbus_objects_of_method fmt_f data offset h4 hm
  refine ⟨_, hparse, ?_⟩
  rw [add_metadata_eq] at hmeta
  cases hmeta
  rw [field_values_append,
    field_values_eq_nil (metadata_block_ids objs _ M offset) (by decide), List.nil_append]
  rw [parse_verb_response] at hverb
  rcases parse_response_ids hverb with hids | ⟨h2, s, hs, hmark, _⟩
  · exact field_values_eq_nil hids (by decide)
  · have hmin := (find_method_spec hm).2.2.2 2 s (by simpa using h2) hs
    rw [hmark] at hmin
    cases hmin

/-! ## The GET layout -/

theorem str_fields_names (t : tree_id) (hf : hf_id) (offset : Nat)
    (names : List (List UInt8)) (front rest : List msgpack_object) (fuel : Nat)
    (hfuel : names.length ≤ fuel) :
    str_fields (front ++ names.map .str ++ rest) (front.length + names.length) t hf offset fuel
        front.length =
      some (names.map fun n => .proto_item t hf offset 1 (.string (c_string n))) := by
  induction names generalizing front fuel with
  | nil =>
    cases fuel <;> simp [str_fields]
  | cons n ns ih =>
    cases fuel with
    | zero => simp at hfuel
    | succ fuel =>
      have hlen : front.length < front.length + (n :: ns).length := by simp
      have hget : (front ++ List.map msgpack_object.str (n :: ns) ++ rest)[front.length]? =
          some (.str n) := by
        rw [List.append_assoc, List.getElem?_append_right (Nat.le_refl _)]
        simp
      have hrec := ih (front ++ [.str n]) fuel (by simpa using hfuel)
      have e1 : front ++ [msgpack_object.str n] ++ List.map msgpack_object.str ns ++ rest =
          front ++ List.map msgpack_object.str (n :: ns) ++ rest := by simp
      have e2 : (front ++ [msgpack_object.str n]).length + ns.length =
          front.length + (n :: ns).length := by simp; omega
      have e3 : (front ++ [msgpack_object.str n]).length = front.length + 1 := by simp
      rw [e1, e2, e3] at hrec
      rw [str_fields, if_pos hlen, hget]
      simp only []
      rw [hrec]
      rfl

theorem to_guint32_of_lt (n : Nat) (h : n < 4294967296) : to_guint32 n = n := by
  unfold to_guint32
  omega

theorem parse_verb_get (fmt_f : Nat → List UInt8) (first : List UInt8)
    (objs : List msgpack_object) (method_idx offset : Nat) :
    parse_verb fmt_f first objs (ascii "METHOD_GETPARAMETERVALUES") method_idx offset =
      parse_get objs method_idx offset := rfl

/-- C17 (amended). For every GET value sequence `[component_name, N, name_1, ..., name_N,
"METHOD_GETPARAMETERVALUES", ...]` of at least 4 and at most `MAX_OBJECTS` values (what the
dispatcher collects) in which neither component_name nor any name_i begins with `METHOD_`,
the dispatcher emits, after the metadata block, component_name, param_count = N and exactly N
parameter-name fields for name_1 .. name_N in order, each text taken up to its first zero
byte, and nothing else. -/
theorem parse_rbus_objects_get (fmt_f : Nat → List UInt8) (data : List UInt8) (offset : Nat)
    (comp : List UInt8) (names : List (List UInt8)) (rest : List msgpack_object)
    (hcomp : comp.take 7 ≠ ascii "METHOD_") (hnames : ∀ n ∈ names, n.take 7 ≠ ascii "METHOD_")
    (h4 : 4 ≤ names.length + 3 + rest.length)
    (hmax : names.length + 3 + rest.length ≤ MAX_OBJECTS) :
    parse_rbus_objects fmt_f data offset
        ([.str comp, .positive_integer names.length] ++ names.map .str ++
          text "METHOD_GETPARAMETERVALUES" :: rest) =
      some (metadata_block
          ([.str comp, .positive_integer names.length] ++ names.map .str ++
            text "METHOD_GETPARAMETERVALUES" :: rest)
          (ascii "METHOD_GETPARAMETERVALUES") (names.length + 2) offset ++
        ([.proto_item .payload_tree .hf_rbus_component_name offset 1 (.string (c_string comp)),
          .proto_item .payload_tree .hf_rbus_param_count offset 1 (.uint names.length)] ++
          names.map fun n =>
            .proto_item .payload_tree .hf_rbus_parameter_name offset 1 (.string (c_string n))),
        data.length) := by
  generalize hobjs : [msgpack_object.str comp, .positive_integer names.length] ++
    names.map .str ++ text "METHOD_GETPARAMETERVALUES" :: rest = objs
  have hlen : objs.length = names.length + 3 + rest.length := by
    rw [← hobjs]
    simp only [List.length_append, List.length_cons, List.length_map, List.length_nil]
    omega
  have hmarker : objs[names.length + 2]? = some (.str (ascii "METHOD_GETPARAMETERVALUES")) := by
    rw [← hobjs, List.getElem?_append_right (by simp)]
    simp [text]
  have hfront : ∀ (i : Nat) (o : msgpack_object), i < names.length + 2 → objs[i]? = some o →
      begins_with_method o = false := by
    intro i o hi ho
    rw [← hobjs, List.getElem?_append_left (by simp; omega)] at ho
    cases i with
    | zero =>
      simp only [List.cons_append, List.getElem?_cons_zero, Option.some.injEq] at ho
      subst ho
      simpa [begins_with_method] using hcomp
    | succ i =>
      cases i with
      | zero =>
        simp only [List.cons_append, List.getElem?_cons_succ, List.getElem?_cons_zero,
          Option.some.injEq] at ho
        subst ho
        rfl
      | succ i =>
        simp only [List.cons_append, List.getElem?_cons_succ, List.nil_append,
          List.getElem?_map, Option.map_eq_some'] at ho
        obtain ⟨n, hn, rfl⟩ := ho
        simpa [begins_with_method] using hnames n (List.getElem?_mem hn)
  have hm : find_method objs 0 = some (names.length + 2, ascii "METHOD_GETPARAMETERVALUES") := by
    have := find_method_of_first hmarker (by decide) hfront
    have e : c_string (ascii "METHOD_GETPARAMETERVALUES") = ascii "METHOD_GETPARAMETERVALUES" := by
      decide
    rw [this, e]
  obtain ⟨metadata, fields, hmeta, hverb, hparse⟩ :=
    parse_rbus_objects_of_method fmt_f data offset (by omega) hm
  rw [add_metadata_eq] at hmeta
  cases hmeta
  rw [hparse]
  congr 2
  rw [parse_verb_get] at hverb
  have h0 : objs[0]? = some (.str comp) := by rw [← hobjs]; rfl
  have h1 : objs[1]? = some (.positive_integer names.length) := by rw [← hobjs]; simp
  have hnamesf := str_fields_names .payload_tree .hf_rbus_parameter_name offset names
    [.str comp, .positive_integer names.length] (text "METHOD_GETPARAMETERVALUES" :: rest)
    (names.length + 2) (by omega)
  rw [hobjs] at hnamesf
  have e : [msgpack_object.str comp, .positive_integer names.length].length + names.length =
      names.length + 2 := by simp; omega
  rw [e] at hnamesf
  unfold parse_get at hverb
  rw [if_pos (by omega), h0, h1] at hverb
  simp only [] at hverb
  rw [show ([msgpack_object.str comp, .positive_integer names.length].length = 2) from rfl]
    at hnamesf
  rw [hnamesf] at hverb
  simp only [Option.map_some', Option.some.injEq] at hverb
  rw [← hverb, to_guint32_of_lt _ (by unfold MAX_OBJECTS at hmax; omega)]
  simp

/-- C17 (witness): the hypotheses hold for the component `Comp` with the names `a` and `b`,
whose parameter-name fields come out in order. -/
theorem parse_rbus_objects_get_witness :
    ((ascii "Comp").take 7 ≠ ascii "METHOD_" ∧
      ∀ n ∈ [ascii "a", ascii "b"], n.take 7 ≠ ascii "METHOD_") ∧
    (parse_rbus_objects (fun _ => []) [] 0
        ([.str (ascii "Comp"), .positive_integer 2] ++ [ascii "a", ascii "b"].map .str ++
          text "METHOD_GETPARAMETERVALUES" :: [text "", text "", .positive_integer 0])).map
        (fun r => field_values .hf_rbus_parameter_name r.1) =
      some [.string (ascii "a"), .string (ascii "b")] :=
  ⟨⟨by decide, by decide⟩,
    (congrArg (Option.map fun r => field_values .hf_rbus_parameter_name r.1)
      (parse_rbus_objects_get (fun _ => []) [] 0 (ascii "Comp") [ascii "a", ascii "b"]
        [text "", text "", .positive_integer 0] (by decide) (by decide) (by decide)
        (by decide))).trans rfl⟩

/-- C17 (counterexample). Four GET sequences of the stated form on which the dispatcher does
not emit what the claim says: with the component name `METHOD_Comp` that name is taken for
the method marker and neither component_name nor param_count is emitted; with the parameter
name `METHOD_a` that name is taken for the marker and no parameter-name field is emitted;
the three-value sequence `["Comp", 0, "METHOD_GETPARAMETERVALUES"]` is declined (nothing
emitted, 0 returned); and the parameter name `a`, 0x00, `b` is emitted as `a`. -/
theorem parse_rbus_objects_get_declined :
    (∀ (fmt_f : Nat → List UInt8) (data : List UInt8) (offset : Nat),
      (parse_rbus_objects fmt_f data offset get_component_marker).map
          (fun r => (field_values .hf_rbus_component_name r.1,
            field_values .hf_rbus_param_count r.1)) = some ([], [])) ∧
    (∀ (fmt_f : Nat → List UInt8) (data : List UInt8) (offset : Nat),
      (parse_rbus_objects fmt_f data offset get_name_marker).map
          (fun r => field_values .hf_rbus_parameter_name r.1) = some []) ∧
    (∀ (fmt_f : Nat → List UInt8) (data : List UInt8) (offset : Nat),
      parse_rbus_objects fmt_f data offset get_short = some ([], 0)) ∧
    (∀ (fmt_f : Nat → List UInt8) (data : List UInt8) (offset : Nat),
      (parse_rbus_objects fmt_f data offset get_nul_name).map
          (fun r => field_values .hf_rbus_parameter_name r.1) = some [.string (ascii "a")]) ∧
    ascii "a" ≠ ascii "a" ++ [0] ++ ascii "b" :=
  ⟨fun _ _ _ => rfl, fun _ _ _ => rfl, fun _ _ _ => rfl, fun _ _ _ => rfl, by decide⟩

/-! ## The result of the structured parse -/

theorem collect_objects_length_le (unpack : List UInt8 → Nat → Option (msgpack_object × Nat))
    (data : List UInt8) (fuel parse_offset : Nat) :
    (collect_objects unpack data fuel parse_offset).length ≤ fuel := by
  induction fuel generalizing parse_offset with
  | zero => simp [collect_objects]
  | succ fuel ih =>
    unfold collect_objects
    split
    · split
      · simp
      · simp only [List.length_cons]
        exact Nat.succ_le_succ (ih _)
    · simp

theorem collect_objects_pos {unpack : List UInt8 → Nat → Option (msgpack_object × Nat)}
    {data : List UInt8} {fuel parse_offset : Nat}
    (h : 0 < (collect_objects unpack data fuel parse_offset).length) :
    parse_offset < data.length := by
  cases fuel with
  | zero => simp [collect_objects] at h
  | succ fuel =>
    unfold collect_objects at h
    split at h
    · assumption
    · simp at h

/-- C19: for every payload whose collected value sequence has at least 4 values and contains
a method marker, `parse_rbus_payload` returns (no access outside the collected values, every
loop ends), and what it returns is the full payload length, which is not 0: whatever the
number and types of the values before the marker and whatever the verb. -/
theorem parse_rbus_payload_handled
    (unpack : List UInt8 → Nat → Option (msgpack_object × Nat)) (fmt_f : Nat → List UInt8)
    (data : List UInt8) (offset : Nat)
    (h4 : 4 ≤ (collect_objects unpack data MAX_OBJECTS 0).length)
    (hm : ∃ (i : Nat) (s : List UInt8),
      (collect_objects unpack data MAX_OBJECTS 0)[i]? = some (.str s) ∧
        s.take 7 = ascii "METHOD_") :
    ∃ es, parse_rbus_payload unpack fmt_f data offset = some (es, data.length) ∧
      data.length ≠ 0 := by
  obtain ⟨i, s, hi, hs⟩ := hm
  have hpos : 0 < data.length := collect_objects_pos (Nat.lt_of_lt_of_le (by decide) h4)
  cases hf : find_method (collect_objects unpack data MAX_OBJECTS 0) 0 with
  | none =>
    have := (find_method_eq_none.1 hf) i s hi
    rw [(is_method_marker_iff s).2 hs] at this
    cases this
  | some r =>
    obtain ⟨M, method⟩ := r
    obtain ⟨metadata, fields, _, _, hparse⟩ :=
      parse_rbus_objects_of_method fmt_f data offset h4 hf
    exact ⟨_, hparse, by omega⟩

/-- C19 (witness): a decoder that yields the string `METHOD_X` for every byte, on a payload
of 4 bytes. -/
theorem parse_rbus_payload_handled_witness :
    (4 ≤ (collect_objects (fun _ off => some (text "METHOD_X", off + 1)) [0, 0, 0, 0]
        MAX_OBJECTS 0).length ∧
      (collect_objects (fun _ off => some (text "METHOD_X", off + 1)) [0, 0, 0, 0]
        MAX_OBJECTS 0)[0]? = some (.str (ascii "METHOD_X"))) ∧
    ∃ es, parse_rbus_payload (fun _ off => some (text "METHOD_X", off + 1)) (fun _ => [])
        [0, 0, 0, 0] 0 = some (es, 4) ∧ [(0 : UInt8), 0, 0, 0].length ≠ 0 :=
  ⟨⟨by decide, rfl⟩,
    parse_rbus_payload_handled (fun _ off => some (text "METHOD_X", off + 1)) (fun _ => [])
      [0, 0, 0, 0] 0 (by decide) ⟨0, ascii "METHOD_X", rfl, by decide⟩⟩

/-! ## Values that no layout field takes -/

theorem parse_verb_unknown (fmt_f : Nat → List UInt8) (first : List UInt8)
    (objs : List msgpack_object) (method : List UInt8) (method_idx offset : Nat)
    (h : method ∉ known_verbs) :
    parse_verb fmt_f first objs method method_idx offset = some [] := by
  simp only [known_verbs, List.mem_cons, List.mem_singleton, List.mem_nil_iff, not_or,
    or_false] at h
  obtain ⟨h1, h2, h3, h4, h5, h6, h7, h8, h9, h10, h11, h12, h13, h14⟩ := h
  rw [parse_verb, if_neg h1, if_neg h2, if_neg h3, if_neg h4, if_neg h5, if_neg h6,
    if_neg (not_or.2 ⟨h7, h8⟩), if_neg (not_or.2 ⟨h9, h10⟩), if_neg (not_or.2 ⟨h11, h12⟩),
    if_neg h13, if_neg h14]

/-- The payload stage when the structured parse returns a non-zero count: the payload item,
the items of the structured parse and the ` [Structured RBus Message]` mark; the generic
fallback does not run. -/
theorem dissect_rbus_payload_bytes_of_parsed (env : payload_env) (tvb : tvbuff_t)
    (offset payload_length actual_payload_length b : Nat) (data : List UInt8)
    (hdata : tvb_get_ptr tvb offset actual_payload_length = some data)
    (hb : tvb_get_uint8 tvb offset = some b)
    (hjson : ¬ ((b = 0x7B ∨ b = 0x5B) ∧ actual_payload_length > 1))
    (hparsed : (env.parse_rbus_payload data offset).2 ≠ 0) :
    dissect_rbus_payload_bytes env tvb offset payload_length actual_payload_length =
      ⟨[.proto_item .rbus_tree .hf_rbus_payload offset actual_payload_length (.bytes data)] ++
          (env.parse_rbus_payload data offset).1 ++
          [.append_text " [Structured RBus Message]"],
        .consumed (offset + payload_length)⟩ := by
  unfold dissect_rbus_payload_bytes
  simp only [hdata, hb]
  rw [if_neg hjson, if_neg hparsed]

/-- C20 (amended). When a method marker is identified in a payload of at least 4 values, the
decoder's output for the payload is the raw payload bytes item, the metadata block, the
fields of the verb's layout and the ` [Structured RBus Message]` mark, and nothing else:
every item added for the values before the marker is a labeled layout field, a value the
layout does not take gets no item of its own (it remains visible only inside the raw payload
bytes item), the generic fallback decoder does not run, and a method without layout entry
adds no field at all. -/
theorem dissect_rbus_payload_bytes_structured (env : payload_env)
    (unpack : List UInt8 → Nat → Option (msgpack_object × Nat)) (fmt_f : Nat → List UInt8)
    (tvb : tvbuff_t) (offset payload_length actual_payload_length b : Nat)
    (data : List UInt8) (M : Nat) (method : List UInt8)
    (hdata : tvb_get_ptr tvb offset actual_payload_length = some data)
    (hb : tvb_get_uint8 tvb offset = some b)
    (hjson : ¬ ((b = 0x7B ∨ b = 0x5B) ∧ actual_payload_length > 1))
    (h4 : 4 ≤ (collect_objects unpack data MAX_OBJECTS 0).length)
    (hm : find_method (collect_objects unpack data MAX_OBJECTS 0) 0 = some (M, method)) :
    ∃ fields,
      parse_verb fmt_f (data.take 1) (collect_objects unpack data MAX_OBJECTS 0) method M
        offset = some fields ∧
      ids_within layout_ids fields ∧
      (method ∉ known_verbs → fields = []) ∧
      dissect_rbus_payload_bytes (structured_env unpack fmt_f env) tvb offset payload_length
          actual_payload_length =
        ⟨[.proto_item .rbus_tree .hf_rbus_payload offset actual_payload_length (.bytes data)] ++
            (metadata_block (collect_objects unpack data MAX_OBJECTS 0) method M offset ++
              fields) ++
            [.append_text " [Structured RBus Message]"],
          .consumed (offset + payload_length)⟩ := by
  obtain ⟨metadata, fields, hmeta, hverb, hparse⟩ :=
    parse_rbus_objects_of_method fmt_f data offset h4 hm
  rw [add_metadata_eq] at hmeta
  cases hmeta
  have hpos : 0 < data.length := collect_objects_pos (Nat.lt_of_lt_of_le (by decide) h4)
  have henv : (structured_env unpack fmt_f env).parse_rbus_payload data offset =
      (metadata_block (collect_objects unpack data MAX_OBJECTS 0) method M offset ++ fields,
        data.length) := by
    simp only [structured_env, parse_rbus_payload, hparse, Option.getD_some]
  refine ⟨fields, hverb, parse_verb_ids (Nat.le_of_lt (find_method_lt hm)) hverb, ?_, ?_⟩
  · intro hunknown
    rw [parse_verb_unknown _ _ _ _ _ _ hunknown] at hverb
    cases hverb
    rfl
  · rw [dissect_rbus_payload_bytes_of_parsed _ tvb offset payload_length actual_payload_length
      b data hdata hb hjson (by rw [henv]; exact Nat.ne_of_gt hpos), henv]

/-- C20 (witness): a 4-byte payload starting with 0xC0 and a decoder that yields the string
`METHOD_FOO` for every byte: the hypotheses hold, and the output is the payload item, the
metadata block and the mark. -/
theorem dissect_rbus_payload_bytes_structured_witness :
    (tvb_get_ptr [0xC0, 0, 0, 0] 0 4 = some [0xC0, 0, 0, 0] ∧
      tvb_get_uint8 [0xC0, 0, 0, 0] 0 = some 0xC0 ∧
      4 ≤ (collect_objects (fun _ off => some (text "METHOD_FOO", off + 1)) [0xC0, 0, 0, 0]
        MAX_OBJECTS 0).length ∧
      find_method (collect_objects (fun _ off => some (text "METHOD_FOO", off + 1))
        [0xC0, 0, 0, 0] MAX_OBJECTS 0) 0 = some (0, ascii "METHOD_FOO")) ∧
    ∃ fields,
      parse_verb (fun _ => []) ([0xC0, 0, 0, 0].take 1)
        (collect_objects (fun _ off => some (text "METHOD_FOO", off + 1)) [0xC0, 0, 0, 0]
          MAX_OBJECTS 0) (ascii "METHOD_FOO") 0 0 = some fields ∧
      ids_within layout_ids fields ∧
      (ascii "METHOD_FOO" ∉ known_verbs → fields = []) ∧
      dissect_rbus_payload_bytes
          (structured_env (fun _ off => some (text "METHOD_FOO", off + 1)) (fun _ => [])
            ⟨fun _ _ => ([], 0), fun _ _ _ _ c => ([], 0, c), 0⟩)
          [0xC0, 0, 0, 0] 0 4 4 =
        ⟨[.proto_item .rbus_tree .hf_rbus_payload 0 4 (.bytes [0xC0, 0, 0, 0])] ++
            (metadata_block
              (collect_objects (fun _ off => some (text "METHOD_FOO", off + 1))
                [0xC0, 0, 0, 0] MAX_OBJECTS 0) (ascii "METHOD_FOO") 0 0 ++ fields) ++
            [.append_text " [Structured RBus Message]"],
          .consumed (0 + 4)⟩ :=
  ⟨⟨by decide, by decide, by decide, by decide⟩,
    dissect_rbus_payload_bytes_structured ⟨fun _ _ => ([], 0), fun _ _ _ _ c => ([], 0, c), 0⟩
      (fun _ off => some (text "METHOD_FOO", off + 1)) (fun _ => []) [0xC0, 0, 0, 0] 0 4 4 0xC0
      [0xC0, 0, 0, 0] 0 (ascii "METHOD_FOO") (by decide) (by decide) (by decide) (by decide)
      (by decide)⟩

/-- C20 (counterexample). The payload `unknown_verb_bytes` encodes the values
`[777, nil, "METHOD_FOO", "", "", 0]`: a method marker is identified at index 2 and the method
has no layout entry. The dispatcher emits the metadata block alone, and for every decoder that
yields these values the whole output for the payload is the raw payload bytes item, the
metadata block and the ` [Structured RBus Message]` mark: the values 777 and nil appear
nowhere as values, labeled or unlabeled. -/
theorem dissect_rbus_payload_bytes_unknown_verb :
    find_method unknown_verb 0 = some (2, ascii "METHOD_FOO") ∧
    (∀ (fmt_f : Nat → List UInt8) (data : List UInt8) (offset : Nat),
      parse_rbus_objects fmt_f data offset unknown_verb =
        some ([.proto_item .payload_tree .hf_rbus_metadata offset 1 .none,
          .proto_item meta_tree .hf_rbus_method_name offset 1 (.string (ascii "METHOD_FOO")),
          .proto_item meta_tree .hf_rbus_ot_parent offset 1 (.string []),
          .proto_item meta_tree .hf_rbus_ot_state offset 1 (.string []),
          .proto_item meta_tree .hf_rbus_metadata_offset offset 1 (.int 0)],
          data.length)) ∧
    ∀ (env : payload_env) (unpack : List UInt8 → Nat → Option (msgpack_object × Nat))
      (fmt_f : Nat → List UInt8),
      collect_objects unpack unknown_verb_bytes MAX_OBJECTS 0 = unknown_verb →
      dissect_rbus_payload_bytes (structured_env unpack fmt_f env) unknown_verb_bytes 0 18 18 =
        ⟨[.proto_item .rbus_tree .hf_rbus_payload 0 18 (.bytes unknown_verb_bytes),
          .proto_item .payload_tree .hf_rbus_metadata 0 1 .none,
          .proto_item meta_tree .hf_rbus_method_name 0 1 (.string (ascii "METHOD_FOO")),
          .proto_item meta_tree .hf_rbus_ot_parent 0 1 (.string []),
          .proto_item meta_tree .hf_rbus_ot_state 0 1 (.string []),
          .proto_item meta_tree .hf_rbus_metadata_offset 0 1 (.int 0),
          .append_text " [Structured RBus Message]"],
          .consumed 18⟩ := by
  refine ⟨rfl, fun _ _ _ => rfl, ?_⟩
  intro env unpack fmt_f hcollect
  have henv : (structured_env unpack fmt_f env).parse_rbus_payload unknown_verb_bytes 0 =
      ([.proto_item .payload_tree .hf_rbus_metadata 0 1 .none,
        .proto_item meta_tree .hf_rbus_method_name 0 1 (.string (ascii "METHOD_FOO")),
        .proto_item meta_tree .hf_rbus_ot_parent 0 1 (.string []),
        .proto_item meta_tree .hf_rbus_ot_state 0 1 (.string []),
        .proto_item meta_tree .hf_rbus_metadata_offset 0 1 (.int 0)], 18) := by
    simp only [structured_env, parse_rbus_payload, hcollect]
    rfl
  rw [dissect_rbus_payload_bytes_of_parsed _ unknown_verb_bytes 0 18 18 0xCD unknown_verb_bytes
    (by decide) (by decide) (by decide) (by rw [henv]; decide), henv]
  rfl

/-! ## The Typed-Value Renderer -/

/-- C24: numeric width selection in `add_typed_value`. An unsigned value `v` is added as the
32-bit unsigned field when `v <= 2^32 - 1` and as the 64-bit unsigned field otherwise; a
signed value `v` is added as the 32-bit signed field when `-2^31 <= v <= 2^31 - 1` and as the
64-bit signed field otherwise; the field carries `v` and the text returned is the decimal
rendering of `v` in every case. The fields are those of the property or of the parameter
family, after `is_property`. -/
theorem add_typed_value_width (fmt_f : Nat → List UInt8) (first : List UInt8) (t : tree_id)
    (offset : Nat) (is_property : Bool) :
    (∀ v : Nat,
      (v ≤ 2 ^ 32 - 1 →
        add_typed_value fmt_f first t offset (.positive_integer v) is_property =
          ([.proto_item t
              (if is_property then .hf_rbus_property_value_uint
                else .hf_rbus_parameter_value_uint) offset 1 (.uint v)],
            ascii (toString v))) ∧
      (¬ v ≤ 2 ^ 32 - 1 →
        add_typed_value fmt_f first t offset (.positive_integer v) is_property =
          ([.proto_item t
              (if is_property then .hf_rbus_property_value_uint64
                else .hf_rbus_parameter_value_uint64) offset 1 (.uint v)],
            ascii (toString v)))) ∧
    (∀ v : Int,
      (-2 ^ 31 ≤ v ∧ v ≤ 2 ^ 31 - 1 →
        add_typed_value fmt_f first t offset (.negative_integer v) is_property =
          ([.proto_item t
              (if is_property then .hf_rbus_property_value_int
                else .hf_rbus_parameter_value_int) offset 1 (.int v)],
            ascii (toString v))) ∧
      (¬ (-2 ^ 31 ≤ v ∧ v ≤ 2 ^ 31 - 1) →
        add_typed_value fmt_f first t offset (.negative_integer v) is_property =
          ([.proto_item t
              (if is_property then .hf_rbus_property_value_int64
                else .hf_rbus_parameter_value_int64) offset 1 (.int v)],
            ascii (toString v)))) := by
  refine ⟨fun v => ⟨fun h => ?_, fun h => ?_⟩, fun v => ⟨fun h => ?_, fun h => ?_⟩⟩
  · have hv : v ≤ G_MAXUINT32 := by unfold G_MAXUINT32; omega
    have e : to_guint32 (v : Int) = v := by unfold to_guint32; omega
    simp only [add_typed_value, if_pos hv, e]
  · have hv : ¬ v ≤ G_MAXUINT32 := by unfold G_MAXUINT32; omega
    simp only [add_typed_value, if_neg hv]
  · have hv : v ≥ G_MININT32 ∧ v ≤ G_MAXINT32 := by unfold G_MININT32 G_MAXINT32; omega
    have e : to_gint32 v = v := by unfold to_gint32; omega
    simp only [add_typed_value, if_pos hv, e]
  · have hv : ¬ (v ≥ G_MININT32 ∧ v ≤ G_MAXINT32) := by
      unfold G_MININT32 G_MAXINT32; omega
    simp only [add_typed_value, if_neg hv]

/-- C25: a blob is rendered as a boolean exactly when it is the single byte 0x00 or 0x01.
`add_typed_value` then adds the boolean field (false for 0x00, true for 0x01) and returns the
text `false` or `true`, and for every other blob it adds the string field;
`display_msgpack_object`, whenever it displays the value (depth within the limit), adds the
boolean field with that value and text for these two blobs, and for every other blob a string
or a byte field, never the boolean field. -/
theorem blob_boolean (fmt_f : Nat → List UInt8) (first : List UInt8) (t : tree_id)
    (offset : Nat) (is_property : Bool) (limit fuel length depth : Nat) (data : List UInt8)
    (label : Option (List UInt8)) (ctx : rbus_parse_context_t) :
    (add_typed_value fmt_f first t offset (.bin [0x00]) is_property =
        ([.proto_item t
            (if is_property then .hf_rbus_property_value_boolean
              else .hf_rbus_parameter_value_boolean) offset 1 (.boolean false)],
          ascii "false") ∧
      add_typed_value fmt_f first t offset (.bin [0x01]) is_property =
        ([.proto_item t
            (if is_property then .hf_rbus_property_value_boolean
              else .hf_rbus_parameter_value_boolean) offset 1 (.boolean true)],
          ascii "true") ∧
      ∀ b : List UInt8, b ≠ [0x00] → b ≠ [0x01] →
        add_typed_value fmt_f first t offset (.bin b) is_property =
          ([.proto_item t
              (if is_property then .hf_rbus_property_value_string
                else .hf_rbus_parameter_value_string) offset 1 (.string (c_string b))],
            c_string b)) ∧
    (depth ≤ limit →
      (∃ ctx1, display_msgpack_object fmt_f limit (fuel + 1) t data offset length
          (.bin [0x00]) depth label ctx =
        some ([.proto_item t .hf_rbus_payload_boolean offset length
          (with_label label (.boolean false) (ascii "false"))], ctx1)) ∧
      (∃ ctx1, display_msgpack_object fmt_f limit (fuel + 1) t data offset length
          (.bin [0x01]) depth label ctx =
        some ([.proto_item t .hf_rbus_payload_boolean offset length
          (with_label label (.boolean true) (ascii "true"))], ctx1)) ∧
      ∀ b : List UInt8, b ≠ [0x00] → b ≠ [0x01] →
        ∃ hf value ctx1, display_msgpack_object fmt_f limit (fuel + 1) t data offset length
            (.bin b) depth label ctx = some ([.proto_item t hf offset length value], ctx1) ∧
          (hf = .hf_rbus_payload_string ∨ hf = .hf_rbus_payload)) := by
  refine ⟨⟨?_, ?_, ?_⟩, fun hd => ⟨?_, ?_, ?_⟩⟩
  · cases is_property <;> rfl
  · cases is_property <;> rfl
  · intro b h0 h1
    have hb : ¬ (b = [0x00] ∨ b = [0x01]) := fun h => h.elim h0 h1
    simp only [add_typed_value, if_neg hb]
  · exact ⟨_, by rw [display_msgpack_object, if_neg (by omega)]; rfl⟩
  · exact ⟨_, by rw [display_msgpack_object, if_neg (by omega)]; rfl⟩
  · intro b h0 h1
    have hb : ¬ (b = [0x00] ∨ b = [0x01]) := fun h => h.elim h0 h1
    rw [display_msgpack_object, if_neg (by omega)]
    simp only [display_bin, if_neg hb]
    by_cases hu : is_utf8 b = true ∧ b.length > 0
    · rw [if_pos hu]
      exact ⟨_, _, _, rfl, Or.inl rfl⟩
    · rw [if_neg hu]
      exact ⟨_, _, _, rfl, Or.inr rfl⟩

/-- C26: on the two-byte blob `control_blob` (0x01, 0x02), which fails the text test
(`is_utf8`), `add_typed_value` makes no test and adds the string field with these bytes as
text, for a property and for a parameter alike; `display_msgpack_object` shows the same blob
as `[Binary, 2 bytes]`. -/
theorem add_typed_value_control_blob :
    is_utf8 control_blob = false ∧
    (∀ (fmt_f : Nat → List UInt8) (first : List UInt8) (t : tree_id) (offset : Nat),
      add_typed_value fmt_f first t offset (.bin control_blob) true =
          ([.proto_item t .hf_rbus_property_value_string offset 1 (.string [0x01, 0x02])],
            [0x01, 0x02]) ∧
        add_typed_value fmt_f first t offset (.bin control_blob) false =
          ([.proto_item t .hf_rbus_parameter_value_string offset 1 (.string [0x01, 0x02])],
            [0x01, 0x02])) ∧
    ∀ (fmt_f : Nat → List UInt8) (t : tree_id) (data : List UInt8) (offset length : Nat),
      display_msgpack_object fmt_f 16 17 t data offset length (.bin control_blob) 0 none
          initial_ctx =
        some ([.proto_item t .hf_rbus_payload offset length
          (.format_value (.bytes (data.take length)) (ascii "[Binary, 2 bytes]"))],
          initial_ctx) :=
  ⟨by decide, fun _ _ _ _ => ⟨rfl, rfl⟩, fun _ _ _ _ _ => rfl⟩

/-! ## Triplets -/

/-- One iteration of the SET / RESPONSE triplet loop on a triplet with a string name and a
value before the method index: its items, then the rest of the loop. -/
theorem triplet_loop_step (fmt_f : Nat → List UInt8) (first : List UInt8)
    (objs : List msgpack_object) (method_idx offset count : Nat)
    (hf_group hf_name hf_type hf_namevalue : hf_id) (is_property : Bool) (fuel p idx : Nat)
    (s : List UInt8) (type_obj value_obj : msgpack_object)
    (hp : p < count) (hidx : idx + 2 < method_idx)
    (hname : objs[idx]? = some (.str s)) (htype : objs[idx + 1]? = some type_obj)
    (hvalue : objs[idx + 2]? = some value_obj) :
    triplet_loop fmt_f first objs method_idx offset count hf_group hf_name hf_type hf_namevalue
        is_property (fuel + 1) p idx =
      (triplet_loop fmt_f first objs method_idx offset count hf_group hf_name hf_type
        hf_namevalue is_property fuel (p + 1) (idx + 3)).map fun rest =>
        (triplet_items fmt_f first offset hf_group hf_name hf_type hf_namevalue is_property p s
          type_obj value_obj ++ rest.1, rest.2) := by
  rw [triplet_loop, if_pos ⟨hp, by omega⟩, hname, htype]
  simp only [if_pos hidx, hvalue, Option.map_some']
  cases h : triplet_loop fmt_f first objs method_idx offset count hf_group hf_name hf_type
      hf_namevalue is_property fuel (p + 1) (idx + 3) with
  | none => rfl
  | some rest =>
    simp only [Option.map_some', triplet_items, Option.some.injEq, Prod.mk.injEq, and_true]
    cases type_obj <;> simp

/-- One iteration of the property loop of an event publication on a triplet with a string
name: its items, then the rest of the loop. -/
theorem event_property_loop_step (fmt_f : Nat → List UInt8) (first : List UInt8)
    (objs : List msgpack_object) (offset prop_count : Nat) (fuel p idx : Nat)
    (s : List UInt8) (type_obj value_obj : msgpack_object)
    (hp : p < prop_count) (hidx : idx + 2 < objs.length)
    (hname : objs[idx]? = some (.str s)) (htype : objs[idx + 1]? = some type_obj)
    (hvalue : objs[idx + 2]? = some value_obj) :
    event_property_loop fmt_f first objs offset prop_count (fuel + 1) p idx =
      (event_property_loop fmt_f first objs offset prop_count fuel (p + 1) (idx + 3)).map
        fun rest =>
          (event_property_items fmt_f first offset p s type_obj value_obj ++ rest.1,
            rest.2) := by
  rw [event_property_loop, if_pos ⟨hp, hidx⟩, hname, htype, hvalue]
  simp only []
  cases h : event_property_loop fmt_f first objs offset prop_count fuel (p + 1) (idx + 3) with
  | none => rfl
  | some rest =>
    simp only [Option.map_some', event_property_items, Option.some.injEq, Prod.mk.injEq,
      and_true]

theorem pair_suffix (front : List Emit) (a b : Emit) : [a, b] <:+ front ++ [a] ++ [b] :=
  ⟨front, (List.append_assoc front [a] [b]).symm⟩

/-- C27: for every decoded value of a shape the Typed-Value Renderer does not recognise (nil,
array, map, ext), `add_typed_value` adds the placeholder item `Value: [Unsupported type]` and
returns the text `[unsupported]`; the surrounding triplet is completed (its items end with
the placeholder and the combined field `name=[unsupported]`) and the loop goes on with the
next triplet, in the SET and RESPONSE layouts and in an event publication alike. -/
theorem add_typed_value_unrecognised (fmt_f : Nat → List UInt8) (first : List UInt8)
    (value_obj : msgpack_object) (h : unrecognised value_obj = true) :
    (∀ (t : tree_id) (offset : Nat) (is_property : Bool),
      add_typed_value fmt_f first t offset value_obj is_property =
        ([.proto_item t .hf_rbus_payload offset 1
            (.formatted first (ascii "Value: [Unsupported type]"))],
          ascii "[unsupported]")) ∧
    (∀ (objs : List msgpack_object) (method_idx offset count : Nat)
      (hf_group hf_name hf_type hf_namevalue : hf_id) (is_property : Bool) (fuel p idx : Nat)
      (s : List UInt8) (type_obj : msgpack_object),
      p < count → idx + 2 < method_idx → objs[idx]? = some (.str s) →
      objs[idx + 1]? = some type_obj → objs[idx + 2]? = some value_obj →
      triplet_loop fmt_f first objs method_idx offset count hf_group hf_name hf_type
          hf_namevalue is_property (fuel + 1) p idx =
        ((triplet_loop fmt_f first objs method_idx offset count hf_group hf_name hf_type
          hf_namevalue is_property fuel (p + 1) (idx + 3)).map fun rest =>
          (triplet_items fmt_f first offset hf_group hf_name hf_type hf_namevalue is_property
            p s type_obj value_obj ++ rest.1, rest.2)) ∧
      [.proto_item (group_tree .payload_tree p) .hf_rbus_payload offset 1
          (.formatted first (ascii "Value: [Unsupported type]")),
        .proto_item (group_tree .payload_tree p) hf_namevalue offset 1
          (.string (c_string s ++ ascii "=" ++ ascii "[unsupported]"))] <:+
        triplet_items fmt_f first offset hf_group hf_name hf_type hf_namevalue is_property
          p s type_obj value_obj) ∧
    (∀ (objs : List msgpack_object) (offset prop_count : Nat) (fuel p idx : Nat)
      (s : List UInt8) (type_obj : msgpack_object),
      p < prop_count → idx + 2 < objs.length → objs[idx]? = some (.str s) →
      objs[idx + 1]? = some type_obj → objs[idx + 2]? = some value_obj →
      event_property_loop fmt_f first objs offset prop_count (fuel + 1) p idx =
        ((event_property_loop fmt_f first objs offset prop_count fuel (p + 1) (idx + 3)).map
          fun rest =>
            (event_property_items fmt_f first offset p s type_obj value_obj ++ rest.1,
              rest.2)) ∧
      [.proto_item (group_tree data_tree p) .hf_rbus_payload offset 1
          (.formatted first (ascii "Value: [Unsupported type]")),
        .proto_item (group_tree data_tree p) .hf_rbus_object_property_namevalue offset 1
          (.string (c_string s ++ ascii "=" ++ ascii "[unsupported]"))] <:+
        event_property_items fmt_f first offset p s type_obj value_obj) := by
  have hv : ∀ (t : tree_id) (offset : Nat) (is_property : Bool),
      add_typed_value fmt_f first t offset value_obj is_property =
        ([.proto_item t .hf_rbus_payload offset 1
            (.formatted first (ascii "Value: [Unsupported type]"))],
          ascii "[unsupported]") := by
    intro t offset is_property
    cases value_obj <;> first | rfl | cases h
  refine ⟨hv, ?_, ?_⟩
  · intro objs method_idx offset count hf_group hf_name hf_type hf_namevalue is_property fuel p
      idx s type_obj hp hidx hname htype hvalue
    refine ⟨triplet_loop_step fmt_f first objs method_idx offset count hf_group hf_name hf_type
      hf_namevalue is_property fuel p idx s type_obj value_obj hp hidx hname htype hvalue, ?_⟩
    simp only [triplet_items, hv]
    exact pair_suffix _ _ _
  · intro objs offset prop_count fuel p idx s type_obj hp hidx hname htype hvalue
    refine ⟨event_property_loop_step fmt_f first objs offset prop_count fuel p idx s type_obj
      value_obj hp hidx hname htype hvalue, ?_⟩
    simp only [event_property_items, hv]
    exact pair_suffix _ _ _

/-- C27 (witness): the value nil is of an unrecognised shape; as a parameter value it gets
the placeholder and the text `[unsupported]`. -/
theorem add_typed_value_unrecognised_witness :
    unrecognised .nil = true ∧
    add_typed_value (fun _ => []) [0xC0] .payload_tree 0 .nil false =
      ([.proto_item .payload_tree .hf_rbus_payload 0 1
          (.formatted [0xC0] (ascii "Value: [Unsupported type]"))],
        ascii "[unsupported]") :=
  ⟨rfl, (add_typed_value_unrecognised (fun _ => []) [0xC0] .nil rfl).1 .payload_tree 0 false⟩

theorem field_values_triplet_items (fmt_f : Nat → List UInt8) (first : List UInt8)
    (offset : Nat) (hf_group hf_name hf_type hf_namevalue : hf_id) (is_property : Bool)
    (p : Nat) (s : List UInt8) (type_obj value_obj : msgpack_object)
    (hg : hf_group ≠ hf_namevalue) (hn : hf_name ≠ hf_namevalue) (ht : hf_type ≠ hf_namevalue)
    (hv : hf_namevalue ∉ typed_value_ids is_property) :
    field_values hf_namevalue
        (triplet_items fmt_f first offset hf_group hf_name hf_type hf_namevalue is_property p s
          type_obj value_obj) =
      [.string (c_string s ++ ascii "=" ++
        (add_typed_value fmt_f first (group_tree .payload_tree p) offset value_obj
          is_property).2)] := by
  unfold triplet_items
  simp only [field_values_append]
  rw [field_values_eq_nil (add_typed_value_ids fmt_f first _ offset value_obj is_property
    (fun h hh => hh)) hv]
  cases type_obj <;> simp [field_values, hg, hn, ht]

theorem field_values_event_property_items (fmt_f : Nat → List UInt8) (first : List UInt8)
    (offset p : Nat) (s : List UInt8) (type_obj value_obj : msgpack_object) :
    field_values .hf_rbus_object_property_namevalue
        (event_property_items fmt_f first offset p s type_obj value_obj) =
      [.string (c_string s ++ ascii "=" ++
        (add_typed_value fmt_f first (group_tree data_tree p) offset value_obj true).2)] := by
  unfold event_property_items
  simp only [field_values_append]
  rw [field_values_eq_nil (add_typed_value_ids fmt_f first _ offset value_obj true
    (fun h hh => hh)) (by decide)]
  simp [field_values]

/-- C28 (amended). For every parameter triplet (SET) and property triplet (RESPONSE) whose
name is a string and whose value lies before the method marker, and for every property
triplet of an event publication whose name is a string, the decoder emits the items of the
triplet, among them exactly one combined field, whose text is the triplet's name (up to its
first zero byte), followed by `=`, followed by the text returned by `add_typed_value` for
the triplet's value. -/
theorem triplet_combined_field (fmt_f : Nat → List UInt8) (first : List UInt8) :
    (∀ (objs : List msgpack_object) (method_idx offset count fuel p idx : Nat)
      (s : List UInt8) (type_obj value_obj : msgpack_object),
      p < count → idx + 2 < method_idx → objs[idx]? = some (.str s) →
      objs[idx + 1]? = some type_obj → objs[idx + 2]? = some value_obj →
      triplet_loop fmt_f first objs method_idx offset count .hf_rbus_parameter
          .hf_rbus_parameter_name .hf_rbus_parameter_type .hf_rbus_parameter_namevalue false
          (fuel + 1) p idx =
        ((triplet_loop fmt_f first objs method_idx offset count .hf_rbus_parameter
          .hf_rbus_parameter_name .hf_rbus_parameter_type .hf_rbus_parameter_namevalue false
          fuel (p + 1) (idx + 3)).map fun rest =>
          (triplet_items fmt_f first offset .hf_rbus_parameter .hf_rbus_parameter_name
            .hf_rbus_parameter_type .hf_rbus_parameter_namevalue false p s type_obj
            value_obj ++ rest.1, rest.2)) ∧
      field_values .hf_rbus_parameter_namevalue
          (triplet_items fmt_f first offset .hf_rbus_parameter .hf_rbus_parameter_name
            .hf_rbus_parameter_type .hf_rbus_parameter_namevalue false p s type_obj
            value_obj) =
        [.string (c_string s ++ ascii "=" ++
          (add_typed_value fmt_f first (group_tree .payload_tree p) offset value_obj
            false).2)]) ∧
    (∀ (objs : List msgpack_object) (method_idx offset count fuel p idx : Nat)
      (s : List UInt8) (type_obj value_obj : msgpack_object),
      p < count → idx + 2 < method_idx → objs[idx]? = some (.str s) →
      objs[idx + 1]? = some type_obj → objs[idx + 2]? = some value_obj →
      triplet_loop fmt_f first objs method_idx offset count .hf_rbus_property
          .hf_rbus_property_name .hf_rbus_property_type .hf_rbus_property_namevalue true
          (fuel + 1) p idx =
        ((triplet_loop fmt_f first objs method_idx offset count .hf_rbus_property
          .hf_rbus_property_name .hf_rbus_property_type .hf_rbus_property_namevalue true
          fuel (p + 1) (idx + 3)).map fun rest =>
          (triplet_items fmt_f first offset .hf_rbus_property .hf_rbus_property_name
            .hf_rbus_property_type .hf_rbus_property_namevalue true p s type_obj
            value_obj ++ rest.1, rest.2)) ∧
      field_values .hf_rbus_property_namevalue
          (triplet_items fmt_f first offset .hf_rbus_property .hf_rbus_property_name
            .hf_rbus_property_type .hf_rbus_property_namevalue true p s type_obj
            value_obj) =
        [.string (c_string s ++ ascii "=" ++
          (add_typed_value fmt_f first (group_tree .payload_tree p) offset value_obj
            true).2)]) ∧
    (∀ (objs : List msgpack_object) (offset prop_count fuel p idx : Nat)
      (s : List UInt8) (type_obj value_obj : msgpack_object),
      p < prop_count → idx + 2 < objs.length → objs[idx]? = some (.str s) →
      objs[idx + 1]? = some type_obj → objs[idx + 2]? = some value_obj →
      event_property_loop fmt_f first objs offset prop_count (fuel + 1) p idx =
        ((event_property_loop fmt_f first objs offset prop_count fuel (p + 1) (idx + 3)).map
          fun rest =>
            (event_property_items fmt_f first offset p s type_obj value_obj ++ rest.1,
              rest.2)) ∧
      field_values .hf_rbus_object_property_namevalue
          (event_property_items fmt_f first offset p s type_obj value_obj) =
        [.string (c_string s ++ ascii "=" ++
          (add_typed_value fmt_f first (group_tree data_tree p) offset value_obj
            true).2)]) := by
  refine ⟨?_, ?_, ?_⟩
  · intro objs method_idx offset count fuel p idx s type_obj value_obj hp hidx hname htype
      hvalue
    exact ⟨triplet_loop_step fmt_f first objs method_idx offset count _ _ _ _ false fuel p idx
        s type_obj value_obj hp hidx hname htype hvalue,
      field_values_triplet_items fmt_f first offset _ _ _ _ false p s type_obj value_obj
        (by decide) (by decide) (by decide) (by decide)⟩
  · intro objs method_idx offset count fuel p idx s type_obj value_obj hp hidx hname htype
      hvalue
    exact ⟨triplet_loop_step fmt_f first objs method_idx offset count _ _ _ _ true fuel p idx
        s type_obj value_obj hp hidx hname htype hvalue,
      field_values_triplet_items fmt_f first offset _ _ _ _ true p s type_obj value_obj
        (by decide) (by decide) (by decide) (by decide)⟩
  · intro objs offset prop_count fuel p idx s type_obj value_obj hp hidx hname htype hvalue
    exact ⟨event_property_loop_step fmt_f first objs offset prop_count fuel p idx s type_obj
        value_obj hp hidx hname htype hvalue,
      field_values_event_property_items fmt_f first offset p s type_obj value_obj⟩

/-- C28 (counterexample). In `set_integer_name` the parameter triplet is `42, 0x500,
<blob 0x01>`: the decoder emits a parameter group for it (with type and value) but no
combined field, the name being no string. In `set_without_value` the triplet
`"Device.X.Enable", 0x500` is followed by the method marker: the decoder emits a parameter
group with name and type, and no combined field. -/
theorem parse_rbus_objects_no_combined_field :
    (∀ (fmt_f : Nat → List UInt8) (data : List UInt8) (offset : Nat),
      (parse_rbus_objects fmt_f data offset set_integer_name).map
          (fun r => (field_values .hf_rbus_parameter r.1,
            field_values .hf_rbus_parameter_type r.1,
            field_values .hf_rbus_parameter_value_boolean r.1,
            field_values .hf_rbus_parameter_namevalue r.1)) =
        some ([.none], [.uint 0x500], [.boolean true], [])) ∧
    (∀ (fmt_f : Nat → List UInt8) (data : List UInt8) (offset : Nat),
      (parse_rbus_objects fmt_f data offset set_without_value).map
          (fun r => (field_values .hf_rbus_parameter r.1,
            field_values .hf_rbus_parameter_name r.1,
            field_values .hf_rbus_parameter_type r.1,
            field_values .hf_rbus_parameter_namevalue r.1)) =
        some ([.none], [.string (ascii "Device.X.Enable")], [.uint 0x500], [])) :=
  ⟨fun _ _ _ => rfl, fun _ _ _ => rfl⟩

/-! ## The Event-Publication Fallback -/

/-- The payload stage when the structured parse declines (returns 0): the payload item, what
the structured parse emitted, the generic fallback loop and the count text. -/
theorem dissect_rbus_payload_bytes_of_declined (env : payload_env) (tvb : tvbuff_t)
    (offset payload_length actual_payload_length b : Nat) (data : List UInt8)
    (hdata : tvb_get_ptr tvb offset actual_payload_length = some data)
    (hb : tvb_get_uint8 tvb offset = some b)
    (hjson : ¬ ((b = 0x7B ∨ b = 0x5B) ∧ actual_payload_length > 1))
    (hparsed : (env.parse_rbus_payload data offset).2 = 0) :
    dissect_rbus_payload_bytes env tvb offset payload_length actual_payload_length =
      ⟨[.proto_item .rbus_tree .hf_rbus_payload offset actual_payload_length (.bytes data)] ++
          (env.parse_rbus_payload data offset).1 ++
          (fallback_loop env tvb (offset + actual_payload_length) actual_payload_length offset
            0 0 initial_ctx).1 ++
          [.append_text (fallback_text
            (fallback_loop env tvb (offset + actual_payload_length) actual_payload_length
              offset 0 0 initial_ctx).2.1
            (fallback_loop env tvb (offset + actual_payload_length) actual_payload_length
              offset 0 0 initial_ctx).2.2)],
        .consumed (offset + payload_length)⟩ := by
  unfold dissect_rbus_payload_bytes
  simp only [hdata, hb]
  rw [if_neg hjson, if_pos hparsed]
  unfold fallback_text initial_ctx
  split <;> rfl

/-- C22: the Event-Publication Fallback is used only when the value sequence contains no
method marker and has at least 6 values. For a marker-less sequence of fewer than 6 values
(in particular 4 or 5) and for a marker-less sequence whose first value is not a string, the
structured parse emits nothing and returns 0, and the payload stage then runs the generic
fallback; for a marker-less sequence of at least 6 values starting with a string the event
name, the info column text and the event layout are emitted; with a method marker (and at
least 4 values) the result is the metadata block and the verb's fields, and below 4 values
nothing. -/
theorem parse_rbus_objects_event_trigger (fmt_f : Nat → List UInt8) (data : List UInt8)
    (offset : Nat) (objs : List msgpack_object) :
    ((∀ (i : Nat) (o : msgpack_object), objs[i]? = some o → begins_with_method o = false) →
      (objs.length < 6 → parse_rbus_objects fmt_f data offset objs = some ([], 0)) ∧
      (∀ o, objs[0]? = some o → is_str o = false →
        parse_rbus_objects fmt_f data offset objs = some ([], 0)) ∧
      (∀ s, 6 ≤ objs.length → objs[0]? = some (.str s) →
        ∃ body, parse_event_body fmt_f (data.take 1) objs offset = some body ∧
          parse_rbus_objects fmt_f data offset objs =
            some ([.proto_item .payload_tree .hf_rbus_event_name offset 1
                (.string (c_string s)),
              .col_append " Event: %s" (c_string s)] ++ body, data.length))) ∧
    (∀ (M : Nat) (method : List UInt8), find_method objs 0 = some (M, method) →
      (objs.length < 4 → parse_rbus_objects fmt_f data offset objs = some ([], 0)) ∧
      (4 ≤ objs.length →
        ∃ fields, parse_verb fmt_f (data.take 1) objs method M offset = some fields ∧
          parse_rbus_objects fmt_f data offset objs =
            some (metadata_block objs method M offset ++ fields, data.length))) ∧
    (∀ (env : payload_env) (tvb : tvbuff_t) (payload_length actual_payload_length b : Nat),
      tvb_get_ptr tvb offset actual_payload_length = some data →
      tvb_get_uint8 tvb offset = some b →
      ¬ ((b = 0x7B ∨ b = 0x5B) ∧ actual_payload_length > 1) →
      env.parse_rbus_payload data offset = ([], 0) →
      dissect_rbus_payload_bytes env tvb offset payload_length actual_payload_length =
        ⟨[.proto_item .rbus_tree .hf_rbus_payload offset actual_payload_length
            (.bytes data)] ++
          (fallback_loop env tvb (offset + actual_payload_length) actual_payload_length offset
            0 0 initial_ctx).1 ++
          [.append_text (fallback_text
            (fallback_loop env tvb (offset + actual_payload_length) actual_payload_length
              offset 0 0 initial_ctx).2.1
            (fallback_loop env tvb (offset + actual_payload_length) actual_payload_length
              offset 0 0 initial_ctx).2.2)],
          .consumed (offset + payload_length)⟩) := by
  refine ⟨fun hnone => ?_, fun M method hm => ?_, ?_⟩
  · have hm := find_method_none_of_no_marker hnone
    refine ⟨fun h6 => ?_, fun o h0 ho => ?_, fun s h6 h0 => ?_⟩
    · unfold parse_rbus_objects
      rw [hm]
      by_cases h4 : objs.length < 4
      · rw [if_pos h4]
      · rw [if_neg h4]
        simp only []
        rw [if_neg (by omega)]
    · unfold parse_rbus_objects
      rw [hm]
      by_cases h4 : objs.length < 4
      · rw [if_pos h4]
      · rw [if_neg h4]
        simp only []
        by_cases h6 : objs.length ≥ 6
        · rw [if_pos h6, h0]
          cases o <;> first | rfl | cases ho
        · rw [if_neg h6]
    · obtain ⟨body, hbody⟩ := parse_event_body_some fmt_f (data.take 1) objs offset
      refine ⟨body, hbody, ?_⟩
      unfold parse_rbus_objects
      rw [hm, if_neg (by omega)]
      simp only []
      rw [if_pos h6, h0]
      simp only [hbody, Option.map_some']
  · refine ⟨fun h4 => ?_, fun h4 => ?_⟩
    · unfold parse_rbus_objects
      rw [if_pos h4]
    · obtain ⟨metadata, fields, hmeta, hverb, hparse⟩ :=
        parse_rbus_objects_of_method fmt_f data offset h4 hm
      rw [add_metadata_eq] at hmeta
      cases hmeta
      exact ⟨fields, hverb, hparse⟩
  · intro env tvb payload_length actual_payload_length b hdata hb hjson henv
    rw [dissect_rbus_payload_bytes_of_declined env tvb offset payload_length
      actual_payload_length b data hdata hb hjson (by rw [henv]), henv]
    rfl

theorem field_uint_of_ge (objs : List msgpack_object) (t : tree_id) (hf : hf_id)
    (offset idx : Nat) (h : objs.length ≤ idx) :
    field_uint objs objs.length t hf offset idx = some ([], idx) := by
  rw [field_uint, if_neg (by omega)]

theorem field_int_of_ge (objs : List msgpack_object) (t : tree_id) (hf : hf_id)
    (offset idx : Nat) (h : objs.length ≤ idx) :
    field_int objs objs.length t hf offset idx = some ([], idx) := by
  rw [field_int, if_neg (by omega)]

/-- Past the last value the rest of the event layout adds nothing. -/
theorem event_tail_of_ge (fmt_f : Nat → List UInt8) (first : List UInt8)
    (objs : List msgpack_object) (offset : Nat) (has_event_data : Bool) (idx : Nat)
    (h : objs.length ≤ idx) :
    event_tail fmt_f first objs offset has_event_data idx = some [] := by
  have hp : parse_event_data fmt_f first objs offset has_event_data idx = some ([], idx) := by
    rw [parse_event_data, if_neg (by omega)]
  simp only [event_tail, hp, bind, Option.bind, field_uint_of_ge objs _ _ offset idx h,
    field_int_of_ge objs _ _ offset idx h]
  rfl

theorem field_flag_of_uint (objs : List msgpack_object) (hf : hf_id) (offset idx u64 : Nat)
    (h : objs[idx]? = some (.positive_integer u64)) :
    field_flag objs hf offset idx =
      some ([.proto_item .payload_tree hf offset 1 (.boolean (u64 != 0))], idx + 1,
        u64 != 0) := by
  have hlt : idx < objs.length := by
    rcases Nat.lt_or_ge idx objs.length with hlt | hge
    · exact hlt
    · rw [List.getElem?_eq_none hge] at h; cases h
  rw [field_flag, if_pos hlt, h]

/-- C23: in an event publication `[event_name, event_type, has_event_data, ...]` whose flags
are unsigned integers, the placeholder after a flag is skipped iff the flag is non-zero. With
has_event_data = `d`, the has_filter flag `f` is read at index 3 when `d` is zero and at
index 4 (the placeholder at 3 being skipped) when it is not; the layout that follows the
has_filter flag at index `k` is read from `k + 1` when `f` is zero and from `k + 2` (the
filter placeholder being skipped) when it is not. -/
theorem parse_event_body_flags (fmt_f : Nat → List UInt8) (first : List UInt8)
    (objs : List msgpack_object) (offset event_type d f : Nat)
    (h1 : objs[1]? = some (.positive_integer event_type))
    (h2 : objs[2]? = some (.positive_integer d))
    (hf : objs[if d = 0 then 3 else 4]? = some (.positive_integer f)) :
    parse_event_body fmt_f first objs offset =
      (event_tail fmt_f first objs offset (d != 0)
        ((if d = 0 then 3 else 4) + (if f = 0 then 1 else 2))).map fun tail =>
        [.proto_item .payload_tree .hf_rbus_event_type offset 1 (.uint (to_guint32 event_type)),
         .proto_item .payload_tree .hf_rbus_has_event_data offset 1 (.boolean (d != 0)),
         .proto_item .payload_tree .hf_rbus_has_filter offset 1 (.boolean (f != 0))] ++
          tail := by
  have hk : (if d = 0 then 3 else 4) < objs.length := by
    rcases Nat.lt_or_ge (if d = 0 then 3 else 4) objs.length with hlt | hge
    · exact hlt
    · rw [List.getElem?_eq_none hge] at hf; cases hf
  have hlen : 2 < objs.length := by
    split at hk <;> omega
  have e1 : field_uint objs objs.length .payload_tree .hf_rbus_event_type offset 1 =
      some ([.proto_item .payload_tree .hf_rbus_event_type offset 1
        (.uint (to_guint32 event_type))], 2) := by
    rw [field_uint, if_pos (by omega), h1]
  have e2 := field_flag_of_uint objs .hf_rbus_has_event_data offset 2 d h2
  have e3 : skip_object objs (d != 0) (2 + 1) = if d = 0 then 3 else 4 := by
    unfold skip_object
    by_cases hd : d = 0
    · simp [hd]
    · have h3 : 3 < objs.length := by rw [if_neg hd] at hk; omega
      simp [hd, h3]
  have e4 := field_flag_of_uint objs .hf_rbus_has_filter offset (if d = 0 then 3 else 4) f hf
  simp only [parse_event_body, bind, Option.bind, e1, e2, e3, e4]
  by_cases hf0 : f = 0
  · have e5 : skip_object objs (f != 0) ((if d = 0 then 3 else 4) + 1) =
        (if d = 0 then 3 else 4) + 1 := by
      unfold skip_object
      simp [hf0]
    rw [e5, if_pos hf0]
    simp only [event_tail, bind, Option.bind]
    cases parse_event_data fmt_f first objs offset (d != 0) ((if d = 0 then 3 else 4) + 1) with
    | none => rfl
    | some props =>
      simp only [Option.map]
      cases field_uint objs objs.length .payload_tree .hf_rbus_interval offset props.2 with
      | none => rfl
      | some interval =>
        simp only []
        cases field_uint objs objs.length .payload_tree .hf_rbus_duration offset
            interval.2 with
        | none => rfl
        | some duration =>
          simp only []
          cases field_int objs objs.length .payload_tree .hf_rbus_component_id offset
              duration.2 with
          | none => rfl
          | some component => simp [pure]
  · by_cases hlast : (if d = 0 then 3 else 4) + 1 < objs.length
    · have e5 : skip_object objs (f != 0) ((if d = 0 then 3 else 4) + 1) =
          (if d = 0 then 3 else 4) + 2 := by
        unfold skip_object
        simp [hf0, hlast]
      rw [e5, if_neg hf0]
      simp only [event_tail, bind, Option.bind]
      cases parse_event_data fmt_f first objs offset (d != 0)
          ((if d = 0 then 3 else 4) + 2) with
      | none => rfl
      | some props =>
        simp only [Option.map]
        cases field_uint objs objs.length .payload_tree .hf_rbus_interval offset props.2 with
        | none => rfl
        | some interval =>
          simp only []
          cases field_uint objs objs.length .payload_tree .hf_rbus_duration offset
              interval.2 with
          | none => rfl
          | some duration =>
            simp only []
            cases field_int objs objs.length .payload_tree .hf_rbus_component_id offset
                duration.2 with
            | none => rfl
            | some component => simp [pure]
    · have e5 : skip_object objs (f != 0) ((if d = 0 then 3 else 4) + 1) =
          (if d = 0 then 3 else 4) + 1 := by
        unfold skip_object
        simp [hlast]
      have t2 := event_tail_of_ge fmt_f first objs offset (d != 0)
        ((if d = 0 then 3 else 4) + 2) (by omega)
      rw [e5, if_neg hf0, t2]
      have hp : parse_event_data fmt_f first objs offset (d != 0)
          ((if d = 0 then 3 else 4) + 1) = some ([], (if d = 0 then 3 else 4) + 1) := by
        rw [parse_event_data, if_neg (by omega)]
      simp only [hp, field_uint_of_ge objs _ _ offset _ (Nat.le_of_not_lt hlast),
        field_int_of_ge objs _ _ offset _ (Nat.le_of_not_lt hlast)]
      rfl

/-- C23 (witness): in `event_example` has_event_data is 1, so the placeholder at index 3 is
skipped and has_filter is read at index 4; has_filter is 0, so the property data is read from
index 5. -/
theorem parse_event_body_flags_witness :
    (event_example[1]? = some (.positive_integer 5) ∧
      event_example[2]? = some (.positive_integer 1) ∧
      event_example[4]? = some (.positive_integer 0)) ∧
    parse_event_body (fun _ => []) [] event_example 0 =
      (event_tail (fun _ => []) [] event_example 0 true 5).map fun tail =>
        [.proto_item .payload_tree .hf_rbus_event_type 0 1 (.uint 5),
         .proto_item .payload_tree .hf_rbus_has_event_data 0 1 (.boolean true),
         .proto_item .payload_tree .hf_rbus_has_filter 0 1 (.boolean false)] ++ tail :=
  ⟨⟨rfl, rfl, rfl⟩,
    parse_event_body_flags (fun _ => []) [] event_example 0 5 1 0 rfl rfl rfl⟩

/-! ## The depth limit of the generic display -/

theorem value_items_append (a b : List Emit) :
    value_items (a ++ b) = value_items a + value_items b := by
  simp [value_items, List.countP_append]

theorem limit_notes_append (a b : List Emit) :
    limit_notes (a ++ b) = limit_notes a + limit_notes b := by
  simp [limit_notes, List.countP_append]

/-- The element loop of an array adds up what the display of each element emits. -/
theorem display_array_counts
    (disp : msgpack_object → Option (List UInt8) → rbus_parse_context_t →
      Option (List Emit × rbus_parse_context_t))
    (A B : msgpack_object → Nat)
    (hdisp : ∀ elem label ctx, ∃ r, disp elem label ctx = some r ∧ value_items r.1 = A elem ∧
      limit_notes r.1 = B elem ∧ r.1.length = value_items r.1 + limit_notes r.1)
    (items : List msgpack_object) (i : Nat) (ctx : rbus_parse_context_t) :
    ∃ r, display_array disp items i ctx = some r ∧ value_items r.1 = (items.map A).sum ∧
      limit_notes r.1 = (items.map B).sum ∧ r.1.length = value_items r.1 + limit_notes r.1 := by
  induction items generalizing i ctx with
  | nil => exact ⟨_, rfl, rfl, rfl, rfl⟩
  | cons elem rest ih =>
    obtain ⟨r1, h1, ha, hb, hl⟩ := hdisp elem (some (ascii ("[" ++ toString i ++ "]"))) ctx
    obtain ⟨r2, h2, ha2, hb2, hl2⟩ := ih (i + 1) r1.2
    refine ⟨(r1.1 ++ r2.1, r2.2), ?_, ?_, ?_, ?_⟩
    · rw [display_array, h1]
      simp only [h2, Option.map_some']
    · simp only [value_items_append, ha, ha2, List.map_cons, List.sum_cons]
    · simp only [limit_notes_append, hb, hb2, List.map_cons, List.sum_cons]
    · simp only [value_items_append, limit_notes_append, List.length_append, hl, hl2]
      omega

/-- The pair loop of a map adds up what the display of each key and value emits. -/
theorem display_map_counts
    (disp : msgpack_object → Option (List UInt8) → rbus_parse_context_t →
      Option (List Emit × rbus_parse_context_t))
    (A B : msgpack_object → Nat)
    (hdisp : ∀ elem label ctx, ∃ r, disp elem label ctx = some r ∧ value_items r.1 = A elem ∧
      limit_notes r.1 = B elem ∧ r.1.length = value_items r.1 + limit_notes r.1)
    (pairs : List (msgpack_object × msgpack_object)) (i : Nat) (ctx : rbus_parse_context_t) :
    ∃ r, display_map disp pairs i ctx = some r ∧
      value_items r.1 = ((children (.map pairs)).map A).sum ∧
      limit_notes r.1 = ((children (.map pairs)).map B).sum ∧
      r.1.length = value_items r.1 + limit_notes r.1 := by
  induction pairs generalizing i ctx with
  | nil => exact ⟨_, rfl, rfl, rfl, rfl⟩
  | cons kv rest ih =>
    obtain ⟨r1, h1, ha1, hb1, hl1⟩ := hdisp kv.1 (some (ascii "Key")) ctx
    obtain ⟨r2, h2, ha2, hb2, hl2⟩ := hdisp kv.2 (some (key_label kv.1 i)) r1.2
    obtain ⟨r3, h3, ha3, hb3, hl3⟩ := ih (i + 1) r2.2
    refine ⟨(r1.1 ++ r2.1 ++ r3.1, r3.2), ?_, ?_, ?_, ?_⟩
    · rw [display_map, h1]
      simp only [h2, h3, Option.map_some']
    · simp only [children] at ha3 ⊢
      simp only [value_items_append, ha1, ha2, ha3, List.map_cons, List.flatten_cons,
        List.map_append, List.sum_append, List.sum_cons, List.map_nil, List.sum_nil]
      omega
    · simp only [children] at hb3 ⊢
      simp only [limit_notes_append, hb1, hb2, hb3, List.map_cons, List.flatten_cons,
        List.map_append, List.sum_append, List.sum_cons, List.map_nil, List.sum_nil]
      omega
    · simp only [value_items_append, limit_notes_append, List.length_append, hl1, hl2, hl3]
      omega

theorem nodes_upto_leaf {obj : msgpack_object} (h : children obj = []) (k : Nat) :
    nodes_upto k obj = 1 := by
  cases k with
  | zero => rfl
  | succ k => simp [nodes_upto, h]

theorem nodes_at_leaf {obj : msgpack_object} (h : children obj = []) (k : Nat) :
    nodes_at (k + 1) obj = 0 := by
  simp [nodes_at, h]

/-- What `display_msgpack_object` emits for a value entered at `depth`, given fuel for the
levels down to the depth limit: one item for each node whose depth is within the limit, one
annotation for each node at depth limit + 1, and nothing for deeper nodes. -/
theorem display_msgpack_object_counts (fmt_f : Nat → List UInt8) (limit : Nat) (fuel : Nat)
    (t : tree_id) (data : List UInt8) (offset length : Nat) (obj : msgpack_object)
    (depth : Nat) (label : Option (List UInt8)) (ctx : rbus_parse_context_t)
    (hfuel : limit + 1 ≤ depth + fuel) :
    ∃ r, display_msgpack_object fmt_f limit fuel t data offset length obj depth label ctx =
        some r ∧
      value_items r.1 = (if depth ≤ limit then nodes_upto (limit - depth) obj else 0) ∧
      limit_notes r.1 = nodes_at (limit + 1 - depth) obj ∧
      r.1.length = value_items r.1 + limit_notes r.1 := by
  induction fuel generalizing t length obj depth label ctx with
  | zero =>
    have hd : depth > limit := by omega
    refine ⟨([depth_exceeded limit t offset length], ctx),
      by simp only [display_msgpack_object, if_pos hd], ?_, ?_, rfl⟩
    · rw [if_neg (by omega)]; rfl
    · rw [show limit + 1 - depth = 0 by omega]; rfl
  | succ fuel ih =>
    by_cases hd : depth > limit
    · refine ⟨([depth_exceeded limit t offset length], ctx),
        by cases obj <;> simp only [display_msgpack_object, if_pos hd], ?_, ?_, rfl⟩
      · rw [if_neg (by omega)]; rfl
      · rw [show limit + 1 - depth = 0 by omega]; rfl
    · have hle : depth ≤ limit := by omega
      have hk : limit + 1 - depth = (limit - depth) + 1 := by omega
      have hchild : ∀ elem elem_label c, ∃ r,
          display_msgpack_object fmt_f limit fuel (child_tree t) data offset 1 elem
            (depth + 1) elem_label c = some r ∧
          value_items r.1 =
            (fun e => if depth + 1 ≤ limit then nodes_upto (limit - (depth + 1)) e else 0)
              elem ∧
          limit_notes r.1 = (fun e => nodes_at (limit - depth) e) elem ∧
          r.1.length = value_items r.1 + limit_notes r.1 := by
        intro elem elem_label c
        obtain ⟨r, hr, ha, hb, hl⟩ :=
          ih (child_tree t) 1 elem (depth + 1) elem_label c (by omega)
        refine ⟨r, hr, ha, ?_, hl⟩
        rw [hb, show limit + 1 - (depth + 1) = limit - depth by omega]
      have hsum : ∀ cs : List msgpack_object,
          1 + (cs.map fun e =>
            if depth + 1 ≤ limit then nodes_upto (limit - (depth + 1)) e else 0).sum =
          match limit - depth with
          | 0 => 1
          | k + 1 => 1 + (cs.map (nodes_upto k)).sum := by
        intro cs
        by_cases hlt : depth + 1 ≤ limit
        · rw [show limit - depth = (limit - (depth + 1)) + 1 by omega]
          simp only [if_pos hlt]
        · rw [show limit - depth = 0 by omega]
          simp only [if_neg hlt, List.map_const', List.sum_replicate, smul_eq_mul, Nat.mul_zero]
      rw [if_pos hle, hk]
      cases obj with
      | array items =>
        obtain ⟨r, hr, ha, hb, hl⟩ := display_array_counts _ _ _ hchild items 0 ctx
        refine ⟨(Emit.proto_item t hf_id.hf_rbus_payload offset length
              (with_label label (field_value.bytes (List.take length data))
                (ascii "Array [" ++ dec items.length ++ ascii " items]")) :: r.1, r.2),
          by rw [display_msgpack_object, if_neg hd]; simp only [hr, Option.map_some'], ?_, ?_,
          ?_⟩
        · have := hsum items
          have e : value_items (Emit.proto_item t hf_id.hf_rbus_payload offset length
              (with_label label (field_value.bytes (List.take length data))
                (ascii "Array [" ++ dec items.length ++ ascii " items]")) :: r.1) =
              1 + value_items r.1 := by
            simp [value_items, List.countP_cons]; omega
          rw [e, ha, this]
          cases hc : limit - depth with
          | zero => rfl
          | succ k => simp [nodes_upto, children]
        · have e : limit_notes (Emit.proto_item t hf_id.hf_rbus_payload offset length
              (with_label label (field_value.bytes (List.take length data))
                (ascii "Array [" ++ dec items.length ++ ascii " items]")) :: r.1) =
              limit_notes r.1 := by
            simp [limit_notes, List.countP_cons]
          rw [e, hb]
          simp [nodes_at, children]
        · simp [value_items, limit_notes, List.countP_cons] at hl ⊢
          omega
      | map pairs =>
        obtain ⟨r, hr, ha, hb, hl⟩ := display_map_counts _ _ _ hchild pairs 0 ctx
        refine ⟨(Emit.proto_item t hf_id.hf_rbus_payload offset length
              (with_label label (field_value.bytes (List.take length data))
                (ascii "Map [" ++ dec pairs.length ++ ascii " pairs]")) :: r.1, r.2),
          by rw [display_msgpack_object, if_neg hd]; simp only [hr, Option.map_some'], ?_, ?_,
          ?_⟩
        · have := hsum (children (.map pairs))
          have e : value_items (Emit.proto_item t hf_id.hf_rbus_payload offset length
              (with_label label (field_value.bytes (List.take length data))
                (ascii "Map [" ++ dec pairs.length ++ ascii " pairs]")) :: r.1) =
              1 + value_items r.1 := by
            simp [value_items, List.countP_cons]; omega
          rw [e, ha, this]
          cases hc : limit - depth with
          | zero => rfl
          | succ k => simp [nodes_upto]
        · have e : limit_notes (Emit.proto_item t hf_id.hf_rbus_payload offset length
              (with_label label (field_value.bytes (List.take length data))
                (ascii "Map [" ++ dec pairs.length ++ ascii " pairs]")) :: r.1) =
              limit_notes r.1 := by
            simp [limit_notes, List.countP_cons]
          rw [e, hb]
          simp [nodes_at]
        · simp [value_items, limit_notes, List.countP_cons] at hl ⊢
          omega
      | _ =>
        refine ⟨_, by rw [display_msgpack_object, if_neg hd], ?_, ?_, ?_⟩
        · rw [nodes_upto_leaf (by rfl)]; rfl
        · rw [nodes_at_leaf (by rfl)]; rfl
        · rfl

/-- A value tree with no node at depth `n + 1` has all its nodes within depth `n`. -/
theorem nodes_upto_of_nodes_at (n : Nat) (obj : msgpack_object) (h : nodes_at (n + 1) obj = 0)
    (k : Nat) (hk : n ≤ k) : nodes_upto k obj = nodes_upto n obj := by
  induction n generalizing obj k with
  | zero =>
    have hc : children obj = [] := by
      simpa [nodes_at] using h
    rw [nodes_upto_leaf hc, nodes_upto_leaf hc]
  | succ n ih =>
    obtain ⟨k, rfl⟩ : ∃ j, k = j + 1 := ⟨k - 1, by omega⟩
    have hz : ∀ c ∈ children obj, nodes_at (n + 1) c = 0 := by
      intro c hc
      have h0 : ((children obj).map (nodes_at (n + 1))).sum = 0 := h
      rw [List.sum_eq_zero_iff] at h0
      exact h0 _ (List.mem_map_of_mem _ hc)
    have hm : (children obj).map (nodes_upto k) = (children obj).map (nodes_upto n) :=
      List.map_congr_left fun c hc => ih c (hz c hc) k (by omega)
    simp only [nodes_upto, hm]

/-- C29. Depth-limit exactness in the generic decode: `dissect_msgpack_value` entered at depth
0 with configured limit `limit` on bytes that decode to the value `obj` returns, and what it
emits is what `display_msgpack_object` emits for `obj`: one item for each node of the value
tree at nesting depth at most `limit`, one depth-exceeded annotation for each node at depth
exactly `limit + 1`, and nothing else, so no deeper node is emitted. A value with no node at
depth `limit + 1` is decoded fully (one item for each of its nodes) with no annotation. -/
theorem dissect_msgpack_value_depth_limit
    (unpack : List UInt8 → Nat → Option (msgpack_object × Nat)) (fmt_f : Nat → List UInt8)
    (limit : Nat) (t : tree_id) (data : List UInt8) (offset : Nat)
    (label : Option (List UInt8)) (ctx : rbus_parse_context_t) (obj : msgpack_object)
    (off : Nat) (hdata : 1 ≤ data.length) (hobj : unpack data 0 = some (obj, off)) :
    ∃ es ctx1,
      dissect_msgpack_value unpack fmt_f limit t data offset 0 label ctx =
        some (es, off, ctx1) ∧
      display_msgpack_object fmt_f limit (limit + 1) t data offset off obj 0 label ctx =
        some (es, ctx1) ∧
      es.length = value_items es + limit_notes es ∧
      value_items es = nodes_upto limit obj ∧
      limit_notes es = nodes_at (limit + 1) obj ∧
      (nodes_at (limit + 1) obj = 0 →
        limit_notes es = 0 ∧ ∀ k, limit ≤ k → value_items es = nodes_upto k obj) := by
  obtain ⟨r, hr, ha, hb, hl⟩ := display_msgpack_object_counts fmt_f limit (limit + 1) t data
    offset off obj 0 label ctx (by omega)
  rw [if_pos (Nat.zero_le _), Nat.sub_zero] at ha
  rw [Nat.sub_zero] at hb
  refine ⟨r.1, r.2, ?_, hr, hl, ha, hb, fun h0 => ⟨hb.trans h0, fun k hk => ?_⟩⟩
  · rw [dissect_msgpack_value, if_neg (by omega), if_neg (by omega), hobj]
    simp only [hr, Option.map_some']
  · rw [ha, nodes_upto_of_nodes_at limit obj h0 k hk]

/-- C29 (witness): the bytes 0x91 0x91 0x07 decode to an array holding an array holding the
integer 7; with the limit 1 the two arrays (depths 0 and 1) are emitted and the integer (depth
2) gives the one annotation. -/
theorem dissect_msgpack_value_depth_limit_witness :
    (1 ≤ [(0x91 : UInt8), 0x91, 0x07].length ∧
      (fun (_ : List UInt8) (_ : Nat) =>
        some (msgpack_object.array [.array [.positive_integer 7]], 3)) [0x91, 0x91, 0x07] 0 =
        some (.array [.array [.positive_integer 7]], 3)) ∧
    ∃ es ctx1,
      dissect_msgpack_value
          (fun _ _ => some (msgpack_object.array [.array [.positive_integer 7]], 3))
          (fun _ => []) 1 .payload_tree [0x91, 0x91, 0x07] 0 0 none initial_ctx =
        some (es, 3, ctx1) ∧
      display_msgpack_object (fun _ => []) 1 (1 + 1) .payload_tree [0x91, 0x91, 0x07] 0 3
          (.array [.array [.positive_integer 7]]) 0 none initial_ctx = some (es, ctx1) ∧
      es.length = value_items es + limit_notes es ∧
      value_items es = nodes_upto 1 (.array [.array [.positive_integer 7]]) ∧
      limit_notes es = nodes_at (1 + 1) (.array [.array [.positive_integer 7]]) ∧
      (nodes_at (1 + 1) (.array [.array [.positive_integer 7]]) = 0 →
        limit_notes es = 0 ∧
          ∀ k, 1 ≤ k → value_items es = nodes_upto k (.array [.array [.positive_integer 7]])) :=
  ⟨⟨by decide, rfl⟩,
    dissect_msgpack_value_depth_limit
      (fun _ _ => some (msgpack_object.array [.array [.positive_integer 7]], 3)) (fun _ => []) 1
      .payload_tree [0x91, 0x91, 0x07] 0 none initial_ctx (.array [.array [.positive_integer 7]])
      3 (by decide) rfl⟩

/-! ## The generic fallback loop and the object limit -/

theorem fallback_decode_count_le (env : payload_env) (tvb : tvbuff_t) (end_offset : Nat)
    (fuel payload_offset object_count total_consumed : Nat) (ctx : rbus_parse_context_t) :
    object_count ≤
      (fallback_decode env tvb end_offset fuel payload_offset object_count total_consumed
        ctx).2.1 := by
  induction fuel generalizing payload_offset object_count total_consumed ctx with
  | zero => simp [fallback_decode]
  | succ fuel ih =>
    unfold fallback_decode
    by_cases h1 : payload_offset < end_offset
    · simp only [if_pos h1]
      by_cases h2 : tvb_captured_length_remaining tvb payload_offset = 0
      · simp only [if_pos h2]
        exact Nat.le_refl _
      · simp only [if_neg h2]
        generalize env.dissect_msgpack_value _ payload_offset 0 none _ = r
        by_cases h3 : r.2.1 = 0
        · simp only [if_pos h3]
          exact Nat.le_refl _
        · simp only [if_neg h3]
          exact Nat.le_trans (Nat.le_succ _) (ih _ _ _ _)
    · simp only [if_neg h1]
      exact Nat.le_refl _

/-- C30 (amended). In the generic fallback decode with configured object-count limit `L`,
the object-limit annotation is reported when the number of values decoded reaches `L`, not
only when it exceeds `L`. A payload holding fewer than `L` values is decoded exactly as
without any limit (`fallback_decode`, which has no annotation), hence completely and without
object-limit annotation; as soon as the payload holds `L` values or more (at least one), the
loop stops after the value number `L` (number 1 if `L` is 0) with the annotation as its last
emission. -/
theorem fallback_loop_object_limit (env : payload_env) (tvb : tvbuff_t) (end_offset : Nat)
    (fuel payload_offset object_count total_consumed : Nat) (ctx : rbus_parse_context_t) :
    ((fallback_decode env tvb end_offset fuel payload_offset object_count total_consumed
          ctx).2.1 < env.pref_msgpack_object_limit →
      fallback_loop env tvb end_offset fuel payload_offset object_count total_consumed ctx =
        fallback_decode env tvb end_offset fuel payload_offset object_count total_consumed
          ctx) ∧
    (max env.pref_msgpack_object_limit (object_count + 1) ≤
        (fallback_decode env tvb end_offset fuel payload_offset object_count total_consumed
          ctx).2.1 →
      ∃ front stop,
        (fallback_loop env tvb end_offset fuel payload_offset object_count total_consumed
          ctx).1 =
          front ++ [object_limit_reached env.pref_msgpack_object_limit stop end_offset] ∧
        (fallback_loop env tvb end_offset fuel payload_offset object_count total_consumed
          ctx).2.1 = max env.pref_msgpack_object_limit (object_count + 1)) := by
  induction fuel generalizing payload_offset object_count total_consumed ctx with
  | zero =>
    refine ⟨fun _ => rfl, fun h => ?_⟩
    simp only [fallback_decode] at h
    have := Nat.le_max_right env.pref_msgpack_object_limit (object_count + 1)
    omega
  | succ fuel ih =>
    unfold fallback_loop fallback_decode
    by_cases h1 : payload_offset < end_offset
    · simp only [if_pos h1]
      by_cases h2 : tvb_captured_length_remaining tvb payload_offset = 0
      · simp only [if_pos h2]
        refine ⟨fun _ => trivial, fun h => ?_⟩
        have := Nat.le_max_right env.pref_msgpack_object_limit (object_count + 1)
        omega
      · simp only [if_neg h2]
        generalize env.dissect_msgpack_value _ payload_offset 0 none _ = r
        by_cases h3 : r.2.1 = 0
        · simp only [if_pos h3]
          refine ⟨fun _ => trivial, fun h => ?_⟩
          have := Nat.le_max_right env.pref_msgpack_object_limit (object_count + 1)
          omega
        · simp only [if_neg h3]
          have hmono := fallback_decode_count_le env tvb end_offset fuel
            (payload_offset + r.2.1) (object_count + 1) (total_consumed + r.2.1) r.2.2
          obtain ⟨ih1, ih2⟩ := ih (payload_offset + r.2.1) (object_count + 1)
            (total_consumed + r.2.1) r.2.2
          by_cases h4 : object_count + 1 ≥ env.pref_msgpack_object_limit
          · simp only [if_pos h4]
            refine ⟨fun h => ?_, fun _ => ⟨r.1, payload_offset + r.2.1, rfl, ?_⟩⟩
            · omega
            · rw [Nat.max_eq_right h4]
          · simp only [if_neg h4]
            refine ⟨fun h => ?_, fun h => ?_⟩
            · rw [ih1 h]
            · have hmax : max env.pref_msgpack_object_limit (object_count + 1) =
                  env.pref_msgpack_object_limit := Nat.max_eq_left (by omega)
              have hmax2 : max env.pref_msgpack_object_limit (object_count + 1 + 1) =
                  env.pref_msgpack_object_limit := Nat.max_eq_left (by omega)
              rw [hmax] at h ⊢
              obtain ⟨front, stop, hf1, hf2⟩ := ih2 (by rw [hmax2]; exact h)
              refine ⟨r.1 ++ front, stop, ?_, ?_⟩
              · simp only [hf1, List.append_assoc]
              · simp only [hf2, hmax2]
    · simp only [if_neg h1]
      refine ⟨fun _ => trivial, fun h => ?_⟩
      have := Nat.le_max_right env.pref_msgpack_object_limit (object_count + 1)
      omega

/-- C30 (counterexample). The payload `two_integers` holds exactly two values, the integers 7
and 8. With the object-count limit 2, for every decoder that yields these values, the decode
without a limit ends after both values with count 2, which does not exceed the limit, and the
fallback loop reports the object-limit annotation after the second value. -/
theorem fallback_loop_two_integers :
    two_integers.length = 2 ∧
    ∀ (unpack : List UInt8 → Nat → Option (msgpack_object × Nat)) (fmt_f : Nat → List UInt8),
      unpack two_integers 0 = some (.positive_integer 7, 1) →
      unpack [0x08] 0 = some (.positive_integer 8, 1) →
      fallback_decode (rbus_env unpack fmt_f 16 2) two_integers 2 2 0 0 0 initial_ctx =
        ([.proto_item .payload_tree .hf_rbus_payload_uint64 0 1
            (.format (.uint 7) (ascii "Session ID / Error Code: 7")),
          .proto_item .payload_tree .hf_rbus_payload_uint64 1 1
            (.format_value (.uint 8) (ascii "8"))], 2, 2) ∧
      fallback_loop (rbus_env unpack fmt_f 16 2) two_integers 2 2 0 0 0 initial_ctx =
        ([.proto_item .payload_tree .hf_rbus_payload_uint64 0 1
            (.format (.uint 7) (ascii "Session ID / Error Code: 7")),
          .proto_item .payload_tree .hf_rbus_payload_uint64 1 1
            (.format_value (.uint 8) (ascii "8")),
          object_limit_reached 2 2 2], 2, 2) := by
  refine ⟨rfl, fun unpack fmt_f h1 h2 => ?_⟩
  have e1 : (rbus_env unpack fmt_f 16 2).dissect_msgpack_value [0x07, 0x08] 0 0 none
      ⟨0, false, 0, none, 0, 0⟩ =
      ([.proto_item .payload_tree .hf_rbus_payload_uint64 0 1
        (.format (.uint 7) (ascii "Session ID / Error Code: 7"))], 1,
        ⟨0, false, 0, none, 0, 0⟩) := by
    have h1x : unpack [0x07, 0x08] 0 = some (.positive_integer 7, 1) := h1
    simp only [rbus_env, dissect_msgpack_value, h1x]
    rfl
  have e2 : (rbus_env unpack fmt_f 16 2).dissect_msgpack_value [0x08] 1 0 none
      ⟨1, false, 0, none, 0, 0⟩ =
      ([.proto_item .payload_tree .hf_rbus_payload_uint64 1 1
        (.format_value (.uint 8) (ascii "8"))], 1, ⟨1, false, 0, none, 0, 0⟩) := by
    simp only [rbus_env, dissect_msgpack_value, h2]
    rfl
  constructor
  · simp only [fallback_decode, two_integers, tvb_captured_length_remaining, List.length_cons,
      List.length_nil, List.drop, List.take, initial_ctx, e1, e2]
    rfl
  · simp only [fallback_loop, two_integers, tvb_captured_length_remaining, List.length_cons,
      List.length_nil, List.drop, List.take, initial_ctx, e1, e2]
    rfl

/-! ## The generic fallback on a payload of few values -/

/-- C33 (amended). The fixed version value that the Heuristic Classifier requires at header
offset 2 is 2, which is not the constant `RBUS_PROTOCOL_VERSION` (1) of rbus-protocol.h. On a
buffer of at least 22 captured bytes whose version field is `v`: when `v` is not 2, in
particular when it is `RBUS_PROTOCOL_VERSION`, the classifier returns false, whatever the
marker and the lengths are; when `v` is 2 and the marker and lengths are valid, the buffer is
accepted: the classifier runs `dissect_rbus` and returns true, unless that nested dissection
raises. -/
theorem dissect_rbus_heur_version (env : payload_env) (tvb : tvbuff_t) (v : Nat)
    (hlen : 22 ≤ tvb.length) (hv : tvb_get_ntohs tvb 2 = some v) :
    RBUS_PROTOCOL_VERSION ≠ 2 ∧
    (v = RBUS_PROTOCOL_VERSION → ∀ r, dissect_rbus_heur env tvb ≠ some (true, r)) ∧
    (v ≠ 2 → tvb_get_ntohs tvb 0 = some 0xAAAA →
      dissect_rbus_heur env tvb = some (false, none)) ∧
    (v = 2 → tvb_get_ntohs tvb 0 = some 0xAAAA →
      (∃ hl, tvb_get_ntohs tvb 4 = some hl ∧ 32 ≤ hl ∧ hl ≤ 4096) →
      (∃ pl, tvb_get_ntohl tvb 18 = some pl ∧ pl ≤ RBUS_MAX_PAYLOAD_SIZE) →
      (dissect_rbus env tvb).out ≠ .exception →
      dissect_rbus_heur env tvb = some (true, some (dissect_rbus env tvb))) := by
  have hv2 : v = be_value ((tvb.drop 2).take 2) := (tvb_get_be_eq_some.mp hv).2
  have heq := dissect_rbus_heur_eq env tvb hlen
  have hneq : v ≠ 2 → ∀ r, dissect_rbus_heur env tvb ≠ some (true, r) := by
    intro hne r
    rw [heq]
    by_cases hm : be_value ((tvb.drop 0).take 2) ≠ 0xAAAA
    · rw [if_pos hm]; simp
    · rw [if_neg hm, if_pos (by rw [← hv2]; exact hne)]; simp
  refine ⟨by decide, fun h1 => hneq (by rw [h1]; decide), ?_, ?_⟩
  · intro hne hm
    have hm2 : be_value ((tvb.drop 0).take 2) = 0xAAAA := ((tvb_get_be_eq_some.mp hm).2).symm
    rw [heq, if_neg (fun h => h hm2), if_pos (by rw [← hv2]; exact hne)]
  · rintro rfl hm ⟨hl, hhl, h32, h4096⟩ ⟨pl, hpl, hmax⟩ hex
    have hm2 : be_value ((tvb.drop 0).take 2) = 0xAAAA := ((tvb_get_be_eq_some.mp hm).2).symm
    have hhl2 : hl = be_value ((tvb.drop 4).take 2) := (tvb_get_be_eq_some.mp hhl).2
    have hpl2 : pl = be_value ((tvb.drop 18).take 4) := (tvb_get_be_eq_some.mp hpl).2
    rw [heq, if_neg (fun h => h hm2), if_neg (fun h => h hv2.symm),
      if_neg (by rw [← hhl2]; omega), if_neg (by rw [← hpl2]; omega), if_neg hex]

/-- C33 (witness): the header example with version 2 passes the checks and is accepted. -/
theorem dissect_rbus_heur_version_witness :
    (22 ≤ (example_message 0 2 0 0 0 1 0 0 0 0).length ∧
      tvb_get_ntohs (example_message 0 2 0 0 0 1 0 0 0 0) 2 = some 2) ∧
    dissect_rbus_heur (rbus_env byte_unpack (fun _ => []) 16 20000)
        (example_message 0 2 0 0 0 1 0 0 0 0) =
      some (true, some (dissect_rbus (rbus_env byte_unpack (fun _ => []) 16 20000)
        (example_message 0 2 0 0 0 1 0 0 0 0))) :=
  ⟨⟨by decide, by decide⟩,
    (dissect_rbus_heur_version (rbus_env byte_unpack (fun _ => []) 16 20000)
      (example_message 0 2 0 0 0 1 0 0 0 0) 2 (by decide) (by decide)).2.2.2 rfl (by decide)
      ⟨36, by decide, by decide, by decide⟩ ⟨0, by decide, by decide⟩ (by decide)⟩

/-- C33 (counterexample). The buffer `version_one` is the 36-byte header example with valid
marker (0xAAAA) and lengths (header_length 36, payload_length 0) and the version
`RBUS_PROTOCOL_VERSION`: the classifier rejects it, whatever the payload decoders are. -/
theorem dissect_rbus_heur_version_one :
    tvb_get_ntohs version_one 0 = some 0xAAAA ∧
    tvb_get_ntohs version_one 2 = some RBUS_PROTOCOL_VERSION ∧
    tvb_get_ntohs version_one 4 = some 36 ∧ tvb_get_ntohl version_one 18 = some 0 ∧
    version_one.length = 36 ∧
    ∀ env, dissect_rbus_heur env version_one = some (false, none) :=
  ⟨by decide, by decide, by decide, by decide, by decide, fun _ => rfl⟩

/-! ## The 32-bit length sum and the length validation -/

/-- C38 (evaluation at the failing input). On `truncated_payload` (38 captured bytes: a
36-byte header whose header_length field says 32, payload_length 4, 2 payload bytes
captured) `dissect_rbus` does not request more bytes, reports the payload as truncated, and
returns 40 bytes consumed, the end of the header plus the declared payload_length: more than
the 38 captured bytes. -/
theorem dissect_rbus_truncated_consumed :
    truncated_payload.length = 38 ∧
    tvb_get_ntohs truncated_payload 4 = some 32 ∧
    tvb_get_ntohl truncated_payload 18 = some 4 ∧
    payload_start truncated_payload (reply_end 4 0) = 36 ∧
    ∀ env,
      (dissect_rbus env truncated_payload).out = .consumed 40 ∧
      Emit.expert .ei_rbus_truncated_packet ∈ (dissect_rbus env truncated_payload).emitted ∧
      ¬ (40 ≤ truncated_payload.length) := by
  refine ⟨by decide, by decide, by decide, by decide, fun env => ⟨?_, ?_, by decide⟩⟩
  · rw [dissect_rbus_out_of_parsed env truncated_payload header_parsed_truncated_payload]
    decide
  · rw [dissect_rbus_factor env truncated_payload header_parsed_truncated_payload,
      dissect_rbus_payload_truncated env truncated_payload _ 4 (by decide)]
    simp only [after_emitted]
    exact List.mem_append_right _ (List.mem_append_left _ (List.mem_singleton.mpr rfl))

/-! ## The topic length bound -/

/-- The topic stage once the topic_length field `tl` is read: the length item, then the
string item and the info column when `0 < tl < 1024` and the string is captured, a raised
bounds exception when `0 < tl < 1024` and it is not, and the reply-topic stage entered after
the string, or right after the length field when no string is read. -/
theorem dissect_rbus_topic_cases (env : payload_env) (tvb : tvbuff_t) (flags cd pl tl : Nat)
    (htl : tvb_get_ntohl tvb 22 = some tl) :
    dissect_rbus_topic env tvb flags cd pl 22 =
      (if 0 < tl ∧ tl < 1024 then
        if 26 + tl ≤ tvb.length then
          (dissect_rbus_reply_topic env tvb pl (26 + tl)).after
            [topic_item .hf_rbus_topic tvb 26 tl,
             .col_info (msg_type flags cd) (some ((tvb.drop 26).take tl))]
        else ⟨[], .exception⟩
       else dissect_rbus_reply_topic env tvb pl 26).after
        [.proto_item .header_tree .hf_rbus_topic_length 22 4 (.uint tl)] := by
  obtain ⟨h26, rfl⟩ := tvb_get_be_eq_some.mp htl
  unfold dissect_rbus_topic
  rw [add_item_ret_uint_of_le _ h26]
  have e : RBUS_MAX_TOPIC_LENGTH = 1024 := rfl
  by_cases hc : 0 < be_value ((tvb.drop 22).take 4) ∧ be_value ((tvb.drop 22).take 4) < 1024
  · rw [if_pos (by rw [e]; exact hc), if_pos hc]
    by_cases hin : 26 + be_value ((tvb.drop 22).take 4) ≤ tvb.length
    · rw [if_pos hin, add_item_ret_string_of_le _ (by omega)]
      simp [result.after, topic_item, uint_item, Nat.add_assoc]
    · rw [if_neg hin]
      have hn : ¬ 22 + 4 + be_value ((tvb.drop 22).take 4) ≤ tvb.length := by omega
      simp [add_item_ret_string, tvb_get_ptr, hn, uint_item]
  · rw [if_neg (by rw [e]; exact hc), if_neg hc]
    rfl

/-- The reply-topic stage entered at `o` once the reply_topic_length field `rtl` is read. -/
theorem dissect_rbus_reply_topic_cases (env : payload_env) (tvb : tvbuff_t) (pl o rtl : Nat)
    (hrtl : tvb_get_ntohl tvb o = some rtl) :
    dissect_rbus_reply_topic env tvb pl o =
      (if 0 < rtl ∧ rtl < 1024 then
        if o + 4 + rtl ≤ tvb.length then
          (dissect_rbus_roundtrip env tvb pl (o + 4 + rtl)).after
            [topic_item .hf_rbus_reply_topic tvb (o + 4) rtl]
        else ⟨[], .exception⟩
       else dissect_rbus_roundtrip env tvb pl (o + 4)).after
        [.proto_item .header_tree .hf_rbus_reply_topic_length o 4 (.uint rtl)] := by
  obtain ⟨h4, rfl⟩ := tvb_get_be_eq_some.mp hrtl
  unfold dissect_rbus_reply_topic
  rw [add_item_ret_uint_of_le _ h4]
  have e : RBUS_MAX_TOPIC_LENGTH = 1024 := rfl
  by_cases hc : 0 < be_value ((tvb.drop o).take 4) ∧ be_value ((tvb.drop o).take 4) < 1024
  · rw [if_pos (by rw [e]; exact hc), if_pos hc]
    by_cases hin : o + 4 + be_value ((tvb.drop o).take 4) ≤ tvb.length
    · rw [if_pos hin, add_item_ret_string_of_le _ hin]
      simp [result.after, topic_item, uint_item]
    · rw [if_neg hin]
      simp [add_item_ret_string, tvb_get_ptr, hin, uint_item]
  · rw [if_neg (by rw [e]; exact hc), if_neg hc]
    rfl

/-- C40 (amended). Topic length bound in the Message Framer, for every buffer on which
`dissect_rbus` reaches the topic fields (the message is not deferred and passes the length
validation) and reads the topic_length field `tl` at offset 22. After the fixed header fields
it emits the topic_length item; the topic string item over the `tl` bytes at offset 26 (with
the info column text) is emitted and its bytes are skipped, the reply-topic stage being
entered at `26 + tl`, exactly when `0 < tl < 1024` and those `tl` bytes are captured. When
`0 < tl < 1024` and the string runs past the captured bytes, the string read raises the
bounds exception: no topic string is emitted and the dissection ends there. When `tl` is 0 or
at least 1024 no topic string is emitted and the reply-topic stage is entered at offset 26,
right after the 4-byte length field. The topic stage reports no annotation.

Respectively, for the reply-topic stage entered at any offset `o` where it reads the
reply_topic_length field `rtl`: the reply-topic string item over the `rtl` bytes at `o + 4` is
emitted and skipped exactly when `0 < rtl < 1024` and those bytes are captured; when
`0 < rtl < 1024` and they are not, the read raises and nothing more is emitted; when `rtl` is
0 or at least 1024 no string is emitted and the timestamp lookahead and closing-marker stage
(`trailer_emits`, then the payload stage) start at `o + 4`, right after the length field. The
reply-topic stage reports no annotation. -/
theorem dissect_rbus_topic_length_bound (env : payload_env) (tvb : tvbuff_t)
    (hl pl tl : Nat) (hlen : 22 ≤ tvb.length)
    (hhl : tvb_get_ntohs tvb 4 = some hl) (hpl : tvb_get_ntohl tvb 18 = some pl)
    (hcomplete : (hl + pl) % 2 ^ 32 ≤ tvb.length)
    (hvalid : hl ≤ tvb.length ∧ pl ≤ RBUS_MAX_PAYLOAD_SIZE)
    (htl : tvb_get_ntohl tvb 22 = some tl) :
    (∃ (topic_part : List Emit) (next : result),
      dissect_rbus env tvb = next.after (fixed_header_emits tvb ++ topic_part) ∧
      topic_part = .proto_item .header_tree .hf_rbus_topic_length 22 4 (.uint tl) ::
        (if 0 < tl ∧ tl < 1024 ∧ 26 + tl ≤ tvb.length then
          [topic_item .hf_rbus_topic tvb 26 tl,
           .col_info (msg_type (be_value ((tvb.drop 10).take 4))
             (be_value ((tvb.drop 14).take 4))) (some ((tvb.drop 26).take tl))]
         else []) ∧
      next =
        (if 0 < tl ∧ tl < 1024 then
          if 26 + tl ≤ tvb.length then dissect_rbus_reply_topic env tvb pl (26 + tl)
          else ⟨[], .exception⟩
         else dissect_rbus_reply_topic env tvb pl 26) ∧
      (hf_id.hf_rbus_topic ∈ field_ids topic_part ↔
        0 < tl ∧ tl < 1024 ∧ 26 + tl ≤ tvb.length) ∧
      expert_ids topic_part = []) ∧
    (∀ o rtl, tvb_get_ntohl tvb o = some rtl →
      ∃ (reply_part : List Emit) (next : result),
        dissect_rbus_reply_topic env tvb pl o = next.after reply_part ∧
        reply_part = .proto_item .header_tree .hf_rbus_reply_topic_length o 4 (.uint rtl) ::
          (if 0 < rtl ∧ rtl < 1024 ∧ o + 4 + rtl ≤ tvb.length then
            [topic_item .hf_rbus_reply_topic tvb (o + 4) rtl]
           else []) ∧
        next =
          (if 0 < rtl ∧ rtl < 1024 then
            if o + 4 + rtl ≤ tvb.length then
              (dissect_rbus_payload env tvb (payload_start tvb (o + 4 + rtl)) pl).after
                (trailer_emits tvb (o + 4 + rtl))
            else ⟨[], .exception⟩
           else
            (dissect_rbus_payload env tvb (payload_start tvb (o + 4)) pl).after
              (trailer_emits tvb (o + 4))) ∧
        (hf_id.hf_rbus_reply_topic ∈ field_ids reply_part ↔
          0 < rtl ∧ rtl < 1024 ∧ o + 4 + rtl ≤ tvb.length) ∧
        expert_ids reply_part = []) := by
  constructor
  · obtain ⟨_, rfl⟩ := tvb_get_be_eq_some.mp hhl
    obtain ⟨_, rfl⟩ := tvb_get_be_eq_some.mp hpl
    refine ⟨_, _, ?_, rfl, rfl, ?_, ?_⟩
    · rw [dissect_rbus_fixed env tvb hlen hcomplete, if_neg (by omega),
        dissect_rbus_topic_cases env tvb _ _ _ tl htl]
      by_cases hc : 0 < tl ∧ tl < 1024
      · by_cases hin : 26 + tl ≤ tvb.length
        · have h3 : 0 < tl ∧ tl < 1024 ∧ 26 + tl ≤ tvb.length := ⟨hc.1, hc.2, hin⟩
          rw [if_pos hc, if_pos hin, if_pos h3, if_pos hc, if_pos hin]
          simp [result.after]
        · have h3 : ¬ (0 < tl ∧ tl < 1024 ∧ 26 + tl ≤ tvb.length) := fun h => hin h.2.2
          rw [if_pos hc, if_neg hin, if_neg h3, if_pos hc, if_neg hin]
          simp [result.after]
      · have h3 : ¬ (0 < tl ∧ tl < 1024 ∧ 26 + tl ≤ tvb.length) := fun h => hc ⟨h.1, h.2.1⟩
        rw [if_neg hc, if_neg h3, if_neg hc]
        simp [result.after]
    · by_cases h3 : 0 < tl ∧ tl < 1024 ∧ 26 + tl ≤ tvb.length
      · rw [if_pos h3]
        simp [field_ids, topic_item, h3]
      · rw [if_neg h3]
        simp [field_ids, h3]
    · by_cases h3 : 0 < tl ∧ tl < 1024 ∧ 26 + tl ≤ tvb.length
      · rw [if_pos h3]; rfl
      · rw [if_neg h3]; rfl
  · intro o rtl hrtl
    refine ⟨_, _, ?_, rfl, rfl, ?_, ?_⟩
    · rw [dissect_rbus_reply_topic_cases env tvb pl o rtl hrtl]
      by_cases hc : 0 < rtl ∧ rtl < 1024
      · by_cases hin : o + 4 + rtl ≤ tvb.length
        · have h3 : 0 < rtl ∧ rtl < 1024 ∧ o + 4 + rtl ≤ tvb.length := ⟨hc.1, hc.2, hin⟩
          rw [if_pos hc, if_pos hin, if_pos h3, if_pos hc, if_pos hin,
            dissect_rbus_roundtrip_eq]
          simp [result.after]
        · have h3 : ¬ (0 < rtl ∧ rtl < 1024 ∧ o + 4 + rtl ≤ tvb.length) := fun h => hin h.2.2
          rw [if_pos hc, if_neg hin, if_neg h3, if_pos hc, if_neg hin]
      · have h3 : ¬ (0 < rtl ∧ rtl < 1024 ∧ o + 4 + rtl ≤ tvb.length) :=
          fun h => hc ⟨h.1, h.2.1⟩
        rw [if_neg hc, if_neg h3, if_neg hc, dissect_rbus_roundtrip_eq]
    · by_cases h3 : 0 < rtl ∧ rtl < 1024 ∧ o + 4 + rtl ≤ tvb.length
      · rw [if_pos h3]
        simp [field_ids, topic_item, h3]
      · rw [if_neg h3]
        simp [field_ids, h3]
    · by_cases h3 : 0 < rtl ∧ rtl < 1024 ∧ o + 4 + rtl ≤ tvb.length
      · rw [if_pos h3]; rfl
      · rw [if_neg h3]; rfl

/-- C40 (witness): the hypotheses hold on `topic_at_bound`, whose topic_length field is 1024:
no topic string is emitted and the reply-topic stage is entered at offset 26. -/
theorem dissect_rbus_topic_length_bound_witness :
    (22 ≤ topic_at_bound.length ∧ tvb_get_ntohs topic_at_bound 4 = some 32 ∧
      tvb_get_ntohl topic_at_bound 18 = some 0 ∧ (32 + 0) % 2 ^ 32 ≤ topic_at_bound.length ∧
      (32 ≤ topic_at_bound.length ∧ 0 ≤ RBUS_MAX_PAYLOAD_SIZE) ∧
      tvb_get_ntohl topic_at_bound 22 = some 1024) ∧
    ∃ (topic_part : List Emit) (next : result),
      dissect_rbus (rbus_env byte_unpack (fun _ => []) 16 20000) topic_at_bound =
        next.after (fixed_header_emits topic_at_bound ++ topic_part) ∧
      topic_part = [.proto_item .header_tree .hf_rbus_topic_length 22 4 (.uint 1024)] ∧
      next = dissect_rbus_reply_topic (rbus_env byte_unpack (fun _ => []) 16 20000)
        topic_at_bound 0 26 ∧
      (hf_id.hf_rbus_topic ∈ field_ids topic_part ↔
        0 < 1024 ∧ 1024 < 1024 ∧ 26 + 1024 ≤ topic_at_bound.length) ∧
      expert_ids topic_part = [] :=
  ⟨⟨by decide, by decide, by decide, by decide, by decide, by decide⟩,
    (dissect_rbus_topic_length_bound (rbus_env byte_unpack (fun _ => []) 16 20000)
      topic_at_bound 32 0 1024 (by decide) (by decide) (by decide) (by decide) (by decide)
      (by decide)).1⟩

/-- C40 (counterexample). In the 32-byte buffer `heur_overrun` (header_length 32,
payload_length 0: not deferred, lengths valid) the topic_length field is 1000, so that
`0 < topic_length < 1024`, but only 6 bytes are captured after it. `dissect_rbus` emits the
fixed header fields and the topic_length item, then the string read raises the bounds
exception: no topic string is emitted, whatever the payload decoders are. -/
theorem dissect_rbus_topic_overrun :
    heur_overrun.length = 32 ∧ tvb_get_ntohs heur_overrun 4 = some 32 ∧
    tvb_get_ntohl heur_overrun 18 = some 0 ∧
    tvb_get_ntohl heur_overrun 22 = some 1000 ∧ (0 < 1000 ∧ 1000 < 1024) ∧
    ∀ env, dissect_rbus env heur_overrun =
        ⟨fixed_header_emits heur_overrun ++
          [.proto_item .header_tree .hf_rbus_topic_length 22 4 (.uint 1000)], .exception⟩ ∧
      hf_id.hf_rbus_topic ∉ field_ids (dissect_rbus env heur_overrun).emitted := by
  refine ⟨by decide, by decide, by decide, by decide, by decide, fun env => ?_⟩
  have h : dissect_rbus env heur_overrun =
      ⟨fixed_header_emits heur_overrun ++
        [.proto_item .header_tree .hf_rbus_topic_length 22 4 (.uint 1000)], .exception⟩ := by
    rw [dissect_rbus_fixed env heur_overrun (by decide) (by decide), if_neg (by decide),
      dissect_rbus_topic_cases env heur_overrun _ _ _ 1000 (by decide),
      if_pos (by decide), if_neg (by decide)]
    rfl
  refine ⟨h, ?_⟩
  rw [h]
  decide

/-! ## The number of values collected by the structured parse -/

/-- The collection loop on `byte_unpack`: one value for each byte, up to the bound. -/
theorem collect_objects_byte_unpack (data : List UInt8) (fuel parse_offset : Nat) :
    (collect_objects byte_unpack data fuel parse_offset).length =
      min fuel (data.length - parse_offset) := by
  induction fuel generalizing parse_offset with
  | zero => simp [collect_objects]
  | succ fuel ih =>
    unfold collect_objects
    by_cases h : parse_offset < data.length
    · rw [if_pos h]
      have hd : (data.drop parse_offset).head? = some (data.get ⟨parse_offset, h⟩) := by
        rw [List.head?_drop, List.getElem?_eq_getElem h]
        rfl
      simp only [byte_unpack, hd, Option.map_some', List.length_cons, ih]
      omega
    · rw [if_neg h]
      simp only [List.length_nil]
      omega

/-- C32 (amended). The bound on the number of values that `parse_rbus_payload` collects from
one payload is the fixed constant `MAX_OBJECTS` = 20000, which is the default of the
object-count preference, not its configured value: for every payload at most 20000 values are
collected and handed to the Method Dispatcher, the structured parse of `rbus_env` is the same
for every configured object limit, and the bound 20000 is reached on a payload decoding to
more values. -/
theorem collect_objects_bound (unpack : List UInt8 → Nat → Option (msgpack_object × Nat))
    (fmt_f : Nat → List UInt8) (data : List UInt8) (offset : Nat) :
    MAX_OBJECTS = 20000 ∧
    (collect_objects unpack data MAX_OBJECTS 0).length ≤ 20000 ∧
    parse_rbus_payload unpack fmt_f data offset =
      parse_rbus_objects fmt_f data offset (collect_objects unpack data MAX_OBJECTS 0) ∧
    (∀ depth_limit limit1 limit2,
      (rbus_env unpack fmt_f depth_limit limit1).parse_rbus_payload data offset =
        (rbus_env unpack fmt_f depth_limit limit2).parse_rbus_payload data offset) ∧
    (20000 ≤ data.length → (collect_objects byte_unpack data MAX_OBJECTS 0).length = 20000) := by
  refine ⟨rfl, collect_objects_length_le unpack data MAX_OBJECTS 0, rfl, fun _ _ _ => rfl, ?_⟩
  intro h
  rw [collect_objects_byte_unpack]
  unfold MAX_OBJECTS
  omega

/-- C32 (counterexample). With the object-count limit configured to 1, the four-byte payload
0x07 0x08 0x09 0x0A decoded byte by byte gives four values, all collected by the structured
parse: more than the configured limit. -/
theorem collect_objects_over_limit :
    (rbus_env byte_unpack (fun _ => []) 16 1).pref_msgpack_object_limit = 1 ∧
    collect_objects byte_unpack [0x07, 0x08, 0x09, 0x0A] MAX_OBJECTS 0 =
      [.positive_integer 7, .positive_integer 8, .positive_integer 9, .positive_integer 10] ∧
    ¬ (collect_objects byte_unpack [0x07, 0x08, 0x09, 0x0A] MAX_OBJECTS 0).length ≤ 1 := by
  refine ⟨rfl, ?_, ?_⟩
  · simp [collect_objects, MAX_OBJECTS, byte_unpack]
  · simp [collect_objects, MAX_OBJECTS, byte_unpack]

/-! ## Index safety of the structured parse -/

/-- C34. Index safety of the structured parse. In the embedding an access `array_ptr[i]`
with `i` outside the collected values makes the parse fail (return `none`), as the three
recurring field steps show when their guard admits such an index. For every sequence of
decoded values (any length, any types, any declared counts) the parse does not fail: the
method scan returns an index inside the sequence, the metadata block, every verb branch and
the event-publication branch return, and so does the whole parse; and for every payload the
collection loop stores at most `MAX_OBJECTS` values and `parse_rbus_payload` returns. -/
theorem parse_rbus_objects_index_safe (fmt_f : Nat → List UInt8) (data : List UInt8)
    (offset : Nat) (objs : List msgpack_object) :
    (∃ r, parse_rbus_objects fmt_f data offset objs = some r) ∧
    (∀ M method, find_method objs 0 = some (M, method) →
      M < objs.length ∧
      (∃ metadata, add_metadata objs method M offset = some metadata) ∧
      (∀ verb, ∃ fields, parse_verb fmt_f (data.take 1) objs verb M offset = some fields)) ∧
    (∃ body, parse_event_body fmt_f (data.take 1) objs offset = some body) ∧
    (∀ unpack : List UInt8 → Nat → Option (msgpack_object × Nat),
      (collect_objects unpack data MAX_OBJECTS 0).length ≤ MAX_OBJECTS ∧
      ∃ r, parse_rbus_payload unpack fmt_f data offset = some r) ∧
    (∀ (limit : Nat) (t : tree_id) (hf : hf_id) (idx : Nat), idx < limit → objs.length ≤ idx →
      field_str objs limit t hf offset idx = none ∧
      field_uint objs limit t hf offset idx = none ∧
      field_int objs limit t hf offset idx = none) := by
  refine ⟨parse_rbus_objects_some fmt_f data offset objs, ?_,
    parse_event_body_some fmt_f (data.take 1) objs offset, ?_, ?_⟩
  · intro M method hm
    have hlt := find_method_lt hm
    exact ⟨hlt, add_metadata_some objs method M offset, fun verb =>
      parse_verb_some fmt_f (data.take 1) objs verb M offset (Nat.le_of_lt hlt)⟩
  · intro unpack
    exact ⟨collect_objects_length_le unpack data MAX_OBJECTS 0,
      parse_rbus_objects_some fmt_f data offset _⟩
  · intro limit t hf idx hlt hge
    have hnone : objs[idx]? = none := List.getElem?_eq_none hge
    simp only [field_str, field_uint, field_int, if_pos hlt, hnone, and_self]

/-! ## Declared counts and the number of groups emitted -/

theorem group_count_append (hf : hf_id) (a b : List Emit) :
    group_count hf (a ++ b) = group_count hf a + group_count hf b := by
  simp [group_count, field_values_append]

theorem group_count_eq_zero {S : List hf_id} {es : List Emit} {hf : hf_id}
    (h : ids_within S es) (hhf : hf ∉ S) : group_count hf es = 0 := by
  simp [group_count, field_values_eq_nil h hhf]

/-- The number of group items a triplet loop of the SET and RESPONSE branches adds from
iteration `p` and index `idx` on. -/
theorem triplet_loop_groups {fmt_f : Nat → List UInt8} {first : List UInt8}
    {objs : List msgpack_object} {method_idx offset count : Nat}
    {hf_group hf_name hf_type hf_namevalue : hf_id} {is_property : Bool}
    (hg : hf_group ∉ hf_name :: hf_type :: hf_namevalue :: typed_value_ids is_property)
    (fuel p idx : Nat) {r : List Emit × Nat}
    (h : triplet_loop fmt_f first objs method_idx offset count hf_group hf_name hf_type
      hf_namevalue is_property fuel p idx = some r) :
    group_count hf_group r.1 = min (count - p) ((method_idx - idx + 1) / 3) := by
  induction fuel generalizing p idx r with
  | zero =>
    unfold triplet_loop at h
    split at h
    · cases h
    · next hc =>
      cases h
      simp only [group_count, field_values, List.filterMap_nil, List.length_nil]
      omega
  | succ fuel ih =>
    unfold triplet_loop at h
    split at h
    · next hc =>
      split at h
      · next name_obj type_obj _ _ =>
        simp only [] at h
        split at h
        · cases h
        · next vs hvs =>
          rw [Option.map_eq_some'] at h
          obtain ⟨rest, hrest, rfl⟩ := h
          have hS : ∀ x ∈ typed_value_ids is_property,
              x ∈ hf_name :: hf_type :: hf_namevalue :: typed_value_ids is_property :=
            fun x hx => by simp [hx]
          have hn : hf_name ∈ hf_name :: hf_type :: hf_namevalue :: typed_value_ids is_property :=
            by simp
          have ht : hf_type ∈ hf_name :: hf_type :: hf_namevalue :: typed_value_ids is_property :=
            by simp
          have hv : hf_namevalue ∈
              hf_name :: hf_type :: hf_namevalue :: typed_value_ids is_property := by simp
          simp only [group_count_append]
          rw [ih _ _ hrest]
          have e1 : group_count hf_group [Emit.proto_item .payload_tree hf_group offset 1 .none] =
              1 := by simp [group_count, field_values]
          rw [e1]
          rw [group_count_eq_zero (S := hf_name :: hf_type :: hf_namevalue ::
              typed_value_ids is_property) (by
            cases name_obj <;>
              first
              | exact ids_within_nil _
              | exact ids_within_cons_item hn (ids_within_nil _)) hg,
            group_count_eq_zero (S := hf_name :: hf_type :: hf_namevalue ::
              typed_value_ids is_property) (by
            cases type_obj <;> first | exact ids_within_nil _ | exact ids_within_item ht) hg,
            @group_count_eq_zero (hf_name :: hf_type :: hf_namevalue ::
              typed_value_ids is_property) vs hf_group (by
            split at hvs
            · rw [Option.map_eq_some'] at hvs
              obtain ⟨value_obj, _, rfl⟩ := hvs
              refine ids_within_append.2 ⟨add_typed_value_ids _ _ _ _ _ _ hS, ?_⟩
              cases name_obj <;> first | exact ids_within_nil _ | exact ids_within_item hv
            · cases hvs; exact ids_within_nil _) hg]
          omega
      · cases h
    · next hc =>
      cases h
      simp only [group_count, field_values, List.filterMap_nil, List.length_nil]
      omega

/-- The number of property groups the loop of the event publication branch adds from
iteration `p` and index `idx` on. -/
theorem event_property_loop_groups {fmt_f : Nat → List UInt8} {first : List UInt8}
    {objs : List msgpack_object} {offset prop_count : Nat} (fuel p idx : Nat)
    {r : List Emit × Nat}
    (h : event_property_loop fmt_f first objs offset prop_count fuel p idx = some r) :
    group_count .hf_rbus_object_property r.1 ≤
      min (prop_count - p) ((objs.length - idx) / 3) := by
  induction fuel generalizing p idx r with
  | zero =>
    unfold event_property_loop at h
    split at h
    · cases h
    · cases h
      simp [group_count, field_values]
  | succ fuel ih =>
    unfold event_property_loop at h
    split at h
    · next hc =>
      split at h
      · next name_obj type_obj value_obj _ _ _ =>
        rw [Option.map_eq_some'] at h
        obtain ⟨rest, hrest, rfl⟩ := h
        have hrest2 := ih _ _ hrest
        cases name_obj with
        | str s =>
          simp only [group_count_append]
          rw [group_count_eq_zero (add_typed_value_ids fmt_f first _ offset value_obj true
            (fun h hh => hh)) (by decide)]
          simp only [group_count, field_values, List.filterMap_cons, List.filterMap_nil,
            List.length_cons, List.length_nil, if_true] at hrest2 ⊢
          simp only [show (hf_id.hf_rbus_object_property_name = hf_id.hf_rbus_object_property) =
              False from by simp,
            show (hf_id.hf_rbus_property_type = hf_id.hf_rbus_object_property) =
              False from by simp,
            show (hf_id.hf_rbus_object_property_namevalue = hf_id.hf_rbus_object_property) =
              False from by simp, if_false, List.length_nil] at hrest2 ⊢
          omega
        | _ =>
          simp only [group_count_append]
          simp only [group_count, field_values, List.filterMap_nil, List.length_nil] at hrest2 ⊢
          omega
      · cases h
    · next hc =>
      cases h
      simp [group_count, field_values]

theorem group_count_field_uint {objs : List msgpack_object} {limit : Nat} {t : tree_id}
    {hf hg : hf_id} {offset idx : Nat} {r : List Emit × Nat} (hne : hg ≠ hf)
    (h : field_uint objs limit t hf offset idx = some r) : group_count hg r.1 = 0 :=
  group_count_eq_zero (field_uint_ids (S := [hf]) (by simp) h) (by simpa using hne)

theorem group_count_field_str {objs : List msgpack_object} {limit : Nat} {t : tree_id}
    {hf hg : hf_id} {offset idx : Nat} {r : List Emit × Nat} (hne : hg ≠ hf)
    (h : field_str objs limit t hf offset idx = some r) : group_count hg r.1 = 0 :=
  group_count_eq_zero (field_str_ids (S := [hf]) (by simp) h) (by simpa using hne)

theorem group_count_field_int {objs : List msgpack_object} {limit : Nat} {t : tree_id}
    {hf hg : hf_id} {offset idx : Nat} {r : List Emit × Nat} (hne : hg ≠ hf)
    (h : field_int objs limit t hf offset idx = some r) : group_count hg r.1 = 0 :=
  group_count_eq_zero (field_int_ids (S := [hf]) (by simp) h) (by simpa using hne)

/-- The parameter groups of the SET branch are those of its triplet loop. -/
theorem parse_set_groups {fmt_f : Nat → List UInt8} {first : List UInt8}
    {objs : List msgpack_object} {method_idx offset : Nat} {es : List Emit}
    (hl : method_idx ≤ objs.length)
    (h : parse_set fmt_f first objs method_idx offset = some es) :
    ∃ c s, group_count .hf_rbus_parameter es = min c ((method_idx - s + 1) / 3) := by
  obtain ⟨r1, h1⟩ := field_uint_some objs method_idx .payload_tree .hf_rbus_session_id offset 0 hl
  obtain ⟨r2, h2⟩ := field_str_some objs method_idx .payload_tree .hf_rbus_component_name offset
    r1.2 hl
  obtain ⟨r3, h3⟩ := field_uint_some objs method_idx .payload_tree .hf_rbus_rollback offset
    r2.2 hl
  obtain ⟨r4, h4⟩ := field_uint_some objs method_idx .payload_tree .hf_rbus_param_count offset
    r3.2 hl
  simp only [parse_set, bind, Option.bind, h1, h2, h3, h4] at h
  generalize hq : triplet_loop fmt_f first objs method_idx offset _ _ _ _ _ _ _ _ _ = q at h
  cases q with
  | none => cases h
  | some r5 =>
    obtain ⟨r6, h6⟩ := field_str_some objs method_idx .payload_tree .hf_rbus_commit offset
      r5.2 hl
    simp only [h6] at h
    cases h
    have key := triplet_loop_groups (by decide) _ _ _ hq
    have hsum : group_count .hf_rbus_parameter (r1.1 ++ r2.1 ++ r3.1 ++ r4.1 ++ r5.1 ++ r6.1) =
        group_count .hf_rbus_parameter r5.1 := by
      simp only [group_count_append]
      rw [group_count_field_uint (by decide) h1, group_count_field_str (by decide) h2,
        group_count_field_uint (by decide) h3, group_count_field_uint (by decide) h4,
        group_count_field_str (by decide) h6]
      omega
    exact ⟨_, _, hsum.trans key⟩

/-- The property groups of the RESPONSE branch are those of its triplet loop. -/
theorem parse_response_groups {fmt_f : Nat → List UInt8} {first : List UInt8}
    {objs : List msgpack_object} {method_idx offset : Nat} {es : List Emit}
    (h : parse_response fmt_f first objs method_idx offset = some es) :
    ∃ c s, group_count .hf_rbus_property es = min c ((method_idx - s + 1) / 3) := by
  unfold parse_response at h
  split at h
  · split at h
    · cases h
    · next obj0 _ =>
      simp only [] at h
      split at h
      · split at h
        · cases h
        · next obj1 _ =>
          split at h
          · cases h
          · cases h
            refine ⟨0, 0, ?_⟩
            rw [group_count_append]
            cases obj1 <;> simp [group_count, field_values]
          · split at h
            · cases h
            · next count_items prop_count idx hscan =>
              rw [Option.map_eq_some'] at h
              obtain ⟨props, hprops, rfl⟩ := h
              refine ⟨prop_count, idx, ?_⟩
              simp only [group_count_append]
              rw [triplet_loop_groups (by decide) _ _ _ hprops,
                group_count_eq_zero (S := [.hf_rbus_property_count])
                  (response_scan_ids (by simp) _ _ hscan) (by decide)]
              simp [group_count, field_values]
      · cases h
        exact ⟨0, 0, by simp [group_count, field_values]⟩
  · cases h
    exact ⟨0, 0, by simp [group_count, field_values]⟩

/-- The property groups of an event publication are those of its property loop. -/
theorem parse_event_data_groups {fmt_f : Nat → List UInt8} {first : List UInt8}
    {objs : List msgpack_object} {offset : Nat} {has_event_data : Bool} {idx : Nat}
    {r : List Emit × Nat}
    (h : parse_event_data fmt_f first objs offset has_event_data idx = some r) :
    ∃ c s, group_count .hf_rbus_object_property r.1 ≤ min c ((objs.length - s) / 3) := by
  unfold parse_event_data at h
  split at h
  · split at h
    · cases h
    · simp only [] at h
      rw [Option.map_eq_some'] at h
      obtain ⟨q, hq, rfl⟩ := h
      have key := event_property_loop_groups _ _ _ hq
      have hsum : ∀ (t : String) (l : List Emit),
          group_count hf_id.hf_rbus_object_property
            ([Emit.proto_item tree_id.payload_tree hf_id.hf_rbus_event_data offset 1
              field_value.none, Emit.append_text t] ++ l) =
          group_count hf_id.hf_rbus_object_property l := by
        intro t l
        simp [group_count, field_values]
      rw [Nat.sub_zero] at key
      exact ⟨_, _, (hsum _ _).trans_le key⟩
  · cases h
    exact ⟨0, 0, by simp [group_count, field_values]⟩

theorem group_count_field_flag {objs : List msgpack_object} {hf hg : hf_id} {offset idx : Nat}
    {r : List Emit × Nat × Bool} (hne : hg ≠ hf)
    (h : field_flag objs hf offset idx = some r) : group_count hg r.1 = 0 :=
  group_count_eq_zero (field_flag_ids (S := [hf]) (by simp) h) (by simpa using hne)

theorem parse_event_body_groups {fmt_f : Nat → List UInt8} {first : List UInt8}
    {objs : List msgpack_object} {offset : Nat} {es : List Emit}
    (h : parse_event_body fmt_f first objs offset = some es) :
    ∃ c s, group_count .hf_rbus_object_property es ≤ min c ((objs.length - s) / 3) := by
  obtain ⟨r1, h1⟩ := field_uint_some objs objs.length .payload_tree .hf_rbus_event_type offset 1
    (Nat.le_refl _)
  obtain ⟨r2, h2⟩ := field_flag_some objs .hf_rbus_has_event_data offset r1.2
  obtain ⟨r3, h3⟩ := field_flag_some objs .hf_rbus_has_filter offset
    (skip_object objs r2.2.2 r2.2.1)
  obtain ⟨r4, h4⟩ := parse_event_data_some fmt_f first objs offset r2.2.2
    (skip_object objs r3.2.2 r3.2.1)
  obtain ⟨r5, h5⟩ := field_uint_some objs objs.length .payload_tree .hf_rbus_interval offset
    r4.2 (Nat.le_refl _)
  obtain ⟨r6, h6⟩ := field_uint_some objs objs.length .payload_tree .hf_rbus_duration offset
    r5.2 (Nat.le_refl _)
  obtain ⟨r7, h7⟩ := field_int_some objs objs.length .payload_tree .hf_rbus_component_id offset
    r6.2 (Nat.le_refl _)
  simp only [parse_event_body, bind, Option.bind, h1, h2, h3, h4, h5, h6, h7] at h
  cases h
  obtain ⟨c, s, key⟩ := parse_event_data_groups h4
  refine ⟨c, s, ?_⟩
  simp only [group_count_append]
  rw [group_count_field_uint (by decide) h1, group_count_field_flag (by decide) h2,
    group_count_field_flag (by decide) h3, group_count_field_uint (by decide) h5,
    group_count_field_uint (by decide) h6, group_count_field_int (by decide) h7]
  omega

/-- C35. Oversized counts are bounded by the data actually present. With the method marker at
index `M` of the values `objs`: the triplet loop of the SET branch (resp. of the RESPONSE
branch), entered at index `s` with declared count `c`, returns and emits exactly
`min (c, (M - s + 1) / 3)` parameter (resp. property) groups, which is 0 when `M < s + 2`;
the property loop of the event-publication branch, entered at index `s` with declared count
`c`, returns and emits at most `min (c, (object_count - s) / 3)` property groups. Hence,
whatever the declared count, the SET branch, the RESPONSE branch and the event-publication
branch emit at most `object_count / 3` groups. -/
theorem declared_count_groups (fmt_f : Nat → List UInt8) (first : List UInt8)
    (objs : List msgpack_object) (M offset : Nat) (hM : M < objs.length) :
    (∀ c s, ∃ r,
      triplet_loop fmt_f first objs M offset c .hf_rbus_parameter .hf_rbus_parameter_name
        .hf_rbus_parameter_type .hf_rbus_parameter_namevalue false M 0 s = some r ∧
      group_count .hf_rbus_parameter r.1 = min c ((M - s + 1) / 3) ∧
      (M < s + 2 → group_count .hf_rbus_parameter r.1 = 0) ∧
      group_count .hf_rbus_parameter r.1 ≤ objs.length / 3) ∧
    (∀ c s, ∃ r,
      triplet_loop fmt_f first objs M offset c .hf_rbus_property .hf_rbus_property_name
        .hf_rbus_property_type .hf_rbus_property_namevalue true M 0 s = some r ∧
      group_count .hf_rbus_property r.1 = min c ((M - s + 1) / 3) ∧
      (M < s + 2 → group_count .hf_rbus_property r.1 = 0) ∧
      group_count .hf_rbus_property r.1 ≤ objs.length / 3) ∧
    (∀ c s, ∃ r,
      event_property_loop fmt_f first objs offset c objs.length 0 s = some r ∧
      group_count .hf_rbus_object_property r.1 ≤ min c ((objs.length - s) / 3) ∧
      group_count .hf_rbus_object_property r.1 ≤ objs.length / 3) ∧
    (∃ es, parse_set fmt_f first objs M offset = some es ∧
      group_count .hf_rbus_parameter es ≤ objs.length / 3) ∧
    (∃ es, parse_response fmt_f first objs M offset = some es ∧
      group_count .hf_rbus_property es ≤ objs.length / 3) ∧
    (∃ es, parse_event_body fmt_f first objs offset = some es ∧
      group_count .hf_rbus_object_property es ≤ objs.length / 3) := by
  have hl : M ≤ objs.length := Nat.le_of_lt hM
  refine ⟨fun c s => ?_, fun c s => ?_, fun c s => ?_, ?_, ?_, ?_⟩
  · obtain ⟨r, hr⟩ := triplet_loop_some fmt_f first objs M offset c .hf_rbus_parameter
      .hf_rbus_parameter_name .hf_rbus_parameter_type .hf_rbus_parameter_namevalue false hl M 0
      s (by omega)
    have key := triplet_loop_groups (by decide) _ _ _ hr
    rw [Nat.sub_zero] at key
    exact ⟨r, hr, key, fun hlt => by rw [key]; omega, by rw [key]; omega⟩
  · obtain ⟨r, hr⟩ := triplet_loop_some fmt_f first objs M offset c .hf_rbus_property
      .hf_rbus_property_name .hf_rbus_property_type .hf_rbus_property_namevalue true hl M 0
      s (by omega)
    have key := triplet_loop_groups (by decide) _ _ _ hr
    rw [Nat.sub_zero] at key
    exact ⟨r, hr, key, fun hlt => by rw [key]; omega, by rw [key]; omega⟩
  · obtain ⟨r, hr⟩ := event_property_loop_some fmt_f first objs offset c objs.length 0 s
      (by omega)
    have key := event_property_loop_groups _ _ _ hr
    rw [Nat.sub_zero] at key
    exact ⟨r, hr, key, by omega⟩
  · obtain ⟨es, hes⟩ := parse_set_some fmt_f first objs M offset hl
    obtain ⟨c, s, key⟩ := parse_set_groups hl hes
    exact ⟨es, hes, by rw [key]; omega⟩
  · obtain ⟨es, hes⟩ := parse_response_some fmt_f first objs M offset hl
    obtain ⟨c, s, key⟩ := parse_response_groups hes
    exact ⟨es, hes, by rw [key]; omega⟩
  · obtain ⟨es, hes⟩ := parse_event_body_some fmt_f first objs offset
    obtain ⟨c, s, key⟩ := parse_event_body_groups hes
    exact ⟨es, hes, by omega⟩

/-- C35 (witness): in `set_example` the method marker is at index 8 of 12 values; the SET
loop entered at index 4, whatever the declared count `c`, emits `min (c, 1)` groups. -/
theorem declared_count_groups_witness :
    8 < set_example.length ∧
    ∀ c, ∃ r,
      triplet_loop (fun _ => []) [] set_example 8 0 c .hf_rbus_parameter
        .hf_rbus_parameter_name .hf_rbus_parameter_type .hf_rbus_parameter_namevalue false 8 0
        4 = some r ∧
      group_count .hf_rbus_parameter r.1 = min c ((8 - 4 + 1) / 3) ∧
      (8 < 4 + 2 → group_count .hf_rbus_parameter r.1 = 0) ∧
      group_count .hf_rbus_parameter r.1 ≤ set_example.length / 3 :=
  ⟨by decide, fun c =>
    (declared_count_groups (fun _ => []) [] set_example 8 0 (by decide)).1 c 4⟩

/-! ## Termination of the generic fallback loop -/

/-- The fallback loop does not depend on the fuel once it covers the bytes left. -/
theorem fallback_loop_fuel (env : payload_env) (tvb : tvbuff_t) (end_offset : Nat)
    (fuel1 fuel2 payload_offset object_count total_consumed : Nat) (ctx : rbus_parse_context_t)
    (h1 : end_offset - payload_offset ≤ fuel1) (h2 : end_offset - payload_offset ≤ fuel2) :
    fallback_loop env tvb end_offset fuel1 payload_offset object_count total_consumed ctx =
      fallback_loop env tvb end_offset fuel2 payload_offset object_count total_consumed ctx := by
  induction fuel1 generalizing fuel2 payload_offset object_count total_consumed ctx with
  | zero =>
    cases fuel2 with
    | zero => rfl
    | succ fuel2 =>
      rw [fallback_loop, fallback_loop, if_neg (by omega)]
  | succ fuel1 ih =>
    cases fuel2 with
    | zero =>
      rw [fallback_loop, fallback_loop, if_neg (by omega)]
    | succ fuel2 =>
      rw [fallback_loop, fallback_loop]
      by_cases hlt : payload_offset < end_offset
      · simp only [if_pos hlt]
        by_cases ha : tvb_captured_length_remaining tvb payload_offset = 0
        · simp only [if_pos ha]
        · simp only [if_neg ha]
          generalize env.dissect_msgpack_value _ payload_offset 0 none _ = r
          by_cases hc : r.2.1 = 0
          · simp only [if_pos hc]
          · simp only [if_neg hc]
            by_cases hlim : object_count + 1 ≥ env.pref_msgpack_object_limit
            · simp only [if_pos hlim]
            · simp only [if_neg hlim]
              rw [ih fuel2 _ _ _ _ (by omega) (by omega)]
      · simp only [if_neg hlt]

/-- The iteration record does not depend on the fuel once it covers the bytes left. -/
theorem fallback_steps_fuel (env : payload_env) (tvb : tvbuff_t) (end_offset : Nat)
    (fuel1 fuel2 payload_offset object_count : Nat) (ctx : rbus_parse_context_t)
    (h1 : end_offset - payload_offset ≤ fuel1) (h2 : end_offset - payload_offset ≤ fuel2) :
    fallback_steps env tvb end_offset fuel1 payload_offset object_count ctx =
      fallback_steps env tvb end_offset fuel2 payload_offset object_count ctx := by
  induction fuel1 generalizing fuel2 payload_offset object_count ctx with
  | zero =>
    cases fuel2 with
    | zero => rfl
    | succ fuel2 =>
      rw [fallback_steps, fallback_steps, if_neg (by omega)]
  | succ fuel1 ih =>
    cases fuel2 with
    | zero =>
      rw [fallback_steps, fallback_steps, if_neg (by omega)]
    | succ fuel2 =>
      rw [fallback_steps, fallback_steps]
      by_cases hlt : payload_offset < end_offset
      · simp only [if_pos hlt]
        by_cases ha : tvb_captured_length_remaining tvb payload_offset = 0
        · simp only [if_pos ha]
        · simp only [if_neg ha]
          generalize env.dissect_msgpack_value _ payload_offset 0 none _ = r
          by_cases hc : r.2.1 = 0
          · simp only [if_pos hc]
          · simp only [if_neg hc]
            by_cases hlim : object_count + 1 ≥ env.pref_msgpack_object_limit
            · simp only [if_pos hlim]
            · simp only [if_neg hlim]
              rw [ih fuel2 _ _ _ (by omega) (by omega)]
      · simp only [if_neg hlt]

/-- The number of iterations is bounded by the bytes left and by the object limit. -/
theorem fallback_steps_length (env : payload_env) (tvb : tvbuff_t) (end_offset : Nat)
    (fuel payload_offset object_count : Nat) (ctx : rbus_parse_context_t) :
    (fallback_steps env tvb end_offset fuel payload_offset object_count ctx).length ≤
      min (end_offset - payload_offset)
        (max 1 (env.pref_msgpack_object_limit - object_count)) := by
  induction fuel generalizing payload_offset object_count ctx with
  | zero => simp [fallback_steps]
  | succ fuel ih =>
    rw [fallback_steps]
    by_cases hlt : payload_offset < end_offset
    · simp only [if_pos hlt]
      by_cases ha : tvb_captured_length_remaining tvb payload_offset = 0
      · simp only [if_pos ha, List.length_singleton]
        omega
      · simp only [if_neg ha]
        generalize hr : env.dissect_msgpack_value _ payload_offset 0 none _ = r
        by_cases hc : r.2.1 = 0
        · simp only [if_pos hc, List.length_singleton]
          omega
        · simp only [if_neg hc]
          by_cases hlim : object_count + 1 ≥ env.pref_msgpack_object_limit
          · simp only [if_pos hlim, List.length_singleton]
            omega
          · simp only [if_neg hlim, List.length_cons]
            have := ih (payload_offset + r.2.1) (object_count + 1) r.2.2
            omega
    · simp only [if_neg hlt, List.length_nil]
      omega

/-- Every iteration that does not end the loop advances by at least one byte. -/
theorem fallback_steps_advance (env : payload_env) (tvb : tvbuff_t) (end_offset : Nat)
    (fuel payload_offset object_count : Nat) (ctx : rbus_parse_context_t) :
    ∀ k ∈ (fallback_steps env tvb end_offset fuel payload_offset object_count ctx).dropLast,
      1 ≤ k := by
  induction fuel generalizing payload_offset object_count ctx with
  | zero => simp [fallback_steps]
  | succ fuel ih =>
    rw [fallback_steps]
    by_cases hlt : payload_offset < end_offset
    · simp only [if_pos hlt]
      by_cases ha : tvb_captured_length_remaining tvb payload_offset = 0
      · simp [if_pos ha]
      · simp only [if_neg ha]
        generalize hr : env.dissect_msgpack_value _ payload_offset 0 none _ = r
        by_cases hc : r.2.1 = 0
        · simp [if_pos hc]
        · simp only [if_neg hc]
          by_cases hlim : object_count + 1 ≥ env.pref_msgpack_object_limit
          · simp [if_pos hlim]
          · simp only [if_neg hlim]
            intro k hk
            by_cases hnil : fallback_steps env tvb end_offset fuel (payload_offset + r.2.1)
                (object_count + 1) r.2.2 = []
            · rw [hnil] at hk
              simp at hk
            · rw [List.dropLast_cons_of_ne_nil hnil, List.mem_cons] at hk
              rcases hk with rfl | hk
              · omega
              · exact ih _ _ _ k hk
    · simp [if_neg hlt]

/-- When the decoder never reports more bytes than its slice holds, the offset stays within
the payload after every iteration. -/
theorem fallback_steps_within (env : payload_env) (tvb : tvbuff_t) (end_offset : Nat)
    (henv : ∀ data offset ctx, (env.dissect_msgpack_value data offset 0 none ctx).2.1 ≤
      data.length)
    (fuel payload_offset object_count : Nat) (ctx : rbus_parse_context_t)
    (hle : payload_offset ≤ end_offset) (k : Nat) :
    payload_offset +
      ((fallback_steps env tvb end_offset fuel payload_offset object_count ctx).take k).sum ≤
      end_offset := by
  induction fuel generalizing payload_offset object_count ctx k with
  | zero => simpa [fallback_steps] using hle
  | succ fuel ih =>
    rw [fallback_steps]
    by_cases hlt : payload_offset < end_offset
    · simp only [if_pos hlt]
      by_cases ha : tvb_captured_length_remaining tvb payload_offset = 0
      · simp only [if_pos ha]
        cases k <;> simp <;> omega
      · simp only [if_neg ha]
        have hlen := henv ((tvb.drop payload_offset).take
          (if end_offset - payload_offset < tvb_captured_length_remaining tvb payload_offset
            then end_offset - payload_offset
            else tvb_captured_length_remaining tvb payload_offset)) payload_offset
          { ctx with object_index := object_count }
        rw [List.length_take, List.length_drop] at hlen
        generalize hr : env.dissect_msgpack_value _ payload_offset 0 none _ = r at hlen
        have hc2 : payload_offset + r.2.1 ≤ end_offset := by
          unfold tvb_captured_length_remaining at hlen
          split_ifs at hlen <;> omega
        by_cases hc : r.2.1 = 0
        · simp only [if_pos hc]
          cases k <;> simp <;> omega
        · simp only [if_neg hc]
          by_cases hlim : object_count + 1 ≥ env.pref_msgpack_object_limit
          · simp only [if_pos hlim]
            cases k <;> simp <;> omega
          · simp only [if_neg hlim]
            cases k with
            | zero => simp; omega
            | succ k =>
              simp only [List.take_succ_cons, List.sum_cons]
              have := ih (payload_offset + r.2.1) (object_count + 1) r.2.2 hc2 k
              omega
    · simp only [if_neg hlt, List.take_nil, List.sum_nil]
      omega

/-- The counters returned by the loop are those of the iteration record. -/
theorem fallback_loop_steps (env : payload_env) (tvb : tvbuff_t) (end_offset : Nat)
    (fuel payload_offset object_count total_consumed : Nat) (ctx : rbus_parse_context_t) :
    (fallback_loop env tvb end_offset fuel payload_offset object_count total_consumed ctx).2.2 =
      total_consumed +
        (fallback_steps env tvb end_offset fuel payload_offset object_count ctx).sum ∧
    (fallback_loop env tvb end_offset fuel payload_offset object_count total_consumed ctx).2.1 =
      object_count +
        (fallback_steps env tvb end_offset fuel payload_offset object_count ctx).countP
          (fun k => decide (0 < k)) := by
  induction fuel generalizing payload_offset object_count total_consumed ctx with
  | zero => simp [fallback_loop, fallback_steps]
  | succ fuel ih =>
    rw [fallback_loop, fallback_steps]
    by_cases hlt : payload_offset < end_offset
    · simp only [if_pos hlt]
      by_cases ha : tvb_captured_length_remaining tvb payload_offset = 0
      · simp [if_pos ha]
      · simp only [if_neg ha]
        generalize hr : env.dissect_msgpack_value _ payload_offset 0 none _ = r
        by_cases hc : r.2.1 = 0
        · simp [if_pos hc]
        · simp only [if_neg hc]
          have hpos : 0 < r.2.1 := by omega
          by_cases hlim : object_count + 1 ≥ env.pref_msgpack_object_limit
          · simp [if_pos hlim, hpos]
          · simp only [if_neg hlim, List.sum_cons, List.countP_cons, hpos, decide_True,
              if_true]
            obtain ⟨e1, e2⟩ := ih (payload_offset + r.2.1) (object_count + 1)
              (total_consumed + r.2.1) r.2.2
            rw [e1, e2]
            omega
    · simp [if_neg hlt]

/-- The generic decoder of `rbus_env` reports no more bytes than its slice holds, when the
library decoder does so. -/
theorem rbus_env_consumed_le (unpack : List UInt8 → Nat → Option (msgpack_object × Nat))
    (fmt_f : Nat → List UInt8) (depth_limit object_limit : Nat)
    (hunpack : ∀ data obj off, unpack data 0 = some (obj, off) → off ≤ data.length)
    (data : List UInt8) (offset : Nat) (ctx : rbus_parse_context_t) :
    ((rbus_env unpack fmt_f depth_limit object_limit).dissect_msgpack_value data offset 0 none
      ctx).2.1 ≤ data.length := by
  simp only [rbus_env, Option.map_none', dissect_msgpack_value]
  rw [if_neg (by omega)]
  by_cases h1 : data.length < 1
  · rw [if_pos h1]; simp
  · rw [if_neg h1]
    cases hu : unpack data 0 with
    | none => simp
    | some r =>
      obtain ⟨obj, off⟩ := r
      have hoff := hunpack data obj off hu
      simp only []
      cases display_msgpack_object fmt_f depth_limit (depth_limit + 1) tree_id.payload_tree
        data offset off obj 0 none ctx with
      | none => simp
      | some d => simpa using hoff

/-- C36. The generic fallback loop terminates on every payload. For the decoders of this
file (`rbus_env`), a library decoder that reports no more bytes than its slice holds, and the
loop entered at `payload_offset` within the payload: the fuel `end_offset - payload_offset`
(the payload length, as `dissect_rbus` passes it) is enough, more fuel changes neither the
result nor the iterations; every iteration that does not stop the loop advances the offset
by at least 1; after every iteration the offset is at most `end_offset`; the number of
iterations is at most the bytes left and at most the object limit less the values counted
(at most 1 when the limit is reached already), so at most
`min (payload length, object limit)` for a loop entered with count 0 and a limit of at least
1; and the byte and value counters returned are the sum and the number of the advancing
iterations. -/
theorem fallback_loop_terminates
    (unpack : List UInt8 → Nat → Option (msgpack_object × Nat)) (fmt_f : Nat → List UInt8)
    (depth_limit object_limit : Nat) (tvb : tvbuff_t)
    (end_offset payload_offset object_count total_consumed : Nat) (ctx : rbus_parse_context_t)
    (hunpack : ∀ data obj off, unpack data 0 = some (obj, off) → off ≤ data.length)
    (hle : payload_offset ≤ end_offset) :
    (∀ fuel, end_offset - payload_offset ≤ fuel →
      fallback_loop (rbus_env unpack fmt_f depth_limit object_limit) tvb end_offset fuel
          payload_offset object_count total_consumed ctx =
        fallback_loop (rbus_env unpack fmt_f depth_limit object_limit) tvb end_offset
          (end_offset - payload_offset) payload_offset object_count total_consumed ctx ∧
      fallback_steps (rbus_env unpack fmt_f depth_limit object_limit) tvb end_offset fuel
          payload_offset object_count ctx =
        fallback_steps (rbus_env unpack fmt_f depth_limit object_limit) tvb end_offset
          (end_offset - payload_offset) payload_offset object_count ctx) ∧
    (∀ k ∈ (fallback_steps (rbus_env unpack fmt_f depth_limit object_limit) tvb end_offset
        (end_offset - payload_offset) payload_offset object_count ctx).dropLast, 1 ≤ k) ∧
    (∀ k, payload_offset +
        ((fallback_steps (rbus_env unpack fmt_f depth_limit object_limit) tvb end_offset
          (end_offset - payload_offset) payload_offset object_count ctx).take k).sum ≤
      end_offset) ∧
    (fallback_steps (rbus_env unpack fmt_f depth_limit object_limit) tvb end_offset
        (end_offset - payload_offset) payload_offset object_count ctx).length ≤
      min (end_offset - payload_offset) (max 1 (object_limit - object_count)) ∧
    (1 ≤ object_limit → object_count = 0 →
      (fallback_steps (rbus_env unpack fmt_f depth_limit object_limit) tvb end_offset
          (end_offset - payload_offset) payload_offset object_count ctx).length ≤
        min (end_offset - payload_offset) object_limit) ∧
    (fallback_loop (rbus_env unpack fmt_f depth_limit object_limit) tvb end_offset
        (end_offset - payload_offset) payload_offset object_count total_consumed ctx).2.2 =
      total_consumed +
        (fallback_steps (rbus_env unpack fmt_f depth_limit object_limit) tvb end_offset
          (end_offset - payload_offset) payload_offset object_count ctx).sum ∧
    (fallback_loop (rbus_env unpack fmt_f depth_limit object_limit) tvb end_offset
        (end_offset - payload_offset) payload_offset object_count total_consumed ctx).2.1 =
      object_count +
        (fallback_steps (rbus_env unpack fmt_f depth_limit object_limit) tvb end_offset
          (end_offset - payload_offset) payload_offset object_count ctx).countP
          (fun k => decide (0 < k)) := by
  have hlen := fallback_steps_length (rbus_env unpack fmt_f depth_limit object_limit) tvb
    end_offset (end_offset - payload_offset) payload_offset object_count ctx
  have hlim : (rbus_env unpack fmt_f depth_limit object_limit).pref_msgpack_object_limit =
      object_limit := rfl
  rw [hlim] at hlen
  obtain ⟨e1, e2⟩ := fallback_loop_steps (rbus_env unpack fmt_f depth_limit object_limit) tvb
    end_offset (end_offset - payload_offset) payload_offset object_count total_consumed ctx
  refine ⟨fun fuel hfuel => ⟨?_, ?_⟩, ?_, ?_, hlen, ?_, e1, e2⟩
  · exact fallback_loop_fuel _ tvb end_offset _ _ _ _ _ ctx hfuel (Nat.le_refl _)
  · exact fallback_steps_fuel _ tvb end_offset _ _ _ _ ctx hfuel (Nat.le_refl _)
  · exact fallback_steps_advance _ tvb end_offset _ _ _ ctx
  · exact fallback_steps_within _ tvb end_offset
      (rbus_env_consumed_le unpack fmt_f depth_limit object_limit hunpack) _ _ _ ctx hle
  · intro h1 h0
    subst h0
    have hmax : max 1 (object_limit - 0) = object_limit := by omega
    rw [hmax] at hlen
    exact hlen

theorem byte_unpack_le (data : List UInt8) (obj : msgpack_object) (off : Nat)
    (h : byte_unpack data 0 = some (obj, off)) : off ≤ data.length := by
  cases data with
  | nil => simp [byte_unpack] at h
  | cons b rest =>
    simp only [byte_unpack, List.drop_zero, List.head?_cons, Option.map_some', Option.some.injEq,
      Prod.mk.injEq] at h
    rw [← h.2]
    simp

/-- C36 (witness): the two-byte payload `two_integers` decoded byte by byte with the default
limits runs two iterations of one byte each and ends at offset 2. -/
theorem fallback_loop_terminates_witness :
    ((∀ data obj off, byte_unpack data 0 = some (obj, off) → off ≤ data.length) ∧ 0 ≤ 2) ∧
    fallback_steps (rbus_env byte_unpack (fun _ => []) 16 20000) two_integers 2 (2 - 0) 0 0
      initial_ctx = [1, 1] ∧
    (fallback_steps (rbus_env byte_unpack (fun _ => []) 16 20000) two_integers 2 (2 - 0) 0 0
        initial_ctx).length ≤ min (2 - 0) 20000 ∧
    (fallback_loop (rbus_env byte_unpack (fun _ => []) 16 20000) two_integers 2 (2 - 0) 0 0 0
        initial_ctx).2.2 =
      0 + (fallback_steps (rbus_env byte_unpack (fun _ => []) 16 20000) two_integers 2
        (2 - 0) 0 0 initial_ctx).sum :=
  ⟨⟨byte_unpack_le, by decide⟩, by decide,
    (fallback_loop_terminates byte_unpack (fun _ => []) 16 20000 two_integers 2 0 0 0
      initial_ctx byte_unpack_le (by decide)).2.2.2.2.1 (by decide) rfl,
    (fallback_loop_terminates byte_unpack (fun _ => []) 16 20000 two_integers 2 0 0 0
      initial_ctx byte_unpack_le (by decide)).2.2.2.2.2.1⟩

/-! ## The text test of the generic display -/

theorem text_byte_eq_text_char (b : UInt8) : text_byte b = text_char b := by
  cases b with
  | mk v =>
    revert v
    decide

theorem text_char_zero : text_char 0 = false := by decide

theorem text_blob_singleton (x : UInt8) :
    text_blob [x] ↔ (text_char x = true ∨ x = 0) := by
  unfold text_blob
  simp [Fin.forall_fin_succ]

theorem text_blob_cons_cons (x y : UInt8) (rest : List UInt8) :
    text_blob (x :: y :: rest) ↔ text_char x = true ∧ text_blob (y :: rest) := by
  unfold text_blob
  constructor
  · rintro ⟨-, h⟩
    refine ⟨?_, by simp, fun i => ?_⟩
    · have := h ⟨0, by simp⟩
      simpa using this
    · have := h ⟨i.val + 1, by simp⟩
      simpa using this
  · rintro ⟨hx, -, h⟩
    refine ⟨by simp, fun i => ?_⟩
    obtain ⟨i, hi⟩ := i
    cases i with
    | zero => left; simpa using hx
    | succ i =>
      have := h ⟨i, by simpa using hi⟩
      simpa using this

/-- The text check of the code is the text test of the specification. -/
theorem is_utf8_iff_text_blob (b : List UInt8) (hb : b ≠ []) :
    is_utf8 b = true ↔ text_blob b := by
  induction b with
  | nil => exact absurd rfl hb
  | cons x rest ih =>
    cases rest with
    | nil =>
      rw [text_blob_singleton, is_utf8, text_byte_eq_text_char]
      simp only [Bool.or_eq_true, beq_iff_eq]
      exact Or.comm
    | cons y rest =>
      rw [text_blob_cons_cons, is_utf8, text_byte_eq_text_char, Bool.and_eq_true,
        ih (List.cons_ne_nil _ _)]
      exact List.cons_ne_nil _ _

/-- The text shown for a blob that passes the test: the blob without a final zero byte. -/
theorem c_string_of_text_blob (b : List UInt8) (h : text_blob b) :
    c_string b = rendered_text b := by
  induction b with
  | nil => exact absurd rfl h.1
  | cons x rest ih =>
    cases rest with
    | nil =>
      by_cases hx : x = 0
      · subst hx
        rfl
      · have hne : (x != 0) = true := by simpa using hx
        simp [c_string, rendered_text, List.takeWhile, hne, hx]
    | cons y rest =>
      rw [text_blob_cons_cons] at h
      have hx : x ≠ 0 := by
        rintro rfl
        rw [text_char_zero] at h
        exact Bool.noConfusion h.1
      have hne : (x != 0) = true := by simpa using hx
      have ih2 := ih h.2
      unfold c_string at ih2 ⊢
      rw [List.takeWhile_cons, if_pos hne, ih2]
      unfold rendered_text
      rw [List.getLast?_cons_cons]
      split
      · rfl
      · rfl

/-- C39. Exact text test of the generic display for a byte blob `b` that is not the single
byte 0 or 1, displayed at a depth within the limit: the blob is shown as a string item if and
only if it passes the text test of the specification (`text_blob`: it is non-empty and every
byte is printable ASCII 0x20 to 0x7E, tab, newline, carriage return or at least 0x80, or is a
zero byte at the last position), and the string shown is the blob without that final zero
byte; otherwise, the empty blob included, it is shown as the opaque item
`[Binary, n bytes]` with its byte length `n`. -/
theorem display_msgpack_object_text_test (fmt_f : Nat → List UInt8) (limit fuel : Nat)
    (t : tree_id) (data : List UInt8) (offset length : Nat) (b : List UInt8) (depth : Nat)
    (label : Option (List UInt8)) (ctx : rbus_parse_context_t)
    (h0 : b ≠ [0x00]) (h1 : b ≠ [0x01]) (hd : depth ≤ limit) :
    (text_blob b ↔ is_utf8 b = true ∧ b.length > 0) ∧
    (text_blob b →
      ∃ ctx1, display_msgpack_object fmt_f limit (fuel + 1) t data offset length (.bin b) depth
          label ctx =
        some ([.proto_item t .hf_rbus_payload_string offset length
          (with_label label (.string (rendered_text b)) (rendered_text b))], ctx1)) ∧
    (¬ text_blob b →
      ∃ ctx1, display_msgpack_object fmt_f limit (fuel + 1) t data offset length (.bin b) depth
          label ctx =
        some ([.proto_item t .hf_rbus_payload offset length
          (with_label label (.bytes (data.take length))
            (ascii "[Binary, " ++ dec b.length ++ ascii " bytes]"))], ctx1)) := by
  have hiff : text_blob b ↔ is_utf8 b = true ∧ b.length > 0 := by
    by_cases hb : b = []
    · subst hb
      simp [text_blob]
    · rw [is_utf8_iff_text_blob b hb]
      have : b.length > 0 := List.length_pos.mpr hb
      simp [this]
  have hbool : ¬ (b = [0x00] ∨ b = [0x01]) := fun h => h.elim h0 h1
  refine ⟨hiff, fun ht => ?_, fun ht => ?_⟩
  · rw [display_msgpack_object, if_neg (by omega)]
    simp only [display_bin, if_neg hbool, if_pos (hiff.mp ht), c_string_of_text_blob b ht]
    exact ⟨_, rfl⟩
  · rw [display_msgpack_object, if_neg (by omega)]
    simp only [display_bin, if_neg hbool, if_neg (fun h => ht (hiff.mpr h))]
    exact ⟨_, rfl⟩

/-- C39 (witness): the blob 0x41 0x00 passes the test and is shown as the string `A`; the
blob 0x41 0x7F does not. -/
theorem display_msgpack_object_text_test_witness :
    (([0x41, 0x00] : List UInt8) ≠ [0x00] ∧ ([0x41, 0x00] : List UInt8) ≠ [0x01] ∧ 0 ≤ 16) ∧
    text_blob [0x41, 0x00] ∧ ¬ text_blob [0x41, 0x7F] ∧ rendered_text [0x41, 0x00] = [0x41] ∧
    ∃ ctx1, display_msgpack_object (fun _ => []) 16 (16 + 1) .payload_tree [0xC4, 0x02] 0 4
        (.bin [0x41, 0x00]) 0 none initial_ctx =
      some ([.proto_item .payload_tree .hf_rbus_payload_string 0 4
        (with_label none (.string (rendered_text [0x41, 0x00])) (rendered_text [0x41, 0x00]))],
        ctx1) :=
  ⟨⟨by decide, by decide, by decide⟩, by decide, by decide, by decide,
    (display_msgpack_object_text_test (fun _ => []) 16 16 .payload_tree [0xC4, 0x02] 0 4
      [0x41, 0x00] 0 none initial_ctx (by decide) (by decide) (by decide)).2.1 (by decide)⟩

end Rbus
